import Mathlib

/-!
# Ethermint: transaction admission (ante chain) and state journal

A shallow embedding of `app/ante/eth.go` (the seven ante decorators) and of the
state journal exercised by `x/evm/types/journal_test.go`.

Conventions of the embedding.

* Go code that may panic is a function `World → Res α`: it either returns a value
  together with the world it leaves behind, or panics with a value and the world at
  the moment of the panic (`recover` sees that world).
* The world is the key-value store reached through the keepers (accounts, balances)
  and the heap of gas-meter objects.  An `sdk.Context` refers to its gas meters by
  reference, as in Go, so that a context copied with `WithBlockGasMeter` shares its
  transaction gas meter with the original.
* Unsigned 64-bit quantities are natural numbers; arithmetic that can wrap is written
  with an explicit `% 2 ^ 64`.
-/

namespace Ethermint

/-! ## Gas meters (cosmos-sdk `store/types/gas.go`) -/

/-- Values that the modelled code passes to `panic`. -/
inductive PanicValue where
  /-- The value `sdk.ErrorOutOfGas{Descriptor}`. -/
  | ErrorOutOfGas (descriptor : String)
  /-- The value `sdk.ErrorGasOverflow{Descriptor}`. -/
  | ErrorGasOverflow (descriptor : String)
  /-- A runtime error raised by a nil dereference. -/
  | nilPointer
  /-- Any other panic value, identified by its message. -/
  | message (msg : String)
  deriving DecidableEq, Repr

/-- The largest `uint64`. -/
def MaxUint64 : Nat := 2 ^ 64 - 1

/-- A gas meter object: `infiniteGasMeter{consumed}` or `basicGasMeter{limit, consumed}`. -/
inductive GasMeter where
  | infiniteGasMeter (consumed : Nat)
  | basicGasMeter (limit : Nat) (consumed : Nat)
  deriving DecidableEq, Repr

/-- The function `addUint64Overflow(a, b)`: the sum and whether it overflowed. -/
def addUint64Overflow (a b : Nat) : Nat × Bool :=
  if MaxUint64 - a < b then (0, true) else (a + b, false)

namespace GasMeter

/-- The method `GasConsumed()`. -/
def GasConsumed : GasMeter → Nat
  | infiniteGasMeter c => c
  | basicGasMeter _ c => c

/-- Whether the meter is the unbounded kind. -/
def isInfinite : GasMeter → Bool
  | infiniteGasMeter _ => true
  | basicGasMeter _ _ => false

/-- The method `ConsumeGas(amount, descriptor)`: the meter after the call (the consumed
field is written before the checks) and the panic raised, if any. -/
def ConsumeGas (g : GasMeter) (amount : Nat) (descriptor : String) :
    GasMeter × Option PanicValue :=
  match g with
  | infiniteGasMeter c =>
    let r := addUint64Overflow c amount
    if r.2 then (infiniteGasMeter r.1, some (.ErrorGasOverflow descriptor))
    else (infiniteGasMeter r.1, none)
  | basicGasMeter l c =>
    let r := addUint64Overflow c amount
    if r.2 then (basicGasMeter l r.1, some (.ErrorGasOverflow descriptor))
    else if r.1 > l then (basicGasMeter l r.1, some (.ErrorOutOfGas descriptor))
    else (basicGasMeter l r.1, none)

end GasMeter

/-! ## The world: stores and the heap of gas meters -/

/-- Account addresses (`sdk.AccAddress`, `ethcmn.Address`), read as numbers. -/
abbrev Address := Nat

/-- The fields of a stored account that the ante chain reads or writes. -/
structure Account where
  /-- The `uint64` account number. -/
  accountNumber : Nat
  /-- The `uint64` sequence number (the Ethereum nonce of the account). -/
  sequence : Nat
  deriving DecidableEq, Repr

/-- The multistore as the keepers see it.  The fee collector is a module account: its
address is the hash of the module name and no signature recovers to it, so its balance
is kept in a field of its own, apart from the accounts a transaction can be sent from. -/
structure Store where
  /-- The account keeper's records. -/
  accounts : Address → Option Account
  /-- The bank keeper's balances in the default denomination. -/
  balances : Address → Nat
  /-- The balance of the fee collector module account. -/
  feeCollector : Nat

/-- The world: the store and the gas-meter objects allocated so far. -/
structure World where
  store : Store
  meters : List GasMeter

/-- The result of running Go code in a world. -/
inductive Res (α : Type) where
  /-- Normal return of `a`, leaving world `w`. -/
  | ret (a : α) (w : World)
  /-- A panic with value `p`, raised in world `w`. -/
  | panic (p : PanicValue) (w : World)

/-- Go code that reads and writes the world and may panic. -/
abbrev Exec (α : Type) := World → Res α

namespace Res

/-- The world in which the code stopped, by return or by panic. -/
def world {α : Type} : Res α → World
  | ret _ w => w
  | panic _ w => w

end Res

/-- A reference to a gas meter object; `none` is the nil interface value. -/
abbrev MeterRef := Option Nat

/-- Allocation of a new gas meter object. -/
def newMeter (g : GasMeter) (w : World) : MeterRef × World :=
  (some w.meters.length, { w with meters := w.meters ++ [g] })

/-- The constructor `sdk.NewInfiniteGasMeter()`. -/
def NewInfiniteGasMeter (w : World) : MeterRef × World :=
  newMeter (.infiniteGasMeter 0) w

/-- The constructor `sdk.NewGasMeter(limit)`. -/
def NewGasMeter (limit : Nat) (w : World) : MeterRef × World :=
  newMeter (.basicGasMeter limit 0) w

/-- The meter object a reference points to. -/
def World.meter (w : World) (r : MeterRef) : Option GasMeter :=
  match r with
  | none => none
  | some i => w.meters[i]?

/-- The call `m.ConsumeGas(amount, descriptor)` through a reference. -/
def ConsumeGas (r : MeterRef) (amount : Nat) (descriptor : String) : Exec Unit := fun w =>
  match r with
  | none => .panic .nilPointer w
  | some i =>
    match w.meters[i]? with
    | none => .panic .nilPointer w
    | some g =>
      let out := g.ConsumeGas amount descriptor
      let w1 : World := { w with meters := w.meters.set i out.1 }
      match out.2 with
      | none => .ret () w1
      | some p => .panic p w1

/-- Sequencing of two pieces of code: a panic in the first skips the second. -/
def Exec.andThen {α β : Type} (x : Exec α) (f : α → Exec β) : Exec β := fun w =>
  match x w with
  | .ret a w1 => f a w1
  | .panic p w1 => .panic p w1

/-! ## Contexts -/

/-- A decimal coin `sdk.DecCoin`; the amount is the raw integer of `sdk.Dec`, that is
the value times `10 ^ 18`. -/
structure DecCoin where
  Denom : String
  Amount : Int
  deriving DecidableEq, Repr

/-- The fields of `sdk.Context` that the ante decorators read or replace. -/
structure Context where
  /-- The flag behind `IsCheckTx()`. -/
  checkTx : Bool
  /-- The flag behind `IsReCheckTx()`. -/
  recheckTx : Bool
  /-- The value of `BlockHeight()`. -/
  blockHeight : Int
  /-- The value of `ChainID()`. -/
  chainID : String
  /-- The value of `MinGasPrices()`. -/
  minGasPrices : List DecCoin
  /-- The transaction gas meter, `GasMeter()`. -/
  gasMeter : MeterRef
  /-- The block gas meter, `BlockGasMeter()`. -/
  blockGasMeter : MeterRef
  deriving DecidableEq, Repr

namespace Context

/-- The zero value `sdk.Context{}`. -/
def zero : Context :=
  { checkTx := false, recheckTx := false, blockHeight := 0, chainID := "",
    minGasPrices := [], gasMeter := none, blockGasMeter := none }

/-- The method `WithBlockGasMeter(meter)`: a copy with the block gas meter replaced. -/
def WithBlockGasMeter (c : Context) (meter : MeterRef) : Context :=
  { c with blockGasMeter := meter }

/-- The method `WithGasMeter(meter)`: a copy with the transaction gas meter replaced. -/
def WithGasMeter (c : Context) (meter : MeterRef) : Context :=
  { c with gasMeter := meter }

end Context

/-! ## Transactions -/

/-- The struct `TxData` of an Ethereum transaction.  `Price` and `Amount` are big
integers that the RLP wire format carries as non-negative numbers. -/
structure TxData where
  /-- A `uint64`. -/
  AccountNonce : Nat
  Price : Nat
  /-- A `uint64`. -/
  GasLimit : Nat
  /-- The recipient; `none` is nil, a contract creation. -/
  Recipient : Option Address
  Amount : Nat
  Payload : List Nat
  /-- The signature values. -/
  V : Nat
  R : Nat
  S : Nat
  deriving DecidableEq, Repr

/-- The message `evmtypes.MsgEthereumTx`: its data and the cached sender. -/
structure MsgEthereumTx where
  Data : TxData
  /-- The sender address cached by `VerifySig`; `none` when nothing is cached. -/
  sender : Option Address
  deriving DecidableEq, Repr

namespace MsgEthereumTx

/-- The method `From()`: the cached sender address, nil when not cached. -/
def From (msg : MsgEthereumTx) : Option Address := msg.sender

/-- The method `To()`. -/
def To (msg : MsgEthereumTx) : Option Address := msg.Data.Recipient

/-- The method `GetGas()`. -/
def GetGas (msg : MsgEthereumTx) : Nat := msg.Data.GasLimit

/-- Modelled from the spec: `Fee()` of `x/evm/types/msg.go`, which is not among the
sources: "fee = gasPrice × gasLimit". -/
def Fee (msg : MsgEthereumTx) : Nat := msg.Data.Price * msg.Data.GasLimit

/-- Modelled from the spec: `Cost()` of `x/evm/types/msg.go`: "the transaction's
declared maximum cost (gasLimit × gasPrice + value)". -/
def Cost (msg : MsgEthereumTx) : Nat := msg.Data.GasLimit * msg.Data.Price + msg.Data.Amount

/-- Modelled from the spec: `GetSigners()` of `x/evm/types/msg.go`: the required
signers are the cached sender alone; without a cached sender the call panics. -/
def GetSigners (msg : MsgEthereumTx) : Except PanicValue (List Address) :=
  match msg.From with
  | none => .error (.message "must use 'VerifySig' with a chain ID to get the signer")
  | some a => .ok [a]

end MsgEthereumTx

/-- An `sdk.Tx` by its dynamic type. -/
inductive Tx where
  /-- A value of type `evmtypes.MsgEthereumTx` (it implements `GasTx`). -/
  | ethereum (msg : MsgEthereumTx)
  /-- A transaction of another type that implements `authante.GasTx`. -/
  | gasTx (gas : Nat)
  /-- A transaction of another type that does not implement `authante.GasTx`. -/
  | plain
  deriving DecidableEq, Repr

namespace Tx

/-- The type assertion `tx.(authante.GasTx)` followed by `GetGas()`. -/
def asGasTx : Tx → Option Nat
  | ethereum msg => some msg.GetGas
  | gasTx g => some g
  | plain => none

/-- The type assertion `tx.(evmtypes.MsgEthereumTx)`. -/
def asMsgEthereumTx : Tx → Option MsgEthereumTx
  | ethereum msg => some msg
  | _ => none

end Tx

/-! ## Errors -/

/-- The registered errors the decorators wrap, and unregistered `fmt.Errorf` errors. -/
inductive ErrorCode where
  | ErrTxDecode | ErrUnknownRequest | ErrInsufficientFee | ErrInvalidChainID
  | ErrUnauthorized | ErrInvalidSequence | ErrInsufficientFunds | ErrUnknownAddress
  | ErrOutOfGas | vmErrOutOfGas | unregistered
  deriving DecidableEq, Repr

/-- The errors returned by the ante decorators, one constructor for each place that
creates one, with the values its message is formatted from. -/
inductive Error where
  /-- `Wrap(ErrTxDecode, "Tx must be GasTx")`. -/
  | txMustBeGasTx
  /-- `Wrapf(ErrUnknownRequest, "invalid transaction type: %T", tx)`. -/
  | invalidTxType
  /-- `Wrap(ErrInsufficientFee, "insufficient fee, got: %q required: %q")`. -/
  | insufficientFee (got : Int) (required : List DecCoin)
  /-- `Wrap(ErrInvalidChainID, ctx.ChainID())`. -/
  | invalidChainID (chainID : String)
  /-- `Wrap(ErrUnauthorized, "signature verification failed")`. -/
  | signatureVerificationFailed
  /-- `fmt.Errorf("account %s is nil", address)`. -/
  | accountIsNil (address : Address)
  /-- `Wrapf(ErrInvalidSequence, "invalid account number for height zero (got %d)")`. -/
  | invalidAccountNumber (got : Nat)
  /-- `Wrapf(ErrInsufficientFunds, "%s < %s%s", balance, cost, denom)`. -/
  | insufficientFunds (balance : Nat) (cost : Nat)
  /-- `Wrap(ErrInvalidSequence, "invalid nonce; got %d, expected %d")`. -/
  | invalidNonce (got : Nat) (expected : Nat)
  /-- The error of `auth.GetSignerAcc` for an account that does not exist. -/
  | unknownAddress (address : Address)
  /-- `Wrap(err, "failed to compute intrinsic gas cost")`. -/
  | intrinsicGasFailed
  /-- `fmt.Errorf("intrinsic gas too low: %d < %d", gasLimit, gas)`. -/
  | intrinsicGasTooLow (gasLimit : Nat) (gas : Nat)
  /-- The error of `auth.DeductFees` when the sender cannot pay the fee. -/
  | feeInsufficientFunds (balance : Nat) (fee : Nat)
  /-- `Wrap(ErrOutOfGas, "out of gas in location: %v; gasLimit: %d, gasUsed: %d")`. -/
  | outOfGas (location : String) (gasLimit : Nat) (gasUsed : Nat)
  deriving DecidableEq, Repr

/-- The registered error an error wraps. -/
def Error.code : Error → ErrorCode
  | .txMustBeGasTx => .ErrTxDecode
  | .invalidTxType => .ErrUnknownRequest
  | .insufficientFee _ _ => .ErrInsufficientFee
  | .invalidChainID _ => .ErrInvalidChainID
  | .signatureVerificationFailed => .ErrUnauthorized
  | .accountIsNil _ => .unregistered
  | .invalidAccountNumber _ => .ErrInvalidSequence
  | .insufficientFunds _ _ => .ErrInsufficientFunds
  | .invalidNonce _ _ => .ErrInvalidSequence
  | .unknownAddress _ => .ErrUnknownAddress
  | .intrinsicGasFailed => .vmErrOutOfGas
  | .intrinsicGasTooLow _ _ => .unregistered
  | .feeInsufficientFunds _ _ => .ErrInsufficientFunds
  | .outOfGas _ _ _ => .ErrOutOfGas

/-- What an ante handler returns: the pair `(newCtx, err)`; `none` is a nil error. -/
abbrev AnteResult := Context × Option Error

/-- The type `sdk.AnteHandler`. -/
abbrev AnteHandler := Context → Tx → Bool → Exec AnteResult

/-! ## The libraries the decorators call -/

/-- The gas prices of store accesses, `stypes.GasConfig`. -/
structure GasConfig where
  ReadCostFlat : Nat
  ReadCostPerByte : Nat
  WriteCostFlat : Nat
  WriteCostPerByte : Nat
  deriving DecidableEq, Repr

/-- The default `stypes.KVGasConfig()` of the cosmos-sdk. -/
def KVGasConfig : GasConfig :=
  { ReadCostFlat := 1000, ReadCostPerByte := 3, WriteCostFlat := 2000, WriteCostPerByte := 30 }

/-- What the decorators take from outside this repository's sources: signature
recovery, and the gas that the gas-metered store charges to the transaction gas meter of
the context a keeper is called with. -/
structure Env where
  /-- The sender recovered from the signature of the data under a chain ID, if valid. -/
  recoverSender : TxData → Int → Option Address
  /-- The gas prices of the store. -/
  gasConfig : GasConfig
  /-- The length in bytes of a stored account record. -/
  accountSize : Account → Nat
  /-- The length in bytes of a stored balance. -/
  balanceSize : Nat → Nat
  /-- The gas of the store accesses made by one transfer to the fee collector. -/
  sendCoinsGas : Store → Address → Nat → Nat
  /-- The default denomination, the constant `emint.DenomDefault`. -/
  DenomDefault : String

/-- The length of a value read from the account store; a missing value is nil. -/
def Env.valueSize (env : Env) : Option Account → Nat
  | none => 0
  | some acc => env.accountSize acc

/-- The call `ak.GetAccount(ctx, addr)`: one read of the gas-metered store of `ctx`. -/
def GetAccount (env : Env) (ctx : Context) (addr : Address) : Exec (Option Account) :=
  (ConsumeGas ctx.gasMeter env.gasConfig.ReadCostFlat "ReadFlat").andThen fun _ w =>
    let value := w.store.accounts addr
    (ConsumeGas ctx.gasMeter (env.gasConfig.ReadCostPerByte * env.valueSize value)
      "ReadPerByte").andThen (fun _ w1 => .ret value w1) w

/-- The call `ak.SetAccount(ctx, acc)` for the account at `addr`: one write to the
gas-metered store of `ctx`; the gas is charged before the value is written. -/
def SetAccount (env : Env) (ctx : Context) (addr : Address) (acc : Account) : Exec Unit :=
  (ConsumeGas ctx.gasMeter env.gasConfig.WriteCostFlat "WriteFlat").andThen fun _ =>
    (ConsumeGas ctx.gasMeter (env.gasConfig.WriteCostPerByte * env.accountSize acc)
      "WritePerByte").andThen fun _ w =>
      .ret () { w with store := { w.store with
        accounts := fun a => if a = addr then some acc else w.store.accounts a } }

/-- The call `bk.GetBalance(ctx, addr, DenomDefault)`: one read of the gas-metered
store of `ctx`; the amount of the coin returned. -/
def GetBalance (env : Env) (ctx : Context) (addr : Address) : Exec Nat :=
  (ConsumeGas ctx.gasMeter env.gasConfig.ReadCostFlat "ReadFlat").andThen fun _ w =>
    let value := w.store.balances addr
    (ConsumeGas ctx.gasMeter (env.gasConfig.ReadCostPerByte * env.balanceSize value)
      "ReadPerByte").andThen (fun _ w1 => .ret value w1) w

/-- The call `auth.GetSignerAcc(ctx, ak, addr)`: the account, or an error when there
is none. -/
def GetSignerAcc (env : Env) (ctx : Context) (addr : Address) : Exec (Except Error Account) :=
  (GetAccount env ctx addr).andThen fun acc w =>
    match acc with
    | some a => .ret (.ok a) w
    | none => .ret (.error (.unknownAddress addr)) w

/-- The transfer of `fee` from `addr` to the fee collector in the store. -/
def Store.sendToFeeCollector (s : Store) (addr : Address) (fee : Nat) : Store :=
  { s with
    balances := fun a => if a = addr then s.balances a - fee else s.balances a
    feeCollector := s.feeCollector + fee }

/-- The store after the sequence of account `a`, which holds `acc`, was incremented. -/
def Store.incrementSequence (s : Store) (a : Address) (acc : Account) : Store :=
  { s with accounts := fun x =>
      if x = a then some { acc with sequence := (acc.sequence + 1) % 2 ^ 64 } else s.accounts x }

/-- The call `auth.DeductFees(sk, ctx, acc, fees)` for a fee of `fee` units of the
default denomination: the transfer to the fee collector, or an error that leaves the
store as it was when the sender cannot pay.  The store accesses of the transfer are
charged to the gas meter of `ctx` in one amount, before the transfer. -/
def DeductFees (env : Env) (ctx : Context) (addr : Address) (fee : Nat) :
    Exec (Option Error) := fun w =>
  (ConsumeGas ctx.gasMeter (env.sendCoinsGas w.store addr fee) "SendCoins").andThen
    (fun _ w1 =>
      if w1.store.balances addr < fee then
        .ret (some (.feeInsufficientFunds (w1.store.balances addr) fee)) w1
      else
        .ret none { w1 with store := w1.store.sendToFeeCollector addr fee }) w

/-- The function `auth.SetGasMeter(simulate, ctx, gasLimit)`: no metering in
simulation and at height zero, a meter limited to `gasLimit` otherwise. -/
def SetGasMeter (simulate : Bool) (ctx : Context) (gasLimit : Nat) (w : World) :
    Context × World :=
  if simulate || ctx.blockHeight == 0 then
    let m := NewInfiniteGasMeter w
    (ctx.WithGasMeter m.1, m.2)
  else
    let m := NewGasMeter gasLimit w
    (ctx.WithGasMeter m.1, m.2)

/-- The constant `params.TxGas` of go-ethereum. -/
def TxGas : Nat := 21000

/-- The constant `params.TxGasContractCreation` of go-ethereum. -/
def TxGasContractCreation : Nat := 53000

/-- The constant `params.TxDataNonZeroGasFrontier` of go-ethereum. -/
def TxDataNonZeroGasFrontier : Nat := 68

/-- The constant `params.TxDataZeroGas` of go-ethereum. -/
def TxDataZeroGas : Nat := 4

/-- The function `ethcore.IntrinsicGas(data, contractCreation, isHomestead, isEIP2028)`
with `isEIP2028 = false`, as the decorator calls it; `none` is the overflow error. -/
def IntrinsicGas (data : List Nat) (contractCreation : Bool) (isHomestead : Bool) :
    Option Nat :=
  let gas := if contractCreation && isHomestead then TxGasContractCreation else TxGas
  if data.length > 0 then
    let nz := (data.filter fun byt => byt != 0).length
    let nonZeroGas := TxDataNonZeroGasFrontier
    if (MaxUint64 - gas) / nonZeroGas < nz then none
    else
      let gas1 := gas + nz * nonZeroGas
      let z := data.length - nz
      if (MaxUint64 - gas1) / TxDataZeroGas < z then none
      else some (gas1 + z * TxDataZeroGas)
  else some gas

/-- The method `Int64()` of a non-negative big integer: its low 64 bits read as a
signed 64-bit integer. -/
def bigInt64 (x : Nat) : Int :=
  let low : Nat := x % 2 ^ 64
  if low < 2 ^ 63 then (low : Int) else (low : Int) - 2 ^ 64

/-- The method `DecCoin.IsGTE(other)`; it panics when the denominations differ. -/
def DecCoin.IsGTE (coin other : DecCoin) : Except PanicValue Bool :=
  if coin.Denom ≠ other.Denom then .error (.message "invalid coin denominations")
  else .ok (!decide (coin.Amount < other.Amount))

/-- The method `DecCoins.IsZero()`: every coin has a zero amount. -/
def DecCoinsIsZero (coins : List DecCoin) : Bool :=
  coins.all fun coin => coin.Amount == 0

/-- The loop of `EthMempoolFeeDecorator` over the minimum gas prices, started with the
current value of `allGTE`. -/
def allGTELoop (fee : DecCoin) : List DecCoin → Bool → Except PanicValue Bool
  | [], allGTE => .ok allGTE
  | v :: rest, allGTE =>
    match fee.IsGTE v with
    | .error p => .error p
    | .ok b => allGTELoop fee rest (if !b then false else allGTE)

/-- The value of one decimal digit. -/
def digitValue (c : Char) : Option Nat :=
  if '0' ≤ c ∧ c ≤ '9' then some (c.toNat - '0'.toNat) else none

/-- The number written by a list of decimal digits, continuing from `acc`. -/
def parseDigits : List Char → Nat → Option Nat
  | [], acc => some acc
  | c :: cs, acc =>
    match digitValue c with
    | none => none
    | some d => parseDigits cs (acc * 10 + d)

/-- The call `new(big.Int).SetString(s, 10)`: an optional sign followed by at least one
decimal digit and nothing else. -/
def SetString10 (s : String) : Option Int :=
  match s.toList with
  | [] => none
  | '-' :: [] => none
  | '+' :: [] => none
  | '-' :: cs => (parseDigits cs 0).map fun n => - (n : Int)
  | '+' :: cs => (parseDigits cs 0).map fun n => (n : Int)
  | cs => (parseDigits cs 0).map fun n => (n : Int)

/-- Modelled from the spec: `VerifySig(chainID)` of `x/evm/types/msg.go`, which is not
among the sources: it "recovers and validates the sender's signature against the chain
identifier" and "caches the recovered sender address onto the transaction".  The result
is the message with the sender cached, or `none` on a signature mismatch. -/
def VerifySig (env : Env) (msg : MsgEthereumTx) (chainID : Int) : Option MsgEthereumTx :=
  match env.recoverSender msg.Data chainID with
  | none => none
  | some a => some { msg with sender := some a }

/-! ## The ante decorators (`app/ante/eth.go`) -/

/-- The type `sdk.AnteDecorator`, by its method `AnteHandle(ctx, tx, simulate, next)`. -/
abbrev AnteDecorator := Context → Tx → Bool → AnteHandler → Exec AnteResult

namespace EthSetupContextDecorator

/-- The deferred function of `EthSetupContextDecorator.AnteHandle`, applied to the
outcome of `return next(ctx, tx, simulate)`.  A normal return is left alone.  An
out-of-gas panic is recovered and becomes the returned error, formatted from the
descriptor, `gasTx.GetGas()` and `ctx.GasMeter().GasConsumed()`; the named result
`newCtx` was never assigned and holds its zero value.  Any other panic is raised again. -/
def deferred (ctx : Context) (gas : Nat) : Res AnteResult → Res AnteResult
  | .ret r w1 => .ret r w1
  | .panic (.ErrorOutOfGas descriptor) w1 =>
    match w1.meter ctx.gasMeter with
    | none => .panic .nilPointer w1
    | some g => .ret (Context.zero, some (.outOfGas descriptor gas g.GasConsumed)) w1
  | .panic p w1 => .panic p w1

/-- The method `EthSetupContextDecorator.AnteHandle`. -/
def AnteHandle : AnteDecorator := fun ctx tx simulate next w =>
  let m := NewInfiniteGasMeter w
  let ctx := ctx.WithBlockGasMeter m.1
  match tx.asGasTx with
  | none => .ret (ctx, some .txMustBeGasTx) m.2
  | some gas => deferred ctx gas (next ctx tx simulate m.2)

end EthSetupContextDecorator

namespace EthMempoolFeeDecorator

/-- The method `EthMempoolFeeDecorator.AnteHandle`.  `sdk.NewInt64DecCoin` panics on a
negative amount. -/
def AnteHandle (env : Env) : AnteDecorator := fun ctx tx simulate next w =>
  if !ctx.checkTx then next ctx tx simulate w
  else
    match tx.asMsgEthereumTx with
    | none => .ret (ctx, some .invalidTxType) w
    | some msgEthTx =>
      let amount := bigInt64 msgEthTx.Fee
      if amount < 0 then .panic (.message "negative coin amount") w
      else
        let fee : DecCoin := { Denom := env.DenomDefault, Amount := amount * 10 ^ 18 }
        let minGasPrices := ctx.minGasPrices
        match allGTELoop fee minGasPrices true with
        | .error p => .panic p w
        | .ok allGTE =>
          if !DecCoinsIsZero ctx.minGasPrices && !allGTE then
            .ret (ctx, some (.insufficientFee amount ctx.minGasPrices)) w
          else next ctx tx simulate w

end EthMempoolFeeDecorator

namespace EthSigVerificationDecorator

/-- The method `EthSigVerificationDecorator.AnteHandle`. -/
def AnteHandle (env : Env) : AnteDecorator := fun ctx tx simulate next w =>
  match tx.asMsgEthereumTx with
  | none => .ret (ctx, some .invalidTxType) w
  | some msgEthTx =>
    match SetString10 ctx.chainID with
    | none => .ret (ctx, some (.invalidChainID ctx.chainID)) w
    | some chainID =>
      match VerifySig env msgEthTx chainID with
      | none => .ret (ctx, some .signatureVerificationFailed) w
      | some msgEthTx1 => next ctx (.ethereum msgEthTx1) simulate w

end EthSigVerificationDecorator

namespace AccountVerificationDecorator

/-- The method `AccountVerificationDecorator.AnteHandle`.  The account found under
`address` is the account of that address, so `acc.GetAddress()` is `address`. -/
def AnteHandle (env : Env) : AnteDecorator := fun ctx tx simulate next w =>
  if !ctx.checkTx then next ctx tx simulate w
  else
    match tx.asMsgEthereumTx with
    | none => .ret (ctx, some .invalidTxType) w
    | some msgEthTx =>
      match msgEthTx.From with
      | none => .panic (.message "sender address is nil") w
      | some address =>
        match GetAccount env ctx address w with
        | .panic p w1 => .panic p w1
        | .ret none w1 => .ret (ctx, some (.accountIsNil address)) w1
        | .ret (some acc) w1 =>
          if ctx.blockHeight == 0 && acc.accountNumber != 0 then
            .ret (ctx, some (.invalidAccountNumber acc.accountNumber)) w1
          else
            match GetBalance env ctx address w1 with
            | .panic p w2 => .panic p w2
            | .ret balance w2 =>
              if balance < msgEthTx.Cost then
                .ret (ctx, some (.insufficientFunds balance msgEthTx.Cost)) w2
              else next ctx tx simulate w2

end AccountVerificationDecorator

namespace NonceVerificationDecorator

/-- The method `NonceVerificationDecorator.AnteHandle`. -/
def AnteHandle (env : Env) : AnteDecorator := fun ctx tx simulate next w =>
  match tx.asMsgEthereumTx with
  | none => .ret (ctx, some .invalidTxType) w
  | some msgEthTx =>
    match msgEthTx.From with
    | none => .panic (.message "sender address is nil") w
    | some address =>
      match GetAccount env ctx address w with
      | .panic p w1 => .panic p w1
      | .ret none w1 => .ret (ctx, some (.accountIsNil address)) w1
      | .ret (some acc) w1 =>
        let seq := acc.sequence
        if msgEthTx.Data.AccountNonce != seq then
          .ret (ctx, some (.invalidNonce msgEthTx.Data.AccountNonce seq)) w1
        else next ctx tx simulate w1

end NonceVerificationDecorator

namespace EthGasConsumeDecorator

/-- The block `if gasLimit != 0 { ... }` of `EthGasConsumeDecorator.AnteHandle`: the
fee is `Price × gasLimit`; `sdk.NewIntFromBigInt` panics on more than 255 bits. -/
def chargeSender (env : Env) (ctx : Context) (address : Address) (msgEthTx : MsgEthereumTx)
    (gasLimit : Nat) : Exec (Option Error) := fun w =>
  if gasLimit != 0 then
    let cost := msgEthTx.Data.Price * gasLimit
    if cost ≥ 2 ^ 255 then .panic (.message "NewIntFromBigInt() out of bound") w
    else DeductFees env ctx address cost w
  else .ret none w

/-- The method `EthGasConsumeDecorator.AnteHandle`. -/
def AnteHandle (env : Env) : AnteDecorator := fun ctx tx simulate next w =>
  match tx.asMsgEthereumTx with
  | none => .ret (ctx, some .invalidTxType) w
  | some msgEthTx =>
    match msgEthTx.From with
    | none => .panic (.message "sender address is nil") w
    | some address =>
      match GetSignerAcc env ctx address w with
      | .panic p w1 => .panic p w1
      | .ret (.error err) w1 => .ret (ctx, some err) w1
      | .ret (.ok _) w1 =>
        let gasLimit := msgEthTx.GetGas
        match IntrinsicGas msgEthTx.Data.Payload (msgEthTx.To == none) true with
        | none => .ret (ctx, some .intrinsicGasFailed) w1
        | some gas =>
          if ctx.checkTx && gasLimit < gas then
            .ret (ctx, some (.intrinsicGasTooLow gasLimit gas)) w1
          else
            match chargeSender env ctx address msgEthTx gasLimit w1 with
            | .panic p w2 => .panic p w2
            | .ret (some err) w2 => .ret (ctx, some err) w2
            | .ret none w2 =>
              let new := SetGasMeter simulate ctx gasLimit w2
              let newCtx := new.1
              match ConsumeGas newCtx.gasMeter gas "eth intrinsic gas" new.2 with
              | .panic p w3 => .panic p w3
              | .ret _ w3 => next newCtx tx simulate w3

end EthGasConsumeDecorator

namespace IncrementSenderSequenceDecorator

/-- The loop `for _, addr := range msgEthTx.GetSigners()` of
`IncrementSenderSequenceDecorator.AnteHandle`, run with the context `oldCtx`.  The
sequence is a `uint64`; a missing account is a nil interface whose method call panics. -/
def incrementSequences (env : Env) (oldCtx : Context) : List Address → Exec Unit
  | [] => fun w => .ret () w
  | addr :: rest => fun w =>
    match GetAccount env oldCtx addr w with
    | .panic p w1 => .panic p w1
    | .ret none w1 => .panic .nilPointer w1
    | .ret (some acc) w1 =>
      match SetAccount env oldCtx addr { acc with sequence := (acc.sequence + 1) % 2 ^ 64 } w1 with
      | .panic p w2 => .panic p w2
      | .ret _ w2 => incrementSequences env oldCtx rest w2

/-- The method `IncrementSenderSequenceDecorator.AnteHandle`. -/
def AnteHandle (env : Env) : AnteDecorator := fun ctx tx simulate next w =>
  if ctx.recheckTx && !simulate then next ctx tx simulate w
  else
    let m := NewInfiniteGasMeter w
    let oldCtx := ctx.WithBlockGasMeter m.1
    match tx.asMsgEthereumTx with
    | none => .ret (ctx, some .invalidTxType) m.2
    | some msgEthTx =>
      match msgEthTx.GetSigners with
      | .error p => .panic p m.2
      | .ok signers =>
        match incrementSequences env oldCtx signers m.2 with
        | .panic p w1 => .panic p w1
        | .ret _ w1 => next ctx tx simulate w1

end IncrementSenderSequenceDecorator

/-! ## The chain -/

/-- The handler `sdk.Terminator`, the end of every chain: it admits. -/
def Terminator : AnteHandler := fun ctx _ _ w => .ret (ctx, none) w

/-- The function `sdk.ChainAnteDecorators`: each decorator is given the chain of the
decorators after it as its `next`. -/
def ChainAnteDecorators : List AnteDecorator → AnteHandler
  | [] => Terminator
  | d :: rest => fun ctx tx simulate => d ctx tx simulate (ChainAnteDecorators rest)

/-- Modelled from the spec: the chain built in `app/ante/ante.go`, which is not among
the sources: "SetupContext, MempoolFeeCheck, SignatureVerification,
AccountVerification, NonceVerification, GasConsume, IncrementSequence", in that order. -/
def ethAnteHandler (env : Env) : AnteHandler :=
  ChainAnteDecorators
    [ EthSetupContextDecorator.AnteHandle,
      EthMempoolFeeDecorator.AnteHandle env,
      EthSigVerificationDecorator.AnteHandle env,
      AccountVerificationDecorator.AnteHandle env,
      NonceVerificationDecorator.AnteHandle env,
      EthGasConsumeDecorator.AnteHandle env,
      IncrementSenderSequenceDecorator.AnteHandle env ]

/-- A chain of decorators that ends in the handler `last` instead of the terminator. -/
def chainWith (last : AnteHandler) : List AnteDecorator → AnteHandler
  | [] => last
  | d :: rest => fun ctx tx simulate => d ctx tx simulate (chainWith last rest)

/-- The stages of the chain that come before the nonce stage. -/
def stagesBeforeNonce (env : Env) : List AnteDecorator :=
  [ EthSetupContextDecorator.AnteHandle,
    EthMempoolFeeDecorator.AnteHandle env,
    EthSigVerificationDecorator.AnteHandle env,
    AccountVerificationDecorator.AnteHandle env ]

/-- A handler that reads the account of `a` and then rejects with the invalid-nonce
error that reports `got` and `expected`; it never goes on to a later stage. -/
def rejectNonce (env : Env) (a : Address) (got expected : Nat) : AnteHandler :=
  fun ctx _ _ w =>
    match GetAccount env ctx a w with
    | .panic p w1 => .panic p w1
    | .ret _ w1 => .ret (ctx, some (.invalidNonce got expected)) w1

/-! ## Observations on outcomes -/

/-- How a run of an ante handler ended. -/
inductive Verdict where
  /-- It returned a nil error. -/
  | admitted
  /-- It returned the error `e`. -/
  | rejected (e : Error)
  /-- It panicked with `p`. -/
  | panicked (p : PanicValue)
  deriving DecidableEq, Repr

/-- The verdict of an outcome. -/
def Res.verdict : Res AnteResult → Verdict
  | .ret (_, none) _ => .admitted
  | .ret (_, some e) _ => .rejected e
  | .panic p _ => .panicked p

/-- The balance of an account in a world. -/
def World.balance (w : World) (a : Address) : Nat := w.store.balances a

/-- The sequence number of an account in a world, if the account exists. -/
def World.sequence (w : World) (a : Address) : Option Nat :=
  (w.store.accounts a).map fun acc => acc.sequence

/-! ## A concrete scenario

Account `alice` signs transactions to `bob` on chain 8.  The store charges the default
gas prices of the cosmos-sdk; an account record is taken to be 80 bytes long and a
balance 8 bytes. -/

namespace Scenario

/-- The sender, account A of the scenarios. -/
def alice : Address := 7

/-- The recipient, account B of the scenarios. -/
def bob : Address := 9

/-- The environment of the scenarios: a signature is valid when it was made by `alice`
for chain 8, which the model marks by `V = 35 + 2 * 8`. -/
def env : Env :=
  { recoverSender := fun data chainID =>
      if data.V = 51 ∧ chainID = 8 then some alice else none
    gasConfig := KVGasConfig
    accountSize := fun _ => 80
    balanceSize := fun _ => 8
    sendCoinsGas := fun _ _ _ => 0
    DenomDefault := "aphoton" }

/-- A context at block height 1 on chain 8 without minimum gas prices, whose gas meters
are the two unbounded meters of `world`. -/
def ctx (checkTx : Bool) : Context :=
  { checkTx := checkTx, recheckTx := false, blockHeight := 1, chainID := "8",
    minGasPrices := [], gasMeter := some 0, blockGasMeter := some 1 }

/-- A world in which `alice` has the given balance and sequence number and `bob` has an
empty account. -/
def world (balance sequence : Nat) : World :=
  { store :=
      { accounts := fun a =>
          if a = alice then some { accountNumber := 0, sequence := sequence }
          else if a = bob then some { accountNumber := 1, sequence := 0 } else none
        balances := fun a => if a = alice then balance else 0
        feeCollector := 0 }
    meters := [.infiniteGasMeter 0, .infiniteGasMeter 0] }

/-- A transfer from `alice` to `bob` with an empty payload, signed by `alice`, with the
given cached sender. -/
def msg (nonce gasLimit gasPrice value : Nat) (sender : Option Address) : MsgEthereumTx :=
  { Data :=
      { AccountNonce := nonce, Price := gasPrice, GasLimit := gasLimit,
        Recipient := some bob, Amount := value, Payload := [], V := 51, R := 1, S := 1 }
    sender := sender }

/-- The transfer as it arrives, before any sender is cached. -/
def tx (nonce gasLimit gasPrice value : Nat) : Tx :=
  .ethereum (msg nonce gasLimit gasPrice value none)

end Scenario

/-! ## The state journal

`x/evm/types/journal.go` and `statedb.go` are not among the sources; only the test
`journal_test.go` is.  The journal and the state it undoes are modelled from the
specification. -/

/-- A 32-byte value (storage key, storage value, preimage hash), read as a number. -/
abbrev Hash := Nat

/-- Modelled from the spec: the struct `stateObject` of `state_object.go`, the "per-account
cached view (balance, nonce, code, storage overlay, flags)". -/
structure stateObject where
  address : Address
  balance : Nat
  nonce : Nat
  code : List Nat
  codeHash : List Nat
  storage : Hash → Hash
  suicided : Bool
  touched : Bool
  dirtyCode : Bool

/-- Modelled from the spec: the journal entry types of `journal.go`, the "tagged union"
of the data model with what each variant captures. -/
inductive journalEntry where
  | createObjectChange (account : Address)
  | resetObjectChange (prev : stateObject)
  | suicideChange (account : Address) (prev : Bool) (prevBalance : Nat)
  | balanceChange (account : Address) (prev : Nat)
  | nonceChange (account : Address) (prev : Nat)
  | storageChange (account : Address) (key : Hash) (prevValue : Hash)
  | codeChange (account : Address) (prevCode : List Nat) (prevHash : List Nat)
  | touchChange (account : Address)
  | refundChange (prev : Nat)
  | addPreimageChange (hash : Hash)

/-- Modelled from the spec: the method `dirtied()` of the entries, by the column
`dirtied()` of the data model; the test of the repository expects nil from
`resetObjectChange`, `refundChange` and `addPreimageChange` and an address from the
others. -/
def journalEntry.dirtied : journalEntry → Option Address
  | .createObjectChange account => some account
  | .resetObjectChange _ => none
  | .suicideChange account _ _ => some account
  | .balanceChange account _ => some account
  | .nonceChange account _ => some account
  | .storageChange account _ _ => some account
  | .codeChange account _ _ => some account
  | .touchChange account => some account
  | .refundChange _ => none
  | .addPreimageChange _ => none

/-- Modelled from the spec: the struct `journal` of `journal.go`, an "append-only
sequence of JournalEntry plus a dirty-reference-count index"; `dirties` is a Go map from
addresses to `int`, in which a key may be absent. -/
structure journal where
  entries : List journalEntry
  dirties : Address → Option Int

/-- Modelled from the spec: `newJournal()`, a journal without entries and without dirty
counts (the test finds no key in it). -/
def newJournal : journal := { entries := [], dirties := fun _ => none }

namespace journal

/-- Modelled from the spec: `journal.length()`. -/
def length (j : journal) : Nat := j.entries.length

/-- The value `j.dirties[addr]` of a Go map lookup: zero for an absent key. -/
def dirtyCount (j : journal) (addr : Address) : Int := (j.dirties addr).getD 0

/-- The statement `dirties[addr]++` on a Go map. -/
def increment (d : Address → Option Int) (addr : Address) : Address → Option Int :=
  fun a => if a = addr then some ((d a).getD 0 + 1) else d a

/-- The decrement of a dirty count on a revert; a count that reaches zero is
deleted from the map, so that a lookup reports the key absent, as the test of the
repository expects after all entries are reverted. -/
def decrement (d : Address → Option Int) (addr : Address) : Address → Option Int :=
  fun a => if a = addr then (if (d a).getD 0 - 1 = 0 then none else some ((d a).getD 0 - 1))
    else d a

/-- Modelled from the spec: `journal.append(entry)`, which "adds to the end and, if
`entry.dirtied()` returns an address, increments that address's dirty count". -/
def append (j : journal) (entry : journalEntry) : journal :=
  { entries := j.entries ++ [entry]
    dirties :=
      match entry.dirtied with
      | some addr => increment j.dirties addr
      | none => j.dirties }

/-- Modelled from the spec: `journal.dirty(addr)`, which "force-increments an address's
dirty count without appending". -/
def dirty (j : journal) (addr : Address) : journal :=
  { j with dirties := increment j.dirties addr }

end journal

/-- Modelled from the spec: the struct `CommitStateDB` of `statedb.go`: the journal, the
stack of snapshots (journal lengths), the state objects, the refund counter and the
preimages. -/
structure CommitStateDB where
  stateObjects : Address → Option stateObject
  refund : Nat
  preimages : Hash → Option (List Nat)
  journal : journal
  snapshots : List Nat

namespace CommitStateDB

/-- The state with the object at `addr` changed by `f`, if there is one. -/
def modifyObject (db : CommitStateDB) (addr : Address) (f : stateObject → stateObject) :
    CommitStateDB :=
  { db with stateObjects := fun a =>
      if a = addr then (db.stateObjects a).map f else db.stateObjects a }

/-- The state with the object at `addr` set to `obj`, or removed. -/
def setObject (db : CommitStateDB) (addr : Address) (obj : Option stateObject) :
    CommitStateDB :=
  { db with stateObjects := fun a => if a = addr then obj else db.stateObjects a }

end CommitStateDB

/-- Modelled from the spec: the method `revert(db)` of the entries: "each variant stores
exactly the prior value it overwrote and, on `revert(db)`, writes that prior value back
verbatim".  An object created is removed again, a first touch is taken back and a
preimage added is removed. -/
def journalEntry.revert (e : journalEntry) (db : CommitStateDB) : CommitStateDB :=
  match e with
  | .createObjectChange account => db.setObject account none
  | .resetObjectChange prev => db.setObject prev.address (some prev)
  | .suicideChange account prev prevBalance =>
    db.modifyObject account fun o => { o with suicided := prev, balance := prevBalance }
  | .balanceChange account prev => db.modifyObject account fun o => { o with balance := prev }
  | .nonceChange account prev => db.modifyObject account fun o => { o with nonce := prev }
  | .storageChange account key prevValue =>
    db.modifyObject account fun o =>
      { o with storage := fun k => if k = key then prevValue else o.storage k }
  | .codeChange account prevCode prevHash =>
    db.modifyObject account fun o => { o with code := prevCode, codeHash := prevHash }
  | .touchChange account => db.modifyObject account fun o => { o with touched := false }
  | .refundChange prev => { db with refund := prev }
  | .addPreimageChange hash =>
    { db with preimages := fun h => if h = hash then none else db.preimages h }

namespace journal

/-- The body of the loop of `journal.revert` for the entry `e`: the entry is undone in
the state, and its dirty count, if it has one, is decremented. -/
def undoStep (acc : CommitStateDB × (Address → Option Int)) (e : journalEntry) :
    CommitStateDB × (Address → Option Int) :=
  (e.revert acc.1,
    match e.dirtied with
    | some addr => decrement acc.2 addr
    | none => acc.2)

/-- The loop of `journal.revert`: `n` entries are still to be undone, those at the
indices `snapshot, ..., snapshot + n - 1`; the one at the highest index is undone first. -/
def revertLoop (j : journal) (snapshot : Nat) :
    Nat → CommitStateDB × (Address → Option Int) → CommitStateDB × (Address → Option Int)
  | 0, acc => acc
  | n + 1, acc =>
    match j.entries[snapshot + n]? with
    | none => acc
    | some e => revertLoop j snapshot n (undoStep acc e)

/-- Modelled from the spec: `journal.revert(db, snapshot)`, which "iterates from the end
down to `snapshotIndex`, calling each entry's `revert(db)` in strict reverse order and
decrementing dirty counts for entries with a non-nil `dirtied()`; entries are then
discarded".  The result is the state after the undoing and the shortened journal. -/
def revert (j : journal) (db : CommitStateDB) (snapshot : Nat) : CommitStateDB × journal :=
  let r := revertLoop j snapshot (j.length - snapshot) (db, j.dirties)
  (r.1, { entries := j.entries.take snapshot, dirties := r.2 })

end journal

/-! ### State mutations that record journal entries -/

namespace CommitStateDB

/-- Modelled from the spec: the "implicit zero-value account" that is "created on first
read/write of a previously unknown address". -/
def newObject (addr : Address) : stateObject :=
  { address := addr, balance := 0, nonce := 0, code := [], codeHash := [],
    storage := fun _ => 0, suicided := false, touched := false, dirtyCode := false }

/-- The state with an entry appended to its journal. -/
def record (db : CommitStateDB) (e : journalEntry) : CommitStateDB :=
  { db with journal := db.journal.append e }

/-- Modelled from the spec: `getOrNewStateObject(addr)`: the object at `addr`, created
with a `createObjectChange` entry when the address was unknown. -/
def getOrNewStateObject (db : CommitStateDB) (addr : Address) : CommitStateDB × stateObject :=
  match db.stateObjects addr with
  | some obj => (db, obj)
  | none =>
    ((db.record (.createObjectChange addr)).setObject addr (some (newObject addr)),
      newObject addr)

/-- Modelled from the spec: `CreateAccount(addr)`: a new object at `addr`; replacing an
object that exists is recorded by a `resetObjectChange` with "the previous StateObject
snapshot". -/
def CreateAccount (db : CommitStateDB) (addr : Address) : CommitStateDB :=
  match db.stateObjects addr with
  | some prev => (db.record (.resetObjectChange prev)).setObject addr (some (newObject addr))
  | none => (db.record (.createObjectChange addr)).setObject addr (some (newObject addr))

/-- Modelled from the spec: `SetBalance(addr, amount)`: "every write appends a
`balanceChange` entry capturing the prior value". -/
def SetBalance (db : CommitStateDB) (addr : Address) (amount : Nat) : CommitStateDB :=
  let r := db.getOrNewStateObject addr
  (r.1.record (.balanceChange addr r.2.balance)).modifyObject addr fun o =>
    { o with balance := amount }

/-- Modelled from the spec: `AddBalance(addr, amount)`. -/
def AddBalance (db : CommitStateDB) (addr : Address) (amount : Nat) : CommitStateDB :=
  let r := db.getOrNewStateObject addr
  (r.1.record (.balanceChange addr r.2.balance)).modifyObject addr fun o =>
    { o with balance := r.2.balance + amount }

/-- Modelled from the spec: `SubBalance(addr, amount)`; "`SubBalance` below zero is a
fatal invariant violation", here `none`. -/
def SubBalance (db : CommitStateDB) (addr : Address) (amount : Nat) : Option CommitStateDB :=
  let r := db.getOrNewStateObject addr
  if r.2.balance < amount then none
  else
    some ((r.1.record (.balanceChange addr r.2.balance)).modifyObject addr fun o =>
      { o with balance := r.2.balance - amount })

/-- Modelled from the spec: `SetNonce(addr, nonce)`, "as above with `nonceChange`". -/
def SetNonce (db : CommitStateDB) (addr : Address) (nonce : Nat) : CommitStateDB :=
  let r := db.getOrNewStateObject addr
  (r.1.record (.nonceChange addr r.2.nonce)).modifyObject addr fun o =>
    { o with nonce := nonce }

/-- Modelled from the spec: `SetCode(addr, code)` with the hash of the code, "as above
with `codeChange`"; it "captures the previous code+hash for revert". -/
def SetCode (db : CommitStateDB) (addr : Address) (code : List Nat) (codeHash : List Nat) :
    CommitStateDB :=
  let r := db.getOrNewStateObject addr
  (r.1.record (.codeChange addr r.2.code r.2.codeHash)).modifyObject addr fun o =>
    { o with code := code, codeHash := codeHash }

/-- Modelled from the spec: `SetState(addr, key, value)`: "per-slot storage read/write
with `storageChange`". -/
def SetState (db : CommitStateDB) (addr : Address) (key value : Hash) : CommitStateDB :=
  let r := db.getOrNewStateObject addr
  (r.1.record (.storageChange addr key (r.2.storage key))).modifyObject addr fun o =>
    { o with storage := fun k => if k = key then value else o.storage k }

/-- Modelled from the spec: `Suicide(addr)`: it "marks the account destroyed, drains
balance to zero, appends `suicideChange`; returns false if the account does not exist
or is already destroyed". -/
def Suicide (db : CommitStateDB) (addr : Address) : CommitStateDB × Bool :=
  match db.stateObjects addr with
  | none => (db, false)
  | some obj =>
    if obj.suicided then (db, false)
    else
      ((db.record (.suicideChange addr obj.suicided obj.balance)).modifyObject addr fun o =>
        { o with suicided := true, balance := 0 }, true)

/-- Modelled from the spec: the first touch of an object, recorded by a `touchChange`
("first touch only"). -/
def touch (db : CommitStateDB) (addr : Address) : CommitStateDB :=
  match db.stateObjects addr with
  | none => db
  | some obj =>
    if obj.touched then db
    else (db.record (.touchChange addr)).modifyObject addr fun o => { o with touched := true }

/-- Modelled from the spec: `AddRefund(gas)` on the `uint64` refund counter, recorded by
a `refundChange` with the prior counter. -/
def AddRefund (db : CommitStateDB) (gas : Nat) : CommitStateDB :=
  { db.record (.refundChange db.refund) with refund := (db.refund + gas) % 2 ^ 64 }

/-- Modelled from the spec: `SubRefund(gas)`; "`SubRefund` below zero is fatal", here
`none`. -/
def SubRefund (db : CommitStateDB) (gas : Nat) : Option CommitStateDB :=
  if gas > db.refund then none
  else some { db.record (.refundChange db.refund) with refund := db.refund - gas }

/-- Modelled from the spec: `AddPreimage(hash, data)`, which "records once per hash (no
duplicate entries)". -/
def AddPreimage (db : CommitStateDB) (hash : Hash) (data : List Nat) : CommitStateDB :=
  match db.preimages hash with
  | some _ => db
  | none =>
    { db.record (.addPreimageChange hash) with
      preimages := fun h => if h = hash then some data else db.preimages h }

end CommitStateDB

/-- Every cached object is stored under its own address. -/
def CommitStateDB.WellFormed (db : CommitStateDB) : Prop :=
  ∀ a obj, db.stateObjects a = some obj → obj.address = a

/-- Two states hold the same objects, refund counter and preimages. -/
def CommitStateDB.SameState (x y : CommitStateDB) : Prop :=
  x.stateObjects = y.stateObjects ∧ x.refund = y.refund ∧ x.preimages = y.preimages

/-- The entries of a list undone one after the other, the last one first. -/
def revertAll (es : List journalEntry) (db : CommitStateDB) : CommitStateDB :=
  es.reverse.foldl (fun d e => e.revert d) db

/-- The journal with the entries of a list appended one after the other. -/
def appendAll (j : journal) (es : List journalEntry) : journal :=
  es.foldl journal.append j

/-- A call of one of the state-mutating operations of `CommitStateDB`. -/
inductive Mutation where
  | CreateAccount (addr : Address)
  | SetBalance (addr : Address) (amount : Nat)
  | AddBalance (addr : Address) (amount : Nat)
  | SubBalance (addr : Address) (amount : Nat)
  | SetNonce (addr : Address) (nonce : Nat)
  | SetCode (addr : Address) (code : List Nat) (codeHash : List Nat)
  | SetState (addr : Address) (key : Hash) (value : Hash)
  | Suicide (addr : Address)
  | touch (addr : Address)
  | AddRefund (gas : Nat)
  | SubRefund (gas : Nat)
  | AddPreimage (hash : Hash) (data : List Nat)

/-- The state after a mutation; `none` when the call is fatal. -/
def Mutation.apply (m : Mutation) (db : CommitStateDB) : Option CommitStateDB :=
  match m with
  | .CreateAccount addr => some (db.CreateAccount addr)
  | .SetBalance addr amount => some (db.SetBalance addr amount)
  | .AddBalance addr amount => some (db.AddBalance addr amount)
  | .SubBalance addr amount => db.SubBalance addr amount
  | .SetNonce addr nonce => some (db.SetNonce addr nonce)
  | .SetCode addr code codeHash => some (db.SetCode addr code codeHash)
  | .SetState addr key value => some (db.SetState addr key value)
  | .Suicide addr => some (db.Suicide addr).1
  | .touch addr => some (db.touch addr)
  | .AddRefund gas => some (db.AddRefund gas)
  | .SubRefund gas => db.SubRefund gas
  | .AddPreimage hash data => some (db.AddPreimage hash data)

/-- The state after a sequence of mutations, none of which is fatal. -/
def Mutation.run : List Mutation → CommitStateDB → Option CommitStateDB
  | [], db => some db
  | m :: rest, db =>
    match m.apply db with
    | none => none
    | some db1 => Mutation.run rest db1

/-- The number of entries in a list whose `dirtied()` is `addr`. -/
def dirtiedCount (es : List journalEntry) (addr : Address) : Nat :=
  (es.filter fun e => e.dirtied == some addr).length

/-- The journal states that can be reached from a new journal by `append`, `dirty` and
`revert` to an index up to the length, together with the number of `dirty` calls made
for each address. -/
inductive journal.Reachable : journal → (Address → Nat) → Prop where
  | new : journal.Reachable newJournal (fun _ => 0)
  | append (j : journal) (f : Address → Nat) (e : journalEntry) :
      journal.Reachable j f → journal.Reachable (j.append e) f
  | dirty (j : journal) (f : Address → Nat) (addr : Address) :
      journal.Reachable j f →
      journal.Reachable (j.dirty addr) (fun a => if a = addr then f a + 1 else f a)
  | revert (j : journal) (f : Address → Nat) (db : CommitStateDB) (snapshot : Nat) :
      journal.Reachable j f → snapshot ≤ j.length →
      journal.Reachable (j.revert db snapshot).2 f

/-- The journal of `db1` is the journal of `db` with some entries appended, and undoing
those entries in `db1`, the last one first, gives back the objects, the refund counter
and the preimages of `db`. -/
def Recorded (db db1 : CommitStateDB) : Prop :=
  ∃ es, db1.journal = appendAll db.journal es ∧ (revertAll es db1).SameState db

/-- The entry of the map `dirties` that holds the count `c`: no entry for zero. -/
def journal.stored (c : Nat) : Option Int := if c = 0 then none else some (c : Int)

namespace Scenario

/-- A state without objects, with a new journal. -/
def emptyDB : CommitStateDB :=
  { stateObjects := fun _ => none, refund := 0, preimages := fun _ => none,
    journal := newJournal, snapshots := [] }

/-- Three mutations of the account of `alice` and of the refund counter. -/
def mutations : List Mutation :=
  [.SetBalance alice 100, .SetNonce alice 1, .AddRefund 5]

/-- The state after `mutations`. -/
def mutatedDB : CommitStateDB :=
  ((emptyDB.SetBalance alice 100).SetNonce alice 1).AddRefund 5

end Scenario

namespace Scenario

/-- The ten entries of `TestJournal_append_revert`, for the address `alice`; the byte
strings of the test are read as numbers. -/
def testCases : List journalEntry :=
  [ .createObjectChange alice,
    .resetObjectChange { CommitStateDB.newObject alice with balance := 1 },
    .suicideChange alice false 1,
    .balanceChange alice 1,
    .nonceChange alice 1,
    .storageChange alice 7038329 508604461413,
    .codeChange alice [99, 111, 100, 101] [104, 97, 115, 104],
    .touchChange alice,
    .refundChange 1,
    .addPreimageChange 1751217000 ]

end Scenario

/-- The seven ante decorators, in the order of the chain. -/
def anteDecorators (env : Env) : List AnteDecorator :=
  [ EthSetupContextDecorator.AnteHandle,
    EthMempoolFeeDecorator.AnteHandle env,
    EthSigVerificationDecorator.AnteHandle env,
    AccountVerificationDecorator.AnteHandle env,
    NonceVerificationDecorator.AnteHandle env,
    EthGasConsumeDecorator.AnteHandle env,
    IncrementSenderSequenceDecorator.AnteHandle env ]

/-- Whether an outcome is the return of an error. -/
def Res.isRejected : Res AnteResult → Bool
  | .ret (_, some _) _ => true
  | _ => false

/-- Whether a decorator rejects by itself: it returns an error although the handler
after it admits whatever it is given, so that the error cannot have come from there. -/
def rejectsByItself (d : AnteDecorator) (ctx : Context) (tx : Tx) (simulate : Bool)
    (w : World) : Bool :=
  (d ctx tx simulate Terminator w).isRejected

namespace Scenario

/-- The world of the scenario with a transaction gas meter limited to 500 in the place
of the unbounded one: a context `ctx` over this world arrives with a finite meter. -/
def finiteMeterWorld (balance sequence : Nat) : World :=
  { world balance sequence with meters := [.basicGasMeter 500 0, .infiniteGasMeter 0] }

/-- The chain after the setup decorator. -/
def afterSetup : AnteHandler :=
  ChainAnteDecorators
    [ EthMempoolFeeDecorator.AnteHandle env,
      EthSigVerificationDecorator.AnteHandle env,
      AccountVerificationDecorator.AnteHandle env,
      NonceVerificationDecorator.AnteHandle env,
      EthGasConsumeDecorator.AnteHandle env,
      IncrementSenderSequenceDecorator.AnteHandle env ]

end Scenario

/-- The method `WithMinGasPrices(gasPrices)`: a copy with the minimum gas prices
replaced. -/
def Context.WithMinGasPrices (c : Context) (gasPrices : List DecCoin) : Context :=
  { c with minGasPrices := gasPrices }

/-- An outcome with the minimum gas prices of the returned context blanked: what is left
is the error, the world, the panic value and every other field of the context. -/
def Res.forgetMinGasPrices : Res AnteResult → Res AnteResult
  | .ret (c, e) w => .ret (c.WithMinGasPrices [], e) w
  | .panic p w => .panic p w

/-- A handler whose runs outside CheckTx do not depend on the minimum gas prices of the
context: replacing them changes nothing of the outcome but the minimum gas prices that
the returned context carries along. -/
def MinGasPriceBlind (h : AnteHandler) : Prop :=
  ∀ (c : Context) (m : List DecCoin) (tx : Tx) (simulate : Bool) (w : World),
    c.checkTx = false →
    (h (c.WithMinGasPrices m) tx simulate w).forgetMinGasPrices =
      (h c tx simulate w).forgetMinGasPrices

/-- The number of non-zero bytes of a payload. -/
def nonZeroBytes (data : List Nat) : Nat := (data.filter fun byt => byt != 0).length

/-- The number of zero bytes of a payload. -/
def zeroBytes (data : List Nat) : Nat := data.length - nonZeroBytes data

namespace Scenario

/-- The world of the scenario in which the transaction gas meter of `ctx` is a meter
limited to `limit` that has consumed `consumed`, as the gas stage leaves it. -/
def meteredWorld (limit consumed balance sequence : Nat) : World :=
  { world balance sequence with
    meters := [.basicGasMeter limit consumed, .infiniteGasMeter 0] }

end Scenario

namespace CommitStateDB

/-- Modelled from the spec: `GetBalance(addr)` of `statedb.go`, which is not among the
sources: it reads the balance; an address without an object has the balance of the
"implicit zero-value account". -/
def GetBalance (db : CommitStateDB) (addr : Address) : Nat :=
  match db.stateObjects addr with
  | some obj => obj.balance
  | none => 0

/-- Modelled from the spec: `Snapshot()` of `statedb.go`, which "records
`journal.length()`" on the "stack of revision markers" and returns it as the revision;
the state itself is not touched. -/
def Snapshot (db : CommitStateDB) : Nat × CommitStateDB :=
  (db.journal.length, { db with snapshots := db.journal.length :: db.snapshots })

/-- Modelled from the spec: `RevertToSnapshot(revisionID)` of `statedb.go`, which "calls
`journal.revert(self, revisionID)`" and "fails fatally (programming error) if
`revisionID` was never issued or already reverted past", here `none`.  The markers
issued after the one reverted to are reverted past and leave the stack. -/
def RevertToSnapshot (db : CommitStateDB) (revisionID : Nat) : Option CommitStateDB :=
  if revisionID ∈ db.snapshots then
    let r := db.journal.revert db revisionID
    some { r.1 with
      journal := r.2
      snapshots := db.snapshots.dropWhile fun s => s != revisionID }
  else none

end CommitStateDB

namespace CommitStateDB

/-- Modelled from the spec: `Empty(addr)` of `statedb.go`, which is not among the
sources: "emptiness = zero balance, zero nonce, no code"; an address without an object
is the "implicit zero-value account". -/
def Empty (db : CommitStateDB) (addr : Address) : Bool :=
  match db.stateObjects addr with
  | some obj => obj.balance == 0 && obj.nonce == 0 && obj.code.isEmpty
  | none => true

end CommitStateDB

namespace Scenario

/-- A state in which `alice` has an object with balance 50, nonce 0 and no code. -/
def fundedDB : CommitStateDB := emptyDB.SetBalance alice 50

end Scenario

namespace AccountVerificationDecorator

/-- The part of `AccountVerificationDecorator.AnteHandle` after the check made at height
zero: the balance check and the call of the next handler. -/
def balanceCheck (env : Env) (ctx : Context) (msgEthTx : MsgEthereumTx) (address : Address)
    (simulate : Bool) (next : AnteHandler) : Exec AnteResult := fun w1 =>
  match GetBalance env ctx address w1 with
  | .panic p w2 => .panic p w2
  | .ret balance w2 =>
    if balance < msgEthTx.Cost then
      .ret (ctx, some (.insufficientFunds balance msgEthTx.Cost)) w2
    else next ctx (.ethereum msgEthTx) simulate w2

end AccountVerificationDecorator

/-- The context that an outcome returns; none for a panic. -/
def Res.returnedContext : Res AnteResult → Option Context
  | .ret (c, _) _ => some c
  | .panic _ _ => none

/-! ## The genesis of the EVM module (`x/evm/genesis.go`) -/

/-- The type `emint.Storage`, a Go map from storage keys to values, as the list of its
entries in the order in which a `range` loop visits them; a key occurs once. -/
abbrev Storage := List (Hash × Hash)

/-- The index expression `storage[key]` on a Go map: the zero hash for an absent key. -/
def Storage.get (s : Storage) (key : Hash) : Hash :=
  match s.find? fun entry => entry.1 == key with
  | some entry => entry.2
  | none => 0

/-- The struct `types.GenesisAccount`, by the fields that `genesis.go` reads and
writes. -/
structure GenesisAccount where
  Address : Address
  Balance : Nat
  Code : List Nat
  Storage : Storage
  deriving DecidableEq, Repr

/-- The struct `GenesisState`. -/
structure GenesisState where
  Accounts : List GenesisAccount
  deriving DecidableEq, Repr

namespace CommitStateDB

/-- Modelled from the spec: `GetCode(addr)` of `statedb.go`, which is not among the
sources: it reads the code; an address without an object has none. -/
def GetCode (db : CommitStateDB) (addr : Address) : List Nat :=
  match db.stateObjects addr with
  | some obj => obj.code
  | none => []

/-- Modelled from the spec: `GetState(addr, key)` of `statedb.go`, which is not among
the sources: the "per-slot storage read"; an address without an object has zero slots. -/
def GetState (db : CommitStateDB) (addr : Address) (key : Hash) : Hash :=
  match db.stateObjects addr with
  | some obj => obj.storage key
  | none => 0

end CommitStateDB

/-- The inner loop of `InitGenesis`, `for _, key := range account.Storage`: the second
loop variable of a `range` over a map is the value of the entry, so `key` is bound to
the value of each entry, and the slot written is the one at that value. -/
def InitGenesis.setStorage (account : GenesisAccount) (csdb : CommitStateDB) :
    CommitStateDB :=
  account.Storage.foldl
    (fun db entry =>
      let key := entry.2
      db.SetState account.Address key (account.Storage.get key))
    csdb

/-- The function `InitGenesis(ctx, k, data)`, on the state of the keeper; `codeHash` is
the hash that `SetCode` computes of the code. -/
def InitGenesis (codeHash : List Nat → List Nat) (csdb : CommitStateDB)
    (data : GenesisState) : CommitStateDB :=
  data.Accounts.foldl
    (fun db account =>
      let db1 := db.SetBalance account.Address account.Balance
      let db2 := db1.SetCode account.Address account.Code (codeHash account.Code)
      InitGenesis.setStorage account db2)
    csdb

/-- An account, as `ak.GetAllAccounts(ctx)` returns it, by its dynamic type. -/
inductive ExportedAccount where
  /-- An account that implements `emint.Account`. -/
  | ethAccount (address : Address)
  /-- An account of another type. -/
  | other (address : Address)
  deriving DecidableEq, Repr

/-- The assignment `storage[key] = value` on a Go map; on a nil map it panics. -/
def mapAssign (storage : Option Storage) (key value : Hash) :
    Except PanicValue (Option Storage) :=
  match storage with
  | none => .error (.message "assignment to entry in nil map")
  | some m => .ok (some ((m.filter fun entry => entry.1 != key) ++ [(key, value)]))

/-- The callback of `ExportGenesis` called for the entries that `ForEachStorage`
visits, one after the other. -/
def ExportGenesis.collect (storage : Option Storage) :
    List (Hash × Hash) → Except PanicValue (Option Storage)
  | [] => .ok storage
  | entry :: rest =>
    match mapAssign storage entry.1 entry.2 with
    | .error p => .error p
    | .ok storage1 => ExportGenesis.collect storage1 rest

/-- The loop of `ExportGenesis` over the accounts.  `forEachStorage addr` gives the
entries that `k.CommitStateDB.ForEachStorage(addr, cb)` calls `cb` for, and the error it
returns.  `var storage emint.Storage` declares a nil map. -/
def ExportGenesis.loop (forEachStorage : Address → List (Hash × Hash) × Option String)
    (csdb : CommitStateDB) :
    List ExportedAccount → List GenesisAccount → Except PanicValue (List GenesisAccount)
  | [], ethGenAccounts => .ok ethGenAccounts
  | .other _ :: rest, ethGenAccounts =>
    ExportGenesis.loop forEachStorage csdb rest ethGenAccounts
  | .ethAccount addr :: rest, ethGenAccounts =>
    match ExportGenesis.collect none (forEachStorage addr).1 with
    | .error p => .error p
    | .ok storage =>
      match (forEachStorage addr).2 with
      | some err => .error (.message err)
      | none =>
        let genAccount : GenesisAccount :=
          { Address := addr, Balance := csdb.GetBalance addr, Code := csdb.GetCode addr,
            Storage := storage.getD [] }
        ExportGenesis.loop forEachStorage csdb rest (ethGenAccounts ++ [genAccount])

/-- The function `ExportGenesis(ctx, k, ak)`, for the accounts that
`ak.GetAllAccounts(ctx)` returns. -/
def ExportGenesis (forEachStorage : Address → List (Hash × Hash) × Option String)
    (csdb : CommitStateDB) (accounts : List ExportedAccount) :
    Except PanicValue GenesisState :=
  match ExportGenesis.loop forEachStorage csdb accounts [] with
  | .error p => .error p
  | .ok ethGenAccounts => .ok { Accounts := ethGenAccounts }

namespace Scenario

/-- A genesis state with one account, of `alice`, whose storage has the one entry
`(1, 2)`. -/
def genesis : GenesisState :=
  { Accounts := [{ Address := alice, Balance := 100, Code := [96, 0], Storage := [(1, 2)] }] }

/-- A genesis state with one account, of `alice`, whose storage has the entries
`(1, 2)` and `(2, 3)`. -/
def genesisTwo : GenesisState :=
  { Accounts :=
      [{ Address := alice, Balance := 100, Code := [96, 0], Storage := [(1, 2), (2, 3)] }] }

/-- A code hash for the scenarios: the code itself. -/
def codeHash (code : List Nat) : List Nat := code

end Scenario

/-- The genesis account that `ExportGenesis` writes for an Ethereum account without
visited storage entries. -/
def exportedWithoutStorage (csdb : CommitStateDB) : ExportedAccount → Option GenesisAccount
  | .ethAccount addr =>
    some { Address := addr, Balance := csdb.GetBalance addr, Code := csdb.GetCode addr,
           Storage := [] }
  | .other _ => none

/-! ## The order messages (`x/orders/internal/types/msgs.go`) -/

/-- The errors that `ValidateBasic` of the order messages returns: the registered error
wrapped and the description. -/
inductive OrdersError where
  /-- `sdkerrors.Wrap(sdkerrors.ErrInvalidAddress, msg.Sender.String())`. -/
  | ErrInvalidAddress
  /-- `sdkerrors.Wrap(sdkerrors.ErrUnknownRequest, description)`. -/
  | ErrUnknownRequest (description : String)
  /-- `sdkerrors.Wrap(ErrBadField, description)`. -/
  | ErrBadField (description : String)
  deriving DecidableEq, Repr

/-- The function `unicode.IsSpace`. -/
def isSpace (c : Char) : Bool :=
  c.toNat == 9 || c.toNat == 10 || c.toNat == 11 || c.toNat == 12 || c.toNat == 13 ||
    c.toNat == 32 || c.toNat == 133 || c.toNat == 160 || c.toNat == 5760 ||
    (8192 ≤ c.toNat && c.toNat ≤ 8202) || c.toNat == 8232 || c.toNat == 8233 ||
    c.toNat == 8239 || c.toNat == 8287 || c.toNat == 12288

/-- The function `strings.TrimSpace`: the string without its leading and trailing white
space. -/
def TrimSpace (s : List Char) : List Char :=
  ((s.dropWhile isSpace).reverse.dropWhile isSpace).reverse

/-- The function `strings.Split(s, "/")`: the parts of `s` between the slashes; a string
without a slash, the empty one too, is its only part. -/
def SplitSlash : List Char → List (List Char)
  | [] => [[]]
  | c :: cs =>
    if c = '/' then [] :: SplitSlash cs
    else
      match SplitSlash cs with
      | part :: parts => (c :: part) :: parts
      | [] => [[c]]

/-- The struct `MsgRegisterSpotMarket`; the sender and the asset data are byte
strings. -/
structure MsgRegisterSpotMarket where
  Sender : List Nat
  Name : String
  MakerAssetData : List Nat
  TakerAssetData : List Nat
  Enabled : Bool
  deriving DecidableEq, Repr

/-- The method `MsgRegisterSpotMarket.ValidateBasic`; `none` is a nil error.  The
operands of `||` are evaluated from the left, so the parts are indexed only when there
are exactly two. -/
def MsgRegisterSpotMarket.ValidateBasic (msg : MsgRegisterSpotMarket) : Option OrdersError :=
  if msg.Sender.length == 0 then some .ErrInvalidAddress
  else if msg.Name.toList.length == 0 then
    some (.ErrBadField "no trade pair name specified")
  else
    let parts := SplitSlash msg.Name.toList
    let badFormat :=
      match parts with
      | [part0, part1] =>
        (TrimSpace part0).length == 0 || (TrimSpace part1).length == 0
      | _ => true
    if badFormat then some (.ErrBadField "pair name must be in format AAA/BBB")
    else if msg.MakerAssetData.length == 0 then
      some (.ErrBadField "no maker asset data specified")
    else if msg.TakerAssetData.length == 0 then
      some (.ErrBadField "no taker asset data specified")
    else none

/-- The name has the format AAA/BBB: it splits on the slash into exactly two parts, each
of which is non-empty after trimming white space. -/
def pairFormat (name : String) : Bool :=
  match SplitSlash name.toList with
  | [part0, part1] => !((TrimSpace part0).length == 0) && !((TrimSpace part1).length == 0)
  | _ => false

/-! ## Safe signed orders (`x/orders/internal/types/msgs.go`) -/

/-- The type `Address` of the orders module: a struct that embeds a `common.Address`. -/
structure OrdersAddress where
  Address : Address
  deriving DecidableEq, Repr

namespace zeroex

/-- The struct `zeroex.Order`, with the fields that `so2zo` sets; a `*big.Int` is `none`
when nil, a byte string is the list of its bytes. -/
structure Order where
  ChainID : Option Int
  ExchangeAddress : Address
  MakerAddress : Address
  MakerAssetData : List Nat
  MakerFeeAssetData : List Nat
  MakerAssetAmount : Option Int
  MakerFee : Option Int
  TakerAddress : Address
  TakerAssetData : List Nat
  TakerFeeAssetData : List Nat
  TakerAssetAmount : Option Int
  TakerFee : Option Int
  SenderAddress : Address
  FeeRecipientAddress : Address
  ExpirationTimeSeconds : Option Int
  Salt : Option Int
  deriving DecidableEq, Repr

/-- The struct `zeroex.SignedOrder`: an order and its signature. -/
structure SignedOrder where
  Order : Order
  Signature : List Nat
  deriving DecidableEq, Repr

end zeroex

/-- The struct `SafeSignedOrder`; a `BigNum` is a string. -/
structure SafeSignedOrder where
  ChainID : Int
  ExchangeAddress : OrdersAddress
  MakerAddress : OrdersAddress
  TakerAddress : OrdersAddress
  FeeRecipientAddress : OrdersAddress
  SenderAddress : OrdersAddress
  MakerAssetAmount : String
  TakerAssetAmount : String
  MakerFee : String
  TakerFee : String
  ExpirationTimeSeconds : String
  Salt : String
  MakerAssetData : List Nat
  TakerAssetData : List Nat
  MakerFeeAssetData : List Nat
  TakerFeeAssetData : List Nat
  Signature : List Nat
  deriving DecidableEq, Repr

/-- The conversion of a Go integer to `int64`: the value modulo 2^64, read in two's
complement. -/
def wrapInt64 (x : Int) : Int :=
  if x % 2 ^ 64 < 2 ^ 63 then x % 2 ^ 64 else x % 2 ^ 64 - 2 ^ 64

/-- The method `(*big.Int).Int64` on a non-nil receiver of either sign: the low 64 bits
of the absolute value as an `int64`, negated (in `int64`) when the integer is
negative. -/
def signedInt64 (v : Int) : Int :=
  if v < 0 then wrapInt64 (-(bigInt64 v.natAbs)) else bigInt64 v.natAbs

/-- The method `(*big.Int).BitLen`: the length of the absolute value in bits. -/
def bigBitLen (v : Int) : Nat := Nat.size v.natAbs

/-- The character of a decimal digit. -/
def digitChar (d : Nat) : Char := Char.ofNat (48 + d)

/-- The decimal digits of a natural number, the most significant first; "0" for zero. -/
def decimal (n : Nat) : List Char :=
  if n = 0 then ['0'] else (Nat.digits 10 n).reverse.map digitChar

/-- The method `(*big.Int).String`: the decimal representation, with a leading minus
sign for a negative integer; "<nil>" for a nil pointer. -/
def bigString : Option Int → String
  | none => "<nil>"
  | some v => String.mk (if v < 0 then '-' :: decimal v.natAbs else decimal v.natAbs)

/-- The value of one hexadecimal digit, of either case. -/
def hexDigitValue (c : Char) : Option Nat :=
  if '0' ≤ c ∧ c ≤ '9' then some (c.toNat - '0'.toNat)
  else if 'a' ≤ c ∧ c ≤ 'f' then some (c.toNat - 'a'.toNat + 10)
  else if 'A' ≤ c ∧ c ≤ 'F' then some (c.toNat - 'A'.toNat + 10)
  else none

/-- The number written by a list of hexadecimal digits, continuing from `acc`. -/
def parseHexDigits : List Char → Nat → Option Nat
  | [], acc => some acc
  | c :: cs, acc =>
    match hexDigitValue c with
    | none => none
    | some d => parseHexDigits cs (acc * 16 + d)

/-- The call `new(big.Int).SetString(s, 16)`: an optional sign followed by at least one
hexadecimal digit and nothing else. -/
def SetString16 (s : String) : Option Int :=
  match s.toList with
  | [] => none
  | '-' :: [] => none
  | '+' :: [] => none
  | '-' :: cs => (parseHexDigits cs 0).map fun n => - (n : Int)
  | '+' :: cs => (parseHexDigits cs 0).map fun n => (n : Int)
  | cs => (parseHexDigits cs 0).map fun n => (n : Int)

/-- The string starts with "0x" or "0X". -/
def hasHexPrefix : List Char → Bool
  | c0 :: c1 :: _ => c0 == '0' && (c1 == 'x' || c1 == 'X')
  | _ => false

/-- The function `math.ParseBig256` of go-ethereum: the empty string is zero, a string
with the prefix "0x" or "0X" is read in base 16 and any other one in base 10, and an
integer of more than 256 bits is refused. -/
def ParseBig256 (s : String) : Option Int :=
  if s = "" then some 0
  else
    let parsed :=
      if hasHexPrefix s.toList then SetString16 (String.mk (s.toList.drop 2))
      else SetString10 s
    match parsed with
    | some v => if 256 < bigBitLen v then none else some v
    | none => none

/-- The function `zo2so`.  The fields of the composite literal are evaluated in the
order written: `o.ChainID.Int64()` dereferences the chain identifier, the calls of
`String` accept a nil pointer. -/
def zo2so (o : Option zeroex.SignedOrder) : Except PanicValue (Option SafeSignedOrder) :=
  match o with
  | none => .ok none
  | some o =>
    match o.Order.ChainID with
    | none => .error .nilPointer
    | some chainID =>
      .ok (some
        { ChainID := signedInt64 chainID
          ExchangeAddress := ⟨o.Order.ExchangeAddress⟩
          MakerAddress := ⟨o.Order.MakerAddress⟩
          TakerAddress := ⟨o.Order.TakerAddress⟩
          FeeRecipientAddress := ⟨o.Order.FeeRecipientAddress⟩
          SenderAddress := ⟨o.Order.SenderAddress⟩
          MakerAssetAmount := bigString o.Order.MakerAssetAmount
          TakerAssetAmount := bigString o.Order.TakerAssetAmount
          MakerFee := bigString o.Order.MakerFee
          TakerFee := bigString o.Order.TakerFee
          ExpirationTimeSeconds := bigString o.Order.ExpirationTimeSeconds
          Salt := bigString o.Order.Salt
          MakerAssetData := o.Order.MakerAssetData
          TakerAssetData := o.Order.TakerAssetData
          MakerFeeAssetData := o.Order.MakerFeeAssetData
          TakerFeeAssetData := o.Order.TakerFeeAssetData
          Signature := o.Signature })

/-- The function `NewSafeSignedOrder`. -/
def NewSafeSignedOrder (o : Option zeroex.SignedOrder) :
    Except PanicValue (Option SafeSignedOrder) :=
  zo2so o

/-- The function `so2zo`; the error is the message of `errors.New`. -/
def so2zo (o : Option SafeSignedOrder) : Except String (Option zeroex.SignedOrder) :=
  match o with
  | none => .ok none
  | some o =>
    match ParseBig256 o.MakerAssetAmount with
    | none => .error "makerAssetAmmount parse failed"
    | some makerAssetAmount =>
      match ParseBig256 o.MakerFee with
      | none => .error "makerFee parse failed"
      | some makerFee =>
        match ParseBig256 o.TakerAssetAmount with
        | none => .error "takerAssetAmmount parse failed"
        | some takerAssetAmount =>
          match ParseBig256 o.TakerFee with
          | none => .error "takerFee parse failed"
          | some takerFee =>
            match ParseBig256 o.ExpirationTimeSeconds with
            | none => .error "expirationTimeSeconds parse failed"
            | some expirationTimeSeconds =>
              match ParseBig256 o.Salt with
              | none => .error "salt parse failed"
              | some salt =>
                .ok (some
                  { Order :=
                      { ChainID := some o.ChainID
                        ExchangeAddress := o.ExchangeAddress.Address
                        MakerAddress := o.MakerAddress.Address
                        TakerAddress := o.TakerAddress.Address
                        MakerAssetData := o.MakerAssetData
                        TakerAssetData := o.TakerAssetData
                        MakerFeeAssetData := o.MakerFeeAssetData
                        TakerFeeAssetData := o.TakerFeeAssetData
                        SenderAddress := o.SenderAddress.Address
                        FeeRecipientAddress := o.FeeRecipientAddress.Address
                        MakerAssetAmount := some makerAssetAmount
                        MakerFee := some makerFee
                        TakerAssetAmount := some takerAssetAmount
                        TakerFee := some takerFee
                        ExpirationTimeSeconds := some expirationTimeSeconds
                        Salt := some salt }
                    Signature := o.Signature })

/-- The method `SafeSignedOrder.ToSignedOrder`: it panics with the error of `so2zo`. -/
def ToSignedOrder (m : Option SafeSignedOrder) :
    Except PanicValue (Option zeroex.SignedOrder) :=
  match so2zo m with
  | .error err => .error (.message err)
  | .ok o => .ok o

/-- An order with the chain identifier 1 and small amounts, one of them negative. -/
def Scenario.order : zeroex.SignedOrder :=
  { Order :=
      { ChainID := some 1, ExchangeAddress := 11, MakerAddress := 12, MakerAssetData := [1],
        MakerFeeAssetData := [2], MakerAssetAmount := some 100, MakerFee := some 0,
        TakerAddress := 13, TakerAssetData := [3], TakerFeeAssetData := [4],
        TakerAssetAmount := some 250, TakerFee := some (-7), SenderAddress := 14,
        FeeRecipientAddress := 15, ExpirationTimeSeconds := some 1600000000,
        Salt := some 42 }
    Signature := [5, 6] }

/-! ## The order messages with a signature (`x/orders/internal/types/msgs.go`) -/

/-- The constants of the type `zeroex.SignatureType`, which are declared in the library
and are parameters here. -/
structure SignatureTypes where
  IllegalSignature : Nat
  InvalidSignature : Nat
  EIP712Signature : Nat
  EthSignSignature : Nat
  WalletSignature : Nat
  ValidatorSignature : Nat
  PreSignedSignature : Nat
  EIP1271WalletSignature : Nat
  deriving DecidableEq, Repr

/-- What the order messages take from outside this file: the signature types, the method
`ComputeOrderHash` of a signed order (its error is a message) and the method `IsEmpty`
of an address of the orders module. -/
structure OrdersEnv where
  signatureTypes : SignatureTypes
  ComputeOrderHash : zeroex.SignedOrder → Except String Hash
  IsEmpty : OrdersAddress → Bool

/-- The function `isValidSignature`.  Its first statement indexes the signature at
`len(signature)-1`, which panics for an empty signature; the cases of the switch are
tried in the order written. -/
def isValidSignature (types : SignatureTypes) (signature : List Nat) :
    Except PanicValue Bool :=
  match signature.getLast? with
  | none => .error (.message "runtime error: index out of range [-1]")
  | some signatureType =>
    if signatureType = types.InvalidSignature ∨ signatureType = types.IllegalSignature then
      .ok false
    else if signatureType = types.EIP712Signature then
      if signature.length ≠ 66 then .ok false else .ok true
    else if signatureType = types.EthSignSignature then
      if signature.length ≠ 66 then .ok false else .ok true
    else if signatureType = types.ValidatorSignature then
      if signature.length < 21 then .ok false else .ok true
    else if signatureType = types.PreSignedSignature ∨
        signatureType = types.WalletSignature ∨
        signatureType = types.EIP1271WalletSignature then
      .ok true
    else .ok false

/-- The checks that `MsgCreateSpotOrder.ValidateBasic` and
`MsgCreateDerivativeOrder.ValidateBasic` make, in the same words, after the one of the
sender: the order is not nil, `msg.Order.ToSignedOrder().ComputeOrderHash()` returns no
error, and the signature of the order is valid. -/
def validateOrder (env : OrdersEnv) (order : Option SafeSignedOrder) :
    Except PanicValue (Option OrdersError) :=
  match order with
  | none => .ok (some (.ErrUnknownRequest "no make order specified"))
  | some order =>
    match ToSignedOrder (some order) with
    | .error p => .error p
    | .ok none => .error .nilPointer
    | .ok (some signedOrder) =>
      match env.ComputeOrderHash signedOrder with
      | .error err => .ok (some (.ErrUnknownRequest ("hash check failed: " ++ err)))
      | .ok _ =>
        match isValidSignature env.signatureTypes order.Signature with
        | .error p => .error p
        | .ok valid =>
          if !valid then .ok (some (.ErrUnknownRequest "invalid signature")) else .ok none

/-- The struct `MsgCreateSpotOrder`. -/
structure MsgCreateSpotOrder where
  Sender : List Nat
  Order : Option SafeSignedOrder
  deriving DecidableEq, Repr

/-- The method `MsgCreateSpotOrder.ValidateBasic`; `.ok none` is a nil error, `.error` a
panic. -/
def MsgCreateSpotOrder.ValidateBasic (env : OrdersEnv) (msg : MsgCreateSpotOrder) :
    Except PanicValue (Option OrdersError) :=
  if msg.Sender.length == 0 then .ok (some .ErrInvalidAddress)
  else validateOrder env msg.Order

/-- The struct `MsgCreateDerivativeOrder`. -/
structure MsgCreateDerivativeOrder where
  Sender : List Nat
  Order : Option SafeSignedOrder
  InitialQuantityMatched : String
  deriving DecidableEq, Repr

/-- The method `MsgCreateDerivativeOrder.ValidateBasic`. -/
def MsgCreateDerivativeOrder.ValidateBasic (env : OrdersEnv)
    (msg : MsgCreateDerivativeOrder) : Except PanicValue (Option OrdersError) :=
  if msg.Sender.length == 0 then .ok (some .ErrInvalidAddress)
  else validateOrder env msg.Order

/-- The field `Domain` of a signed transaction, with the fields that `ValidateBasic`
reads. -/
structure TransactionDomain where
  VerifyingContract : OrdersAddress
  ChainID : String
  deriving DecidableEq, Repr

/-- The struct `SignedTransaction`, with the fields that `ValidateBasic` reads; of the
numbers only the length is read, and they are strings here. -/
structure SignedTransaction where
  Salt : String
  SignerAddress : OrdersAddress
  Domain : TransactionDomain
  GasPrice : String
  ExpirationTimeSeconds : String
  Signature : List Nat
  deriving DecidableEq, Repr

/-- The struct `MsgRequestFillSpotOrder`; the signed transaction is a pointer. -/
structure MsgRequestFillSpotOrder where
  Sender : List Nat
  SignedTransaction : Option SignedTransaction
  TxOrigin : OrdersAddress
  ApprovalSignature : List Nat
  deriving DecidableEq, Repr

/-- The method `MsgRequestFillSpotOrder.ValidateBasic`.  After the check of `TxOrigin`
the signed transaction is dereferenced without a check that it is not nil. -/
def MsgRequestFillSpotOrder.ValidateBasic (env : OrdersEnv)
    (msg : MsgRequestFillSpotOrder) : Except PanicValue (Option OrdersError) :=
  if msg.Sender.length == 0 then .ok (some .ErrInvalidAddress)
  else if env.IsEmpty msg.TxOrigin then
    .ok (some (.ErrBadField "no txOrigin address specified"))
  else
    match msg.SignedTransaction with
    | none => .error .nilPointer
    | some signedTransaction =>
      if signedTransaction.Salt.length == 0 then
        .ok (some (.ErrBadField "no salt specified"))
      else if env.IsEmpty signedTransaction.SignerAddress then
        .ok (some (.ErrBadField "no signerAddress address specified"))
      else if env.IsEmpty signedTransaction.Domain.VerifyingContract then
        .ok (some (.ErrBadField "no verifyingContract address specified"))
      else if signedTransaction.Domain.ChainID.length == 0 then
        .ok (some (.ErrBadField "no chainID specified"))
      else if signedTransaction.GasPrice.length == 0 then
        .ok (some (.ErrBadField "no gasPrice specified"))
      else if signedTransaction.ExpirationTimeSeconds.length == 0 then
        .ok (some (.ErrBadField "no expirationTimeSeconds specified"))
      else
        match isValidSignature env.signatureTypes signedTransaction.Signature with
        | .error p => .error p
        | .ok valid =>
          if !valid then .ok (some (.ErrBadField "invalid transaction signature"))
          else
            match isValidSignature env.signatureTypes msg.ApprovalSignature with
            | .error p => .error p
            | .ok approved =>
              if !approved then .ok (some (.ErrBadField "invalid approval signature"))
              else .ok none

/-- The struct `MsgRequestSoftCancelSpotOrder`. -/
structure MsgRequestSoftCancelSpotOrder where
  Sender : List Nat
  SignedTransaction : Option SignedTransaction
  TxOrigin : OrdersAddress
  ApprovalSignature : List Nat
  deriving DecidableEq, Repr

/-- The method `MsgRequestSoftCancelSpotOrder.ValidateBasic`. -/
def MsgRequestSoftCancelSpotOrder.ValidateBasic (env : OrdersEnv)
    (msg : MsgRequestSoftCancelSpotOrder) : Except PanicValue (Option OrdersError) :=
  if msg.Sender.length == 0 then .ok (some .ErrInvalidAddress)
  else if env.IsEmpty msg.TxOrigin then
    .ok (some (.ErrBadField "no txOrigin address specified"))
  else
    match msg.SignedTransaction with
    | none => .error .nilPointer
    | some signedTransaction =>
      if signedTransaction.Salt.length == 0 then
        .ok (some (.ErrBadField "no salt specified"))
      else if env.IsEmpty signedTransaction.SignerAddress then
        .ok (some (.ErrBadField "no signerAddress address specified"))
      else if env.IsEmpty signedTransaction.Domain.VerifyingContract then
        .ok (some (.ErrBadField "no verifyingContract address specified"))
      else if signedTransaction.Domain.ChainID.length == 0 then
        .ok (some (.ErrBadField "no chainID specified"))
      else if signedTransaction.GasPrice.length == 0 then
        .ok (some (.ErrBadField "no gasPrice specified"))
      else
        match isValidSignature env.signatureTypes signedTransaction.Signature with
        | .error p => .error p
        | .ok valid =>
          if !valid then .ok (some (.ErrBadField "invalid signature")) else .ok none

/-- A safe order with the given first amount and signature; the other amounts are 1. -/
def Scenario.safeOrder (makerAssetAmount : String) (signature : List Nat) :
    SafeSignedOrder :=
  { ChainID := 1, ExchangeAddress := ⟨11⟩, MakerAddress := ⟨12⟩, TakerAddress := ⟨13⟩,
    FeeRecipientAddress := ⟨15⟩, SenderAddress := ⟨14⟩, MakerAssetAmount := makerAssetAmount,
    TakerAssetAmount := "1", MakerFee := "1", TakerFee := "1",
    ExpirationTimeSeconds := "1", Salt := "1", MakerAssetData := [1],
    TakerAssetData := [3], MakerFeeAssetData := [2], TakerFeeAssetData := [4],
    Signature := signature }

/-- The signed order that `Scenario.safeOrder "1" signature` stands for. -/
def Scenario.signedOrder (signature : List Nat) : zeroex.SignedOrder :=
  { Order :=
      { ChainID := some 1, ExchangeAddress := 11, MakerAddress := 12, MakerAssetData := [1],
        MakerFeeAssetData := [2], MakerAssetAmount := some 1, MakerFee := some 1,
        TakerAddress := 13, TakerAssetData := [3], TakerFeeAssetData := [4],
        TakerAssetAmount := some 1, TakerFee := some 1, SenderAddress := 14,
        FeeRecipientAddress := 15, ExpirationTimeSeconds := some 1, Salt := some 1 }
    Signature := signature }

/-- An environment: the signature types numbered from zero, an order hash that is always
computed, and the zero address as the empty one. -/
def Scenario.ordersEnv : OrdersEnv :=
  { signatureTypes :=
      { IllegalSignature := 0, InvalidSignature := 1, EIP712Signature := 2,
        EthSignSignature := 3, WalletSignature := 4, ValidatorSignature := 5,
        PreSignedSignature := 6, EIP1271WalletSignature := 7 }
    ComputeOrderHash := fun _ => .ok 0
    IsEmpty := fun address => address.Address == 0 }

/-! ### Histories of a state with calls of `journal.dirty` -/

/-- A step in the history of a state: one of the state-mutating operations, or a call
`journal.dirty(addr)` on the journal of the state. -/
inductive JournalStep where
  | mutation (m : Mutation)
  | dirty (addr : Address)

/-- The state after a step; `none` when the call is fatal. -/
def JournalStep.apply (step : JournalStep) (db : CommitStateDB) : Option CommitStateDB :=
  match step with
  | .mutation m => m.apply db
  | .dirty addr => some { db with journal := db.journal.dirty addr }

/-- The state after a sequence of steps, none of which is fatal. -/
def JournalStep.run : List JournalStep → CommitStateDB → Option CommitStateDB
  | [], db => some db
  | step :: rest, db =>
    match step.apply db with
    | none => none
    | some db1 => JournalStep.run rest db1

/-- The number of calls `journal.dirty(addr)` among the steps. -/
def dirtyCalls : List JournalStep → Address → Nat
  | [], _ => 0
  | .mutation _ :: rest, addr => dirtyCalls rest addr
  | .dirty b :: rest, addr => (if addr = b then 1 else 0) + dirtyCalls rest addr

/-- A new journal after one append for `alice` followed by one call `dirty(alice)`. -/
def Scenario.dirtiedJournal : journal :=
  (newJournal.append (.balanceChange Scenario.alice 1)).dirty Scenario.alice

/-- Two mutations of the account of `alice` with a call `dirty(alice)` between them. -/
def Scenario.steps : List JournalStep :=
  [.mutation (.SetBalance Scenario.alice 100), .dirty Scenario.alice,
    .mutation (.SetNonce Scenario.alice 1)]

/-- The state after `Scenario.steps`. -/
def Scenario.steppedDB : CommitStateDB :=
  let db1 := Scenario.emptyDB.SetBalance Scenario.alice 100
  ({ db1 with journal := db1.journal.dirty Scenario.alice } : CommitStateDB).SetNonce
    Scenario.alice 1

/-! ## Keeper calls: what they return and what they leave behind -/

theorem ConsumeGas_store (r : MeterRef) (amount : Nat) (d : String) (w : World) :
    (ConsumeGas r amount d w).world.store = w.store := by
  unfold ConsumeGas
  cases r with
  | none => rfl
  | some i =>
    simp only
    cases w.meters[i]? with
    | none => rfl
    | some g =>
      simp only
      cases (g.ConsumeGas amount d).2 <;> rfl

theorem ConsumeGas_ret_store {r : MeterRef} {amount : Nat} {d : String} {w w1 : World}
    {u : Unit} (h : ConsumeGas r amount d w = .ret u w1) : w1.store = w.store := by
  have := ConsumeGas_store r amount d w
  rw [h] at this
  exact this

theorem ConsumeGas_panic_store {r : MeterRef} {amount : Nat} {d : String} {w w1 : World}
    {p : PanicValue} (h : ConsumeGas r amount d w = .panic p w1) : w1.store = w.store := by
  have := ConsumeGas_store r amount d w
  rw [h] at this
  exact this

theorem GetAccount_ret {env : Env} {ctx : Context} {a : Address} {w w1 : World}
    {v : Option Account} (h : GetAccount env ctx a w = .ret v w1) :
    w1.store = w.store ∧ v = w.store.accounts a := by
  unfold GetAccount Exec.andThen at h
  cases h1 : ConsumeGas ctx.gasMeter env.gasConfig.ReadCostFlat "ReadFlat" w with
  | panic p w2 => rw [h1] at h; cases h
  | ret u w2 =>
    rw [h1] at h
    simp only at h
    have e1 := ConsumeGas_ret_store h1
    cases h2 : ConsumeGas ctx.gasMeter
        (env.gasConfig.ReadCostPerByte * env.valueSize (w2.store.accounts a)) "ReadPerByte" w2 with
    | panic p w3 => rw [h2] at h; cases h
    | ret u3 w3 =>
      rw [h2] at h
      have e2 := ConsumeGas_ret_store h2
      simp only [Res.ret.injEq] at h
      obtain ⟨hv, hw⟩ := h
      subst hw
      exact ⟨e2.trans e1, by rw [← hv, e1]⟩

theorem GetAccount_panic {env : Env} {ctx : Context} {a : Address} {w w1 : World}
    {p : PanicValue} (h : GetAccount env ctx a w = .panic p w1) : w1.store = w.store := by
  unfold GetAccount Exec.andThen at h
  cases h1 : ConsumeGas ctx.gasMeter env.gasConfig.ReadCostFlat "ReadFlat" w with
  | panic p w2 =>
    rw [h1] at h
    simp only [Res.panic.injEq] at h
    rw [← h.2]
    exact ConsumeGas_panic_store h1
  | ret u w2 =>
    rw [h1] at h
    simp only at h
    have e1 := ConsumeGas_ret_store h1
    cases h2 : ConsumeGas ctx.gasMeter
        (env.gasConfig.ReadCostPerByte * env.valueSize (w2.store.accounts a)) "ReadPerByte" w2 with
    | panic p w3 =>
      rw [h2] at h
      simp only [Res.panic.injEq] at h
      rw [← h.2]
      exact (ConsumeGas_panic_store h2).trans e1
    | ret u3 w3 => rw [h2] at h; cases h

theorem andThen_ret {α β : Type} {x : Exec α} {f : α → Exec β} {w w2 : World} {b : β}
    (h : x.andThen f w = .ret b w2) : ∃ a w1, x w = .ret a w1 ∧ f a w1 = .ret b w2 := by
  unfold Exec.andThen at h
  cases hx : x w with
  | ret a w1 => rw [hx] at h; exact ⟨a, w1, rfl, h⟩
  | panic p w1 => rw [hx] at h; cases h

theorem andThen_panic {α β : Type} {x : Exec α} {f : α → Exec β} {w w2 : World}
    {p : PanicValue} (h : x.andThen f w = .panic p w2) :
    x w = .panic p w2 ∨ ∃ a w1, x w = .ret a w1 ∧ f a w1 = .panic p w2 := by
  unfold Exec.andThen at h
  cases hx : x w with
  | ret a w1 => rw [hx] at h; exact Or.inr ⟨a, w1, rfl, h⟩
  | panic q w1 =>
    rw [hx] at h
    simp only [Res.panic.injEq] at h
    exact Or.inl (by rw [h.1, h.2])

theorem GetBalance_ret {env : Env} {ctx : Context} {a : Address} {w w1 : World} {v : Nat}
    (h : GetBalance env ctx a w = .ret v w1) :
    w1.store = w.store ∧ v = w.store.balances a := by
  unfold GetBalance at h
  obtain ⟨_, w2, h1, h2⟩ := andThen_ret h
  obtain ⟨_, w3, h3, h4⟩ := andThen_ret h2
  have e1 := ConsumeGas_ret_store h1
  have e3 := ConsumeGas_ret_store h3
  simp only [Res.ret.injEq] at h4
  obtain ⟨hv, hw⟩ := h4
  subst hw
  exact ⟨e3.trans e1, by rw [← hv, e1]⟩

theorem GetBalance_panic {env : Env} {ctx : Context} {a : Address} {w w1 : World}
    {p : PanicValue} (h : GetBalance env ctx a w = .panic p w1) : w1.store = w.store := by
  unfold GetBalance at h
  rcases andThen_panic h with h1 | ⟨_, w2, h1, h2⟩
  · exact ConsumeGas_panic_store h1
  · have e1 := ConsumeGas_ret_store h1
    rcases andThen_panic h2 with h3 | ⟨_, w3, _, h4⟩
    · exact (ConsumeGas_panic_store h3).trans e1
    · cases h4

theorem SetAccount_ret {env : Env} {ctx : Context} {a : Address} {acc : Account}
    {w w1 : World} {u : Unit} (h : SetAccount env ctx a acc w = .ret u w1) :
    w1.store.balances = w.store.balances ∧ w1.store.feeCollector = w.store.feeCollector ∧
      w1.store.accounts = fun x => if x = a then some acc else w.store.accounts x := by
  unfold SetAccount at h
  obtain ⟨_, w2, h1, h2⟩ := andThen_ret h
  obtain ⟨_, w3, h3, h4⟩ := andThen_ret h2
  have e1 := ConsumeGas_ret_store h1
  have e3 := ConsumeGas_ret_store h3
  simp only [Res.ret.injEq, true_and] at h4
  subst h4
  simp only [e3, e1, and_self]

theorem SetAccount_panic {env : Env} {ctx : Context} {a : Address} {acc : Account}
    {w w1 : World} {p : PanicValue} (h : SetAccount env ctx a acc w = .panic p w1) :
    w1.store = w.store := by
  unfold SetAccount at h
  rcases andThen_panic h with h1 | ⟨_, w2, h1, h2⟩
  · exact ConsumeGas_panic_store h1
  · have e1 := ConsumeGas_ret_store h1
    rcases andThen_panic h2 with h3 | ⟨_, w3, _, h4⟩
    · exact (ConsumeGas_panic_store h3).trans e1
    · cases h4

theorem GetSignerAcc_ret {env : Env} {ctx : Context} {a : Address} {w w1 : World}
    {v : Except Error Account} (h : GetSignerAcc env ctx a w = .ret v w1) :
    w1.store = w.store ∧
      ((∃ acc, v = .ok acc ∧ w.store.accounts a = some acc) ∨
        (v = .error (.unknownAddress a) ∧ w.store.accounts a = none)) := by
  unfold GetSignerAcc at h
  obtain ⟨o, w2, h1, h2⟩ := andThen_ret h
  obtain ⟨e1, e2⟩ := GetAccount_ret h1
  cases o with
  | none =>
    simp only [Res.ret.injEq] at h2
    obtain ⟨hv, hw⟩ := h2
    subst hw
    exact ⟨e1, Or.inr ⟨hv.symm, e2.symm⟩⟩
  | some acc =>
    simp only [Res.ret.injEq] at h2
    obtain ⟨hv, hw⟩ := h2
    subst hw
    exact ⟨e1, Or.inl ⟨acc, hv.symm, e2.symm⟩⟩

theorem GetSignerAcc_panic {env : Env} {ctx : Context} {a : Address} {w w1 : World}
    {p : PanicValue} (h : GetSignerAcc env ctx a w = .panic p w1) : w1.store = w.store := by
  unfold GetSignerAcc at h
  rcases andThen_panic h with h1 | ⟨o, w2, _, h2⟩
  · exact GetAccount_panic h1
  · cases o <;> cases h2

theorem DeductFees_ret {env : Env} {ctx : Context} {a : Address} {fee : Nat} {w w1 : World}
    {v : Option Error} (h : DeductFees env ctx a fee w = .ret v w1) :
    (v = none ∧ fee ≤ w.store.balances a ∧ w1.store = w.store.sendToFeeCollector a fee) ∨
      (v = some (.feeInsufficientFunds (w.store.balances a) fee) ∧ w1.store = w.store) := by
  unfold DeductFees at h
  obtain ⟨_, w2, h1, h2⟩ := andThen_ret h
  have e1 := ConsumeGas_ret_store h1
  by_cases hb : w2.store.balances a < fee
  · rw [if_pos hb] at h2
    simp only [Res.ret.injEq] at h2
    obtain ⟨hv, hw⟩ := h2
    subst hw
    exact Or.inr ⟨by rw [← hv, e1], e1⟩
  · rw [if_neg hb] at h2
    simp only [Res.ret.injEq] at h2
    obtain ⟨hv, hw⟩ := h2
    subst hw
    rw [e1] at hb
    exact Or.inl ⟨hv.symm, Nat.le_of_not_lt hb, by simp only [e1]⟩

theorem DeductFees_panic {env : Env} {ctx : Context} {a : Address} {fee : Nat}
    {w w1 : World} {p : PanicValue} (h : DeductFees env ctx a fee w = .panic p w1) :
    w1.store = w.store := by
  unfold DeductFees at h
  rcases andThen_panic h with h1 | ⟨_, w2, _, h2⟩
  · exact ConsumeGas_panic_store h1
  · by_cases hb : w2.store.balances a < fee
    · rw [if_pos hb] at h2; cases h2
    · rw [if_neg hb] at h2; cases h2

theorem sendToFeeCollector_zero (s : Store) (a : Address) : s.sendToFeeCollector a 0 = s := by
  cases s
  simp [Store.sendToFeeCollector]

/-! ## The decorators one by one: stop by itself, or hand over to `next` -/

theorem EthMempoolFee_cases (env : Env) (ctx : Context) (tx : Tx) (sim : Bool) (w : World) :
    (∃ r : Res AnteResult, r.verdict ≠ .admitted ∧ r.world = w ∧
        ∀ next, EthMempoolFeeDecorator.AnteHandle env ctx tx sim next w = r) ∨
      (∀ next, EthMempoolFeeDecorator.AnteHandle env ctx tx sim next w =
        next ctx tx sim w) := by
  unfold EthMempoolFeeDecorator.AnteHandle
  by_cases hc : ctx.checkTx = true
  · simp only [hc, Bool.not_true, Bool.false_eq_true, if_false]
    cases hm : tx.asMsgEthereumTx with
    | none =>
      refine Or.inl ⟨_, ?_, ?_, fun _ => rfl⟩ <;> simp [Res.verdict, Res.world]
    | some msg =>
      simp only
      by_cases hneg : bigInt64 msg.Fee < 0
      · simp only [hneg, if_true]
        refine Or.inl ⟨_, ?_, ?_, fun _ => rfl⟩ <;> simp [Res.verdict, Res.world]
      · simp only [hneg, if_false]
        cases hl : allGTELoop { Denom := env.DenomDefault, Amount := bigInt64 msg.Fee * 10 ^ 18 }
            ctx.minGasPrices true with
        | error p =>
          refine Or.inl ⟨_, ?_, ?_, fun _ => rfl⟩ <;> simp [Res.verdict, Res.world]
        | ok allGTE =>
          simp only
          by_cases hz : (!DecCoinsIsZero ctx.minGasPrices && !allGTE) = true
          · simp only [hz, if_true]
            refine Or.inl ⟨_, ?_, ?_, fun _ => rfl⟩ <;> simp [Res.verdict, Res.world]
          · simp only [hz, if_false]
            exact Or.inr fun _ => by simp
  · simp only [Bool.not_eq_true] at hc
    simp only [hc, Bool.not_false, if_true]
    exact Or.inr fun _ => trivial

theorem EthSigVerification_cases (env : Env) (ctx : Context) (tx : Tx) (sim : Bool)
    (w : World) :
    (∃ r : Res AnteResult, r.verdict ≠ .admitted ∧ r.world = w ∧
        ∀ next, EthSigVerificationDecorator.AnteHandle env ctx tx sim next w = r) ∨
      (∃ msg chainID a, tx = .ethereum msg ∧ SetString10 ctx.chainID = some chainID ∧
        env.recoverSender msg.Data chainID = some a ∧
        ∀ next, EthSigVerificationDecorator.AnteHandle env ctx tx sim next w =
          next ctx (.ethereum { msg with sender := some a }) sim w) := by
  unfold EthSigVerificationDecorator.AnteHandle
  cases tx with
  | gasTx g =>
    refine Or.inl ⟨_, ?_, ?_, fun _ => rfl⟩ <;> simp [Res.verdict, Res.world, Tx.asMsgEthereumTx]
  | plain =>
    refine Or.inl ⟨_, ?_, ?_, fun _ => rfl⟩ <;> simp [Res.verdict, Res.world, Tx.asMsgEthereumTx]
  | ethereum msg =>
    simp only [Tx.asMsgEthereumTx]
    cases hs : SetString10 ctx.chainID with
    | none => refine Or.inl ⟨_, ?_, ?_, fun _ => rfl⟩ <;> simp [Res.verdict, Res.world]
    | some chainID =>
      simp only [VerifySig]
      cases hr : env.recoverSender msg.Data chainID with
      | none => refine Or.inl ⟨_, ?_, ?_, fun _ => rfl⟩ <;> simp [Res.verdict, Res.world]
      | some a => exact Or.inr ⟨msg, chainID, a, rfl, rfl, hr, fun _ => rfl⟩

theorem AccountVerification_cases (env : Env) (ctx : Context) (tx : Tx) (sim : Bool)
    (w : World) :
    (∃ r : Res AnteResult, r.verdict ≠ .admitted ∧ r.world.store = w.store ∧
        ∀ next, AccountVerificationDecorator.AnteHandle env ctx tx sim next w = r) ∨
      (∃ w1, w1.store = w.store ∧
        (∀ next, AccountVerificationDecorator.AnteHandle env ctx tx sim next w =
          next ctx tx sim w1) ∧
        (ctx.checkTx = true → ∃ msg a acc, tx = .ethereum msg ∧ msg.sender = some a ∧
          w.store.accounts a = some acc ∧ msg.Cost ≤ w.store.balances a ∧
          (ctx.blockHeight = 0 → acc.accountNumber = 0))) := by
  unfold AccountVerificationDecorator.AnteHandle
  by_cases hc : ctx.checkTx = true
  swap
  · simp only [Bool.not_eq_true] at hc
    simp only [hc, Bool.not_false, if_true]
    exact Or.inr ⟨w, rfl, fun _ => rfl, by simp⟩
  simp only [hc, Bool.not_true, Bool.false_eq_true, if_false]
  cases tx with
  | gasTx g =>
    refine Or.inl ⟨_, ?_, ?_, fun _ => rfl⟩ <;> simp [Res.verdict, Res.world, Tx.asMsgEthereumTx]
  | plain =>
    refine Or.inl ⟨_, ?_, ?_, fun _ => rfl⟩ <;> simp [Res.verdict, Res.world, Tx.asMsgEthereumTx]
  | ethereum msg =>
    simp only [Tx.asMsgEthereumTx, MsgEthereumTx.From]
    cases hs : msg.sender with
    | none => refine Or.inl ⟨_, ?_, ?_, fun _ => rfl⟩ <;> simp [Res.verdict, Res.world]
    | some a =>
      simp only
      cases hg : GetAccount env ctx a w with
      | panic p w1 =>
        refine Or.inl ⟨_, ?_, ?_, fun _ => rfl⟩
        · simp [Res.verdict]
        · exact GetAccount_panic hg
      | ret o w1 =>
        obtain ⟨e1, e2⟩ := GetAccount_ret hg
        cases o with
        | none =>
          refine Or.inl ⟨_, ?_, ?_, fun _ => rfl⟩
          · simp [Res.verdict]
          · exact e1
        | some acc =>
          simp only
          by_cases hh : (ctx.blockHeight == 0 && acc.accountNumber != 0) = true
          · simp only [hh, if_true]
            refine Or.inl ⟨_, ?_, ?_, fun _ => rfl⟩
            · simp [Res.verdict]
            · exact e1
          · simp only [hh, Bool.false_eq_true, if_false]
            cases hb : GetBalance env ctx a w1 with
            | panic p w2 =>
              refine Or.inl ⟨_, ?_, ?_, fun _ => rfl⟩
              · simp [Res.verdict]
              · exact (GetBalance_panic hb).trans e1
            | ret bal w2 =>
              obtain ⟨e3, e4⟩ := GetBalance_ret hb
              simp only
              by_cases hlt : bal < msg.Cost
              · simp only [hlt, if_true]
                refine Or.inl ⟨_, ?_, ?_, fun _ => rfl⟩
                · simp [Res.verdict]
                · exact e3.trans e1
              · simp only [hlt, if_false]
                refine Or.inr ⟨w2, e3.trans e1, fun _ => rfl, fun _ => ?_⟩
                refine ⟨msg, a, acc, rfl, hs, e2.symm, ?_, ?_⟩
                · rw [e4, e1] at hlt
                  exact Nat.le_of_not_lt hlt
                · intro h0
                  simp only [h0, beq_self_eq_true, Bool.true_and, bne_iff_ne, ne_eq,
                    Decidable.not_not] at hh
                  exact hh

theorem NonceVerification_cases (env : Env) (ctx : Context) (tx : Tx) (sim : Bool)
    (w : World) :
    (∃ r : Res AnteResult, r.verdict ≠ .admitted ∧ r.world.store = w.store ∧
        ∀ next, NonceVerificationDecorator.AnteHandle env ctx tx sim next w = r) ∨
      (∃ msg a acc w1, tx = .ethereum msg ∧ msg.sender = some a ∧
        w.store.accounts a = some acc ∧ msg.Data.AccountNonce = acc.sequence ∧
        w1.store = w.store ∧
        ∀ next, NonceVerificationDecorator.AnteHandle env ctx tx sim next w =
          next ctx tx sim w1) := by
  unfold NonceVerificationDecorator.AnteHandle
  cases tx with
  | gasTx g =>
    refine Or.inl ⟨_, ?_, ?_, fun _ => rfl⟩ <;> simp [Res.verdict, Res.world, Tx.asMsgEthereumTx]
  | plain =>
    refine Or.inl ⟨_, ?_, ?_, fun _ => rfl⟩ <;> simp [Res.verdict, Res.world, Tx.asMsgEthereumTx]
  | ethereum msg =>
    simp only [Tx.asMsgEthereumTx, MsgEthereumTx.From]
    cases hs : msg.sender with
    | none => refine Or.inl ⟨_, ?_, ?_, fun _ => rfl⟩ <;> simp [Res.verdict, Res.world]
    | some a =>
      simp only
      cases hg : GetAccount env ctx a w with
      | panic p w1 =>
        refine Or.inl ⟨_, ?_, ?_, fun _ => rfl⟩
        · simp [Res.verdict]
        · exact GetAccount_panic hg
      | ret o w1 =>
        obtain ⟨e1, e2⟩ := GetAccount_ret hg
        cases o with
        | none =>
          refine Or.inl ⟨_, ?_, ?_, fun _ => rfl⟩
          · simp [Res.verdict]
          · exact e1
        | some acc =>
          simp only
          by_cases hn : msg.Data.AccountNonce = acc.sequence
          · refine Or.inr ⟨msg, a, acc, w1, rfl, hs, e2.symm, hn, e1, fun _ => ?_⟩
            simp [hn]
          · refine Or.inl ⟨Res.ret (ctx, some (.invalidNonce msg.Data.AccountNonce
              acc.sequence)) w1, ?_, ?_, fun _ => ?_⟩
            · simp [Res.verdict]
            · exact e1
            · simp [hn]

theorem SetGasMeter_fst (sim : Bool) (ctx : Context) (gasLimit : Nat) (w : World) :
    (SetGasMeter sim ctx gasLimit w).1 = ctx.WithGasMeter (some w.meters.length) := by
  unfold SetGasMeter
  split <;> rfl

theorem SetGasMeter_store (sim : Bool) (ctx : Context) (gasLimit : Nat) (w : World) :
    (SetGasMeter sim ctx gasLimit w).2.store = w.store := by
  unfold SetGasMeter
  split <;> rfl

theorem chargeSender_ret {env : Env} {ctx : Context} {a : Address} {msg : MsgEthereumTx}
    {gasLimit : Nat} {w w1 : World} {v : Option Error}
    (h : EthGasConsumeDecorator.chargeSender env ctx a msg gasLimit w = .ret v w1) :
    (v = none ∧ msg.Data.Price * gasLimit ≤ w.store.balances a ∧
        w1.store = w.store.sendToFeeCollector a (msg.Data.Price * gasLimit)) ∨
      (v ≠ none ∧ w1.store = w.store) := by
  unfold EthGasConsumeDecorator.chargeSender at h
  by_cases h0 : gasLimit = 0
  · subst h0
    simp only [bne_self_eq_false, Bool.false_eq_true, if_false, Res.ret.injEq] at h
    obtain ⟨hv, hw⟩ := h
    subst hw
    exact Or.inl ⟨hv.symm, by simp, by simp [sendToFeeCollector_zero]⟩
  · have hne : (gasLimit != 0) = true := by simp [h0]
    simp only [hne, if_true] at h
    by_cases hbig : msg.Data.Price * gasLimit ≥ 2 ^ 255
    · simp only [hbig, if_true] at h
      cases h
    · simp only [hbig, if_false] at h
      rcases DeductFees_ret h with ⟨hv, hle, hs⟩ | ⟨hv, hs⟩
      · exact Or.inl ⟨hv, hle, hs⟩
      · exact Or.inr ⟨by simp [hv], hs⟩

theorem chargeSender_panic {env : Env} {ctx : Context} {a : Address} {msg : MsgEthereumTx}
    {gasLimit : Nat} {w w1 : World} {p : PanicValue}
    (h : EthGasConsumeDecorator.chargeSender env ctx a msg gasLimit w = .panic p w1) :
    w1.store = w.store := by
  unfold EthGasConsumeDecorator.chargeSender at h
  by_cases h0 : gasLimit = 0
  · subst h0
    simp only [bne_self_eq_false, Bool.false_eq_true, if_false] at h
    cases h
  · have hne : (gasLimit != 0) = true := by simp [h0]
    simp only [hne, if_true] at h
    by_cases hbig : msg.Data.Price * gasLimit ≥ 2 ^ 255
    · simp only [hbig, if_true, Res.panic.injEq] at h
      rw [h.2]
    · simp only [hbig, if_false] at h
      exact DeductFees_panic h

theorem EthGasConsume_cases (env : Env) (ctx : Context) (tx : Tx) (sim : Bool) (w : World) :
    (∃ r : Res AnteResult, r.verdict ≠ .admitted ∧
        (∀ e, r.verdict = .rejected e → r.world.store = w.store) ∧
        ∀ next, EthGasConsumeDecorator.AnteHandle env ctx tx sim next w = r) ∨
      (∃ msg a acc gas newCtx w1, tx = .ethereum msg ∧ msg.sender = some a ∧
        w.store.accounts a = some acc ∧
        IntrinsicGas msg.Data.Payload (msg.To == none) true = some gas ∧
        (ctx.checkTx = true → gas ≤ msg.Data.GasLimit) ∧
        msg.Data.Price * msg.Data.GasLimit ≤ w.store.balances a ∧
        w1.store = w.store.sendToFeeCollector a (msg.Data.Price * msg.Data.GasLimit) ∧
        newCtx.checkTx = ctx.checkTx ∧ newCtx.recheckTx = ctx.recheckTx ∧
        ∀ next, EthGasConsumeDecorator.AnteHandle env ctx tx sim next w =
          next newCtx tx sim w1) := by
  unfold EthGasConsumeDecorator.AnteHandle
  cases tx with
  | gasTx g =>
    refine Or.inl ⟨_, ?_, ?_, fun _ => rfl⟩ <;> simp [Res.verdict, Res.world, Tx.asMsgEthereumTx]
  | plain =>
    refine Or.inl ⟨_, ?_, ?_, fun _ => rfl⟩ <;> simp [Res.verdict, Res.world, Tx.asMsgEthereumTx]
  | ethereum msg =>
    simp only [Tx.asMsgEthereumTx, MsgEthereumTx.From, MsgEthereumTx.GetGas]
    cases hs : msg.sender with
    | none => refine Or.inl ⟨_, ?_, ?_, fun _ => rfl⟩ <;> simp [Res.verdict, Res.world]
    | some a =>
      simp only
      cases hg : GetSignerAcc env ctx a w with
      | panic p w1 =>
        refine Or.inl ⟨_, ?_, ?_, fun _ => rfl⟩ <;> simp [Res.verdict]
      | ret o w1 =>
        obtain ⟨e1, e2⟩ := GetSignerAcc_ret hg
        cases o with
        | error err =>
          refine Or.inl ⟨_, ?_, ?_, fun _ => rfl⟩
          · simp [Res.verdict]
          · intro _ _; exact e1
        | ok acc0 =>
          have hacc : w.store.accounts a = some acc0 := by
            rcases e2 with ⟨acc, h1, h2⟩ | ⟨h1, _⟩
            · cases h1; exact h2
            · cases h1
          simp only
          cases hi : IntrinsicGas msg.Data.Payload (msg.To == none) true with
          | none =>
            refine Or.inl ⟨_, ?_, ?_, fun _ => rfl⟩
            · simp [Res.verdict]
            · intro _ _; exact e1
          | some gas =>
            simp only
            by_cases hlow : (ctx.checkTx && decide (msg.Data.GasLimit < gas)) = true
            · simp only [hlow, if_true]
              refine Or.inl ⟨_, ?_, ?_, fun _ => rfl⟩
              · simp [Res.verdict]
              · intro _ _; exact e1
            · simp only [hlow, Bool.false_eq_true, if_false]
              cases hch : EthGasConsumeDecorator.chargeSender env ctx a msg
                  msg.Data.GasLimit w1 with
              | panic p w2 =>
                refine Or.inl ⟨_, ?_, ?_, fun _ => rfl⟩ <;> simp [Res.verdict]
              | ret v w2 =>
                rcases chargeSender_ret hch with ⟨hv, hle, hst⟩ | ⟨hv, hst⟩
                · subst hv
                  simp only
                  cases hcg : ConsumeGas (SetGasMeter sim ctx msg.Data.GasLimit w2).1.gasMeter gas
                      "eth intrinsic gas" (SetGasMeter sim ctx msg.Data.GasLimit w2).2 with
                  | panic p w3 =>
                    refine Or.inl ⟨_, ?_, ?_, fun _ => rfl⟩ <;> simp [Res.verdict]
                  | ret u w3 =>
                    have e3 := ConsumeGas_ret_store hcg
                    rw [SetGasMeter_store] at e3
                    refine Or.inr ⟨msg, a, acc0, gas, (SetGasMeter sim ctx msg.Data.GasLimit w2).1,
                      w3, rfl, hs, hacc, hi, ?_, ?_, ?_, ?_, ?_, fun _ => rfl⟩
                    · intro hck
                      simp only [hck, Bool.true_and, decide_eq_true_eq, not_lt] at hlow
                      exact hlow
                    · rw [e1] at hle; exact hle
                    · rw [e3, hst, e1]
                    · rw [SetGasMeter_fst]; rfl
                    · rw [SetGasMeter_fst]; rfl
                · cases v with
                  | none => exact absurd rfl hv
                  | some err =>
                    refine Or.inl ⟨_, ?_, ?_, fun _ => rfl⟩
                    · simp [Res.verdict]
                    · intro _ _; exact hst.trans e1

theorem IncrementSenderSequence_cases (env : Env) (ctx : Context) (tx : Tx) (sim : Bool)
    (w : World) :
    (ctx.recheckTx = true ∧ sim = false ∧
        ∀ next, IncrementSenderSequenceDecorator.AnteHandle env ctx tx sim next w =
          next ctx tx sim w) ∨
      (¬ (ctx.recheckTx = true ∧ sim = false) ∧
        ((∃ r : Res AnteResult, r.verdict ≠ .admitted ∧ r.world.store = w.store ∧
          ∀ next, IncrementSenderSequenceDecorator.AnteHandle env ctx tx sim next w = r) ∨
        (∃ msg a acc w1, tx = .ethereum msg ∧ msg.sender = some a ∧
          w.store.accounts a = some acc ∧ w1.store = w.store.incrementSequence a acc ∧
          ∀ next, IncrementSenderSequenceDecorator.AnteHandle env ctx tx sim next w =
            next ctx tx sim w1))) := by
  unfold IncrementSenderSequenceDecorator.AnteHandle
  by_cases hskip : (ctx.recheckTx && !sim) = true
  · simp only [hskip, if_true]
    simp only [Bool.and_eq_true, Bool.not_eq_eq_eq_not, Bool.not_true] at hskip
    exact Or.inl ⟨hskip.1, hskip.2, by simp⟩
  simp only [hskip, Bool.false_eq_true, if_false]
  refine Or.inr ⟨?_, ?_⟩
  · intro hc
    simp [hc.1, hc.2] at hskip
  cases tx with
  | gasTx g =>
    refine Or.inl ⟨_, ?_, ?_, fun _ => rfl⟩ <;>
      simp [Res.verdict, Res.world, Tx.asMsgEthereumTx, NewInfiniteGasMeter, newMeter]
  | plain =>
    refine Or.inl ⟨_, ?_, ?_, fun _ => rfl⟩ <;>
      simp [Res.verdict, Res.world, Tx.asMsgEthereumTx, NewInfiniteGasMeter, newMeter]
  | ethereum msg =>
    simp only [Tx.asMsgEthereumTx, MsgEthereumTx.GetSigners, MsgEthereumTx.From]
    cases hs : msg.sender with
    | none =>
      refine Or.inl ⟨_, ?_, ?_, fun _ => rfl⟩ <;>
        simp [Res.verdict, Res.world, NewInfiniteGasMeter, newMeter]
    | some a =>
      simp only [IncrementSenderSequenceDecorator.incrementSequences]
      have hm : (NewInfiniteGasMeter w).2.store = w.store := rfl
      cases hg : GetAccount env (ctx.WithBlockGasMeter (NewInfiniteGasMeter w).1) a
          (NewInfiniteGasMeter w).2 with
      | panic p w1 =>
        refine Or.inl ⟨_, ?_, ?_, fun _ => rfl⟩
        · simp [Res.verdict]
        · exact (GetAccount_panic hg).trans hm
      | ret o w1 =>
        obtain ⟨e1, e2⟩ := GetAccount_ret hg
        cases o with
        | none =>
          refine Or.inl ⟨_, ?_, ?_, fun _ => rfl⟩
          · simp [Res.verdict]
          · exact e1.trans hm
        | some acc =>
          simp only
          cases hset : SetAccount env (ctx.WithBlockGasMeter (NewInfiniteGasMeter w).1) a
              { acc with sequence := (acc.sequence + 1) % 2 ^ 64 } w1 with
          | panic p w2 =>
            refine Or.inl ⟨_, ?_, ?_, fun _ => rfl⟩
            · simp [Res.verdict]
            · exact ((SetAccount_panic hset).trans e1).trans hm
          | ret u w2 =>
            obtain ⟨b1, b2, b3⟩ := SetAccount_ret hset
            refine Or.inr ⟨msg, a, acc, w2, rfl, hs, ?_, ?_, fun _ => rfl⟩
            · rw [e2, hm]
            · have hw1 : w1.store = w.store := e1.trans hm
              rw [hw1] at b1 b2 b3
              cases hst : w2.store with
              | mk accs bals fc =>
                rw [hst] at b1 b2 b3
                simp only at b1 b2 b3
                simp only [Store.incrementSequence, b1, b2, b3]

theorem deferred_admitted {ctx c : Context} {gas : Nat} {r : Res AnteResult} {w1 : World}
    (h : EthSetupContextDecorator.deferred ctx gas r = .ret (c, none) w1) :
    r = .ret (c, none) w1 := by
  unfold EthSetupContextDecorator.deferred at h
  split at h
  · exact h
  · split at h
    · cases h
    · cases h
  · cases h

theorem deferred_not_admitted {ctx : Context} {gas : Nat} {r : Res AnteResult}
    (h : r.verdict ≠ .admitted) :
    (EthSetupContextDecorator.deferred ctx gas r).verdict ≠ .admitted := by
  intro hv
  cases hd : EthSetupContextDecorator.deferred ctx gas r with
  | panic p w1 => rw [hd] at hv; simp [Res.verdict] at hv
  | ret x w1 =>
    obtain ⟨c, e⟩ := x
    cases e with
    | some e => rw [hd] at hv; simp [Res.verdict] at hv
    | none =>
      rw [deferred_admitted hd] at h
      exact h rfl

/-! ## The whole chain -/

/-- What an admission by the whole chain tells: the transaction is an Ethereum message
whose signature recovers to a sender `a` with an account `acc`, every check of the
stages that ran has passed, and the store afterwards is the store before with the fee
moved to the fee collector and, unless the increment was skipped, the sequence of `a`
incremented. -/
theorem ethAnteHandler_admitted {env : Env} {ctx c : Context} {tx : Tx} {sim : Bool}
    {w w1 : World} (h : ethAnteHandler env ctx tx sim w = .ret (c, none) w1) :
    ∃ msg chainID a acc gas, tx = .ethereum msg ∧
      SetString10 ctx.chainID = some chainID ∧
      env.recoverSender msg.Data chainID = some a ∧
      w.store.accounts a = some acc ∧
      msg.Data.AccountNonce = acc.sequence ∧
      IntrinsicGas msg.Data.Payload (msg.To == none) true = some gas ∧
      msg.Data.Price * msg.Data.GasLimit ≤ w.store.balances a ∧
      (ctx.checkTx = true → gas ≤ msg.Data.GasLimit ∧
        msg.Data.GasLimit * msg.Data.Price + msg.Data.Amount ≤ w.store.balances a ∧
        (ctx.blockHeight = 0 → acc.accountNumber = 0)) ∧
      w1.store =
        if ctx.recheckTx = true ∧ sim = false then
          w.store.sendToFeeCollector a (msg.Data.Price * msg.Data.GasLimit)
        else
          (w.store.sendToFeeCollector a (msg.Data.Price * msg.Data.GasLimit)).incrementSequence
            a acc := by
  unfold ethAnteHandler at h
  simp only [ChainAnteDecorators, EthSetupContextDecorator.AnteHandle] at h
  cases hg : tx.asGasTx with
  | none => rw [hg] at h; cases h
  | some g =>
    rw [hg] at h
    simp only at h
    replace h := deferred_admitted h
    -- the mempool fee check
    rcases EthMempoolFee_cases env (ctx.WithBlockGasMeter (NewInfiniteGasMeter w).1) tx sim
        (NewInfiniteGasMeter w).2 with ⟨r, hv, _, hall⟩ | hall
    · rw [hall] at h; rw [h] at hv; exact absurd rfl hv
    rw [hall] at h
    -- the signature check
    rcases EthSigVerification_cases env (ctx.WithBlockGasMeter (NewInfiniteGasMeter w).1) tx sim
        (NewInfiniteGasMeter w).2 with ⟨r, hv, _, hall⟩ | ⟨msg, chainID, a, htx, hchain, hrec, hall⟩
    · rw [hall] at h; rw [h] at hv; exact absurd rfl hv
    rw [hall] at h
    -- the account check
    rcases AccountVerification_cases env (ctx.WithBlockGasMeter (NewInfiniteGasMeter w).1)
        (.ethereum { msg with sender := some a }) sim (NewInfiniteGasMeter w).2 with
      ⟨r, hv, _, hall⟩ | ⟨w2, hw2, hall, hacct⟩
    · rw [hall] at h; rw [h] at hv; exact absurd rfl hv
    rw [hall] at h
    -- the nonce check
    rcases NonceVerification_cases env (ctx.WithBlockGasMeter (NewInfiniteGasMeter w).1)
        (.ethereum { msg with sender := some a }) sim w2 with
      ⟨r, hv, _, hall⟩ | ⟨msg3, a3, acc, w3, htx3, hs3, hacc3, hnonce, hw3, hall⟩
    · rw [hall] at h; rw [h] at hv; exact absurd rfl hv
    rw [hall] at h
    cases htx3
    cases hs3
    -- the gas stage
    rcases EthGasConsume_cases env (ctx.WithBlockGasMeter (NewInfiniteGasMeter w).1)
        (.ethereum { msg with sender := some a }) sim w3 with
      ⟨r, hv, _, hall⟩ |
      ⟨msg4, a4, acc4, gas, newCtx, w4, htx4, hs4, hacc4, hgas, hlow, hfee, hw4, hck, hrk, hall⟩
    · rw [hall] at h; rw [h] at hv; exact absurd rfl hv
    rw [hall] at h
    cases htx4
    cases hs4
    have hst3 : w3.store = w.store := (hw3.trans hw2)
    rw [hst3] at hfee hw4
    rw [hw2] at hacc3
    change w.store.accounts a = some acc at hacc3
    refine ⟨msg, chainID, a, acc, gas, htx, hchain, hrec, hacc3, hnonce, hgas, hfee, ?_, ?_⟩
    · intro hcheck
      obtain ⟨m5, a5, acc5, htx5, hs5, hacc5, hcost, hnum⟩ := hacct hcheck
      cases htx5
      cases hs5
      change w.store.accounts a = some acc5 at hacc5
      rw [hacc3] at hacc5
      cases hacc5
      exact ⟨hlow hcheck, hcost, hnum⟩
    · -- the sequence increment
      rcases IncrementSenderSequence_cases env newCtx (.ethereum { msg with sender := some a })
          sim w4 with ⟨hre, hsim, hall⟩ | ⟨hns, ⟨r, hv, _, hall⟩ |
          ⟨msg6, a6, acc6, w6, htx6, hs6, hacc6, hw6, hall⟩⟩
      · rw [hall] at h
        simp only [ChainAnteDecorators, Terminator, Res.ret.injEq, Prod.mk.injEq, and_true] at h
        rw [hrk] at hre
        have hre1 : ctx.recheckTx = true := hre
        rw [if_pos ⟨hre1, hsim⟩, ← h.2, hw4]
      · rw [hall] at h; rw [h] at hv; exact absurd rfl hv
      · rw [hall] at h
        simp only [ChainAnteDecorators, Terminator, Res.ret.injEq, Prod.mk.injEq, and_true] at h
        cases htx6
        cases hs6
        rw [hw4] at hacc6
        change w.store.accounts a = some acc6 at hacc6
        rw [hacc3] at hacc6
        cases hacc6
        rw [hrk] at hns
        have hns1 : ¬ (ctx.recheckTx = true ∧ sim = false) := hns
        rw [if_neg hns1, ← h.2, hw6, hw4]

/-! ## C1: a rejection in CheckTx mode that leaves the fee deducted -/

/-- C1, at the failing input.  In CheckTx mode at height 1, `alice` (balance 100000,
sequence 0) sends a plain transfer with gas limit 21000 and gas price 1.  The gas stage
deducts the fee 21000 and installs a meter limited to 21000, which the intrinsic gas
uses up; the sequence stage then reads the account under a context whose block gas meter
was replaced but whose transaction gas meter is still that finite meter, the read runs
out of gas, and the chain returns the out-of-gas error.  After this rejection the
balance of `alice` is 79000, not 100000, and the fee collector holds 21000. -/
theorem C1_checkTx_rejection_keeps_fee :
    (ethAnteHandler Scenario.env (Scenario.ctx true) (Scenario.tx 0 21000 1 10) false
        (Scenario.world 100000 0)).verdict = .rejected (.outOfGas "ReadFlat" 21000 4744) ∧
      (Scenario.world 100000 0).balance Scenario.alice = 100000 ∧
      (ethAnteHandler Scenario.env (Scenario.ctx true) (Scenario.tx 0 21000 1 10) false
        (Scenario.world 100000 0)).world.balance Scenario.alice = 79000 ∧
      (ethAnteHandler Scenario.env (Scenario.ctx true) (Scenario.tx 0 21000 1 10) false
        (Scenario.world 100000 0)).world.store.feeCollector = 21000 := by
  simp [ethAnteHandler, ChainAnteDecorators, Terminator, EthSetupContextDecorator.AnteHandle,
    EthSetupContextDecorator.deferred, EthMempoolFeeDecorator.AnteHandle,
    EthSigVerificationDecorator.AnteHandle, AccountVerificationDecorator.AnteHandle,
    NonceVerificationDecorator.AnteHandle, EthGasConsumeDecorator.AnteHandle,
    EthGasConsumeDecorator.chargeSender, IncrementSenderSequenceDecorator.AnteHandle,
    IncrementSenderSequenceDecorator.incrementSequences, GetAccount, SetAccount, GetBalance,
    GetSignerAcc, DeductFees, SetGasMeter, ConsumeGas, Exec.andThen, GasMeter.ConsumeGas,
    addUint64Overflow, MaxUint64, NewInfiniteGasMeter, NewGasMeter, newMeter,
    Context.WithBlockGasMeter, Context.WithGasMeter, Tx.asGasTx, Tx.asMsgEthereumTx,
    MsgEthereumTx.From, MsgEthereumTx.To, MsgEthereumTx.GetGas, MsgEthereumTx.Fee,
    MsgEthereumTx.Cost, MsgEthereumTx.GetSigners, VerifySig, SetString10, parseDigits,
    digitValue, IntrinsicGas, bigInt64, allGTELoop, DecCoinsIsZero, Store.sendToFeeCollector,
    World.meter, GasMeter.GasConsumed, Res.verdict, Res.world, World.balance, KVGasConfig,
    Env.valueSize, TxGas, Context.zero, Scenario.env, Scenario.ctx, Scenario.tx,
    Scenario.msg, Scenario.world, Scenario.alice, Scenario.bob]

/-! ## C2: the nonce check -/

/-- C2.  For a message whose sender `address` is cached and whose account `acc` the
account keeper finds (the read leaves world `w1`, which has the store of `w`), in every
mode, for every value of `simulate` and whatever the balances: when the nonce of the
message differs from the sequence of the account, `NonceVerificationDecorator.AnteHandle`
returns the invalid-nonce error, an `ErrInvalidSequence`, whatever `next` is; when they
are equal it returns exactly `next(ctx, tx, simulate)`. -/
theorem C2_nonce_must_equal_sequence (env : Env) (ctx : Context) (msg : MsgEthereumTx)
    (simulate : Bool) (w w1 : World) (address : Address) (acc : Account)
    (hfrom : msg.From = some address)
    (hacc : GetAccount env ctx address w = .ret (some acc) w1) :
    w1.store = w.store ∧ w.store.accounts address = some acc ∧
      (msg.Data.AccountNonce ≠ acc.sequence →
        (∀ next, NonceVerificationDecorator.AnteHandle env ctx (.ethereum msg) simulate next w =
          .ret (ctx, some (.invalidNonce msg.Data.AccountNonce acc.sequence)) w1) ∧
        (Error.invalidNonce msg.Data.AccountNonce acc.sequence).code =
          .ErrInvalidSequence) ∧
      (msg.Data.AccountNonce = acc.sequence →
        ∀ next, NonceVerificationDecorator.AnteHandle env ctx (.ethereum msg) simulate next w =
          next ctx (.ethereum msg) simulate w1) := by
  obtain ⟨e1, e2⟩ := GetAccount_ret hacc
  refine ⟨e1, e2.symm, ?_, ?_⟩
  · intro hne
    refine ⟨fun next => ?_, rfl⟩
    unfold NonceVerificationDecorator.AnteHandle
    simp only [Tx.asMsgEthereumTx, hfrom, hacc]
    simp [hne]
  · intro heq next
    unfold NonceVerificationDecorator.AnteHandle
    simp only [Tx.asMsgEthereumTx, hfrom, hacc]
    simp [heq]

/-- C2, witness: in CheckTx mode `alice` has sequence 3 and the message has nonce 0. -/
theorem C2_nonce_must_equal_sequence_witness :
    (Scenario.msg 0 30000 1 10 (some Scenario.alice)).From = some Scenario.alice ∧
      NonceVerificationDecorator.AnteHandle Scenario.env (Scenario.ctx true)
        (.ethereum (Scenario.msg 0 30000 1 10 (some Scenario.alice))) false Terminator
        (Scenario.world 1000 3) =
          .ret (Scenario.ctx true, some (.invalidNonce 0 3))
            { store := (Scenario.world 1000 3).store,
              meters := [.infiniteGasMeter 1240, .infiniteGasMeter 0] } :=
  ⟨rfl,
    ((C2_nonce_must_equal_sequence Scenario.env (Scenario.ctx true)
      (Scenario.msg 0 30000 1 10 (some Scenario.alice)) false (Scenario.world 1000 3)
      { store := (Scenario.world 1000 3).store,
        meters := [.infiniteGasMeter 1240, .infiniteGasMeter 0] }
      Scenario.alice { accountNumber := 0, sequence := 3 } rfl rfl).2.2.1 (by decide)).1
      Terminator⟩

/-! ## Runs of the chain in the scenario -/

theorem verdict_admitted {r : Res AnteResult} (h : r.verdict = .admitted) :
    ∃ c, r = .ret (c, none) r.world := by
  cases r with
  | panic p w => simp [Res.verdict] at h
  | ret x w =>
    obtain ⟨c, e⟩ := x
    cases e with
    | some e => simp [Res.verdict] at h
    | none => exact ⟨c, rfl⟩

/-- Block execution of a transfer with gas limit 30000 by a sender who holds exactly the
fee: admitted. -/
theorem Scenario.deliverTx_run :
    (ethAnteHandler Scenario.env (Scenario.ctx false) (Scenario.tx 0 30000 1 10) false
      (Scenario.world 30000 0)).verdict = .admitted := by
  simp [ethAnteHandler, ChainAnteDecorators, Terminator, EthSetupContextDecorator.AnteHandle,
    EthSetupContextDecorator.deferred, EthMempoolFeeDecorator.AnteHandle,
    EthSigVerificationDecorator.AnteHandle, AccountVerificationDecorator.AnteHandle,
    NonceVerificationDecorator.AnteHandle, EthGasConsumeDecorator.AnteHandle,
    EthGasConsumeDecorator.chargeSender, IncrementSenderSequenceDecorator.AnteHandle,
    IncrementSenderSequenceDecorator.incrementSequences, GetAccount, SetAccount, GetBalance,
    GetSignerAcc, DeductFees, SetGasMeter, ConsumeGas, Exec.andThen, GasMeter.ConsumeGas,
    addUint64Overflow, MaxUint64, NewInfiniteGasMeter, NewGasMeter, newMeter,
    Context.WithBlockGasMeter, Context.WithGasMeter, Tx.asGasTx, Tx.asMsgEthereumTx,
    MsgEthereumTx.From, MsgEthereumTx.To, MsgEthereumTx.GetGas, MsgEthereumTx.Fee,
    MsgEthereumTx.Cost, MsgEthereumTx.GetSigners, VerifySig, SetString10, parseDigits,
    digitValue, IntrinsicGas, bigInt64, allGTELoop, DecCoinsIsZero, Store.sendToFeeCollector,
    World.meter, GasMeter.GasConsumed, Res.verdict, Res.world, World.balance, World.sequence,
    KVGasConfig, Env.valueSize, TxGas, Context.zero, Scenario.env, Scenario.ctx, Scenario.tx,
    Scenario.msg, Scenario.world, Scenario.alice, Scenario.bob]

/-- Mempool admission of a transfer with gas limit 30000 by a sender who holds 100000:
admitted. -/
theorem Scenario.checkTx_run :
    (ethAnteHandler Scenario.env (Scenario.ctx true) (Scenario.tx 0 30000 1 10) false
      (Scenario.world 100000 0)).verdict = .admitted := by
  simp [ethAnteHandler, ChainAnteDecorators, Terminator, EthSetupContextDecorator.AnteHandle,
    EthSetupContextDecorator.deferred, EthMempoolFeeDecorator.AnteHandle,
    EthSigVerificationDecorator.AnteHandle, AccountVerificationDecorator.AnteHandle,
    NonceVerificationDecorator.AnteHandle, EthGasConsumeDecorator.AnteHandle,
    EthGasConsumeDecorator.chargeSender, IncrementSenderSequenceDecorator.AnteHandle,
    IncrementSenderSequenceDecorator.incrementSequences, GetAccount, SetAccount, GetBalance,
    GetSignerAcc, DeductFees, SetGasMeter, ConsumeGas, Exec.andThen, GasMeter.ConsumeGas,
    addUint64Overflow, MaxUint64, NewInfiniteGasMeter, NewGasMeter, newMeter,
    Context.WithBlockGasMeter, Context.WithGasMeter, Tx.asGasTx, Tx.asMsgEthereumTx,
    MsgEthereumTx.From, MsgEthereumTx.To, MsgEthereumTx.GetGas, MsgEthereumTx.Fee,
    MsgEthereumTx.Cost, MsgEthereumTx.GetSigners, VerifySig, SetString10, parseDigits,
    digitValue, IntrinsicGas, bigInt64, allGTELoop, DecCoinsIsZero, Store.sendToFeeCollector,
    World.meter, GasMeter.GasConsumed, Res.verdict, Res.world, World.balance, World.sequence,
    KVGasConfig, Env.valueSize, TxGas, Context.zero, Scenario.env, Scenario.ctx, Scenario.tx,
    Scenario.msg, Scenario.world, Scenario.alice, Scenario.bob]

/-- The balance and sequence of `alice` after that mempool admission. -/
theorem Scenario.checkTx_run_world :
    (ethAnteHandler Scenario.env (Scenario.ctx true) (Scenario.tx 0 30000 1 10) false
        (Scenario.world 100000 0)).world.balance Scenario.alice = 70000 ∧
      (ethAnteHandler Scenario.env (Scenario.ctx true) (Scenario.tx 0 30000 1 10) false
        (Scenario.world 100000 0)).world.sequence Scenario.alice = some 1 := by
  simp [ethAnteHandler, ChainAnteDecorators, Terminator, EthSetupContextDecorator.AnteHandle,
    EthSetupContextDecorator.deferred, EthMempoolFeeDecorator.AnteHandle,
    EthSigVerificationDecorator.AnteHandle, AccountVerificationDecorator.AnteHandle,
    NonceVerificationDecorator.AnteHandle, EthGasConsumeDecorator.AnteHandle,
    EthGasConsumeDecorator.chargeSender, IncrementSenderSequenceDecorator.AnteHandle,
    IncrementSenderSequenceDecorator.incrementSequences, GetAccount, SetAccount, GetBalance,
    GetSignerAcc, DeductFees, SetGasMeter, ConsumeGas, Exec.andThen, GasMeter.ConsumeGas,
    addUint64Overflow, MaxUint64, NewInfiniteGasMeter, NewGasMeter, newMeter,
    Context.WithBlockGasMeter, Context.WithGasMeter, Tx.asGasTx, Tx.asMsgEthereumTx,
    MsgEthereumTx.From, MsgEthereumTx.To, MsgEthereumTx.GetGas, MsgEthereumTx.Fee,
    MsgEthereumTx.Cost, MsgEthereumTx.GetSigners, VerifySig, SetString10, parseDigits,
    digitValue, IntrinsicGas, bigInt64, allGTELoop, DecCoinsIsZero, Store.sendToFeeCollector,
    World.meter, GasMeter.GasConsumed, Res.verdict, Res.world, World.balance, World.sequence,
    KVGasConfig, Env.valueSize, TxGas, Context.zero, Scenario.env, Scenario.ctx, Scenario.tx,
    Scenario.msg, Scenario.world, Scenario.alice, Scenario.bob]

/-! ## C3: funds needed for an admission -/

/-- C3, counterexample.  In block execution (not CheckTx) the chain admits a transaction
with gas limit 30000, gas price 1 and value 10 from a sender whose balance is 30000,
less than `L × P + V = 30010`. -/
theorem C3_admitted_without_funds_for_value :
    (ethAnteHandler Scenario.env (Scenario.ctx false) (Scenario.tx 0 30000 1 10) false
        (Scenario.world 30000 0)).verdict = .admitted ∧
      ¬ ((Scenario.world 30000 0).balance Scenario.alice ≥ 30000 * 1 + 10) :=
  ⟨Scenario.deliverTx_run, by decide⟩

/-- C3, amended.  If the chain admits a transaction, then it is an Ethereum message
whose signature recovers to a sender `a`, and the balance `B` of `a` before the chain
satisfies `B ≥ L × P`; in CheckTx mode, where the account stage checks the balance,
it satisfies `B ≥ L × P + V`. -/
theorem C3_admission_needs_funds (env : Env) (ctx : Context) (tx : Tx) (simulate : Bool)
    (w : World) (hadm : (ethAnteHandler env ctx tx simulate w).verdict = .admitted) :
    ∃ msg chainID a, tx = .ethereum msg ∧ SetString10 ctx.chainID = some chainID ∧
      env.recoverSender msg.Data chainID = some a ∧
      w.balance a ≥ msg.Data.GasLimit * msg.Data.Price ∧
      (ctx.checkTx = true →
        w.balance a ≥ msg.Data.GasLimit * msg.Data.Price + msg.Data.Amount) := by
  obtain ⟨c, hr⟩ := verdict_admitted hadm
  obtain ⟨msg, chainID, a, acc, gas, htx, hchain, hrec, _, _, _, hfee, hcheck, _⟩ :=
    ethAnteHandler_admitted hr
  refine ⟨msg, chainID, a, htx, hchain, hrec, ?_, fun hc => (hcheck hc).2.1⟩
  rw [Nat.mul_comm]
  exact hfee

/-- C3, witness: the mempool admission of the scenario. -/
theorem C3_admission_needs_funds_witness :
    (ethAnteHandler Scenario.env (Scenario.ctx true) (Scenario.tx 0 30000 1 10) false
        (Scenario.world 100000 0)).verdict = .admitted ∧
      ∃ msg chainID a, Scenario.tx 0 30000 1 10 = .ethereum msg ∧
        SetString10 (Scenario.ctx true).chainID = some chainID ∧
        Scenario.env.recoverSender msg.Data chainID = some a ∧
        (Scenario.world 100000 0).balance a ≥ msg.Data.GasLimit * msg.Data.Price ∧
        ((Scenario.ctx true).checkTx = true →
          (Scenario.world 100000 0).balance a ≥
            msg.Data.GasLimit * msg.Data.Price + msg.Data.Amount) :=
  ⟨Scenario.checkTx_run,
    C3_admission_needs_funds Scenario.env (Scenario.ctx true) (Scenario.tx 0 30000 1 10) false
      (Scenario.world 100000 0) Scenario.checkTx_run⟩

/-! ## C4: the gas stage deducts the whole fee -/

/-- C4.  `EthGasConsumeDecorator.AnteHandle` either ends without calling `next` (its
outcome does not depend on `next` and is no admission), or hands over to `next` in a
world in which the balance of the sender is its balance before minus exactly
`gasPrice × gasLimit`, an amount the sender could pay; neither the intrinsic gas nor the
payload enters the amount.  Hence, when the whole chain admits a transaction, the
balance of the sender afterwards is `B − L × P`. -/
theorem C4_gas_stage_deducts_whole_fee (env : Env) (ctx : Context) (tx : Tx)
    (simulate : Bool) (w : World) :
    ((∃ r : Res AnteResult, r.verdict ≠ .admitted ∧
          ∀ next, EthGasConsumeDecorator.AnteHandle env ctx tx simulate next w = r) ∨
        (∃ msg a newCtx w1, tx = .ethereum msg ∧ msg.From = some a ∧
          (∀ next, EthGasConsumeDecorator.AnteHandle env ctx tx simulate next w =
            next newCtx tx simulate w1) ∧
          msg.Data.Price * msg.Data.GasLimit ≤ w.balance a ∧
          w1.balance a = w.balance a - msg.Data.Price * msg.Data.GasLimit)) ∧
      ((ethAnteHandler env ctx tx simulate w).verdict = .admitted →
        ∃ msg chainID a, tx = .ethereum msg ∧ SetString10 ctx.chainID = some chainID ∧
          env.recoverSender msg.Data chainID = some a ∧
          msg.Data.Price * msg.Data.GasLimit ≤ w.balance a ∧
          (ethAnteHandler env ctx tx simulate w).world.balance a =
            w.balance a - msg.Data.Price * msg.Data.GasLimit) := by
  constructor
  · rcases EthGasConsume_cases env ctx tx simulate w with ⟨r, hv, _, hall⟩ |
      ⟨msg, a, acc, gas, newCtx, w1, htx, hs, _, _, _, hfee, hw1, _, _, hall⟩
    · exact Or.inl ⟨r, hv, hall⟩
    · refine Or.inr ⟨msg, a, newCtx, w1, htx, hs, hall, hfee, ?_⟩
      simp [World.balance, hw1, Store.sendToFeeCollector]
  · intro hadm
    obtain ⟨c, hr⟩ := verdict_admitted hadm
    obtain ⟨msg, chainID, a, acc, gas, htx, hchain, hrec, _, _, _, hfee, _, hst⟩ :=
      ethAnteHandler_admitted hr
    refine ⟨msg, chainID, a, htx, hchain, hrec, hfee, ?_⟩
    unfold World.balance
    rw [hst]
    split <;> simp [Store.sendToFeeCollector, Store.incrementSequence]

/-- C4, witness: after the mempool admission of the scenario (gas limit 30000, gas
price 1, balance 100000) the balance of `alice` is `100000 − 30000`. -/
theorem C4_gas_stage_deducts_whole_fee_witness :
    (ethAnteHandler Scenario.env (Scenario.ctx true) (Scenario.tx 0 30000 1 10) false
        (Scenario.world 100000 0)).verdict = .admitted ∧
      ∃ msg chainID a, Scenario.tx 0 30000 1 10 = .ethereum msg ∧
        SetString10 (Scenario.ctx true).chainID = some chainID ∧
        Scenario.env.recoverSender msg.Data chainID = some a ∧
        msg.Data.Price * msg.Data.GasLimit ≤ (Scenario.world 100000 0).balance a ∧
        (ethAnteHandler Scenario.env (Scenario.ctx true) (Scenario.tx 0 30000 1 10) false
          (Scenario.world 100000 0)).world.balance a =
            (Scenario.world 100000 0).balance a - msg.Data.Price * msg.Data.GasLimit :=
  ⟨Scenario.checkTx_run,
    (C4_gas_stage_deducts_whole_fee Scenario.env (Scenario.ctx true)
      (Scenario.tx 0 30000 1 10) false (Scenario.world 100000 0)).2 Scenario.checkTx_run⟩

/-! ## C5: the sequence number after an admission -/

/-- Block execution of a transfer whose nonce is the largest `uint64`, by a sender
whose sequence is that number: admitted, and the sequence wraps to zero. -/
theorem Scenario.wrap_run :
    (ethAnteHandler Scenario.env (Scenario.ctx false)
        (Scenario.tx 18446744073709551615 30000 1 10) false
        (Scenario.world 30000 18446744073709551615)).verdict = .admitted ∧
      (ethAnteHandler Scenario.env (Scenario.ctx false)
        (Scenario.tx 18446744073709551615 30000 1 10) false
        (Scenario.world 30000 18446744073709551615)).world.sequence Scenario.alice =
          some 0 := by
  simp [ethAnteHandler, ChainAnteDecorators, Terminator, EthSetupContextDecorator.AnteHandle,
    EthSetupContextDecorator.deferred, EthMempoolFeeDecorator.AnteHandle,
    EthSigVerificationDecorator.AnteHandle, AccountVerificationDecorator.AnteHandle,
    NonceVerificationDecorator.AnteHandle, EthGasConsumeDecorator.AnteHandle,
    EthGasConsumeDecorator.chargeSender, IncrementSenderSequenceDecorator.AnteHandle,
    IncrementSenderSequenceDecorator.incrementSequences, GetAccount, SetAccount, GetBalance,
    GetSignerAcc, DeductFees, SetGasMeter, ConsumeGas, Exec.andThen, GasMeter.ConsumeGas,
    addUint64Overflow, MaxUint64, NewInfiniteGasMeter, NewGasMeter, newMeter,
    Context.WithBlockGasMeter, Context.WithGasMeter, Tx.asGasTx, Tx.asMsgEthereumTx,
    MsgEthereumTx.From, MsgEthereumTx.To, MsgEthereumTx.GetGas, MsgEthereumTx.Fee,
    MsgEthereumTx.Cost, MsgEthereumTx.GetSigners, VerifySig, SetString10, parseDigits,
    digitValue, IntrinsicGas, bigInt64, allGTELoop, DecCoinsIsZero, Store.sendToFeeCollector,
    World.meter, GasMeter.GasConsumed, Res.verdict, Res.world, World.balance, World.sequence,
    KVGasConfig, Env.valueSize, TxGas, Context.zero, Scenario.env, Scenario.ctx, Scenario.tx,
    Scenario.msg, Scenario.world, Scenario.alice, Scenario.bob]

/-- C5, counterexample.  Outside ReCheckTx the chain admits a transaction with nonce
`2 ^ 64 − 1` from a sender whose sequence is `2 ^ 64 − 1`; afterwards the sequence of
the sender is 0, not its sequence before plus 1. -/
theorem C5_sequence_wraps_at_max :
    (Scenario.ctx false).recheckTx = false ∧
      (ethAnteHandler Scenario.env (Scenario.ctx false)
        (Scenario.tx 18446744073709551615 30000 1 10) false
        (Scenario.world 30000 18446744073709551615)).verdict = .admitted ∧
      (Scenario.world 30000 18446744073709551615).sequence Scenario.alice =
        some 18446744073709551615 ∧
      (ethAnteHandler Scenario.env (Scenario.ctx false)
        (Scenario.tx 18446744073709551615 30000 1 10) false
        (Scenario.world 30000 18446744073709551615)).world.sequence Scenario.alice ≠
          some (18446744073709551615 + 1) := by
  refine ⟨rfl, Scenario.wrap_run.1, ?_, ?_⟩
  · simp [World.sequence, Scenario.world]
  · rw [Scenario.wrap_run.2]
    decide

/-- C5, amended.  For every transaction that the chain admits outside ReCheckTx, the
sender `a` had an account whose sequence `n` is the nonce of the transaction, and after
the chain the sequence of `a` is `(n + 1) mod 2 ^ 64`, which is `n + 1` unless `n` is
the largest `uint64`; the sequence of no other account changes. -/
theorem C5_sequence_advances_by_one_mod (env : Env) (ctx : Context) (tx : Tx)
    (simulate : Bool) (w : World) (hre : ctx.recheckTx = false)
    (hadm : (ethAnteHandler env ctx tx simulate w).verdict = .admitted) :
    ∃ msg chainID a n, tx = .ethereum msg ∧ SetString10 ctx.chainID = some chainID ∧
      env.recoverSender msg.Data chainID = some a ∧
      w.sequence a = some n ∧ msg.Data.AccountNonce = n ∧
      (ethAnteHandler env ctx tx simulate w).world.sequence a = some ((n + 1) % 2 ^ 64) ∧
      (n + 1 < 2 ^ 64 →
        (ethAnteHandler env ctx tx simulate w).world.sequence a = some (n + 1)) ∧
      ∀ b, b ≠ a → (ethAnteHandler env ctx tx simulate w).world.sequence b = w.sequence b := by
  obtain ⟨c, hr⟩ := verdict_admitted hadm
  obtain ⟨msg, chainID, a, acc, gas, htx, hchain, hrec, hacc, hnonce, _, _, _, hst⟩ :=
    ethAnteHandler_admitted hr
  have hns : ¬ (ctx.recheckTx = true ∧ simulate = false) := by simp [hre]
  rw [if_neg hns] at hst
  have hseq : (ethAnteHandler env ctx tx simulate w).world.sequence a =
      some ((acc.sequence + 1) % 2 ^ 64) := by
    simp [World.sequence, hst, Store.incrementSequence]
  refine ⟨msg, chainID, a, acc.sequence, htx, hchain, hrec, ?_, hnonce, hseq, ?_, ?_⟩
  · simp [World.sequence, hacc]
  · intro hlt
    rw [hseq, Nat.mod_eq_of_lt hlt]
  · intro b hb
    simp [World.sequence, hst, Store.incrementSequence, Store.sendToFeeCollector, hb]

/-- C5, witness: the mempool admission of the scenario takes the sequence of `alice`
from 0 to 1. -/
theorem C5_sequence_advances_by_one_mod_witness :
    (Scenario.ctx true).recheckTx = false ∧
      (ethAnteHandler Scenario.env (Scenario.ctx true) (Scenario.tx 0 30000 1 10) false
        (Scenario.world 100000 0)).verdict = .admitted ∧
      ∃ msg chainID a n, Scenario.tx 0 30000 1 10 = .ethereum msg ∧
        SetString10 (Scenario.ctx true).chainID = some chainID ∧
        Scenario.env.recoverSender msg.Data chainID = some a ∧
        (Scenario.world 100000 0).sequence a = some n ∧ msg.Data.AccountNonce = n ∧
        (ethAnteHandler Scenario.env (Scenario.ctx true) (Scenario.tx 0 30000 1 10) false
          (Scenario.world 100000 0)).world.sequence a = some ((n + 1) % 2 ^ 64) ∧
        (n + 1 < 2 ^ 64 →
          (ethAnteHandler Scenario.env (Scenario.ctx true) (Scenario.tx 0 30000 1 10) false
            (Scenario.world 100000 0)).world.sequence a = some (n + 1)) ∧
        ∀ b, b ≠ a →
          (ethAnteHandler Scenario.env (Scenario.ctx true) (Scenario.tx 0 30000 1 10) false
            (Scenario.world 100000 0)).world.sequence b = (Scenario.world 100000 0).sequence b :=
  ⟨rfl, Scenario.checkTx_run,
    C5_sequence_advances_by_one_mod Scenario.env (Scenario.ctx true)
      (Scenario.tx 0 30000 1 10) false (Scenario.world 100000 0) rfl Scenario.checkTx_run⟩

/-! ## C6: the scenario with gas limit 100 -/

/-- C6, counterexample.  In CheckTx mode the transaction {nonce 0, gasLimit 100,
gasPrice 1, value 10, recipient present, empty payload} of account A (balance 1000,
sequence 0) is not admitted: the gas stage rejects it because the gas limit 100 is
below the intrinsic gas 21000. -/
theorem C6_gas_limit_100_rejected_in_checkTx :
    (ethAnteHandler Scenario.env (Scenario.ctx true) (Scenario.tx 0 100 1 10) false
      (Scenario.world 1000 0)).verdict = .rejected (.intrinsicGasTooLow 100 21000) := by
  simp [ethAnteHandler, ChainAnteDecorators, Terminator, EthSetupContextDecorator.AnteHandle,
    EthSetupContextDecorator.deferred, EthMempoolFeeDecorator.AnteHandle,
    EthSigVerificationDecorator.AnteHandle, AccountVerificationDecorator.AnteHandle,
    NonceVerificationDecorator.AnteHandle, EthGasConsumeDecorator.AnteHandle,
    EthGasConsumeDecorator.chargeSender, IncrementSenderSequenceDecorator.AnteHandle,
    IncrementSenderSequenceDecorator.incrementSequences, GetAccount, SetAccount, GetBalance,
    GetSignerAcc, DeductFees, SetGasMeter, ConsumeGas, Exec.andThen, GasMeter.ConsumeGas,
    addUint64Overflow, MaxUint64, NewInfiniteGasMeter, NewGasMeter, newMeter,
    Context.WithBlockGasMeter, Context.WithGasMeter, Tx.asGasTx, Tx.asMsgEthereumTx,
    MsgEthereumTx.From, MsgEthereumTx.To, MsgEthereumTx.GetGas, MsgEthereumTx.Fee,
    MsgEthereumTx.Cost, MsgEthereumTx.GetSigners, VerifySig, SetString10, parseDigits,
    digitValue, IntrinsicGas, bigInt64, allGTELoop, DecCoinsIsZero, Store.sendToFeeCollector,
    World.meter, GasMeter.GasConsumed, Res.verdict, Res.world, World.balance, World.sequence,
    KVGasConfig, Env.valueSize, TxGas, Context.zero, Scenario.env, Scenario.ctx, Scenario.tx,
    Scenario.msg, Scenario.world, Scenario.alice, Scenario.bob]

/-- C6, amended.  For account A with balance 1000 and sequence 0, the transaction
{nonce 0, gasLimit 100, gasPrice 1, value 10, recipient present, empty payload} is
admitted when gas is not metered (a simulation outside CheckTx), after which the balance
of A is 900 and its sequence is 1; in CheckTx mode it is rejected and the balance and
sequence of A stay 1000 and 0. -/
theorem C6_gas_limit_100_scenario :
    ((ethAnteHandler Scenario.env (Scenario.ctx false) (Scenario.tx 0 100 1 10) true
        (Scenario.world 1000 0)).verdict = .admitted ∧
      (ethAnteHandler Scenario.env (Scenario.ctx false) (Scenario.tx 0 100 1 10) true
        (Scenario.world 1000 0)).world.balance Scenario.alice = 900 ∧
      (ethAnteHandler Scenario.env (Scenario.ctx false) (Scenario.tx 0 100 1 10) true
        (Scenario.world 1000 0)).world.sequence Scenario.alice = some 1) ∧
      ((ethAnteHandler Scenario.env (Scenario.ctx true) (Scenario.tx 0 100 1 10) false
        (Scenario.world 1000 0)).verdict = .rejected (.intrinsicGasTooLow 100 21000) ∧
      (ethAnteHandler Scenario.env (Scenario.ctx true) (Scenario.tx 0 100 1 10) false
        (Scenario.world 1000 0)).world.balance Scenario.alice = 1000 ∧
      (ethAnteHandler Scenario.env (Scenario.ctx true) (Scenario.tx 0 100 1 10) false
        (Scenario.world 1000 0)).world.sequence Scenario.alice = some 0) := by
  simp [ethAnteHandler, ChainAnteDecorators, Terminator, EthSetupContextDecorator.AnteHandle,
    EthSetupContextDecorator.deferred, EthMempoolFeeDecorator.AnteHandle,
    EthSigVerificationDecorator.AnteHandle, AccountVerificationDecorator.AnteHandle,
    NonceVerificationDecorator.AnteHandle, EthGasConsumeDecorator.AnteHandle,
    EthGasConsumeDecorator.chargeSender, IncrementSenderSequenceDecorator.AnteHandle,
    IncrementSenderSequenceDecorator.incrementSequences, GetAccount, SetAccount, GetBalance,
    GetSignerAcc, DeductFees, SetGasMeter, ConsumeGas, Exec.andThen, GasMeter.ConsumeGas,
    addUint64Overflow, MaxUint64, NewInfiniteGasMeter, NewGasMeter, newMeter,
    Context.WithBlockGasMeter, Context.WithGasMeter, Tx.asGasTx, Tx.asMsgEthereumTx,
    MsgEthereumTx.From, MsgEthereumTx.To, MsgEthereumTx.GetGas, MsgEthereumTx.Fee,
    MsgEthereumTx.Cost, MsgEthereumTx.GetSigners, VerifySig, SetString10, parseDigits,
    digitValue, IntrinsicGas, bigInt64, allGTELoop, DecCoinsIsZero, Store.sendToFeeCollector,
    World.meter, GasMeter.GasConsumed, Res.verdict, Res.world, World.balance, World.sequence,
    KVGasConfig, Env.valueSize, TxGas, Context.zero, Scenario.env, Scenario.ctx, Scenario.tx,
    Scenario.msg, Scenario.world, Scenario.alice, Scenario.bob]

/-! ## C7: replaying an admitted transaction -/

theorem ethAnteHandler_eq_chainWith (env : Env) :
    ethAnteHandler env =
      chainWith (ChainAnteDecorators
        [ NonceVerificationDecorator.AnteHandle env,
          EthGasConsumeDecorator.AnteHandle env,
          IncrementSenderSequenceDecorator.AnteHandle env ]) (stagesBeforeNonce env) := rfl

/-- The stages before the nonce stage hand over, if at all, with the sender cached on
the message and in a world that has the store they started from: two continuations that
agree on all such inputs give the same run. -/
theorem stagesBeforeNonce_congr (env : Env) (ctx : Context) (msg : MsgEthereumTx)
    (chainID : Int) (a : Address) (sim : Bool) (w : World) (k1 k2 : AnteHandler)
    (hchain : SetString10 ctx.chainID = some chainID)
    (hrec : env.recoverSender msg.Data chainID = some a)
    (hk : ∀ c w1, w1.store = w.store →
      k1 c (.ethereum { msg with sender := some a }) sim w1 =
        k2 c (.ethereum { msg with sender := some a }) sim w1) :
    chainWith k1 (stagesBeforeNonce env) ctx (.ethereum msg) sim w =
      chainWith k2 (stagesBeforeNonce env) ctx (.ethereum msg) sim w := by
  simp only [stagesBeforeNonce, chainWith, EthSetupContextDecorator.AnteHandle, Tx.asGasTx]
  congr 1
  rcases EthMempoolFee_cases env (ctx.WithBlockGasMeter (NewInfiniteGasMeter w).1) (.ethereum msg)
      sim (NewInfiniteGasMeter w).2 with ⟨r, _, _, hall⟩ | hall
  · rw [hall, hall]
  rw [hall, hall]
  rcases EthSigVerification_cases env (ctx.WithBlockGasMeter (NewInfiniteGasMeter w).1)
      (.ethereum msg) sim (NewInfiniteGasMeter w).2 with
    ⟨r, _, _, hall⟩ | ⟨msg2, chainID2, a2, htx, hchain2, hrec2, hall⟩
  · rw [hall, hall]
  rw [hall, hall]
  cases htx
  have hc : chainID2 = chainID := by
    have h1 : SetString10 ctx.chainID = some chainID2 := hchain2
    rw [hchain] at h1
    exact (Option.some.inj h1).symm
  subst hc
  rw [hrec] at hrec2
  cases hrec2
  rcases AccountVerification_cases env (ctx.WithBlockGasMeter (NewInfiniteGasMeter w).1)
      (.ethereum { msg with sender := some a }) sim (NewInfiniteGasMeter w).2 with
    ⟨r, _, _, hall⟩ | ⟨w2, hw2, hall, _⟩
  · rw [hall, hall]
  rw [hall, hall]
  exact hk _ w2 hw2

/-- On a store in which the sequence of the sender differs from the nonce, the stages
from the nonce stage on behave as `rejectNonce`. -/
theorem nonce_stage_rejects (env : Env) (c : Context) (msg : MsgEthereumTx) (a : Address)
    (acc : Account) (sim : Bool) (w : World) (next : AnteHandler)
    (hs : msg.sender = some a) (hacc : w.store.accounts a = some acc)
    (hne : msg.Data.AccountNonce ≠ acc.sequence) :
    NonceVerificationDecorator.AnteHandle env c (.ethereum msg) sim next w =
      rejectNonce env a msg.Data.AccountNonce acc.sequence c (.ethereum msg) sim w := by
  unfold NonceVerificationDecorator.AnteHandle rejectNonce
  simp only [Tx.asMsgEthereumTx, MsgEthereumTx.From, hs]
  cases hg : GetAccount env c a w with
  | panic p w1 => rfl
  | ret o w1 =>
    obtain ⟨_, e2⟩ := GetAccount_ret hg
    rw [hacc] at e2
    subst e2
    simp [hne]

theorem succ_mod_ne (n : Nat) : n ≠ (n + 1) % 2 ^ 64 := by
  omega

/-- The replay of the transfer whose nonce is the largest `uint64`: the nonce stage
reports that it got that nonce and expected 0. -/
theorem Scenario.wrap_replay :
    (ethAnteHandler Scenario.env (Scenario.ctx false)
        (Scenario.tx 18446744073709551615 30000 1 10) false
        (ethAnteHandler Scenario.env (Scenario.ctx false)
          (Scenario.tx 18446744073709551615 30000 1 10) false
          (Scenario.world 60000 18446744073709551615)).world).verdict =
      .rejected (.invalidNonce 18446744073709551615 0) := by
  simp [ethAnteHandler, ChainAnteDecorators, Terminator, EthSetupContextDecorator.AnteHandle,
    EthSetupContextDecorator.deferred, EthMempoolFeeDecorator.AnteHandle,
    EthSigVerificationDecorator.AnteHandle, AccountVerificationDecorator.AnteHandle,
    NonceVerificationDecorator.AnteHandle, EthGasConsumeDecorator.AnteHandle,
    EthGasConsumeDecorator.chargeSender, IncrementSenderSequenceDecorator.AnteHandle,
    IncrementSenderSequenceDecorator.incrementSequences, GetAccount, SetAccount, GetBalance,
    GetSignerAcc, DeductFees, SetGasMeter, ConsumeGas, Exec.andThen, GasMeter.ConsumeGas,
    addUint64Overflow, MaxUint64, NewInfiniteGasMeter, NewGasMeter, newMeter,
    Context.WithBlockGasMeter, Context.WithGasMeter, Tx.asGasTx, Tx.asMsgEthereumTx,
    MsgEthereumTx.From, MsgEthereumTx.To, MsgEthereumTx.GetGas, MsgEthereumTx.Fee,
    MsgEthereumTx.Cost, MsgEthereumTx.GetSigners, VerifySig, SetString10, parseDigits,
    digitValue, IntrinsicGas, bigInt64, allGTELoop, DecCoinsIsZero, Store.sendToFeeCollector,
    World.meter, GasMeter.GasConsumed, Res.verdict, Res.world, World.balance, World.sequence,
    KVGasConfig, Env.valueSize, TxGas, Context.zero, Scenario.env, Scenario.ctx, Scenario.tx,
    Scenario.msg, Scenario.world, Scenario.alice, Scenario.bob]

/-- The first run of that transfer is admitted. -/
theorem Scenario.wrap_first_run :
    (ethAnteHandler Scenario.env (Scenario.ctx false)
        (Scenario.tx 18446744073709551615 30000 1 10) false
        (Scenario.world 60000 18446744073709551615)).verdict = .admitted := by
  simp [ethAnteHandler, ChainAnteDecorators, Terminator, EthSetupContextDecorator.AnteHandle,
    EthSetupContextDecorator.deferred, EthMempoolFeeDecorator.AnteHandle,
    EthSigVerificationDecorator.AnteHandle, AccountVerificationDecorator.AnteHandle,
    NonceVerificationDecorator.AnteHandle, EthGasConsumeDecorator.AnteHandle,
    EthGasConsumeDecorator.chargeSender, IncrementSenderSequenceDecorator.AnteHandle,
    IncrementSenderSequenceDecorator.incrementSequences, GetAccount, SetAccount, GetBalance,
    GetSignerAcc, DeductFees, SetGasMeter, ConsumeGas, Exec.andThen, GasMeter.ConsumeGas,
    addUint64Overflow, MaxUint64, NewInfiniteGasMeter, NewGasMeter, newMeter,
    Context.WithBlockGasMeter, Context.WithGasMeter, Tx.asGasTx, Tx.asMsgEthereumTx,
    MsgEthereumTx.From, MsgEthereumTx.To, MsgEthereumTx.GetGas, MsgEthereumTx.Fee,
    MsgEthereumTx.Cost, MsgEthereumTx.GetSigners, VerifySig, SetString10, parseDigits,
    digitValue, IntrinsicGas, bigInt64, allGTELoop, DecCoinsIsZero, Store.sendToFeeCollector,
    World.meter, GasMeter.GasConsumed, Res.verdict, Res.world, World.balance, World.sequence,
    KVGasConfig, Env.valueSize, TxGas, Context.zero, Scenario.env, Scenario.ctx, Scenario.tx,
    Scenario.msg, Scenario.world, Scenario.alice, Scenario.bob]

/-- C7, counterexample.  Outside ReCheckTx the chain admits a transaction with nonce
`n = 2 ^ 64 − 1`; the second run against the resulting state reaches the nonce stage and
is rejected with an invalid-sequence error that reports got `n`, expected 0, which is
not `n + 1`. -/
theorem C7_replay_reports_wrapped_sequence :
    (Scenario.ctx false).recheckTx = false ∧
      (ethAnteHandler Scenario.env (Scenario.ctx false)
        (Scenario.tx 18446744073709551615 30000 1 10) false
        (Scenario.world 60000 18446744073709551615)).verdict = .admitted ∧
      (ethAnteHandler Scenario.env (Scenario.ctx false)
        (Scenario.tx 18446744073709551615 30000 1 10) false
        (ethAnteHandler Scenario.env (Scenario.ctx false)
          (Scenario.tx 18446744073709551615 30000 1 10) false
          (Scenario.world 60000 18446744073709551615)).world).verdict ≠
        .rejected (.invalidNonce 18446744073709551615 (18446744073709551615 + 1)) := by
  refine ⟨rfl, Scenario.wrap_first_run, ?_⟩
  rw [Scenario.wrap_replay]
  decide

/-- C7, amended.  For every transaction with nonce `n` that the chain admits outside
ReCheckTx, a second run of the chain with the same transaction against the resulting
state is not admitted, and it runs as the stages before the nonce stage followed by a
stage that reads the sender's account and rejects with the invalid-sequence error
reporting got `n`, expected `(n + 1) mod 2 ^ 64`: that is the rejection whenever the
second run reaches the nonce stage. -/
theorem C7_replay_is_rejected (env : Env) (ctx : Context) (tx : Tx) (simulate : Bool)
    (w : World) (hre : ctx.recheckTx = false)
    (hadm : (ethAnteHandler env ctx tx simulate w).verdict = .admitted) :
    ∃ msg chainID a, tx = .ethereum msg ∧ SetString10 ctx.chainID = some chainID ∧
      env.recoverSender msg.Data chainID = some a ∧
      (ethAnteHandler env ctx tx simulate
        (ethAnteHandler env ctx tx simulate w).world).verdict ≠ .admitted ∧
      ethAnteHandler env ctx tx simulate (ethAnteHandler env ctx tx simulate w).world =
        chainWith
          (rejectNonce env a msg.Data.AccountNonce ((msg.Data.AccountNonce + 1) % 2 ^ 64))
          (stagesBeforeNonce env) ctx tx simulate
          (ethAnteHandler env ctx tx simulate w).world ∧
      (Error.invalidNonce msg.Data.AccountNonce ((msg.Data.AccountNonce + 1) % 2 ^ 64)).code =
        .ErrInvalidSequence := by
  obtain ⟨c, hr⟩ := verdict_admitted hadm
  obtain ⟨msg, chainID, a, acc, gas, htx, hchain, hrec, hacc, hnonce, _, _, _, hst⟩ :=
    ethAnteHandler_admitted hr
  have hns : ¬ (ctx.recheckTx = true ∧ simulate = false) := by simp [hre]
  rw [if_neg hns] at hst
  subst htx
  have hacc1 : (ethAnteHandler env ctx (.ethereum msg) simulate w).world.store.accounts a =
      some { acc with sequence := (acc.sequence + 1) % 2 ^ 64 } := by
    simp [hst, Store.incrementSequence]
  refine ⟨msg, chainID, a, rfl, hchain, hrec, ?_, ?_, rfl⟩
  · intro hadm2
    obtain ⟨c2, hr2⟩ := verdict_admitted hadm2
    obtain ⟨msg2, chainID2, a2, acc2, gas2, htx2, hchain2, hrec2, hacc2, hnonce2, _⟩ :=
      ethAnteHandler_admitted hr2
    cases htx2
    rw [hchain] at hchain2
    cases hchain2
    rw [hrec] at hrec2
    cases hrec2
    rw [hacc1] at hacc2
    cases hacc2
    simp only at hnonce2
    rw [hnonce] at hnonce2
    exact succ_mod_ne _ hnonce2
  · show chainWith _ (stagesBeforeNonce env) ctx (.ethereum msg) simulate _ = _
    apply stagesBeforeNonce_congr env ctx msg chainID a simulate _ _ _ hchain hrec
    intro c1 w1 hw1
    simp only [ChainAnteDecorators]
    rw [nonce_stage_rejects env c1 { msg with sender := some a } a
      { acc with sequence := (acc.sequence + 1) % 2 ^ 64 } simulate w1 _ rfl
      (by rw [hw1]; exact hacc1) (by simp only; rw [hnonce]; exact succ_mod_ne _)]
    simp only [hnonce]

/-- C7, witness: the replay of the mempool admission of the scenario (nonce 0). -/
theorem C7_replay_is_rejected_witness :
    (Scenario.ctx true).recheckTx = false ∧
      (ethAnteHandler Scenario.env (Scenario.ctx true) (Scenario.tx 0 30000 1 10) false
        (Scenario.world 100000 0)).verdict = .admitted ∧
      ∃ msg chainID a, Scenario.tx 0 30000 1 10 = .ethereum msg ∧
        SetString10 (Scenario.ctx true).chainID = some chainID ∧
        Scenario.env.recoverSender msg.Data chainID = some a ∧
        (ethAnteHandler Scenario.env (Scenario.ctx true) (Scenario.tx 0 30000 1 10) false
          (ethAnteHandler Scenario.env (Scenario.ctx true) (Scenario.tx 0 30000 1 10) false
            (Scenario.world 100000 0)).world).verdict ≠ .admitted ∧
        ethAnteHandler Scenario.env (Scenario.ctx true) (Scenario.tx 0 30000 1 10) false
            (ethAnteHandler Scenario.env (Scenario.ctx true) (Scenario.tx 0 30000 1 10) false
              (Scenario.world 100000 0)).world =
          chainWith
            (rejectNonce Scenario.env a msg.Data.AccountNonce
              ((msg.Data.AccountNonce + 1) % 2 ^ 64))
            (stagesBeforeNonce Scenario.env) (Scenario.ctx true) (Scenario.tx 0 30000 1 10)
            false
            (ethAnteHandler Scenario.env (Scenario.ctx true) (Scenario.tx 0 30000 1 10) false
              (Scenario.world 100000 0)).world ∧
        (Error.invalidNonce msg.Data.AccountNonce
          ((msg.Data.AccountNonce + 1) % 2 ^ 64)).code = .ErrInvalidSequence :=
  ⟨rfl, Scenario.checkTx_run,
    C7_replay_is_rejected Scenario.env (Scenario.ctx true) (Scenario.tx 0 30000 1 10) false
      (Scenario.world 100000 0) rfl Scenario.checkTx_run⟩

/-! ## The journal: undoing and dirty counts -/

theorem revertLoop_eq (j : journal) (s : Nat) :
    ∀ (n : Nat) (acc : CommitStateDB × (Address → Option Int)), s + n ≤ j.length →
      j.revertLoop s n acc = (((j.entries.drop s).take n).reverse).foldl journal.undoStep acc := by
  intro n
  induction n with
  | zero => intro acc _; simp [journal.revertLoop]
  | succ n ih =>
    intro acc hn
    have hlt : s + n < j.entries.length := by
      unfold journal.length at hn; omega
    have hget : j.entries[s + n]? = some (j.entries[s + n]) := List.getElem?_eq_getElem hlt
    have hlt2 : n < (j.entries.drop s).length := by
      rw [List.length_drop]; omega
    have htake : (j.entries.drop s).take (n + 1) =
        (j.entries.drop s).take n ++ [j.entries[s + n]] := by
      rw [List.take_succ, List.getElem?_drop, hget]
      rfl
    unfold journal.revertLoop
    rw [hget]
    simp only
    rw [ih _ (by omega), htake, List.reverse_append, List.reverse_singleton,
      List.singleton_append, List.foldl_cons]

theorem foldl_undoStep_fst (es : List journalEntry) :
    ∀ acc : CommitStateDB × (Address → Option Int),
      (es.foldl journal.undoStep acc).1 = es.foldl (fun d e => e.revert d) acc.1 := by
  induction es with
  | nil => intro acc; rfl
  | cons e rest ih => intro acc; simp only [List.foldl_cons, ih]; rfl


theorem revert_fst (j : journal) (db : CommitStateDB) (s : Nat) (hs : s ≤ j.length) :
    (j.revert db s).1 = revertAll (j.entries.drop s) db := by
  unfold journal.revert revertAll
  simp only
  rw [revertLoop_eq j s _ _ (by omega), foldl_undoStep_fst]
  have : (j.entries.drop s).take (j.length - s) = j.entries.drop s := by
    apply List.take_of_length_le
    rw [List.length_drop]
    exact Nat.le_refl _
  rw [this]

theorem revert_entries (j : journal) (db : CommitStateDB) (s : Nat) :
    (j.revert db s).2.entries = j.entries.take s := rfl

theorem decrement_count (d : Address → Option Int) (b a : Address) :
    (journal.decrement d b a).getD 0 = (d a).getD 0 - (if a = b then 1 else 0) := by
  unfold journal.decrement
  by_cases h : a = b
  · simp only [h, if_true]
    split
    · rename_i h0; simp only [Option.getD_none]; omega
    · simp
  · simp [h]

theorem increment_count (d : Address → Option Int) (b a : Address) :
    (journal.increment d b a).getD 0 = (d a).getD 0 + (if a = b then 1 else 0) := by
  unfold journal.increment
  by_cases h : a = b
  · simp [h]
  · simp [h]

theorem dirtiedCount_cons (e : journalEntry) (es : List journalEntry) (a : Address) :
    dirtiedCount (e :: es) a = (if e.dirtied = some a then 1 else 0) + dirtiedCount es a := by
  unfold dirtiedCount
  by_cases h : e.dirtied = some a
  · simp [h, List.filter_cons]; omega
  · simp [h, List.filter_cons]

theorem dirtiedCount_append (es fs : List journalEntry) (a : Address) :
    dirtiedCount (es ++ fs) a = dirtiedCount es a + dirtiedCount fs a := by
  unfold dirtiedCount
  simp [List.filter_append]

theorem dirtiedCount_reverse (es : List journalEntry) (a : Address) :
    dirtiedCount es.reverse a = dirtiedCount es a := by
  unfold dirtiedCount
  rw [List.filter_reverse, List.length_reverse]

theorem undoStep_count (acc : CommitStateDB × (Address → Option Int)) (e : journalEntry)
    (a : Address) :
    ((journal.undoStep acc e).2 a).getD 0 =
      (acc.2 a).getD 0 - (if e.dirtied = some a then 1 else 0) := by
  unfold journal.undoStep
  cases hd : e.dirtied with
  | none => simp
  | some b =>
    simp only [decrement_count]
    by_cases h : a = b
    · simp [h]
    · have : ¬ (some b = some a) := fun hh => h (Option.some.inj hh).symm
      simp [h, this]

theorem foldl_undoStep_count (es : List journalEntry) (a : Address) :
    ∀ acc : CommitStateDB × (Address → Option Int),
      ((es.foldl journal.undoStep acc).2 a).getD 0 = (acc.2 a).getD 0 - dirtiedCount es a := by
  induction es with
  | nil => intro acc; simp [dirtiedCount]
  | cons e rest ih =>
    intro acc
    rw [List.foldl_cons, ih, undoStep_count, dirtiedCount_cons]
    split <;> push_cast <;> omega

theorem revert_dirtyCount (j : journal) (db : CommitStateDB) (s : Nat) (hs : s ≤ j.length)
    (a : Address) :
    (j.revert db s).2.dirtyCount a = j.dirtyCount a - dirtiedCount (j.entries.drop s) a := by
  unfold journal.revert journal.dirtyCount
  simp only
  rw [revertLoop_eq j s _ _ (by omega), foldl_undoStep_count, dirtiedCount_reverse]
  have : (j.entries.drop s).take (j.length - s) = j.entries.drop s := by
    apply List.take_of_length_le
    rw [List.length_drop]
    exact Nat.le_refl _
  rw [this]

theorem appendAll_entries (es : List journalEntry) :
    ∀ j : journal, (appendAll j es).entries = j.entries ++ es := by
  induction es with
  | nil => intro j; simp [appendAll]
  | cons e rest ih =>
    intro j
    have := ih (j.append e)
    unfold appendAll at this ⊢
    rw [List.foldl_cons, this]
    simp [journal.append]

theorem append_dirtyCount (j : journal) (e : journalEntry) (a : Address) :
    (j.append e).dirtyCount a = j.dirtyCount a + (if e.dirtied = some a then 1 else 0) := by
  unfold journal.append journal.dirtyCount
  cases hd : e.dirtied with
  | none => simp
  | some b =>
    simp only [increment_count]
    by_cases h : a = b
    · simp [h]
    · have : ¬ (some b = some a) := fun hh => h (Option.some.inj hh).symm
      simp [h, this]

theorem appendAll_dirtyCount (es : List journalEntry) (a : Address) :
    ∀ j : journal, (appendAll j es).dirtyCount a = j.dirtyCount a + dirtiedCount es a := by
  induction es with
  | nil => intro j; simp [appendAll, dirtiedCount]
  | cons e rest ih =>
    intro j
    have := ih (j.append e)
    unfold appendAll at this ⊢
    rw [List.foldl_cons, this, append_dirtyCount, dirtiedCount_cons]
    split <;> push_cast <;> omega

theorem SameState_refl (x : CommitStateDB) : x.SameState x := ⟨rfl, rfl, rfl⟩

theorem SameState_trans {x y z : CommitStateDB} (h1 : x.SameState y) (h2 : y.SameState z) :
    x.SameState z :=
  ⟨h1.1.trans h2.1, h1.2.1.trans h2.2.1, h1.2.2.trans h2.2.2⟩

theorem revert_sameState (e : journalEntry) {x y : CommitStateDB} (h : x.SameState y) :
    (e.revert x).SameState (e.revert y) := by
  obtain ⟨h1, h2, h3⟩ := h
  cases e <;>
    simp [journalEntry.revert, CommitStateDB.modifyObject, CommitStateDB.setObject,
      CommitStateDB.SameState, h1, h2, h3]

theorem revertAll_sameState (es : List journalEntry) {x y : CommitStateDB}
    (h : x.SameState y) : (revertAll es x).SameState (revertAll es y) := by
  unfold revertAll
  generalize es.reverse = l
  induction l generalizing x y with
  | nil => exact h
  | cons e rest ih => exact ih (revert_sameState e h)

theorem revertAll_append (es fs : List journalEntry) (db : CommitStateDB) :
    revertAll (es ++ fs) db = revertAll es (revertAll fs db) := by
  unfold revertAll
  rw [List.reverse_append, List.foldl_append]

theorem appendAll_append (j : journal) (es fs : List journalEntry) :
    appendAll j (es ++ fs) = appendAll (appendAll j es) fs := by
  unfold appendAll
  rw [List.foldl_append]


theorem objects_ext {f g : Address → Option stateObject} (a : Address) (ha : f a = g a)
    (hne : ∀ x, x ≠ a → f x = g x) : f = g := by
  funext x
  by_cases hx : x = a
  · rw [hx]; exact ha
  · exact hne x hx

theorem storage_restore (f : Hash → Hash) (key v : Hash) :
    (fun k => if k = key then f key else if k = key then v else f k) = f := by
  funext k
  by_cases h : k = key <;> simp [h]

theorem apply_recorded (m : Mutation) (db db1 : CommitStateDB) (hwf : db.WellFormed)
    (h : m.apply db = some db1) : Recorded db db1 := by
  cases m with
  | CreateAccount a =>
    simp only [Mutation.apply, Option.some.injEq] at h
    subst h
    unfold CommitStateDB.CreateAccount
    cases ho : db.stateObjects a with
    | some prev =>
      have hp : prev.address = a := hwf a prev ho
      refine ⟨[.resetObjectChange prev], rfl, ?_, rfl, rfl⟩
      refine objects_ext a ?_ (fun x hx => ?_)
      · simp [revertAll, journalEntry.revert, CommitStateDB.modifyObject, CommitStateDB.record,
          CommitStateDB.setObject, CommitStateDB.newObject, ho, hp]
      · simp [revertAll, journalEntry.revert, CommitStateDB.modifyObject, CommitStateDB.record,
          CommitStateDB.setObject, CommitStateDB.newObject, hx, hp]
    | none =>
      refine ⟨[.createObjectChange a], rfl, ?_, rfl, rfl⟩
      refine objects_ext a ?_ (fun x hx => ?_)
      · simp [revertAll, journalEntry.revert, CommitStateDB.modifyObject, CommitStateDB.record,
          CommitStateDB.setObject, CommitStateDB.newObject, ho]
      · simp [revertAll, journalEntry.revert, CommitStateDB.modifyObject, CommitStateDB.record,
          CommitStateDB.setObject, CommitStateDB.newObject, hx]
  | SetBalance a amount =>
    simp only [Mutation.apply, Option.some.injEq] at h
    subst h
    unfold CommitStateDB.SetBalance CommitStateDB.getOrNewStateObject
    cases ho : db.stateObjects a with
    | some obj =>
      refine ⟨[.balanceChange a obj.balance], rfl, ?_, rfl, rfl⟩
      refine objects_ext a ?_ (fun x hx => ?_)
      · simp [revertAll, journalEntry.revert, CommitStateDB.modifyObject, CommitStateDB.record,
          CommitStateDB.setObject, CommitStateDB.newObject, ho, storage_restore]
      · simp [revertAll, journalEntry.revert, CommitStateDB.modifyObject, CommitStateDB.record,
          CommitStateDB.setObject, CommitStateDB.newObject, hx]
    | none =>
      refine ⟨[.createObjectChange a, .balanceChange a (CommitStateDB.newObject a).balance], rfl, ?_, rfl, rfl⟩
      refine objects_ext a ?_ (fun x hx => ?_)
      · simp [revertAll, journalEntry.revert, CommitStateDB.modifyObject, CommitStateDB.record,
          CommitStateDB.setObject, CommitStateDB.newObject, ho, storage_restore]
      · simp [revertAll, journalEntry.revert, CommitStateDB.modifyObject, CommitStateDB.record,
          CommitStateDB.setObject, CommitStateDB.newObject, hx]
  | AddBalance a amount =>
    simp only [Mutation.apply, Option.some.injEq] at h
    subst h
    unfold CommitStateDB.AddBalance CommitStateDB.getOrNewStateObject
    cases ho : db.stateObjects a with
    | some obj =>
      refine ⟨[.balanceChange a obj.balance], rfl, ?_, rfl, rfl⟩
      refine objects_ext a ?_ (fun x hx => ?_)
      · simp [revertAll, journalEntry.revert, CommitStateDB.modifyObject, CommitStateDB.record,
          CommitStateDB.setObject, CommitStateDB.newObject, ho, storage_restore]
      · simp [revertAll, journalEntry.revert, CommitStateDB.modifyObject, CommitStateDB.record,
          CommitStateDB.setObject, CommitStateDB.newObject, hx]
    | none =>
      refine ⟨[.createObjectChange a, .balanceChange a (CommitStateDB.newObject a).balance], rfl, ?_, rfl, rfl⟩
      refine objects_ext a ?_ (fun x hx => ?_)
      · simp [revertAll, journalEntry.revert, CommitStateDB.modifyObject, CommitStateDB.record,
          CommitStateDB.setObject, CommitStateDB.newObject, ho, storage_restore]
      · simp [revertAll, journalEntry.revert, CommitStateDB.modifyObject, CommitStateDB.record,
          CommitStateDB.setObject, CommitStateDB.newObject, hx]
  | SetNonce a nonce =>
    simp only [Mutation.apply, Option.some.injEq] at h
    subst h
    unfold CommitStateDB.SetNonce CommitStateDB.getOrNewStateObject
    cases ho : db.stateObjects a with
    | some obj =>
      refine ⟨[.nonceChange a obj.nonce], rfl, ?_, rfl, rfl⟩
      refine objects_ext a ?_ (fun x hx => ?_)
      · simp [revertAll, journalEntry.revert, CommitStateDB.modifyObject, CommitStateDB.record,
          CommitStateDB.setObject, CommitStateDB.newObject, ho, storage_restore]
      · simp [revertAll, journalEntry.revert, CommitStateDB.modifyObject, CommitStateDB.record,
          CommitStateDB.setObject, CommitStateDB.newObject, hx]
    | none =>
      refine ⟨[.createObjectChange a, .nonceChange a (CommitStateDB.newObject a).nonce], rfl, ?_, rfl, rfl⟩
      refine objects_ext a ?_ (fun x hx => ?_)
      · simp [revertAll, journalEntry.revert, CommitStateDB.modifyObject, CommitStateDB.record,
          CommitStateDB.setObject, CommitStateDB.newObject, ho, storage_restore]
      · simp [revertAll, journalEntry.revert, CommitStateDB.modifyObject, CommitStateDB.record,
          CommitStateDB.setObject, CommitStateDB.newObject, hx]
  | SetCode a code codeHash =>
    simp only [Mutation.apply, Option.some.injEq] at h
    subst h
    unfold CommitStateDB.SetCode CommitStateDB.getOrNewStateObject
    cases ho : db.stateObjects a with
    | some obj =>
      refine ⟨[.codeChange a obj.code obj.codeHash], rfl, ?_, rfl, rfl⟩
      refine objects_ext a ?_ (fun x hx => ?_)
      · simp [revertAll, journalEntry.revert, CommitStateDB.modifyObject, CommitStateDB.record,
          CommitStateDB.setObject, CommitStateDB.newObject, ho, storage_restore]
      · simp [revertAll, journalEntry.revert, CommitStateDB.modifyObject, CommitStateDB.record,
          CommitStateDB.setObject, CommitStateDB.newObject, hx]
    | none =>
      refine ⟨[.createObjectChange a, .codeChange a (CommitStateDB.newObject a).code (CommitStateDB.newObject a).codeHash], rfl, ?_, rfl, rfl⟩
      refine objects_ext a ?_ (fun x hx => ?_)
      · simp [revertAll, journalEntry.revert, CommitStateDB.modifyObject, CommitStateDB.record,
          CommitStateDB.setObject, CommitStateDB.newObject, ho, storage_restore]
      · simp [revertAll, journalEntry.revert, CommitStateDB.modifyObject, CommitStateDB.record,
          CommitStateDB.setObject, CommitStateDB.newObject, hx]
  | SetState a key value =>
    simp only [Mutation.apply, Option.some.injEq] at h
    subst h
    unfold CommitStateDB.SetState CommitStateDB.getOrNewStateObject
    cases ho : db.stateObjects a with
    | some obj =>
      refine ⟨[.storageChange a key (obj.storage key)], rfl, ?_, rfl, rfl⟩
      refine objects_ext a ?_ (fun x hx => ?_)
      · simp [revertAll, journalEntry.revert, CommitStateDB.modifyObject, CommitStateDB.record,
          CommitStateDB.setObject, CommitStateDB.newObject, ho, storage_restore]
      · simp [revertAll, journalEntry.revert, CommitStateDB.modifyObject, CommitStateDB.record,
          CommitStateDB.setObject, CommitStateDB.newObject, hx]
    | none =>
      refine ⟨[.createObjectChange a, .storageChange a key ((CommitStateDB.newObject a).storage key)], rfl, ?_, rfl, rfl⟩
      refine objects_ext a ?_ (fun x hx => ?_)
      · simp [revertAll, journalEntry.revert, CommitStateDB.modifyObject, CommitStateDB.record,
          CommitStateDB.setObject, CommitStateDB.newObject, ho, storage_restore]
      · simp [revertAll, journalEntry.revert, CommitStateDB.modifyObject, CommitStateDB.record,
          CommitStateDB.setObject, CommitStateDB.newObject, hx]
  | SubBalance a amount =>
    simp only [Mutation.apply] at h
    unfold CommitStateDB.SubBalance CommitStateDB.getOrNewStateObject at h
    cases ho : db.stateObjects a with
    | some obj =>
      rw [ho] at h
      simp only at h
      split at h
      · cases h
      · simp only [Option.some.injEq] at h
        subst h
        refine ⟨[.balanceChange a obj.balance], rfl, ?_, rfl, rfl⟩
        refine objects_ext a ?_ (fun x hx => ?_)
        · simp [revertAll, journalEntry.revert, CommitStateDB.modifyObject, CommitStateDB.record,
          CommitStateDB.setObject, CommitStateDB.newObject, ho]
        · simp [revertAll, journalEntry.revert, CommitStateDB.modifyObject, CommitStateDB.record,
          CommitStateDB.setObject, CommitStateDB.newObject, hx]
    | none =>
      rw [ho] at h
      simp only at h
      split at h
      · cases h
      · simp only [Option.some.injEq] at h
        subst h
        refine ⟨[.createObjectChange a, .balanceChange a (CommitStateDB.newObject a).balance], rfl, ?_, rfl, rfl⟩
        refine objects_ext a ?_ (fun x hx => ?_)
        · simp [revertAll, journalEntry.revert, CommitStateDB.modifyObject, CommitStateDB.record,
          CommitStateDB.setObject, CommitStateDB.newObject, ho]
        · simp [revertAll, journalEntry.revert, CommitStateDB.modifyObject, CommitStateDB.record,
          CommitStateDB.setObject, CommitStateDB.newObject, hx]
  | Suicide a =>
    simp only [Mutation.apply, Option.some.injEq] at h
    subst h
    unfold CommitStateDB.Suicide
    cases ho : db.stateObjects a with
    | none => exact ⟨[], rfl, rfl, rfl, rfl⟩
    | some obj =>
      simp only
      by_cases hs : obj.suicided = true
      · simp only [hs, if_true]
        exact ⟨[], rfl, rfl, rfl, rfl⟩
      · obtain ⟨addr, bal, n, c, ch, st, su, tch, dc⟩ := obj
        simp only [Bool.not_eq_true] at hs
        subst hs
        simp only [Bool.false_eq_true, if_false]
        refine ⟨[.suicideChange a false bal], rfl, ?_, rfl, rfl⟩
        refine objects_ext a ?_ (fun x hx => ?_)
        · simp [revertAll, journalEntry.revert, CommitStateDB.modifyObject, CommitStateDB.record,
          CommitStateDB.setObject, CommitStateDB.newObject, ho]
        · simp [revertAll, journalEntry.revert, CommitStateDB.modifyObject, CommitStateDB.record,
          CommitStateDB.setObject, CommitStateDB.newObject, hx]
  | touch a =>
    simp only [Mutation.apply, Option.some.injEq] at h
    subst h
    unfold CommitStateDB.touch
    cases ho : db.stateObjects a with
    | none => exact ⟨[], rfl, rfl, rfl, rfl⟩
    | some obj =>
      simp only
      by_cases hs : obj.touched = true
      · simp only [hs, if_true]
        exact ⟨[], rfl, rfl, rfl, rfl⟩
      · obtain ⟨addr, bal, n, c, ch, st, su, tch, dc⟩ := obj
        simp only [Bool.not_eq_true] at hs
        subst hs
        simp only [Bool.false_eq_true, if_false]
        refine ⟨[.touchChange a], rfl, ?_, rfl, rfl⟩
        refine objects_ext a ?_ (fun x hx => ?_)
        · simp [revertAll, journalEntry.revert, CommitStateDB.modifyObject, CommitStateDB.record,
          CommitStateDB.setObject, CommitStateDB.newObject, ho]
        · simp [revertAll, journalEntry.revert, CommitStateDB.modifyObject, CommitStateDB.record,
          CommitStateDB.setObject, CommitStateDB.newObject, hx]
  | AddRefund gas =>
    simp only [Mutation.apply, Option.some.injEq] at h
    subst h
    exact ⟨[.refundChange db.refund], rfl, rfl, rfl, rfl⟩
  | SubRefund gas =>
    simp only [Mutation.apply] at h
    unfold CommitStateDB.SubRefund at h
    split at h
    · cases h
    · simp only [Option.some.injEq] at h
      subst h
      exact ⟨[.refundChange db.refund], rfl, rfl, rfl, rfl⟩
  | AddPreimage hash data =>
    simp only [Mutation.apply, Option.some.injEq] at h
    subst h
    unfold CommitStateDB.AddPreimage
    cases hp : db.preimages hash with
    | some d => exact ⟨[], rfl, rfl, rfl, rfl⟩
    | none =>
      refine ⟨[.addPreimageChange hash], rfl, rfl, rfl, ?_⟩
      funext x
      by_cases hx : x = hash
      · subst hx
        simp [revertAll, journalEntry.revert, CommitStateDB.modifyObject, CommitStateDB.record,
          CommitStateDB.setObject, CommitStateDB.newObject, hp]
      · simp [revertAll, journalEntry.revert, CommitStateDB.modifyObject, CommitStateDB.record,
          CommitStateDB.setObject, CommitStateDB.newObject, hx]

theorem wf_modifyObject {db : CommitStateDB} (hwf : db.WellFormed) (a : Address)
    (f : stateObject → stateObject) (hf : ∀ o, (f o).address = o.address) :
    (db.modifyObject a f).WellFormed := by
  intro x obj hx
  unfold CommitStateDB.modifyObject at hx
  simp only at hx
  by_cases hxa : x = a
  · rw [if_pos hxa] at hx
    cases ho : db.stateObjects x with
    | none => rw [ho] at hx; cases hx
    | some o =>
      rw [ho] at hx
      simp only [Option.map_some', Option.some.injEq] at hx
      rw [← hx, hf]
      exact hwf x o ho
  · rw [if_neg hxa] at hx
    exact hwf x obj hx

theorem wf_setObject {db : CommitStateDB} (hwf : db.WellFormed) (a : Address)
    (obj : Option stateObject) (hobj : ∀ o, obj = some o → o.address = a) :
    (db.setObject a obj).WellFormed := by
  intro x o hx
  unfold CommitStateDB.setObject at hx
  simp only at hx
  by_cases hxa : x = a
  · rw [if_pos hxa] at hx
    rw [hxa]
    exact hobj o hx
  · rw [if_neg hxa] at hx
    exact hwf x o hx

theorem wf_record {db : CommitStateDB} (hwf : db.WellFormed) (e : journalEntry) :
    (db.record e).WellFormed := hwf

theorem wf_getOrNew {db : CommitStateDB} (hwf : db.WellFormed) (a : Address) :
    (db.getOrNewStateObject a).1.WellFormed := by
  unfold CommitStateDB.getOrNewStateObject
  cases h : db.stateObjects a with
  | some obj => exact hwf
  | none =>
    exact wf_setObject (wf_record hwf _) a _ (fun o ho => by cases ho; rfl)

theorem apply_wellFormed (m : Mutation) (db db1 : CommitStateDB) (hwf : db.WellFormed)
    (h : m.apply db = some db1) : db1.WellFormed := by
  cases m with
  | CreateAccount a =>
    simp only [Mutation.apply, Option.some.injEq] at h
    subst h
    unfold CommitStateDB.CreateAccount
    cases ho : db.stateObjects a <;>
      exact wf_setObject (wf_record hwf _) a _ (fun o ho => by cases ho; rfl)
  | SetBalance a amount =>
    simp only [Mutation.apply, Option.some.injEq] at h
    subst h
    exact wf_modifyObject (wf_record (wf_getOrNew hwf a) _) a _ (fun _ => rfl)
  | AddBalance a amount =>
    simp only [Mutation.apply, Option.some.injEq] at h
    subst h
    exact wf_modifyObject (wf_record (wf_getOrNew hwf a) _) a _ (fun _ => rfl)
  | SubBalance a amount =>
    simp only [Mutation.apply] at h
    unfold CommitStateDB.SubBalance at h
    simp only at h
    split at h
    · cases h
    · simp only [Option.some.injEq] at h
      subst h
      exact wf_modifyObject (wf_record (wf_getOrNew hwf a) _) a _ (fun _ => rfl)
  | SetNonce a nonce =>
    simp only [Mutation.apply, Option.some.injEq] at h
    subst h
    exact wf_modifyObject (wf_record (wf_getOrNew hwf a) _) a _ (fun _ => rfl)
  | SetCode a code codeHash =>
    simp only [Mutation.apply, Option.some.injEq] at h
    subst h
    exact wf_modifyObject (wf_record (wf_getOrNew hwf a) _) a _ (fun _ => rfl)
  | SetState a key value =>
    simp only [Mutation.apply, Option.some.injEq] at h
    subst h
    exact wf_modifyObject (wf_record (wf_getOrNew hwf a) _) a _ (fun _ => rfl)
  | Suicide a =>
    simp only [Mutation.apply, Option.some.injEq] at h
    subst h
    unfold CommitStateDB.Suicide
    cases ho : db.stateObjects a with
    | none => exact hwf
    | some obj =>
      simp only
      split
      · exact hwf
      · exact wf_modifyObject (wf_record hwf _) a _ (fun _ => rfl)
  | touch a =>
    simp only [Mutation.apply, Option.some.injEq] at h
    subst h
    unfold CommitStateDB.touch
    cases ho : db.stateObjects a with
    | none => exact hwf
    | some obj =>
      simp only
      split
      · exact hwf
      · exact wf_modifyObject (wf_record hwf _) a _ (fun _ => rfl)
  | AddRefund gas =>
    simp only [Mutation.apply, Option.some.injEq] at h
    subst h
    exact hwf
  | SubRefund gas =>
    simp only [Mutation.apply] at h
    unfold CommitStateDB.SubRefund at h
    split at h
    · cases h
    · simp only [Option.some.injEq] at h
      subst h
      exact hwf
  | AddPreimage hash data =>
    simp only [Mutation.apply, Option.some.injEq] at h
    subst h
    unfold CommitStateDB.AddPreimage
    cases hp : db.preimages hash with
    | some d => exact hwf
    | none => exact hwf

theorem run_recorded (ms : List Mutation) :
    ∀ db db1 : CommitStateDB, db.WellFormed → Mutation.run ms db = some db1 →
      Recorded db db1 := by
  induction ms with
  | nil =>
    intro db db1 _ h
    simp only [Mutation.run, Option.some.injEq] at h
    subst h
    exact ⟨[], rfl, SameState_refl _⟩
  | cons m rest ih =>
    intro db db2 hwf h
    simp only [Mutation.run] at h
    cases hm : m.apply db with
    | none => rw [hm] at h; cases h
    | some db1 =>
      rw [hm] at h
      simp only at h
      obtain ⟨es1, hj1, hs1⟩ := apply_recorded m db db1 hwf hm
      obtain ⟨es2, hj2, hs2⟩ := ih db1 db2 (apply_wellFormed m db db1 hwf hm) h
      refine ⟨es1 ++ es2, ?_, ?_⟩
      · rw [hj2, hj1, appendAll_append]
      · rw [revertAll_append]
        exact SameState_trans (revertAll_sameState es1 hs2) hs1


theorem stored_getD (c : Nat) : (journal.stored c).getD 0 = (c : Int) := by
  unfold journal.stored
  split
  · rename_i h; simp [h]
  · simp

theorem increment_stored (d : Address → Option Int) (b a : Address) (c : Nat)
    (h : d a = journal.stored c) :
    journal.increment d b a = journal.stored (c + (if a = b then 1 else 0)) := by
  unfold journal.increment
  by_cases hab : a = b
  · simp only [hab, if_true]
    rw [← hab, h, stored_getD]
    simp [journal.stored]
  · simp [hab, h]

theorem decrement_stored (d : Address → Option Int) (b a : Address) (c : Nat)
    (h : d a = journal.stored (c + (if a = b then 1 else 0))) :
    journal.decrement d b a = journal.stored c := by
  unfold journal.decrement
  by_cases hab : a = b
  · simp only [hab, if_true] at h ⊢
    rw [h, stored_getD]
    unfold journal.stored
    by_cases hc : c = 0
    · simp [hc]
    · have : ((c + 1 : Nat) : Int) - 1 ≠ 0 := by push_cast; omega
      rw [if_neg this, if_neg hc]
      congr 1
      push_cast
      omega
  · simp only [hab, if_false, Nat.add_zero] at h ⊢
    exact h

theorem undo_stored (f : Address → Nat) (pre : List journalEntry) :
    ∀ (es : List journalEntry) (acc : CommitStateDB × (Address → Option Int)),
      (∀ a, acc.2 a = journal.stored (dirtiedCount (pre ++ es) a + f a)) →
      ∀ a, ((es.reverse.foldl journal.undoStep acc).2 a) =
        journal.stored (dirtiedCount pre a + f a) := by
  intro es
  induction es using List.reverseRecOn with
  | nil => intro acc h a; simpa using h a
  | append_singleton es e ih =>
    intro acc h a
    rw [List.reverse_append, List.reverse_singleton, List.singleton_append, List.foldl_cons]
    apply ih
    intro x
    unfold journal.undoStep
    simp only
    have hx := h x
    rw [← List.append_assoc, dirtiedCount_append] at hx
    cases hd : e.dirtied with
    | none =>
      simp only
      rw [hx]
      simp [dirtiedCount, hd]
    | some b =>
      simp only
      apply decrement_stored
      rw [hx]
      congr 1
      by_cases hxb : x = b
      · simp [dirtiedCount, hd, hxb]; omega
      · have : ¬ (b = x) := fun hh => hxb hh.symm
        simp [dirtiedCount, hd, hxb, this]

theorem reachable_stored {j : journal} {f : Address → Nat} (h : journal.Reachable j f) :
    ∀ a, j.dirties a = journal.stored (dirtiedCount j.entries a + f a) := by
  induction h with
  | new => intro a; simp [newJournal, dirtiedCount, journal.stored]
  | append j f e _ ih =>
    intro a
    unfold journal.append
    simp only
    rw [dirtiedCount_append]
    cases hd : e.dirtied with
    | none =>
      simp only
      rw [ih a]
      simp [dirtiedCount, hd]
    | some b =>
      simp only
      rw [increment_stored _ b a _ (ih a)]
      congr 1
      by_cases hab : a = b
      · simp [dirtiedCount, hd, hab]; omega
      · have : ¬ (b = a) := fun hh => hab hh.symm
        simp [dirtiedCount, hd, hab, this]
  | dirty j f b _ ih =>
    intro a
    unfold journal.dirty
    simp only
    rw [increment_stored _ b a _ (ih a)]
    congr 1
    by_cases hab : a = b
    · simp [hab]; omega
    · simp [hab]
  | revert j f db s _ hs ih =>
    intro a
    unfold journal.revert
    simp only
    rw [revertLoop_eq j s _ _ (by omega)]
    have ht : (j.entries.drop s).take (j.length - s) = j.entries.drop s := by
      apply List.take_of_length_le
      rw [List.length_drop]
      exact Nat.le_refl _
    rw [ht]
    apply undo_stored f (j.entries.take s) (j.entries.drop s) (db, j.dirties)
    intro x
    rw [List.take_append_drop]
    exact ih x

theorem appendAll_reachable (es : List journalEntry) :
    ∀ (j : journal) (f : Address → Nat), journal.Reachable j f →
      journal.Reachable (appendAll j es) f := by
  induction es with
  | nil => intro j f h; exact h
  | cons e rest ih =>
    intro j f h
    exact ih (j.append e) f (journal.Reachable.append j f e h)

theorem recorded_length {db db1 : CommitStateDB} (es : List journalEntry)
    (hj : db1.journal = appendAll db.journal es) :
    db.journal.length ≤ db1.journal.length ∧
      db1.journal.entries.take db.journal.length = db.journal.entries ∧
      db1.journal.entries.drop db.journal.length = es := by
  unfold journal.length
  rw [hj, appendAll_entries]
  refine ⟨by simp, by simp, by simp⟩

theorem emptyDB_wellFormed : Scenario.emptyDB.WellFormed := by
  intro a obj h
  cases h

/-! ## C8: what `journal.revert` restores -/

/-- The dirty counts after a call `journal.dirty(addr)`. -/
theorem dirty_dirtyCount (j : journal) (addr a : Address) :
    (j.dirty addr).dirtyCount a = j.dirtyCount a + (if a = addr then 1 else 0) := by
  unfold journal.dirty journal.dirtyCount
  simp only [increment_count]

/-- What a history of mutations and `dirty` calls leaves: the entries recorded are at the
end of the journal, undoing them gives back the objects, the refund counter and the
preimages, and every dirty count has grown by the number of recorded entries of the
address and the number of `dirty` calls for it. -/
theorem steps_recorded (steps : List JournalStep) :
    ∀ db db1 : CommitStateDB, db.WellFormed → JournalStep.run steps db = some db1 →
      ∃ es, db1.journal.entries = db.journal.entries ++ es ∧
        (revertAll es db1).SameState db ∧
        ∀ a, db1.journal.dirtyCount a =
          db.journal.dirtyCount a + dirtiedCount es a + dirtyCalls steps a := by
  induction steps with
  | nil =>
    intro db db1 _ h
    simp only [JournalStep.run, Option.some.injEq] at h
    subst h
    refine ⟨[], by simp, SameState_refl _, fun a => ?_⟩
    simp [dirtiedCount, dirtyCalls]
  | cons step rest ih =>
    intro db db2 hwf h
    simp only [JournalStep.run] at h
    cases hstep : step.apply db with
    | none => rw [hstep] at h; cases h
    | some db1 =>
      rw [hstep] at h
      simp only at h
      cases step with
      | mutation m =>
        have hm : m.apply db = some db1 := hstep
        obtain ⟨es1, hj1, hs1⟩ := apply_recorded m db db1 hwf hm
        obtain ⟨es2, he2, hs2, hc2⟩ := ih db1 db2 (apply_wellFormed m db db1 hwf hm) h
        refine ⟨es1 ++ es2, ?_, ?_, fun a => ?_⟩
        · rw [he2, hj1, appendAll_entries, List.append_assoc]
        · rw [revertAll_append]
          exact SameState_trans (revertAll_sameState es1 hs2) hs1
        · rw [hc2 a, hj1, appendAll_dirtyCount, dirtiedCount_append]
          simp only [dirtyCalls]
          push_cast
          omega
      | dirty b =>
        have hd : db1 = { db with journal := db.journal.dirty b } := by
          simp only [JournalStep.apply, Option.some.injEq] at hstep
          exact hstep.symm
        have hwf1 : db1.WellFormed := by
          rw [hd]
          exact hwf
        obtain ⟨es2, he2, hs2, hc2⟩ := ih db1 db2 hwf1 h
        refine ⟨es2, ?_, ?_, fun a => ?_⟩
        · rw [he2, hd]
          rfl
        · refine SameState_trans hs2 ?_
          rw [hd]
          exact ⟨rfl, rfl, rfl⟩
        · rw [hc2 a, hd]
          simp only [dirty_dirtyCount, dirtyCalls]
          split <;> push_cast <;> omega

/-- C8, counterexample.  The journal reached from a new journal by one append for
`alice` and one call `dirty(alice)` has length 1; when its length was 0 the dirty count
of `alice` was 0.  Reverted to index 0 it has length 0 and no entries, but the dirty
count of `alice` is 1, not the 0 it had when the length of the journal was 0. -/
theorem C8_dirty_call_survives_revert :
    newJournal.length = 0 ∧ newJournal.dirtyCount Scenario.alice = 0 ∧
      journal.Reachable Scenario.dirtiedJournal
        (fun a => if a = Scenario.alice then 0 + 1 else 0) ∧
      Scenario.dirtiedJournal.length = 1 ∧
      (Scenario.dirtiedJournal.revert Scenario.emptyDB 0).2.length = 0 ∧
      (Scenario.dirtiedJournal.revert Scenario.emptyDB 0).2.entries = [] ∧
      (Scenario.dirtiedJournal.revert Scenario.emptyDB 0).2.dirtyCount Scenario.alice = 1 :=
  ⟨rfl, rfl,
    journal.Reachable.dirty _ (fun _ => 0) Scenario.alice
      (journal.Reachable.append _ _ _ journal.Reachable.new),
    rfl, rfl, rfl, by decide⟩

/-- C8, amended.  For every journal `j`, state `dbx` and snapshot index `s` up to the
length of `j`, `j.revert(dbx, s)` leaves the state in which the entries from the last
one down to index `s` were undone in that order, and a journal of length `s` whose
entries are the first `s` entries of `j` and in which the dirty count of every address
is its count in `j` less the number of undone entries that dirtied it.  When the
journal was reached from a state `db` (the snapshot) by state mutations and calls of
`journal.dirty`, undoing the entries after the snapshot gives back the objects, the
refund counter and the preimages of `db`, that is, every touched field holds the value
it had before, the journal has the entries of `db`, and each dirty count is the one
`db` had plus the number of `dirty` calls made for the address since the snapshot; so
it is the one `db` had when no such call was made. -/
theorem C8_revert_restores_snapshot (j : journal) (dbx : CommitStateDB) (s : Nat)
    (hs : s ≤ j.length) (db db1 : CommitStateDB) (steps : List JournalStep)
    (hwf : db.WellFormed) (hrun : JournalStep.run steps db = some db1) :
    ((j.revert dbx s).1 = revertAll (j.entries.drop s) dbx ∧
        (j.revert dbx s).2.length = s ∧
        (j.revert dbx s).2.entries = j.entries.take s ∧
        ∀ a, (j.revert dbx s).2.dirtyCount a =
          j.dirtyCount a - dirtiedCount (j.entries.drop s) a) ∧
      (db.journal.length ≤ db1.journal.length ∧
        (db1.journal.revert db1 db.journal.length).1.SameState db ∧
        (db1.journal.revert db1 db.journal.length).2.length = db.journal.length ∧
        (db1.journal.revert db1 db.journal.length).2.entries = db.journal.entries ∧
        ∀ a, (db1.journal.revert db1 db.journal.length).2.dirtyCount a =
            db.journal.dirtyCount a + dirtyCalls steps a ∧
          (dirtyCalls steps a = 0 →
            (db1.journal.revert db1 db.journal.length).2.dirtyCount a =
              db.journal.dirtyCount a)) := by
  constructor
  · refine ⟨revert_fst j dbx s hs, ?_, rfl, fun a => revert_dirtyCount j dbx s hs a⟩
    unfold journal.length at hs ⊢
    rw [revert_entries, List.length_take]
    omega
  · obtain ⟨es, he, hsame, hcount⟩ := steps_recorded steps db db1 hwf hrun
    have hlen : db.journal.length ≤ db1.journal.length := by
      unfold journal.length
      rw [he, List.length_append]
      omega
    have hdrop : db1.journal.entries.drop db.journal.length = es := by
      unfold journal.length
      rw [he]
      simp
    have htake : db1.journal.entries.take db.journal.length = db.journal.entries := by
      unfold journal.length
      rw [he]
      simp
    have hc : ∀ a, (db1.journal.revert db1 db.journal.length).2.dirtyCount a =
        db.journal.dirtyCount a + dirtyCalls steps a := by
      intro a
      rw [revert_dirtyCount _ _ _ hlen, hdrop, hcount a]
      omega
    refine ⟨hlen, ?_, ?_, ?_, fun a => ⟨hc a, fun h0 => ?_⟩⟩
    · rw [revert_fst _ _ _ hlen, hdrop]
      exact hsame
    · show (db1.journal.revert db1 db.journal.length).2.entries.length = db.journal.length
      rw [revert_entries, htake]
      rfl
    · rw [revert_entries, htake]
    · rw [hc a, h0]
      simp

/-- C8, witness: the state after the steps of the scenario, two mutations with a call
`dirty(alice)` between them; its journal reverted to index 1, and to the length 0 of the
journal at the start, where the dirty count of `alice` is 1 and that of `bob` is 0. -/
theorem C8_revert_restores_snapshot_witness :
    1 ≤ Scenario.steppedDB.journal.length ∧ Scenario.emptyDB.WellFormed ∧
      JournalStep.run Scenario.steps Scenario.emptyDB = some Scenario.steppedDB ∧
      (Scenario.steppedDB.journal.revert Scenario.steppedDB 1).2.length = 1 ∧
      (Scenario.steppedDB.journal.revert Scenario.steppedDB
        Scenario.emptyDB.journal.length).1.SameState Scenario.emptyDB ∧
      (Scenario.steppedDB.journal.revert Scenario.steppedDB
        Scenario.emptyDB.journal.length).2.dirtyCount Scenario.alice = 1 ∧
      (Scenario.steppedDB.journal.revert Scenario.steppedDB
        Scenario.emptyDB.journal.length).2.dirtyCount Scenario.bob = 0 :=
  ⟨by decide, emptyDB_wellFormed, rfl,
    (C8_revert_restores_snapshot Scenario.steppedDB.journal Scenario.steppedDB 1 (by decide)
      Scenario.emptyDB Scenario.steppedDB Scenario.steps emptyDB_wellFormed rfl).1.2.1,
    (C8_revert_restores_snapshot Scenario.steppedDB.journal Scenario.steppedDB 1 (by decide)
      Scenario.emptyDB Scenario.steppedDB Scenario.steps emptyDB_wellFormed rfl).2.2.1,
    ((C8_revert_restores_snapshot Scenario.steppedDB.journal Scenario.steppedDB 1 (by decide)
      Scenario.emptyDB Scenario.steppedDB Scenario.steps emptyDB_wellFormed
      rfl).2.2.2.2.2 Scenario.alice).1.trans (by decide),
    ((C8_revert_restores_snapshot Scenario.steppedDB.journal Scenario.steppedDB 1 (by decide)
      Scenario.emptyDB Scenario.steppedDB Scenario.steps emptyDB_wellFormed
      rfl).2.2.2.2.2 Scenario.bob).1.trans (by decide)⟩

/-! ## C9: reverting to snapshot 0 -/

/-- C9.  For every sequence of state mutations that starts from a state `db` with a new
journal and records any number of journal entries, reverting to snapshot index 0 gives
the objects, the refund counter and the preimages of `db`, and a journal equal to a new
one: it has no entries, and no address has a dirty-count entry (the lookup reports the
key absent and the count zero). -/
theorem C9_revert_to_zero_is_never_appended (db db1 : CommitStateDB) (ms : List Mutation)
    (hwf : db.WellFormed) (hnew : db.journal = newJournal)
    (hrun : Mutation.run ms db = some db1) :
    (db1.journal.revert db1 0).1.SameState db ∧
      (db1.journal.revert db1 0).2 = newJournal ∧
      (db1.journal.revert db1 0).2.length = 0 ∧
      ∀ a, (db1.journal.revert db1 0).2.dirties a = none ∧
        (db1.journal.revert db1 0).2.dirtyCount a = 0 := by
  obtain ⟨es, hj, hsame⟩ := run_recorded ms db db1 hwf hrun
  have hrev : (db1.journal.revert db1 0).1.SameState db := by
    rw [revert_fst _ _ _ (Nat.zero_le _), List.drop_zero, hj, appendAll_entries, hnew]
    simpa [newJournal] using hsame
  have hreach : journal.Reachable (db1.journal.revert db1 0).2 (fun _ => 0) := by
    apply journal.Reachable.revert _ _ _ _ _ (Nat.zero_le _)
    rw [hj, hnew]
    exact appendAll_reachable es _ _ journal.Reachable.new
  have hd : ∀ a, (db1.journal.revert db1 0).2.dirties a = none := by
    intro a
    rw [reachable_stored hreach a, revert_entries]
    simp [dirtiedCount, journal.stored]
  have he : (db1.journal.revert db1 0).2.entries = [] := by
    rw [revert_entries, List.take_zero]
  refine ⟨hrev, ?_, ?_, fun a => ⟨hd a, ?_⟩⟩
  · cases hr : (db1.journal.revert db1 0).2 with
    | mk entries dirties =>
      rw [hr] at hd he
      simp only at hd he
      subst he
      have : dirties = fun _ => none := funext hd
      subst this
      rfl
  · unfold journal.length
    rw [he]
    rfl
  · unfold journal.dirtyCount
    rw [hd a]
    rfl

/-- C9, witness: the three mutations of the scenario, reverted to snapshot 0. -/
theorem C9_revert_to_zero_is_never_appended_witness :
    Scenario.emptyDB.WellFormed ∧ Scenario.emptyDB.journal = newJournal ∧
      Mutation.run Scenario.mutations Scenario.emptyDB = some Scenario.mutatedDB ∧
      Scenario.mutatedDB.journal.length = 4 ∧
      (Scenario.mutatedDB.journal.revert Scenario.mutatedDB 0).2 = newJournal :=
  ⟨emptyDB_wellFormed, rfl, rfl, by decide,
    (C9_revert_to_zero_is_never_appended Scenario.emptyDB Scenario.mutatedDB
      Scenario.mutations emptyDB_wellFormed rfl rfl).2.1⟩

/-! ## C10: the dirty counts of a reachable journal -/

/-- C10, counterexample.  The journal reached from a new journal by one call
`dirty(alice)` has the dirty count 1 for `alice` and no entry at all, so the count is
not the number of entries whose `dirtied()` is `alice`. -/
theorem C10_dirty_count_exceeds_entries :
    journal.Reachable (newJournal.dirty Scenario.alice)
        (fun a => if a = Scenario.alice then 0 + 1 else 0) ∧
      (newJournal.dirty Scenario.alice).dirtyCount Scenario.alice = 1 ∧
      dirtiedCount (newJournal.dirty Scenario.alice).entries Scenario.alice = 0 :=
  ⟨journal.Reachable.dirty newJournal (fun _ => 0) Scenario.alice journal.Reachable.new,
    by decide, by decide⟩

/-- C10, amended.  In every journal state reachable from a new journal through
`append`, `revert` and `dirty`, where `f addr` is the number of `dirty(addr)` calls
made, the dirty count of every address is the number of entries in the journal whose
`dirtied()` is that address plus `f addr`, and the map has no key for a count of zero.
So without `dirty` calls for it the count of an address is the number of its entries,
and it is zero once all entries that touch the address have been reverted. -/
theorem C10_dirty_count_of_reachable (j : journal) (f : Address → Nat)
    (h : journal.Reachable j f) (addr : Address) :
    j.dirtyCount addr = dirtiedCount j.entries addr + f addr ∧
      j.dirties addr = journal.stored (dirtiedCount j.entries addr + f addr) ∧
      (f addr = 0 → j.dirtyCount addr = dirtiedCount j.entries addr) ∧
      (f addr = 0 → dirtiedCount j.entries addr = 0 →
        j.dirties addr = none ∧ j.dirtyCount addr = 0) := by
  have hst := reachable_stored h addr
  have hc : j.dirtyCount addr = ((dirtiedCount j.entries addr + f addr : Nat) : Int) := by
    unfold journal.dirtyCount
    rw [hst, stored_getD]
  refine ⟨by rw [hc]; push_cast; rfl, hst, fun h0 => ?_, fun h0 h1 => ?_⟩
  · rw [hc, h0]; rfl
  · refine ⟨?_, ?_⟩
    · rw [hst, h0, h1]; rfl
    · rw [hc, h0, h1]; rfl

/-- C10, witness: the journal after two appends for `alice` and a revert to index 1. -/
theorem C10_dirty_count_of_reachable_witness :
    journal.Reachable
        (((newJournal.append (.balanceChange Scenario.alice 1)).append
          (.nonceChange Scenario.alice 1)).revert Scenario.emptyDB 1).2 (fun _ => 0) ∧
      (((newJournal.append (.balanceChange Scenario.alice 1)).append
          (.nonceChange Scenario.alice 1)).revert Scenario.emptyDB 1).2.dirtyCount
            Scenario.alice =
        dirtiedCount (((newJournal.append (.balanceChange Scenario.alice 1)).append
          (.nonceChange Scenario.alice 1)).revert Scenario.emptyDB 1).2.entries
            Scenario.alice + (0 : Nat) :=
  ⟨journal.Reachable.revert _ _ _ _
      (journal.Reachable.append _ _ _ (journal.Reachable.append _ _ _ journal.Reachable.new))
      (by decide),
    (C10_dirty_count_of_reachable _ _
      (journal.Reachable.revert _ (fun _ => 0) Scenario.emptyDB 1
        (journal.Reachable.append _ _ (.nonceChange Scenario.alice 1)
          (journal.Reachable.append _ _ (.balanceChange Scenario.alice 1)
            journal.Reachable.new))
        (by decide)) Scenario.alice).1⟩

/-! ## C11: dirty counts after appends -/

theorem dirties_append_of_none (j : journal) (e : journalEntry) (h : e.dirtied = none) :
    (j.append e).dirties = j.dirties := by
  unfold journal.append
  rw [h]

theorem newJournal_dirtyCount (addr : Address) : newJournal.dirtyCount addr = 0 := rfl

/-- C11.  For every sequence of entries appended one by one to a new journal, after
each append, that is for every initial part of the sequence, the dirty count of every
address is the number of entries appended so far whose `dirtied()` is that address; an
append raises the count of the address the entry dirties by one and no other count; the
entries whose `dirtied()` is nil are `resetObjectChange`, `refundChange` and
`addPreimageChange`, and appending one of them changes no dirty count.  So for the ten
entries of the test the count of the test address ends at 7. -/
theorem C11_append_counts_dirtied :
    (∀ (es : List journalEntry) (k : Nat) (addr : Address),
        (appendAll newJournal (es.take k)).dirtyCount addr = dirtiedCount (es.take k) addr) ∧
      (∀ (j : journal) (e : journalEntry) (addr : Address),
        (j.append e).dirtyCount addr =
          j.dirtyCount addr + (if e.dirtied = some addr then 1 else 0)) ∧
      (∀ e : journalEntry, e.dirtied = none ↔
        ((∃ prev, e = .resetObjectChange prev) ∨ (∃ prev, e = .refundChange prev) ∨
          (∃ hash, e = .addPreimageChange hash))) ∧
      (∀ (j : journal) (prev : stateObject),
        (j.append (.resetObjectChange prev)).dirties = j.dirties) ∧
      (∀ (j : journal) (prev : Nat), (j.append (.refundChange prev)).dirties = j.dirties) ∧
      (∀ (j : journal) (hash : Hash),
        (j.append (.addPreimageChange hash)).dirties = j.dirties) ∧
      (appendAll newJournal Scenario.testCases).dirtyCount Scenario.alice = 7 := by
  refine ⟨fun es k addr => ?_, append_dirtyCount, fun e => ?_,
    fun j prev => dirties_append_of_none j _ rfl, fun j prev => dirties_append_of_none j _ rfl,
    fun j hash => dirties_append_of_none j _ rfl, ?_⟩
  · rw [appendAll_dirtyCount, newJournal_dirtyCount, Int.zero_add]
  · cases e <;> simp [journalEntry.dirtied]
  · rw [appendAll_dirtyCount, newJournal_dirtyCount, Int.zero_add]
    decide

/-! ## C12: the entries after an append -/

/-- C12.  For every journal `j` and entry `e`, after `j.append(e)` the length is the
length before plus 1, `e` is the last entry and the entries before it are those of `j`;
so after appending `i` entries to a new journal the length is `i`. -/
theorem C12_append_adds_last_entry :
    (∀ (j : journal) (e : journalEntry),
        (j.append e).length = j.length + 1 ∧
        (j.append e).entries = j.entries ++ [e] ∧
        (j.append e).entries.getLast? = some e ∧
        (j.append e).entries.take j.length = j.entries) ∧
      (∀ (es : List journalEntry) (i : Nat), i ≤ es.length →
        (appendAll newJournal (es.take i)).length = i) ∧
      (appendAll newJournal Scenario.testCases).length = 10 := by
  refine ⟨fun j e => ⟨?_, rfl, ?_, ?_⟩, fun es i hi => ?_, ?_⟩
  · simp [journal.append, journal.length]
  · simp [journal.append]
  · simp [journal.append, journal.length]
  · unfold journal.length
    rw [appendAll_entries]
    simp [newJournal, hi]
  · unfold journal.length
    rw [appendAll_entries]
    rfl

/-! ## C13: `dirty` changes one count and nothing else -/

/-- C13.  For every journal and address `addr`, `dirty(addr)` raises the dirty count of
`addr` by exactly 1 and leaves the entries, the length and the map entry of every other
address as they were; in a new journal `addr` has no key (count zero), and after one
`dirty(addr)` its count is 1. -/
theorem C13_dirty_increments_one_count (j : journal) (addr : Address) :
    (j.dirty addr).dirtyCount addr = j.dirtyCount addr + 1 ∧
      (j.dirty addr).entries = j.entries ∧
      (j.dirty addr).length = j.length ∧
      (∀ b, b ≠ addr → (j.dirty addr).dirties b = j.dirties b) ∧
      newJournal.dirties addr = none ∧
      newJournal.dirtyCount addr = 0 ∧
      (newJournal.dirty addr).dirtyCount addr = 1 := by
  refine ⟨?_, rfl, rfl, fun b hb => ?_, rfl, rfl, ?_⟩
  · simp [journal.dirty, journal.dirtyCount, journal.increment]
  · simp [journal.dirty, journal.increment, hb]
  · simp [journal.dirty, journal.dirtyCount, journal.increment, newJournal]

/-! ## C14: a decorator that rejects by itself does not call `next` -/

theorem own_outcome_of_cases {d : AnteHandler → Res AnteResult}
    (h : (∃ r, ∀ next, d next = r) ∨
      (∃ c t s w1, ∀ next : AnteHandler, d next = next c t s w1))
    (hrej : (d Terminator).isRejected = true) : ∀ next, d next = d Terminator := by
  rcases h with ⟨r, hall⟩ | ⟨c, t, s, w1, hall⟩
  · intro next
    rw [hall next, hall Terminator]
  · rw [hall Terminator] at hrej
    simp [Terminator, Res.isRejected] at hrej

theorem ethAnteHandler_eq_chain (env : Env) :
    ethAnteHandler env = ChainAnteDecorators (anteDecorators env) := rfl

theorem decorator_rejects_without_next (env : Env) (d : AnteDecorator)
    (hd : d ∈ anteDecorators env) (ctx : Context) (tx : Tx) (sim : Bool) (w : World)
    (hrej : rejectsByItself d ctx tx sim w = true) :
    ∀ next, d ctx tx sim next w = d ctx tx sim Terminator w := by
  unfold rejectsByItself at hrej
  simp only [anteDecorators, List.mem_cons, List.mem_singleton, List.not_mem_nil,
    or_false] at hd
  rcases hd with rfl | rfl | rfl | rfl | rfl | rfl | rfl
  · -- the setup decorator
    intro next
    unfold EthSetupContextDecorator.AnteHandle at hrej ⊢
    cases hg : tx.asGasTx with
    | none => rfl
    | some gas =>
      rw [hg] at hrej
      simp [Terminator, EthSetupContextDecorator.deferred, Res.isRejected] at hrej
  · apply own_outcome_of_cases (d := fun next => EthMempoolFeeDecorator.AnteHandle env ctx tx
      sim next w) _ hrej
    rcases EthMempoolFee_cases env ctx tx sim w with ⟨r, _, _, hall⟩ | hall
    · exact Or.inl ⟨r, hall⟩
    · exact Or.inr ⟨_, _, _, _, hall⟩
  · apply own_outcome_of_cases (d := fun next => EthSigVerificationDecorator.AnteHandle env ctx
      tx sim next w) _ hrej
    rcases EthSigVerification_cases env ctx tx sim w with ⟨r, _, _, hall⟩ |
      ⟨_, _, _, _, _, _, hall⟩
    · exact Or.inl ⟨r, hall⟩
    · exact Or.inr ⟨_, _, _, _, hall⟩
  · apply own_outcome_of_cases (d := fun next => AccountVerificationDecorator.AnteHandle env ctx
      tx sim next w) _ hrej
    rcases AccountVerification_cases env ctx tx sim w with ⟨r, _, _, hall⟩ | ⟨_, _, hall, _⟩
    · exact Or.inl ⟨r, hall⟩
    · exact Or.inr ⟨_, _, _, _, hall⟩
  · apply own_outcome_of_cases (d := fun next => NonceVerificationDecorator.AnteHandle env ctx
      tx sim next w) _ hrej
    rcases NonceVerification_cases env ctx tx sim w with ⟨r, _, _, hall⟩ |
      ⟨_, _, _, _, _, _, _, _, _, hall⟩
    · exact Or.inl ⟨r, hall⟩
    · exact Or.inr ⟨_, _, _, _, hall⟩
  · apply own_outcome_of_cases (d := fun next => EthGasConsumeDecorator.AnteHandle env ctx
      tx sim next w) _ hrej
    rcases EthGasConsume_cases env ctx tx sim w with ⟨r, _, _, hall⟩ |
      ⟨_, _, _, _, _, _, _, _, _, _, _, _, _, _, _, hall⟩
    · exact Or.inl ⟨r, hall⟩
    · exact Or.inr ⟨_, _, _, _, hall⟩
  · apply own_outcome_of_cases (d := fun next => IncrementSenderSequenceDecorator.AnteHandle env
      ctx tx sim next w) _ hrej
    rcases IncrementSenderSequence_cases env ctx tx sim w with ⟨_, _, hall⟩ |
      ⟨_, ⟨r, _, _, hall⟩ | ⟨_, _, _, _, _, _, _, _, hall⟩⟩
    · exact Or.inr ⟨_, _, _, _, hall⟩
    · exact Or.inl ⟨r, hall⟩
    · exact Or.inr ⟨_, _, _, _, hall⟩

/-- C14.  For each of the seven ante decorators and every input on which the decorator
rejects by itself, that is, returns an error even when the handler after it admits
everything (so that the error did not come from the next handler; an error that
`EthSetupContextDecorator` makes out of an out-of-gas panic of the next handler does
come from there), the outcome is the same whatever the next handler is: the decorator
has not invoked it.  Hence in a chain that goes on from this decorator the decorators
after it do not matter: none of them runs. -/
theorem C14_own_rejection_skips_next (env : Env) (d : AnteDecorator)
    (hd : d ∈ anteDecorators env) (ctx : Context) (tx : Tx) (simulate : Bool) (w : World)
    (hrej : rejectsByItself d ctx tx simulate w = true) :
    (∀ next, d ctx tx simulate next w = d ctx tx simulate Terminator w) ∧
      (∀ rest rest2 : List AnteDecorator,
        ChainAnteDecorators (d :: rest) ctx tx simulate w =
          ChainAnteDecorators (d :: rest2) ctx tx simulate w) := by
  have h := decorator_rejects_without_next env d hd ctx tx simulate w hrej
  refine ⟨h, fun rest rest2 => ?_⟩
  show d ctx tx simulate (ChainAnteDecorators rest) w =
    d ctx tx simulate (ChainAnteDecorators rest2) w
  rw [h (ChainAnteDecorators rest), h (ChainAnteDecorators rest2)]

/-- C14, witness: the nonce stage rejects nonce 0 for an account with sequence 3, and
the two stages after it in the chain do not matter. -/
theorem C14_own_rejection_skips_next_witness :
    NonceVerificationDecorator.AnteHandle Scenario.env ∈ anteDecorators Scenario.env ∧
      rejectsByItself (NonceVerificationDecorator.AnteHandle Scenario.env) (Scenario.ctx true)
        (.ethereum (Scenario.msg 0 30000 1 10 (some Scenario.alice))) false
        (Scenario.world 1000 3) = true ∧
      ChainAnteDecorators
          [ NonceVerificationDecorator.AnteHandle Scenario.env,
            EthGasConsumeDecorator.AnteHandle Scenario.env,
            IncrementSenderSequenceDecorator.AnteHandle Scenario.env ]
          (Scenario.ctx true) (.ethereum (Scenario.msg 0 30000 1 10 (some Scenario.alice)))
          false (Scenario.world 1000 3) =
        ChainAnteDecorators [NonceVerificationDecorator.AnteHandle Scenario.env]
          (Scenario.ctx true) (.ethereum (Scenario.msg 0 30000 1 10 (some Scenario.alice)))
          false (Scenario.world 1000 3) :=
  ⟨by simp [anteDecorators], rfl,
    (C14_own_rejection_skips_next Scenario.env
      (NonceVerificationDecorator.AnteHandle Scenario.env) (by simp [anteDecorators])
      (Scenario.ctx true) (.ethereum (Scenario.msg 0 30000 1 10 (some Scenario.alice))) false
      (Scenario.world 1000 3) rfl).2 _ _⟩

/-! ## C15: the panic barrier of the setup decorator -/

theorem verdict_panicked {r : Res AnteResult} {p : PanicValue} (h : r.verdict = .panicked p) :
    r = .panic p r.world := by
  cases r with
  | panic q w =>
    simp only [Res.verdict, Verdict.panicked.injEq] at h
    rw [h]
    rfl
  | ret x w =>
    obtain ⟨c, e⟩ := x
    cases e <;> simp [Res.verdict] at h

/-- C15.  For every transaction that implements `GasTx`, with `gas = tx.GetGas()`: if
the handler after `EthSetupContextDecorator` panics with `sdk.ErrorOutOfGas` of some
descriptor in a world `w1`, and the context has a transaction gas meter `g`, then
`AnteHandle` does not panic but returns the error `ErrOutOfGas` formatted from the
descriptor (the location), `gas` (the gas limit) and `g.GasConsumed()` (the gas used);
if the handler panics with any other value, `AnteHandle` panics with that value, in the
world of the panic. -/
theorem C15_out_of_gas_panic_becomes_error (ctx : Context) (tx : Tx) (simulate : Bool)
    (next : AnteHandler) (w : World) (gas : Nat) (hgas : tx.asGasTx = some gas) :
    (∀ descriptor w1 g,
        next (ctx.WithBlockGasMeter (NewInfiniteGasMeter w).1) tx simulate
          (NewInfiniteGasMeter w).2 = .panic (.ErrorOutOfGas descriptor) w1 →
        w1.meter ctx.gasMeter = some g →
        EthSetupContextDecorator.AnteHandle ctx tx simulate next w =
          .ret (Context.zero, some (.outOfGas descriptor gas g.GasConsumed)) w1 ∧
        (Error.outOfGas descriptor gas g.GasConsumed).code = .ErrOutOfGas) ∧
      (∀ p w1,
        next (ctx.WithBlockGasMeter (NewInfiniteGasMeter w).1) tx simulate
          (NewInfiniteGasMeter w).2 = .panic p w1 →
        (∀ descriptor, p ≠ .ErrorOutOfGas descriptor) →
        EthSetupContextDecorator.AnteHandle ctx tx simulate next w = .panic p w1) := by
  constructor
  · intro descriptor w1 g hnext hg
    refine ⟨?_, rfl⟩
    unfold EthSetupContextDecorator.AnteHandle
    simp only [hgas, hnext, EthSetupContextDecorator.deferred]
    have hg1 : w1.meter (ctx.WithBlockGasMeter (NewInfiniteGasMeter w).1).gasMeter = some g := hg
    rw [hg1]
  · intro p w1 hnext hp
    unfold EthSetupContextDecorator.AnteHandle
    simp only [hgas, hnext]
    cases p with
    | ErrorOutOfGas d => exact absurd rfl (hp d)
    | ErrorGasOverflow d => rfl
    | nilPointer => rfl
    | message m => rfl

/-- Block execution of the transfer with gas limit 100: the stages after the setup
decorator panic out of gas when the gas stage consumes the intrinsic gas; the meter of
the context that the setup decorator holds has 2480 gas consumed. -/
theorem Scenario.afterSetup_runs_out_of_gas :
    (Scenario.afterSetup
        ((Scenario.ctx false).WithBlockGasMeter (NewInfiniteGasMeter (Scenario.world 1000 0)).1)
        (Scenario.tx 0 100 1 10) false
        (NewInfiniteGasMeter (Scenario.world 1000 0)).2).verdict =
        .panicked (.ErrorOutOfGas "eth intrinsic gas") ∧
      (Scenario.afterSetup
        ((Scenario.ctx false).WithBlockGasMeter (NewInfiniteGasMeter (Scenario.world 1000 0)).1)
        (Scenario.tx 0 100 1 10) false
        (NewInfiniteGasMeter (Scenario.world 1000 0)).2).world.meter
          (Scenario.ctx false).gasMeter = some (.infiniteGasMeter 2480) := by
  unfold Scenario.afterSetup
  simp [ethAnteHandler, ChainAnteDecorators, Terminator, EthSetupContextDecorator.AnteHandle,
    EthSetupContextDecorator.deferred, EthMempoolFeeDecorator.AnteHandle,
    EthSigVerificationDecorator.AnteHandle, AccountVerificationDecorator.AnteHandle,
    NonceVerificationDecorator.AnteHandle, EthGasConsumeDecorator.AnteHandle,
    EthGasConsumeDecorator.chargeSender, IncrementSenderSequenceDecorator.AnteHandle,
    IncrementSenderSequenceDecorator.incrementSequences, GetAccount, SetAccount, GetBalance,
    GetSignerAcc, DeductFees, SetGasMeter, ConsumeGas, Exec.andThen, GasMeter.ConsumeGas,
    addUint64Overflow, MaxUint64, NewInfiniteGasMeter, NewGasMeter, newMeter,
    Context.WithBlockGasMeter, Context.WithGasMeter, Tx.asGasTx, Tx.asMsgEthereumTx,
    MsgEthereumTx.From, MsgEthereumTx.To, MsgEthereumTx.GetGas, MsgEthereumTx.Fee,
    MsgEthereumTx.Cost, MsgEthereumTx.GetSigners, VerifySig, SetString10, parseDigits,
    digitValue, IntrinsicGas, bigInt64, allGTELoop, DecCoinsIsZero, Store.sendToFeeCollector,
    World.meter, GasMeter.GasConsumed, Res.verdict, Res.world, World.balance, World.sequence,
    KVGasConfig, Env.valueSize, TxGas, Context.zero, Scenario.env, Scenario.ctx, Scenario.tx,
    Scenario.msg, Scenario.world, Scenario.alice, Scenario.bob]

/-- C15, witness: block execution of the transfer with gas limit 100 returns the
out-of-gas error with location "eth intrinsic gas", gas limit 100 and gas used 2480. -/
theorem C15_out_of_gas_panic_becomes_error_witness :
    (Scenario.tx 0 100 1 10).asGasTx = some 100 ∧
      EthSetupContextDecorator.AnteHandle (Scenario.ctx false) (Scenario.tx 0 100 1 10) false
          Scenario.afterSetup (Scenario.world 1000 0) =
        .ret (Context.zero, some (.outOfGas "eth intrinsic gas" 100 2480))
          (Scenario.afterSetup
            ((Scenario.ctx false).WithBlockGasMeter
              (NewInfiniteGasMeter (Scenario.world 1000 0)).1)
            (Scenario.tx 0 100 1 10) false
            (NewInfiniteGasMeter (Scenario.world 1000 0)).2).world :=
  ⟨rfl,
    ((C15_out_of_gas_panic_becomes_error (Scenario.ctx false) (Scenario.tx 0 100 1 10) false
      Scenario.afterSetup (Scenario.world 1000 0) 100 rfl).1 "eth intrinsic gas" _
      (.infiniteGasMeter 2480) (verdict_panicked Scenario.afterSetup_runs_out_of_gas.1)
      Scenario.afterSetup_runs_out_of_gas.2).1⟩

/-! ## C16: the gas meter that the setup decorator replaces -/

/-- The context that `EthSetupContextDecorator.AnteHandle` passes on is the input
context with a new block gas meter: its transaction gas meter is the one it arrived
with, and the object behind it is untouched. -/
theorem EthSetupContextDecorator.passes_same_gas_meter (ctx : Context) (tx : Tx)
    (simulate : Bool) (next : AnteHandler) (w : World) (gas : Nat)
    (hgas : tx.asGasTx = some gas) :
    EthSetupContextDecorator.AnteHandle ctx tx simulate next w =
        EthSetupContextDecorator.deferred (ctx.WithBlockGasMeter (NewInfiniteGasMeter w).1) gas
          (next (ctx.WithBlockGasMeter (NewInfiniteGasMeter w).1) tx simulate
            (NewInfiniteGasMeter w).2) ∧
      (ctx.WithBlockGasMeter (NewInfiniteGasMeter w).1).gasMeter = ctx.gasMeter ∧
      (NewInfiniteGasMeter w).2.store = w.store ∧
      ∀ g, w.meter ctx.gasMeter = some g →
        (NewInfiniteGasMeter w).2.meter
          (ctx.WithBlockGasMeter (NewInfiniteGasMeter w).1).gasMeter = some g := by
  refine ⟨?_, rfl, rfl, ?_⟩
  · unfold EthSetupContextDecorator.AnteHandle
    simp only [hgas]
  · intro g hg
    show (NewInfiniteGasMeter w).2.meter ctx.gasMeter = some g
    cases hm : ctx.gasMeter with
    | none => rw [hm] at hg; simp [World.meter] at hg
    | some i =>
      rw [hm] at hg
      simp only [World.meter] at hg
      simp only [World.meter, NewInfiniteGasMeter, newMeter]
      have hi : i < w.meters.length := by
        by_contra hcon
        rw [List.getElem?_eq_none (Nat.le_of_not_lt hcon)] at hg
        exact Option.noConfusion hg
      rw [List.getElem?_append_left hi]
      exact hg

/-- C16, as the code behaves.  Mempool admission of the transfer with gas limit 30000
and a sender who can pay, in a context that arrives with a transaction gas meter limited
to 500: the setup decorator replaces the block gas meter, not the transaction gas meter,
so the context it passes to the next handler still has the meter limited to 500; the
account check then runs out of gas on its first store read (1000 gas), and the chain
returns the out-of-gas error.  With the unbounded meter that the claim describes the
same transaction is admitted (`Scenario.checkTx_run`). -/
theorem C16_setup_keeps_finite_gas_meter :
    (Scenario.finiteMeterWorld 100000 0).meter (Scenario.ctx true).gasMeter =
        some (.basicGasMeter 500 0) ∧
      (∀ next, EthSetupContextDecorator.AnteHandle (Scenario.ctx true)
          (Scenario.tx 0 30000 1 10) false next (Scenario.finiteMeterWorld 100000 0) =
        EthSetupContextDecorator.deferred
          ((Scenario.ctx true).WithBlockGasMeter
            (NewInfiniteGasMeter (Scenario.finiteMeterWorld 100000 0)).1) 30000
          (next
            ((Scenario.ctx true).WithBlockGasMeter
              (NewInfiniteGasMeter (Scenario.finiteMeterWorld 100000 0)).1)
            (Scenario.tx 0 30000 1 10) false
            (NewInfiniteGasMeter (Scenario.finiteMeterWorld 100000 0)).2)) ∧
      (NewInfiniteGasMeter (Scenario.finiteMeterWorld 100000 0)).2.meter
          ((Scenario.ctx true).WithBlockGasMeter
            (NewInfiniteGasMeter (Scenario.finiteMeterWorld 100000 0)).1).gasMeter =
        some (.basicGasMeter 500 0) ∧
      (GasMeter.basicGasMeter 500 0).isInfinite = false ∧
      (ethAnteHandler Scenario.env (Scenario.ctx true) (Scenario.tx 0 30000 1 10) false
          (Scenario.finiteMeterWorld 100000 0)).verdict =
        .rejected (.outOfGas "ReadFlat" 30000 1000) ∧
      (ethAnteHandler Scenario.env (Scenario.ctx true) (Scenario.tx 0 30000 1 10) false
          (Scenario.world 100000 0)).verdict = .admitted := by
  refine ⟨rfl, fun _ => rfl, rfl, rfl, ?_, ?_⟩
  ·   simp [ethAnteHandler, ChainAnteDecorators, Terminator, EthSetupContextDecorator.AnteHandle,
    EthSetupContextDecorator.deferred, EthMempoolFeeDecorator.AnteHandle,
    EthSigVerificationDecorator.AnteHandle, AccountVerificationDecorator.AnteHandle,
    NonceVerificationDecorator.AnteHandle, EthGasConsumeDecorator.AnteHandle,
    EthGasConsumeDecorator.chargeSender, IncrementSenderSequenceDecorator.AnteHandle,
    IncrementSenderSequenceDecorator.incrementSequences, GetAccount, SetAccount, GetBalance,
    GetSignerAcc, DeductFees, SetGasMeter, ConsumeGas, Exec.andThen, GasMeter.ConsumeGas,
    addUint64Overflow, MaxUint64, NewInfiniteGasMeter, NewGasMeter, newMeter,
    Context.WithBlockGasMeter, Context.WithGasMeter, Tx.asGasTx, Tx.asMsgEthereumTx,
    MsgEthereumTx.From, MsgEthereumTx.To, MsgEthereumTx.GetGas, MsgEthereumTx.Fee,
    MsgEthereumTx.Cost, MsgEthereumTx.GetSigners, VerifySig, SetString10, parseDigits,
    digitValue, IntrinsicGas, bigInt64, allGTELoop, DecCoinsIsZero, Store.sendToFeeCollector,
    World.meter, GasMeter.GasConsumed, Res.verdict, Res.world, World.balance, World.sequence,
    KVGasConfig, Env.valueSize, TxGas, Context.zero, Scenario.env, Scenario.ctx, Scenario.tx,
    Scenario.msg, Scenario.world, Scenario.finiteMeterWorld, Scenario.alice, Scenario.bob]
  ·   simp [ethAnteHandler, ChainAnteDecorators, Terminator, EthSetupContextDecorator.AnteHandle,
    EthSetupContextDecorator.deferred, EthMempoolFeeDecorator.AnteHandle,
    EthSigVerificationDecorator.AnteHandle, AccountVerificationDecorator.AnteHandle,
    NonceVerificationDecorator.AnteHandle, EthGasConsumeDecorator.AnteHandle,
    EthGasConsumeDecorator.chargeSender, IncrementSenderSequenceDecorator.AnteHandle,
    IncrementSenderSequenceDecorator.incrementSequences, GetAccount, SetAccount, GetBalance,
    GetSignerAcc, DeductFees, SetGasMeter, ConsumeGas, Exec.andThen, GasMeter.ConsumeGas,
    addUint64Overflow, MaxUint64, NewInfiniteGasMeter, NewGasMeter, newMeter,
    Context.WithBlockGasMeter, Context.WithGasMeter, Tx.asGasTx, Tx.asMsgEthereumTx,
    MsgEthereumTx.From, MsgEthereumTx.To, MsgEthereumTx.GetGas, MsgEthereumTx.Fee,
    MsgEthereumTx.Cost, MsgEthereumTx.GetSigners, VerifySig, SetString10, parseDigits,
    digitValue, IntrinsicGas, bigInt64, allGTELoop, DecCoinsIsZero, Store.sendToFeeCollector,
    World.meter, GasMeter.GasConsumed, Res.verdict, Res.world, World.balance, World.sequence,
    KVGasConfig, Env.valueSize, TxGas, Context.zero, Scenario.env, Scenario.ctx, Scenario.tx,
    Scenario.msg, Scenario.world, Scenario.finiteMeterWorld, Scenario.alice, Scenario.bob]

/-! ## C17: block execution does not read the minimum gas prices -/

/-- Blanking the minimum gas prices keeps the verdict. -/
theorem forgetMinGasPrices_verdict (r : Res AnteResult) :
    r.forgetMinGasPrices.verdict = r.verdict := by
  cases r with
  | panic p w => rfl
  | ret x w =>
    obtain ⟨c, e⟩ := x
    cases e <;> rfl

/-- Blanking the minimum gas prices keeps the world. -/
theorem forgetMinGasPrices_world (r : Res AnteResult) :
    r.forgetMinGasPrices.world = r.world := by
  cases r with
  | panic p w => rfl
  | ret x w => rfl

/-- The terminator does not read the minimum gas prices. -/
theorem Terminator_minGasPriceBlind : MinGasPriceBlind Terminator :=
  fun _ _ _ _ _ _ => rfl

/-- The account read depends on the context through its gas meter alone. -/
theorem GetAccount_congr (env : Env) {c1 c2 : Context} (h : c1.gasMeter = c2.gasMeter) :
    GetAccount env c1 = GetAccount env c2 := by
  unfold GetAccount
  rw [h]

/-- The account write depends on the context through its gas meter alone. -/
theorem SetAccount_congr (env : Env) {c1 c2 : Context} (h : c1.gasMeter = c2.gasMeter) :
    SetAccount env c1 = SetAccount env c2 := by
  unfold SetAccount
  rw [h]

/-- The increment loop depends on the context through its gas meter alone. -/
theorem incrementSequences_congr (env : Env) {c1 c2 : Context}
    (h : c1.gasMeter = c2.gasMeter) (l : List Address) :
    IncrementSenderSequenceDecorator.incrementSequences env c1 l =
      IncrementSenderSequenceDecorator.incrementSequences env c2 l := by
  induction l with
  | nil => rfl
  | cons a rest ih =>
    funext w
    simp only [IncrementSenderSequenceDecorator.incrementSequences, GetAccount_congr env h,
      SetAccount_congr env h, ih]

/-- The deferred function of the setup decorator maps outcomes that agree up to the
minimum gas prices to outcomes that agree up to the minimum gas prices. -/
theorem deferred_forgetMinGasPrices (c1 c2 : Context) (gas : Nat) (r1 r2 : Res AnteResult)
    (hc : c1.gasMeter = c2.gasMeter)
    (hr : r1.forgetMinGasPrices = r2.forgetMinGasPrices) :
    (EthSetupContextDecorator.deferred c1 gas r1).forgetMinGasPrices =
      (EthSetupContextDecorator.deferred c2 gas r2).forgetMinGasPrices := by
  cases r1 with
  | ret x1 w1 =>
    cases r2 with
    | ret x2 w2 => exact hr
    | panic p2 w2 =>
      obtain ⟨a, b⟩ := x1
      simp [Res.forgetMinGasPrices] at hr
  | panic p1 w1 =>
    cases r2 with
    | ret x2 w2 =>
      obtain ⟨a, b⟩ := x2
      simp [Res.forgetMinGasPrices] at hr
    | panic p2 w2 =>
      simp only [Res.forgetMinGasPrices, Res.panic.injEq] at hr
      obtain ⟨hp, hw⟩ := hr
      subst hp
      subst hw
      cases p1 with
      | ErrorOutOfGas d =>
        simp only [EthSetupContextDecorator.deferred, hc]
      | ErrorGasOverflow d => rfl
      | nilPointer => rfl
      | message s => rfl

/-- The setup decorator adds no dependency on the minimum gas prices. -/
theorem setup_minGasPriceBlind (next : AnteHandler)
    (hn : MinGasPriceBlind next) :
    MinGasPriceBlind (fun c tx simulate => EthSetupContextDecorator.AnteHandle c tx simulate next) := by
  intro c m tx sim w hc
  simp only [EthSetupContextDecorator.AnteHandle]
  cases tx.asGasTx with
  | none => rfl
  | some gas =>
    exact deferred_forgetMinGasPrices _ _ gas _ _ rfl
      (hn (c.WithBlockGasMeter (NewInfiniteGasMeter w).1) m tx sim _ hc)

/-- Outside CheckTx the mempool fee decorator adds no dependency on the minimum gas
prices. -/
theorem mempoolFee_minGasPriceBlind (env : Env) (next : AnteHandler)
    (hn : MinGasPriceBlind next) :
    MinGasPriceBlind (fun c tx simulate =>
      EthMempoolFeeDecorator.AnteHandle env c tx simulate next) := by
  intro c m tx sim w hc
  have hc1 : (c.WithMinGasPrices m).checkTx = false := hc
  simp only [EthMempoolFeeDecorator.AnteHandle, hc, hc1, Bool.not_false, if_true]
  exact hn c m tx sim w hc

/-- The signature decorator adds no dependency on the minimum gas prices. -/
theorem sigVerification_minGasPriceBlind (env : Env) (next : AnteHandler)
    (hn : MinGasPriceBlind next) :
    MinGasPriceBlind (fun c tx simulate =>
      EthSigVerificationDecorator.AnteHandle env c tx simulate next) := by
  intro c m tx sim w hc
  simp only [EthSigVerificationDecorator.AnteHandle]
  have h1 : (c.WithMinGasPrices m).chainID = c.chainID := rfl
  rw [h1]
  cases tx.asMsgEthereumTx with
  | none => rfl
  | some msg =>
    simp only
    cases SetString10 c.chainID with
    | none => rfl
    | some chainID =>
      simp only
      cases VerifySig env msg chainID with
      | none => rfl
      | some msg1 => exact hn c m _ sim w hc

/-- The account decorator adds no dependency on the minimum gas prices. -/
theorem accountVerification_minGasPriceBlind (env : Env) (next : AnteHandler)
    (hn : MinGasPriceBlind next) :
    MinGasPriceBlind (fun c tx simulate =>
      AccountVerificationDecorator.AnteHandle env c tx simulate next) := by
  intro c m tx sim w hc
  have hc1 : (c.WithMinGasPrices m).checkTx = false := hc
  simp only [AccountVerificationDecorator.AnteHandle, hc, hc1, Bool.not_false, if_true]
  exact hn c m tx sim w hc

/-- The nonce decorator adds no dependency on the minimum gas prices. -/
theorem nonceVerification_minGasPriceBlind (env : Env) (next : AnteHandler)
    (hn : MinGasPriceBlind next) :
    MinGasPriceBlind (fun c tx simulate =>
      NonceVerificationDecorator.AnteHandle env c tx simulate next) := by
  intro c m tx sim w hc
  simp only [NonceVerificationDecorator.AnteHandle]
  have hG : GetAccount env (c.WithMinGasPrices m) = GetAccount env c := rfl
  rw [hG]
  cases tx.asMsgEthereumTx with
  | none => rfl
  | some msg =>
    simp only
    cases msg.From with
    | none => rfl
    | some a =>
      simp only
      cases GetAccount env c a w with
      | panic p w1 => rfl
      | ret x w1 =>
        cases x with
        | none => rfl
        | some acc =>
          simp only
          split
          · rfl
          · exact hn c m _ sim w1 hc

/-- The function `SetGasMeter` carries the minimum gas prices along. -/
theorem SetGasMeter_WithMinGasPrices (simulate : Bool) (c : Context) (m : List DecCoin)
    (gasLimit : Nat) (w : World) :
    SetGasMeter simulate (c.WithMinGasPrices m) gasLimit w =
      ((SetGasMeter simulate c gasLimit w).1.WithMinGasPrices m,
        (SetGasMeter simulate c gasLimit w).2) := by
  unfold SetGasMeter
  have h1 : (c.WithMinGasPrices m).blockHeight = c.blockHeight := rfl
  rw [h1]
  split <;> rfl

/-- The function `SetGasMeter` keeps the CheckTx flag. -/
theorem SetGasMeter_checkTx (simulate : Bool) (c : Context) (gasLimit : Nat) (w : World) :
    (SetGasMeter simulate c gasLimit w).1.checkTx = c.checkTx := by
  unfold SetGasMeter
  split <;> rfl

/-- The gas decorator adds no dependency on the minimum gas prices. -/
theorem gasConsume_minGasPriceBlind (env : Env) (next : AnteHandler)
    (hn : MinGasPriceBlind next) :
    MinGasPriceBlind (fun c tx simulate =>
      EthGasConsumeDecorator.AnteHandle env c tx simulate next) := by
  intro c m tx sim w hc
  simp only [EthGasConsumeDecorator.AnteHandle]
  have hG : GetSignerAcc env (c.WithMinGasPrices m) = GetSignerAcc env c := rfl
  have hC : EthGasConsumeDecorator.chargeSender env (c.WithMinGasPrices m) =
      EthGasConsumeDecorator.chargeSender env c := rfl
  have hc1 : (c.WithMinGasPrices m).checkTx = c.checkTx := rfl
  rw [hG, hC, hc1]
  cases tx.asMsgEthereumTx with
  | none => rfl
  | some msg =>
    simp only
    cases msg.From with
    | none => rfl
    | some a =>
      simp only
      cases GetSignerAcc env c a w with
      | panic p w1 => rfl
      | ret x w1 =>
        cases x with
        | error err => rfl
        | ok acc =>
          simp only
          cases IntrinsicGas msg.Data.Payload (msg.To == none) true with
          | none => rfl
          | some gas =>
            simp only
            split
            · rfl
            · cases EthGasConsumeDecorator.chargeSender env c a msg msg.GetGas w1 with
              | panic p w2 => rfl
              | ret y w2 =>
                cases y with
                | some err => rfl
                | none =>
                  simp only [SetGasMeter_WithMinGasPrices]
                  have hm : ((SetGasMeter sim c msg.GetGas w2).1.WithMinGasPrices m).gasMeter =
                      (SetGasMeter sim c msg.GetGas w2).1.gasMeter := rfl
                  rw [hm]
                  cases ConsumeGas (SetGasMeter sim c msg.GetGas w2).1.gasMeter gas
                      "eth intrinsic gas" (SetGasMeter sim c msg.GetGas w2).2 with
                  | panic p w3 => rfl
                  | ret u w3 =>
                    exact hn _ m _ sim w3 ((SetGasMeter_checkTx sim c _ w2).trans hc)

/-- The sequence decorator adds no dependency on the minimum gas prices. -/
theorem incrementSequence_minGasPriceBlind (env : Env) (next : AnteHandler)
    (hn : MinGasPriceBlind next) :
    MinGasPriceBlind (fun c tx simulate =>
      IncrementSenderSequenceDecorator.AnteHandle env c tx simulate next) := by
  intro c m tx sim w hc
  simp only [IncrementSenderSequenceDecorator.AnteHandle]
  have h1 : (c.WithMinGasPrices m).recheckTx = c.recheckTx := rfl
  rw [h1]
  split
  · exact hn c m tx sim w hc
  · cases tx.asMsgEthereumTx with
    | none => rfl
    | some msg =>
      simp only
      cases msg.GetSigners with
      | error p => rfl
      | ok signers =>
        simp only
        have h2 : IncrementSenderSequenceDecorator.incrementSequences env
              ((c.WithMinGasPrices m).WithBlockGasMeter (NewInfiniteGasMeter w).1) signers =
            IncrementSenderSequenceDecorator.incrementSequences env
              (c.WithBlockGasMeter (NewInfiniteGasMeter w).1) signers :=
          incrementSequences_congr env
            (show ((c.WithMinGasPrices m).WithBlockGasMeter (NewInfiniteGasMeter w).1).gasMeter =
              (c.WithBlockGasMeter (NewInfiniteGasMeter w).1).gasMeter from rfl) signers
        rw [h2]
        cases IncrementSenderSequenceDecorator.incrementSequences env
            (c.WithBlockGasMeter (NewInfiniteGasMeter w).1) signers (NewInfiniteGasMeter w).2 with
        | panic p w1 => rfl
        | ret u w1 => exact hn c m tx sim w1 hc

/-- The whole chain, run outside CheckTx, does not depend on the minimum gas prices. -/
theorem ethAnteHandler_minGasPriceBlind (env : Env) : MinGasPriceBlind (ethAnteHandler env) :=
  setup_minGasPriceBlind _
    (mempoolFee_minGasPriceBlind env _
      (sigVerification_minGasPriceBlind env _
        (accountVerification_minGasPriceBlind env _
          (nonceVerification_minGasPriceBlind env _
            (gasConsume_minGasPriceBlind env _
              (incrementSequence_minGasPriceBlind env _
                Terminator_minGasPriceBlind))))))

/-- C17.  In every context that is not CheckTx, `EthMempoolFeeDecorator.AnteHandle`
returns exactly `next(ctx, tx, simulate)`, for every transaction of any type (and, `ctx`
being arbitrary, for every minimum-gas-price setting); and two runs of the whole chain
outside CheckTx that differ only in the minimum gas prices of the context end with the
same verdict (the same error or panic value) in the same world, and return contexts that
differ at most in the minimum gas prices they carry. -/
theorem C17_block_execution_ignores_min_gas_prices (env : Env) (ctx : Context)
    (hc : ctx.checkTx = false) :
    (∀ tx simulate next w,
        EthMempoolFeeDecorator.AnteHandle env ctx tx simulate next w =
          next ctx tx simulate w) ∧
      (∀ m tx simulate w,
        (ethAnteHandler env (ctx.WithMinGasPrices m) tx simulate w).verdict =
            (ethAnteHandler env ctx tx simulate w).verdict ∧
          (ethAnteHandler env (ctx.WithMinGasPrices m) tx simulate w).world =
            (ethAnteHandler env ctx tx simulate w).world ∧
          (ethAnteHandler env (ctx.WithMinGasPrices m) tx simulate w).forgetMinGasPrices =
            (ethAnteHandler env ctx tx simulate w).forgetMinGasPrices) := by
  constructor
  · intro tx simulate next w
    simp only [EthMempoolFeeDecorator.AnteHandle, hc, Bool.not_false, if_true]
  · intro m tx simulate w
    have h := ethAnteHandler_minGasPriceBlind env ctx m tx simulate w hc
    refine ⟨?_, ?_, h⟩
    · rw [← forgetMinGasPrices_verdict, h, forgetMinGasPrices_verdict]
    · rw [← forgetMinGasPrices_world, h, forgetMinGasPrices_world]

/-- C17, witness: block execution of the transfer under a minimum gas price far above
its fee ends as it does without any minimum. -/
theorem C17_block_execution_ignores_min_gas_prices_witness :
    (Scenario.ctx false).checkTx = false ∧
      (ethAnteHandler Scenario.env
          ((Scenario.ctx false).WithMinGasPrices [{ Denom := "aphoton", Amount := 10 ^ 30 }])
          (Scenario.tx 0 30000 1 10) false (Scenario.world 30000 0)).verdict =
        (ethAnteHandler Scenario.env (Scenario.ctx false) (Scenario.tx 0 30000 1 10) false
          (Scenario.world 30000 0)).verdict :=
  ⟨rfl, ((C17_block_execution_ignores_min_gas_prices Scenario.env (Scenario.ctx false) rfl).2
    [{ Denom := "aphoton", Amount := 10 ^ 30 }] (Scenario.tx 0 30000 1 10) false
    (Scenario.world 30000 0)).1⟩

/-! ## C18: the mempool fee check -/

/-- Below `2 ^ 63` the method `Int64()` returns the number itself. -/
theorem bigInt64_of_lt {x : Nat} (h : x < 2 ^ 63) : bigInt64 x = (x : Int) := by
  unfold bigInt64
  have h1 : x % 2 ^ 64 = x := Nat.mod_eq_of_lt (by omega)
  simp only [h1, h, if_true]

/-- The loop over minimum gas prices that are all in the denomination of the fee: it
does not panic, and `allGTE` stays true exactly when the fee is below none of them. -/
theorem allGTELoop_same_denom (fee : DecCoin) (mins : List DecCoin)
    (hd : ∀ v ∈ mins, v.Denom = fee.Denom) (allGTE : Bool) :
    allGTELoop fee mins allGTE =
      .ok (allGTE && mins.all fun v => !decide (fee.Amount < v.Amount)) := by
  induction mins generalizing allGTE with
  | nil => simp [allGTELoop]
  | cons v rest ih =>
    have hv : fee.Denom = v.Denom := (hd v (List.mem_cons_self v rest)).symm
    have hrest : ∀ u ∈ rest, u.Denom = fee.Denom := fun u hu => hd u (List.mem_cons_of_mem v hu)
    simp only [allGTELoop, DecCoin.IsGTE, hv, ne_eq, not_true_eq_false, if_false]
    rw [ih hrest]
    by_cases hlt : fee.Amount < v.Amount
    · simp [hlt]
    · simp [hlt]

/-- The loop over minimum gas prices panics when the first is in another denomination. -/
theorem allGTELoop_foreign_denom (fee : DecCoin) (v : DecCoin) (rest : List DecCoin)
    (hd : fee.Denom ≠ v.Denom) (allGTE : Bool) :
    allGTELoop fee (v :: rest) allGTE = .error (.message "invalid coin denominations") := by
  simp [allGTELoop, DecCoin.IsGTE, hd]

/-- The rejection test of the mempool fee decorator: for a non-negative fee, the minimum
gas prices are non-zero and `allGTE` is false exactly when the fee is below one of them. -/
theorem rejects_iff_below_some_minimum (fee : Int) (hfee : 0 ≤ fee) (mins : List DecCoin) :
    (!DecCoinsIsZero mins && !(true && mins.all fun v => !decide (fee < v.Amount))) = true ↔
      ∃ v ∈ mins, fee < v.Amount := by
  simp only [DecCoinsIsZero, Bool.true_and, Bool.and_eq_true, Bool.not_eq_true',
    List.all_eq_false, List.all_eq_true, Bool.not_eq_true', decide_eq_true_eq,
    decide_eq_false_iff_not, not_not, beq_iff_eq, Bool.not_eq_false']
  constructor
  · rintro ⟨_, v, hv, hlt⟩
    exact ⟨v, hv, hlt⟩
  · rintro ⟨v, hv, hlt⟩
    refine ⟨⟨v, hv, ?_⟩, v, hv, hlt⟩
    omega

/-- The mempool fee decorator in CheckTx, for a fee below `2 ^ 63` and minimum gas
prices in the default denomination. -/
theorem EthMempoolFeeDecorator.checkTx_outcome (env : Env) (ctx : Context)
    (msg : MsgEthereumTx) (simulate : Bool) (next : AnteHandler) (w : World)
    (hcheck : ctx.checkTx = true) (hfee : msg.Fee < 2 ^ 63)
    (hdenom : ∀ v ∈ ctx.minGasPrices, v.Denom = env.DenomDefault) :
    EthMempoolFeeDecorator.AnteHandle env ctx (.ethereum msg) simulate next w =
      if ∃ v ∈ ctx.minGasPrices, (msg.Fee : Int) * 10 ^ 18 < v.Amount then
        .ret (ctx, some (.insufficientFee (msg.Fee : Int) ctx.minGasPrices)) w
      else next ctx (.ethereum msg) simulate w := by
  have hnn : ¬ ((msg.Fee : Int) < 0) := by omega
  have hnn2 : (0 : Int) ≤ (msg.Fee : Int) * 10 ^ 18 := by positivity
  simp only [EthMempoolFeeDecorator.AnteHandle, hcheck, Bool.not_true, Bool.false_eq_true,
    if_false, Tx.asMsgEthereumTx, bigInt64_of_lt hfee, hnn]
  rw [allGTELoop_same_denom _ _ hdenom]
  simp only [rejects_iff_below_some_minimum _ hnn2]

/-- C18, amended.  In CheckTx mode, for every MsgEthereumTx whose fee gasPrice × gasLimit
is below `2 ^ 63`, and minimum gas prices that are all in the default denomination,
`EthMempoolFeeDecorator.AnteHandle` returns the input context with the error
`ErrInsufficientFee`, in the world it was called in, when the fee is below at least one
configured minimum (which is the case exactly when the minimum gas prices are moreover
non-zero), and otherwise, in particular when no minimum is configured, it returns
`next(ctx, tx, simulate)` with the context, the transaction and the world unchanged. -/
theorem C18_mempool_fee_check (env : Env) (ctx : Context) (msg : MsgEthereumTx)
    (simulate : Bool) (next : AnteHandler) (w : World)
    (hcheck : ctx.checkTx = true) (hfee : msg.Fee < 2 ^ 63)
    (hdenom : ∀ v ∈ ctx.minGasPrices, v.Denom = env.DenomDefault) :
    ((∃ v ∈ ctx.minGasPrices, (msg.Fee : Int) * 10 ^ 18 < v.Amount) →
        EthMempoolFeeDecorator.AnteHandle env ctx (.ethereum msg) simulate next w =
            .ret (ctx, some (.insufficientFee (msg.Fee : Int) ctx.minGasPrices)) w ∧
          (Error.insufficientFee (msg.Fee : Int) ctx.minGasPrices).code = .ErrInsufficientFee) ∧
      (¬ (∃ v ∈ ctx.minGasPrices, (msg.Fee : Int) * 10 ^ 18 < v.Amount) →
        EthMempoolFeeDecorator.AnteHandle env ctx (.ethereum msg) simulate next w =
          next ctx (.ethereum msg) simulate w) ∧
      ((∃ v ∈ ctx.minGasPrices, (msg.Fee : Int) * 10 ^ 18 < v.Amount) ↔
        (DecCoinsIsZero ctx.minGasPrices = false ∧
          ∃ v ∈ ctx.minGasPrices, (msg.Fee : Int) * 10 ^ 18 < v.Amount)) ∧
      (ctx.minGasPrices = [] →
        EthMempoolFeeDecorator.AnteHandle env ctx (.ethereum msg) simulate next w =
          next ctx (.ethereum msg) simulate w) := by
  have h := EthMempoolFeeDecorator.checkTx_outcome env ctx msg simulate next w hcheck hfee hdenom
  refine ⟨fun hb => ⟨?_, rfl⟩, fun hb => ?_, ⟨fun hb => ⟨?_, hb⟩, fun hb => hb.2⟩, fun he => ?_⟩
  · rw [h, if_pos hb]
  · rw [h, if_neg hb]
  · obtain ⟨v, hv, hlt⟩ := hb
    have hnn2 : (0 : Int) ≤ (msg.Fee : Int) * 10 ^ 18 := by positivity
    simp only [DecCoinsIsZero, List.all_eq_false, beq_iff_eq]
    exact ⟨v, hv, by omega⟩
  · rw [h, if_neg]
    rw [he]
    simp

/-- C18, witness: the transfer with fee 30000 under a minimum of 50000 is rejected with
the insufficient-fee error, the context and the world returned as they were. -/
theorem C18_mempool_fee_check_witness :
    ((Scenario.ctx true).WithMinGasPrices
        [{ Denom := "aphoton", Amount := 50000 * 10 ^ 18 }]).checkTx = true ∧
      (Scenario.msg 0 30000 1 10 none).Fee < 2 ^ 63 ∧
      EthMempoolFeeDecorator.AnteHandle Scenario.env
          ((Scenario.ctx true).WithMinGasPrices
            [{ Denom := "aphoton", Amount := 50000 * 10 ^ 18 }])
          (Scenario.tx 0 30000 1 10) false Terminator (Scenario.world 100000 0) =
        .ret ((Scenario.ctx true).WithMinGasPrices
            [{ Denom := "aphoton", Amount := 50000 * 10 ^ 18 }],
          some (.insufficientFee 30000 [{ Denom := "aphoton", Amount := 50000 * 10 ^ 18 }]))
          (Scenario.world 100000 0) :=
  ⟨rfl, by decide,
    ((C18_mempool_fee_check Scenario.env
      ((Scenario.ctx true).WithMinGasPrices [{ Denom := "aphoton", Amount := 50000 * 10 ^ 18 }])
      (Scenario.msg 0 30000 1 10 none) false Terminator (Scenario.world 100000 0) rfl
      (by decide)
      (by simp [Context.WithMinGasPrices, Scenario.env])).1
      ⟨{ Denom := "aphoton", Amount := 50000 * 10 ^ 18 },
        by simp [Context.WithMinGasPrices],
        by simp [MsgEthereumTx.Fee, Scenario.msg]⟩).1⟩

/-- C18, as stated, fails: in CheckTx with a non-zero minimum gas price configured in a
denomination other than the default one, the decorator neither rejects nor returns
what the next handler returns (the terminator would admit): it panics in `IsGTE`, for
every next handler. -/
theorem C18_minimum_in_other_denomination_panics :
    ((Scenario.ctx true).WithMinGasPrices [{ Denom := "stake", Amount := 10 ^ 18 }]).checkTx =
        true ∧
      (∀ next, EthMempoolFeeDecorator.AnteHandle Scenario.env
          ((Scenario.ctx true).WithMinGasPrices [{ Denom := "stake", Amount := 10 ^ 18 }])
          (Scenario.tx 0 30000 1 10) false next (Scenario.world 100000 0) =
        .panic (.message "invalid coin denominations") (Scenario.world 100000 0)) ∧
      (Terminator
          ((Scenario.ctx true).WithMinGasPrices [{ Denom := "stake", Amount := 10 ^ 18 }])
          (Scenario.tx 0 30000 1 10) false (Scenario.world 100000 0)).verdict = .admitted := by
  refine ⟨rfl, fun next => ?_, rfl⟩
  simp [EthMempoolFeeDecorator.AnteHandle, Context.WithMinGasPrices, Scenario.ctx, Scenario.tx,
    Scenario.msg, Tx.asMsgEthereumTx, MsgEthereumTx.Fee, bigInt64, allGTELoop, DecCoin.IsGTE,
    Scenario.env]

/-! ## C19: the fee that is compared with the minimum gas prices -/

/-- At `2 ^ 63` and above the method `Int64()` returns another number. -/
theorem bigInt64_ne_of_ge {x : Nat} (h : 2 ^ 63 ≤ x) : bigInt64 x ≠ (x : Int) := by
  unfold bigInt64
  have h63 : (2 : Nat) ^ 63 = 9223372036854775808 := by norm_num
  have h64 : (2 : Nat) ^ 64 = 18446744073709551616 := by norm_num
  have h64i : (2 : Int) ^ 64 = 18446744073709551616 := by norm_num
  rw [h63] at h
  simp only [h63, h64, h64i]
  split <;> omega

/-- C19, as the code behaves.  The fee that `EthMempoolFeeDecorator` compares with the
minimum gas prices is `Fee().Int64()`, the low 64 bits of gasPrice × gasLimit read as a
signed number, which differs from gasPrice × gasLimit for every product of `2 ^ 63` and
above.  With gas price `10 ^ 12` and gas limit `10 ^ 7` the product is `10 ^ 19`, the
compared amount is negative and the decorator panics in CheckTx, also without any
minimum configured.  With gas price `2 ^ 64` and gas limit 1 the compared amount is 0,
and the transaction is rejected for an insufficient fee under a minimum of 1. -/
theorem C19_compared_fee_is_truncated :
    (∀ msg : MsgEthereumTx, 2 ^ 63 ≤ msg.Fee → bigInt64 msg.Fee ≠ (msg.Fee : Int)) ∧
      (Scenario.msg 0 10000000 (10 ^ 12) 10 none).Fee = 10 ^ 19 ∧
      bigInt64 (Scenario.msg 0 10000000 (10 ^ 12) 10 none).Fee = 10 ^ 19 - 2 ^ 64 ∧
      (∀ next, EthMempoolFeeDecorator.AnteHandle Scenario.env (Scenario.ctx true)
          (Scenario.tx 0 10000000 (10 ^ 12) 10) false next (Scenario.world 100000 0) =
        .panic (.message "negative coin amount") (Scenario.world 100000 0)) ∧
      (Scenario.msg 0 1 (2 ^ 64) 10 none).Fee = 2 ^ 64 ∧
      bigInt64 (Scenario.msg 0 1 (2 ^ 64) 10 none).Fee = 0 ∧
      (∀ next, EthMempoolFeeDecorator.AnteHandle Scenario.env
          ((Scenario.ctx true).WithMinGasPrices [{ Denom := "aphoton", Amount := 10 ^ 18 }])
          (Scenario.tx 0 1 (2 ^ 64) 10) false next (Scenario.world 100000 0) =
        .ret ((Scenario.ctx true).WithMinGasPrices [{ Denom := "aphoton", Amount := 10 ^ 18 }],
          some (.insufficientFee 0 [{ Denom := "aphoton", Amount := 10 ^ 18 }]))
          (Scenario.world 100000 0)) := by
  refine ⟨fun msg h => bigInt64_ne_of_ge h, ?_, ?_, fun next => ?_, ?_, ?_, fun next => ?_⟩
  · simp [MsgEthereumTx.Fee, Scenario.msg]
  · simp [MsgEthereumTx.Fee, Scenario.msg, bigInt64]
  · simp [EthMempoolFeeDecorator.AnteHandle, Scenario.ctx, Scenario.tx,
      Scenario.msg, Tx.asMsgEthereumTx, MsgEthereumTx.Fee, bigInt64]
  · simp [MsgEthereumTx.Fee, Scenario.msg]
  · simp [MsgEthereumTx.Fee, Scenario.msg, bigInt64]
  · simp [EthMempoolFeeDecorator.AnteHandle, Context.WithMinGasPrices, Scenario.ctx, Scenario.tx,
      Scenario.msg, Tx.asMsgEthereumTx, MsgEthereumTx.Fee, bigInt64, allGTELoop, DecCoin.IsGTE,
      DecCoinsIsZero, Scenario.env]

/-! ## C20: the signature stage -/

/-- C20.  For every MsgEthereumTx, `EthSigVerificationDecorator.AnteHandle` returns the
input context with the error `ErrInvalidChainID`, in the world it was called in, when
the chain ID of the context is not a base-10 integer string; when it is the integer
`chainID` and no sender is recovered from the signature under `chainID`, it returns the
input context with the error `ErrUnauthorized`, in the world it was called in; and when
the sender `a` is recovered, it returns what `next` returns for the same context and
world and the transaction with `a` cached as its sender. -/
theorem C20_signature_stage (env : Env) (ctx : Context) (msg : MsgEthereumTx)
    (simulate : Bool) (next : AnteHandler) (w : World) :
    (SetString10 ctx.chainID = none →
        EthSigVerificationDecorator.AnteHandle env ctx (.ethereum msg) simulate next w =
            .ret (ctx, some (.invalidChainID ctx.chainID)) w ∧
          (Error.invalidChainID ctx.chainID).code = .ErrInvalidChainID) ∧
      (∀ chainID, SetString10 ctx.chainID = some chainID →
        env.recoverSender msg.Data chainID = none →
        EthSigVerificationDecorator.AnteHandle env ctx (.ethereum msg) simulate next w =
            .ret (ctx, some .signatureVerificationFailed) w ∧
          Error.signatureVerificationFailed.code = .ErrUnauthorized) ∧
      (∀ chainID a, SetString10 ctx.chainID = some chainID →
        env.recoverSender msg.Data chainID = some a →
        EthSigVerificationDecorator.AnteHandle env ctx (.ethereum msg) simulate next w =
            next ctx (.ethereum { msg with sender := some a }) simulate w ∧
          ({ msg with sender := some a } : MsgEthereumTx).From = some a ∧
          ({ msg with sender := some a } : MsgEthereumTx).Data = msg.Data) := by
  refine ⟨fun h => ⟨?_, rfl⟩, fun chainID h hr => ⟨?_, rfl⟩, fun chainID a h hr => ⟨?_, rfl, rfl⟩⟩
  · simp only [EthSigVerificationDecorator.AnteHandle, Tx.asMsgEthereumTx, h]
  · simp only [EthSigVerificationDecorator.AnteHandle, Tx.asMsgEthereumTx, h, VerifySig, hr]
  · simp only [EthSigVerificationDecorator.AnteHandle, Tx.asMsgEthereumTx, h, VerifySig, hr]

/-- The chain ID "8" is the integer 8, and "ethermint-8" is not an integer. -/
theorem Scenario.chainID_parses :
    SetString10 (Scenario.ctx true).chainID = some 8 ∧
      SetString10 ({ Scenario.ctx true with chainID := "ethermint-8" } : Context).chainID =
        none := by
  constructor <;> simp [SetString10, parseDigits, digitValue, Scenario.ctx]

/-- C20, witness: under the chain ID "ethermint-8" the transfer is rejected with the
invalid-chain-ID error; under the chain ID "8" a transfer with another signature is
rejected as unauthorized, and the transfer signed by `alice` is passed on with `alice`
cached as its sender. -/
theorem C20_signature_stage_witness :
    EthSigVerificationDecorator.AnteHandle Scenario.env
          { Scenario.ctx true with chainID := "ethermint-8" } (Scenario.tx 0 30000 1 10) false
          Terminator (Scenario.world 100000 0) =
        .ret ({ Scenario.ctx true with chainID := "ethermint-8" },
          some (.invalidChainID "ethermint-8")) (Scenario.world 100000 0) ∧
      EthSigVerificationDecorator.AnteHandle Scenario.env (Scenario.ctx true)
          (.ethereum { Data := { (Scenario.msg 0 30000 1 10 none).Data with V := 27 },
                       sender := none })
          false Terminator (Scenario.world 100000 0) =
        .ret (Scenario.ctx true, some .signatureVerificationFailed) (Scenario.world 100000 0) ∧
      EthSigVerificationDecorator.AnteHandle Scenario.env (Scenario.ctx true)
          (Scenario.tx 0 30000 1 10) false Terminator (Scenario.world 100000 0) =
        Terminator (Scenario.ctx true)
          (.ethereum (Scenario.msg 0 30000 1 10 (some Scenario.alice))) false
          (Scenario.world 100000 0) :=
  ⟨((C20_signature_stage Scenario.env { Scenario.ctx true with chainID := "ethermint-8" }
      (Scenario.msg 0 30000 1 10 none) false Terminator (Scenario.world 100000 0)).1
      Scenario.chainID_parses.2).1,
    ((C20_signature_stage Scenario.env (Scenario.ctx true)
      { Data := { (Scenario.msg 0 30000 1 10 none).Data with V := 27 }, sender := none }
      false Terminator (Scenario.world 100000 0)).2.1 8 Scenario.chainID_parses.1
      (by simp [Scenario.env, Scenario.msg])).1,
    ((C20_signature_stage Scenario.env (Scenario.ctx true) (Scenario.msg 0 30000 1 10 none)
      false Terminator (Scenario.world 100000 0)).2.2 8 Scenario.alice
      Scenario.chainID_parses.1 (by simp [Scenario.env, Scenario.msg])).1⟩

/-! ## C21: the account stage -/

/-- C21.  For every MsgEthereumTx with the cached sender `address`: outside CheckTx
`AccountVerificationDecorator.AnteHandle` returns `next(ctx, tx, simulate)` for every
transaction, without any check.  In CheckTx mode, when the keeper finds no account at
`address` it rejects (the account is absent in the store); when the keeper returns an
account and the balance `balance`, at a block height other than 0, it rejects with
`ErrInsufficientFunds` when `balance` is less than gasLimit × gasPrice + value and
otherwise returns `next(ctx, tx, simulate)`, in both cases in a world with the store
unchanged. -/
theorem C21_account_stage_checks (env : Env) (ctx : Context) (msg : MsgEthereumTx)
    (simulate : Bool) (next : AnteHandler) (w : World) (address : Address)
    (hfrom : msg.From = some address) :
    (ctx.checkTx = false → ∀ tx,
        AccountVerificationDecorator.AnteHandle env ctx tx simulate next w =
          next ctx tx simulate w) ∧
      (ctx.checkTx = true → ∀ w1, GetAccount env ctx address w = .ret none w1 →
        w.store.accounts address = none ∧ w1.store = w.store ∧
        AccountVerificationDecorator.AnteHandle env ctx (.ethereum msg) simulate next w =
          .ret (ctx, some (.accountIsNil address)) w1) ∧
      (ctx.checkTx = true → ctx.blockHeight ≠ 0 → ∀ acc w1 balance w2,
        GetAccount env ctx address w = .ret (some acc) w1 →
        GetBalance env ctx address w1 = .ret balance w2 →
        w.store.accounts address = some acc ∧ balance = w.store.balances address ∧
        w2.store = w.store ∧
        msg.Cost = msg.Data.GasLimit * msg.Data.Price + msg.Data.Amount ∧
        (balance < msg.Cost →
          AccountVerificationDecorator.AnteHandle env ctx (.ethereum msg) simulate next w =
              .ret (ctx, some (.insufficientFunds balance msg.Cost)) w2 ∧
            (Error.insufficientFunds balance msg.Cost).code = .ErrInsufficientFunds) ∧
        (¬ balance < msg.Cost →
          AccountVerificationDecorator.AnteHandle env ctx (.ethereum msg) simulate next w =
            next ctx (.ethereum msg) simulate w2)) := by
  refine ⟨fun hc tx => ?_, fun hc w1 hacc => ?_, fun hc hh acc w1 balance w2 hacc hbal => ?_⟩
  · simp only [AccountVerificationDecorator.AnteHandle, hc, Bool.not_false, if_true]
  · obtain ⟨e1, e2⟩ := GetAccount_ret hacc
    refine ⟨e2.symm, e1, ?_⟩
    simp only [AccountVerificationDecorator.AnteHandle, hc, Bool.not_true, Bool.false_eq_true,
      if_false, Tx.asMsgEthereumTx, hfrom, hacc]
  · obtain ⟨e1, e2⟩ := GetAccount_ret hacc
    obtain ⟨b1, b2⟩ := GetBalance_ret hbal
    have hh0 : (ctx.blockHeight == 0) = false := by simpa using hh
    refine ⟨e2.symm, by rw [b2, e1], b1.trans e1, rfl, fun hlt => ⟨?_, rfl⟩, fun hge => ?_⟩
    · simp only [AccountVerificationDecorator.AnteHandle, hc, Bool.not_true, Bool.false_eq_true,
        if_false, Tx.asMsgEthereumTx, hfrom, hacc, hh0, Bool.false_and, hbal, hlt, if_true]
    · simp only [AccountVerificationDecorator.AnteHandle, hc, Bool.not_true, Bool.false_eq_true,
        if_false, Tx.asMsgEthereumTx, hfrom, hacc, hh0, Bool.false_and, hbal, hge]

/-- C21, witness: in CheckTx mode at height 1 `alice` holds 1000 and the transfer costs
30000 × 1 + 10. -/
theorem C21_account_stage_checks_witness :
    (Scenario.msg 0 30000 1 10 (some Scenario.alice)).From = some Scenario.alice ∧
      AccountVerificationDecorator.AnteHandle Scenario.env (Scenario.ctx true)
          (.ethereum (Scenario.msg 0 30000 1 10 (some Scenario.alice))) false Terminator
          (Scenario.world 1000 0) =
        .ret (Scenario.ctx true, some (.insufficientFunds 1000 30010))
          { store := (Scenario.world 1000 0).store,
            meters := [.infiniteGasMeter 2264, .infiniteGasMeter 0] } :=
  ⟨rfl,
    (((C21_account_stage_checks Scenario.env (Scenario.ctx true)
      (Scenario.msg 0 30000 1 10 (some Scenario.alice)) false Terminator
      (Scenario.world 1000 0) Scenario.alice rfl).2.2 rfl (by decide)
      { accountNumber := 0, sequence := 0 }
      { store := (Scenario.world 1000 0).store,
        meters := [.infiniteGasMeter 1240, .infiniteGasMeter 0] }
      1000
      { store := (Scenario.world 1000 0).store,
        meters := [.infiniteGasMeter 2264, .infiniteGasMeter 0] }
      rfl rfl).2.2.2.2.1 (by decide)).1⟩

/-! ## C22: the check made at height zero -/

/-- C22, as stated, fails: in CheckTx mode at block height 0 the sender `alice`, whose
sequence number is 5 and whose account number is 0, is not rejected by
`AccountVerificationDecorator.AnteHandle` (with the terminator after it the transfer is
admitted), and the sender `bob`, whose sequence number is 0 and whose account number is
1, is rejected on the ground of the height-zero check. -/
theorem C22_height_zero_check_reads_account_number :
    ({ Scenario.ctx true with blockHeight := 0 } : Context).checkTx = true ∧
      (Scenario.world 100000 5).sequence Scenario.alice = some 5 ∧
      (AccountVerificationDecorator.AnteHandle Scenario.env
          { Scenario.ctx true with blockHeight := 0 }
          (.ethereum (Scenario.msg 5 30000 1 10 (some Scenario.alice))) false Terminator
          (Scenario.world 100000 5)).verdict = .admitted ∧
      (Scenario.world 100000 5).sequence Scenario.bob = some 0 ∧
      (AccountVerificationDecorator.AnteHandle Scenario.env
          { Scenario.ctx true with blockHeight := 0 }
          (.ethereum (Scenario.msg 0 30000 1 10 (some Scenario.bob))) false Terminator
          (Scenario.world 100000 5)).verdict = .rejected (.invalidAccountNumber 1) := by
  refine ⟨rfl, ?_, ?_, ?_, ?_⟩
  · simp [World.sequence, Scenario.world]
  · rfl
  · simp [World.sequence, Scenario.world, Scenario.alice, Scenario.bob]
  · rfl

/-- C22, amended.  In CheckTx mode at block height 0, for every MsgEthereumTx with a
cached sender whose account the keeper returns, `AccountVerificationDecorator.AnteHandle`
rejects with `ErrInvalidSequence` when the account number of the sender is not 0,
whatever its sequence number; when the account number is 0 it does not reject on this
ground, whatever the sequence number: it goes on to the balance check, and with the
balance the keeper returns the outcome is the insufficient-funds error or
`next(ctx, tx, simulate)`. -/
theorem C22_height_zero_needs_account_number_zero (env : Env) (ctx : Context)
    (msg : MsgEthereumTx) (simulate : Bool) (next : AnteHandler) (w w1 : World)
    (address : Address) (acc : Account)
    (hcheck : ctx.checkTx = true) (hheight : ctx.blockHeight = 0)
    (hfrom : msg.From = some address)
    (hacc : GetAccount env ctx address w = .ret (some acc) w1) :
    (acc.accountNumber ≠ 0 →
        AccountVerificationDecorator.AnteHandle env ctx (.ethereum msg) simulate next w =
            .ret (ctx, some (.invalidAccountNumber acc.accountNumber)) w1 ∧
          (Error.invalidAccountNumber acc.accountNumber).code = .ErrInvalidSequence) ∧
      (acc.accountNumber = 0 → ∀ balance w2,
        GetBalance env ctx address w1 = .ret balance w2 →
        AccountVerificationDecorator.AnteHandle env ctx (.ethereum msg) simulate next w =
          if balance < msg.Cost then
            .ret (ctx, some (.insufficientFunds balance msg.Cost)) w2
          else next ctx (.ethereum msg) simulate w2) := by
  have hh0 : (ctx.blockHeight == 0) = true := by simp [hheight]
  refine ⟨fun hne => ⟨?_, rfl⟩, fun hz balance w2 hbal => ?_⟩
  · have hn : (acc.accountNumber != 0) = true := by simpa using hne
    simp only [AccountVerificationDecorator.AnteHandle, hcheck, Bool.not_true,
      Bool.false_eq_true, if_false, Tx.asMsgEthereumTx, hfrom, hacc, hh0, hn, Bool.and_self,
      if_true]
  · have hn : (acc.accountNumber != 0) = false := by simp [hz]
    simp only [AccountVerificationDecorator.AnteHandle, hcheck, Bool.not_true,
      Bool.false_eq_true, if_false, Tx.asMsgEthereumTx, hfrom, hacc, hh0, hn, Bool.and_false,
      hbal]

/-- C22, witness: at height 0 the account of `bob` has the account number 1. -/
theorem C22_height_zero_needs_account_number_zero_witness :
    ({ Scenario.ctx true with blockHeight := 0 } : Context).checkTx = true ∧
      ({ Scenario.ctx true with blockHeight := 0 } : Context).blockHeight = 0 ∧
      (Scenario.msg 0 30000 1 10 (some Scenario.bob)).From = some Scenario.bob ∧
      AccountVerificationDecorator.AnteHandle Scenario.env
          { Scenario.ctx true with blockHeight := 0 }
          (.ethereum (Scenario.msg 0 30000 1 10 (some Scenario.bob))) false Terminator
          (Scenario.world 100000 5) =
        .ret ({ Scenario.ctx true with blockHeight := 0 }, some (.invalidAccountNumber 1))
          { store := (Scenario.world 100000 5).store,
            meters := [.infiniteGasMeter 1240, .infiniteGasMeter 0] } :=
  ⟨rfl, rfl, rfl,
    ((C22_height_zero_needs_account_number_zero Scenario.env
      { Scenario.ctx true with blockHeight := 0 }
      (Scenario.msg 0 30000 1 10 (some Scenario.bob)) false Terminator
      (Scenario.world 100000 5)
      { store := (Scenario.world 100000 5).store,
        meters := [.infiniteGasMeter 1240, .infiniteGasMeter 0] }
      Scenario.bob { accountNumber := 1, sequence := 0 } rfl rfl rfl rfl).1 (by decide)).1⟩

/-! ## C23: intrinsic gas too low -/

/-- The only error of the charge of the fee is that of `auth.DeductFees`. -/
theorem chargeSender_error {env : Env} {ctx : Context} {a : Address} {msg : MsgEthereumTx}
    {gasLimit : Nat} {w w1 : World} {err : Error}
    (h : EthGasConsumeDecorator.chargeSender env ctx a msg gasLimit w = .ret (some err) w1) :
    err = .feeInsufficientFunds (w.store.balances a) (msg.Data.Price * gasLimit) := by
  unfold EthGasConsumeDecorator.chargeSender at h
  by_cases h0 : gasLimit = 0
  · subst h0
    simp only [bne_self_eq_false, Bool.false_eq_true, if_false, Res.ret.injEq] at h
    cases h.1
  · have hne : (gasLimit != 0) = true := by simp [h0]
    simp only [hne, if_true] at h
    by_cases hbig : msg.Data.Price * gasLimit ≥ 2 ^ 255
    · simp only [hbig, if_true] at h
      cases h
    · simp only [hbig, if_false] at h
      rcases DeductFees_ret h with ⟨hv, _⟩ | ⟨hv, _⟩
      · cases hv
      · cases hv
        rfl

/-- When the gas stage, followed by the terminator, rejects for intrinsic gas too low,
the context is CheckTx and the gas limit of the message is below its intrinsic gas. -/
theorem intrinsicGasTooLow_only_in_checkTx (env : Env) (ctx : Context) (tx : Tx)
    (simulate : Bool) (w : World) (gasLimit gas : Nat)
    (h : (EthGasConsumeDecorator.AnteHandle env ctx tx simulate Terminator w).verdict =
      .rejected (.intrinsicGasTooLow gasLimit gas)) :
    ctx.checkTx = true ∧ ∃ msg, tx = .ethereum msg ∧ gasLimit = msg.GetGas ∧
      IntrinsicGas msg.Data.Payload (msg.To == none) true = some gas ∧ gasLimit < gas := by
  unfold EthGasConsumeDecorator.AnteHandle at h
  cases tx with
  | gasTx g => simp [Res.verdict, Tx.asMsgEthereumTx] at h
  | plain => simp [Res.verdict, Tx.asMsgEthereumTx] at h
  | ethereum msg =>
    simp only [Tx.asMsgEthereumTx] at h
    cases hs : msg.From with
    | none => rw [hs] at h; simp [Res.verdict] at h
    | some a =>
      rw [hs] at h
      simp only at h
      cases hg : GetSignerAcc env ctx a w with
      | panic p w1 => rw [hg] at h; simp [Res.verdict] at h
      | ret o w1 =>
        rw [hg] at h
        obtain ⟨_, e2⟩ := GetSignerAcc_ret hg
        cases o with
        | error err =>
          rcases e2 with ⟨acc, h1, _⟩ | ⟨h1, _⟩
          · cases h1
          · cases h1
            simp [Res.verdict] at h
        | ok acc0 =>
          simp only at h
          cases hi : IntrinsicGas msg.Data.Payload (msg.To == none) true with
          | none => rw [hi] at h; simp [Res.verdict] at h
          | some g =>
            rw [hi] at h
            simp only at h
            by_cases hlow : (ctx.checkTx && decide (msg.GetGas < g)) = true
            · simp only [hlow, if_true, Res.verdict, Verdict.rejected.injEq,
                Error.intrinsicGasTooLow.injEq] at h
              simp only [Bool.and_eq_true, decide_eq_true_eq] at hlow
              obtain ⟨h1, h2⟩ := h
              subst h1
              subst h2
              exact ⟨hlow.1, msg, rfl, rfl, hi, hlow.2⟩
            · simp only [hlow, Bool.false_eq_true, if_false] at h
              cases hch : EthGasConsumeDecorator.chargeSender env ctx a msg msg.GetGas w1 with
              | panic p w2 => rw [hch] at h; simp [Res.verdict] at h
              | ret v w2 =>
                rw [hch] at h
                cases v with
                | some err =>
                  simp only [Res.verdict, Verdict.rejected.injEq] at h
                  subst h
                  cases chargeSender_error hch
                | none =>
                  simp only at h
                  cases hcg : ConsumeGas (SetGasMeter simulate ctx msg.GetGas w2).1.gasMeter g
                      "eth intrinsic gas" (SetGasMeter simulate ctx msg.GetGas w2).2 with
                  | panic p w3 => rw [hcg] at h; simp [Res.verdict] at h
                  | ret u w3 => rw [hcg] at h; simp [Res.verdict, Terminator] at h

/-- C23.  For every MsgEthereumTx with a cached sender whose account the keeper returns
and whose intrinsic gas is `gas`: when the context is CheckTx and the declared gas limit
is below `gas`, `EthGasConsumeDecorator.AnteHandle` rejects with the error "intrinsic
gas too low", in a world whose store is the store before the call, so that no fee has
been deducted; otherwise (outside CheckTx, or with a gas limit that is not below `gas`)
the outcome is that of the steps after the check, the charge of the fee coming first.
And whenever the stage rejects by itself with that error, the context is CheckTx and
the gas limit is below the intrinsic gas. -/
theorem C23_intrinsic_gas_check (env : Env) (ctx : Context) (msg : MsgEthereumTx)
    (simulate : Bool) (next : AnteHandler) (w w1 : World) (address : Address)
    (acc : Account) (gas : Nat)
    (hfrom : msg.From = some address)
    (hacc : GetSignerAcc env ctx address w = .ret (.ok acc) w1)
    (hgas : IntrinsicGas msg.Data.Payload (msg.To == none) true = some gas) :
    ((ctx.checkTx = true ∧ msg.GetGas < gas) →
        EthGasConsumeDecorator.AnteHandle env ctx (.ethereum msg) simulate next w =
            .ret (ctx, some (.intrinsicGasTooLow msg.GetGas gas)) w1 ∧
          w1.store = w.store ∧ w1.balance address = w.balance address ∧
          w1.store.feeCollector = w.store.feeCollector) ∧
      (¬ (ctx.checkTx = true ∧ msg.GetGas < gas) →
        EthGasConsumeDecorator.AnteHandle env ctx (.ethereum msg) simulate next w =
          match EthGasConsumeDecorator.chargeSender env ctx address msg msg.GetGas w1 with
          | .panic p w2 => .panic p w2
          | .ret (some err) w2 => .ret (ctx, some err) w2
          | .ret none w2 =>
            match ConsumeGas (SetGasMeter simulate ctx msg.GetGas w2).1.gasMeter gas
                "eth intrinsic gas" (SetGasMeter simulate ctx msg.GetGas w2).2 with
            | .panic p w3 => .panic p w3
            | .ret _ w3 => next (SetGasMeter simulate ctx msg.GetGas w2).1 (.ethereum msg)
                simulate w3) ∧
      (∀ tx0 sim0 w0 gasLimit0 gas0,
        (EthGasConsumeDecorator.AnteHandle env ctx tx0 sim0 Terminator w0).verdict =
          .rejected (.intrinsicGasTooLow gasLimit0 gas0) →
        ctx.checkTx = true ∧ ∃ msg0, tx0 = .ethereum msg0 ∧ gasLimit0 = msg0.GetGas ∧
          IntrinsicGas msg0.Data.Payload (msg0.To == none) true = some gas0 ∧
          gasLimit0 < gas0) := by
  obtain ⟨e1, _⟩ := GetSignerAcc_ret hacc
  refine ⟨fun hlow => ⟨?_, e1, ?_, ?_⟩, fun hnot => ?_,
    fun tx0 sim0 w0 gasLimit0 gas0 h =>
      intrinsicGasTooLow_only_in_checkTx env ctx tx0 sim0 w0 gasLimit0 gas0 h⟩
  · have hl : (ctx.checkTx && decide (msg.GetGas < gas)) = true := by simp [hlow.1, hlow.2]
    simp only [EthGasConsumeDecorator.AnteHandle, Tx.asMsgEthereumTx, hfrom, hacc, hgas, hl,
      if_true]
  · simp only [World.balance, e1]
  · rw [e1]
  · have hl : (ctx.checkTx && decide (msg.GetGas < gas)) = false := by
      rw [Bool.eq_false_iff]
      intro hc
      simp only [Bool.and_eq_true, decide_eq_true_eq] at hc
      exact hnot hc
    simp only [EthGasConsumeDecorator.AnteHandle, Tx.asMsgEthereumTx, hfrom, hacc, hgas, hl,
      Bool.false_eq_true, if_false]

/-- C23, witness: in CheckTx mode the transfer with gas limit 100 is rejected for
intrinsic gas too low, 100 < 21000, and the store is as it was. -/
theorem C23_intrinsic_gas_check_witness :
    (Scenario.msg 0 100 1 10 (some Scenario.alice)).From = some Scenario.alice ∧
      IntrinsicGas (Scenario.msg 0 100 1 10 (some Scenario.alice)).Data.Payload
        ((Scenario.msg 0 100 1 10 (some Scenario.alice)).To == none) true = some 21000 ∧
      EthGasConsumeDecorator.AnteHandle Scenario.env (Scenario.ctx true)
          (.ethereum (Scenario.msg 0 100 1 10 (some Scenario.alice))) false Terminator
          (Scenario.world 1000 0) =
        .ret (Scenario.ctx true, some (.intrinsicGasTooLow 100 21000))
          { store := (Scenario.world 1000 0).store,
            meters := [.infiniteGasMeter 1240, .infiniteGasMeter 0] } :=
  ⟨rfl, rfl,
    ((C23_intrinsic_gas_check Scenario.env (Scenario.ctx true)
      (Scenario.msg 0 100 1 10 (some Scenario.alice)) false Terminator
      (Scenario.world 1000 0)
      { store := (Scenario.world 1000 0).store,
        meters := [.infiniteGasMeter 1240, .infiniteGasMeter 0] }
      Scenario.alice { accountNumber := 0, sequence := 0 } 21000 rfl rfl rfl).1
      ⟨rfl, by decide⟩).1⟩

/-! ## C24: the gas meter that the gas stage hands on -/

/-- Gas consumed on a meter that was just allocated: when the call returns, the meter
did not raise anything, the new meter object holds the outcome, and the store is as it
was. -/
theorem ConsumeGas_newMeter {g0 : GasMeter} {w w3 : World} {amount : Nat} {d : String}
    {u : Unit} (h : ConsumeGas (newMeter g0 w).1 amount d (newMeter g0 w).2 = .ret u w3) :
    (g0.ConsumeGas amount d).2 = none ∧
      w3.meter (newMeter g0 w).1 = some (g0.ConsumeGas amount d).1 := by
  simp only [ConsumeGas, newMeter, List.getElem?_concat_length] at h
  cases hp : (g0.ConsumeGas amount d).2 with
  | some p => rw [hp] at h; cases h
  | none =>
    rw [hp] at h
    simp only [Res.ret.injEq, true_and] at h
    subst h
    refine ⟨rfl, ?_⟩
    simp [World.meter, newMeter]

/-- An unbounded meter without consumption that raises nothing on consuming `amount`
has consumed `amount`. -/
theorem infiniteGasMeter_consume {amount : Nat} {d : String}
    (h : ((GasMeter.infiniteGasMeter 0).ConsumeGas amount d).2 = none) :
    ((GasMeter.infiniteGasMeter 0).ConsumeGas amount d).1 = .infiniteGasMeter amount := by
  simp only [GasMeter.ConsumeGas, addUint64Overflow, Nat.sub_zero, Nat.zero_add] at h ⊢
  by_cases hov : MaxUint64 < amount
  · simp [hov] at h
  · simp [hov]

/-- A meter limited to `limit` without consumption that raises nothing on consuming
`amount` has consumed `amount`, which is within the limit. -/
theorem basicGasMeter_consume {limit amount : Nat} {d : String}
    (h : ((GasMeter.basicGasMeter limit 0).ConsumeGas amount d).2 = none) :
    ((GasMeter.basicGasMeter limit 0).ConsumeGas amount d).1 = .basicGasMeter limit amount ∧
      amount ≤ limit := by
  simp only [GasMeter.ConsumeGas, addUint64Overflow, Nat.sub_zero, Nat.zero_add] at h ⊢
  by_cases hov : MaxUint64 < amount
  · simp [hov] at h
  · simp only [hov, if_false, Bool.false_eq_true] at h ⊢
    by_cases hl : amount > limit
    · simp [hl] at h
    · simp only [hl, if_false, true_and]
      omega

/-- The gas stage either ends by itself, with an outcome that does not depend on the
next handler, or hands over to the next handler a context whose gas meter is a new
meter object that has consumed exactly the intrinsic gas: an unbounded one in a
simulation and at height 0, one limited to the gas limit of the message otherwise. -/
theorem EthGasConsume_meter_cases (env : Env) (ctx : Context) (tx : Tx) (sim : Bool)
    (w : World) :
    (∃ r : Res AnteResult,
        ∀ next, EthGasConsumeDecorator.AnteHandle env ctx tx sim next w = r) ∨
      (∃ msg gas newCtx w1, tx = .ethereum msg ∧
        IntrinsicGas msg.Data.Payload (msg.To == none) true = some gas ∧
        (∀ next, EthGasConsumeDecorator.AnteHandle env ctx tx sim next w =
          next newCtx tx sim w1) ∧
        ((sim || ctx.blockHeight == 0) = true →
          w1.meter newCtx.gasMeter = some (.infiniteGasMeter gas)) ∧
        ((sim || ctx.blockHeight == 0) = false →
          w1.meter newCtx.gasMeter = some (.basicGasMeter msg.GetGas gas) ∧
            gas ≤ msg.GetGas)) := by
  unfold EthGasConsumeDecorator.AnteHandle
  cases tx with
  | gasTx g => exact Or.inl ⟨_, fun _ => rfl⟩
  | plain => exact Or.inl ⟨_, fun _ => rfl⟩
  | ethereum msg =>
    simp only [Tx.asMsgEthereumTx]
    cases hs : msg.From with
    | none => exact Or.inl ⟨_, fun _ => rfl⟩
    | some a =>
      simp only
      cases hg : GetSignerAcc env ctx a w with
      | panic p w1 => exact Or.inl ⟨_, fun _ => rfl⟩
      | ret o w1 =>
        cases o with
        | error err => exact Or.inl ⟨_, fun _ => rfl⟩
        | ok acc0 =>
          simp only
          cases hi : IntrinsicGas msg.Data.Payload (msg.To == none) true with
          | none => exact Or.inl ⟨_, fun _ => rfl⟩
          | some gas =>
            simp only
            by_cases hlow : (ctx.checkTx && decide (msg.GetGas < gas)) = true
            · simp only [hlow, if_true]
              exact Or.inl ⟨_, fun _ => rfl⟩
            · simp only [hlow, Bool.false_eq_true, if_false]
              cases hch : EthGasConsumeDecorator.chargeSender env ctx a msg msg.GetGas w1 with
              | panic p w2 => exact Or.inl ⟨_, fun _ => rfl⟩
              | ret v w2 =>
                cases v with
                | some err => exact Or.inl ⟨_, fun _ => rfl⟩
                | none =>
                  simp only
                  cases hcg : ConsumeGas (SetGasMeter sim ctx msg.GetGas w2).1.gasMeter gas
                      "eth intrinsic gas" (SetGasMeter sim ctx msg.GetGas w2).2 with
                  | panic p w3 => exact Or.inl ⟨_, fun _ => rfl⟩
                  | ret u w3 =>
                    refine Or.inr ⟨msg, gas, (SetGasMeter sim ctx msg.GetGas w2).1, w3, rfl,
                      hi, fun _ => rfl, fun hinf => ?_, fun hfin => ?_⟩
                    · simp only [SetGasMeter, hinf, if_true, Context.WithGasMeter,
                        NewInfiniteGasMeter] at hcg ⊢
                      obtain ⟨h1, h2⟩ := ConsumeGas_newMeter hcg
                      rw [h2, infiniteGasMeter_consume h1]
                    · simp only [SetGasMeter, hfin, Bool.false_eq_true, if_false,
                        Context.WithGasMeter, NewGasMeter] at hcg ⊢
                      obtain ⟨h1, h2⟩ := ConsumeGas_newMeter hcg
                      rw [h2, (basicGasMeter_consume h1).1]
                      exact ⟨rfl, (basicGasMeter_consume h1).2⟩

/-- C24, as stated, fails: in a simulation (block execution at height 1, simulate true)
of the transfer with gas limit 100 the gas stage invokes the next handler with a context
whose gas meter, the third meter object of the world, is unbounded; it has consumed the
intrinsic gas 21000. -/
theorem C24_simulation_hands_on_unbounded_meter :
    (∀ next, EthGasConsumeDecorator.AnteHandle Scenario.env (Scenario.ctx false)
        (.ethereum (Scenario.msg 0 100 1 10 (some Scenario.alice))) true next
        (Scenario.world 1000 0) =
      next ((Scenario.ctx false).WithGasMeter (some 2))
        (.ethereum (Scenario.msg 0 100 1 10 (some Scenario.alice))) true
        { store := (Scenario.world 1000 0).store.sendToFeeCollector Scenario.alice 100,
          meters := [.infiniteGasMeter 1240, .infiniteGasMeter 0, .infiniteGasMeter 21000] }) ∧
      World.meter
          { store := (Scenario.world 1000 0).store.sendToFeeCollector Scenario.alice 100,
            meters := [.infiniteGasMeter 1240, .infiniteGasMeter 0, .infiniteGasMeter 21000] }
          ((Scenario.ctx false).WithGasMeter (some 2)).gasMeter =
        some (.infiniteGasMeter 21000) ∧
      (GasMeter.infiniteGasMeter 21000).isInfinite = true :=
  ⟨fun _ => rfl, rfl, rfl⟩

/-- C24, amended.  Whenever `EthGasConsumeDecorator.AnteHandle` invokes the next
handler, with a context `newCtx` in a world `w1`, the transaction is a MsgEthereumTx
and the gas meter of `newCtx` has consumed exactly the intrinsic gas of the message.
When simulate is false and the block height is not 0, in every mode, the meter is a
finite one whose limit is the declared gas limit, which the intrinsic gas does not
exceed; in a simulation and at block height 0 the meter is unbounded. -/
theorem C24_meter_handed_on (env : Env) (ctx : Context) (tx : Tx) (simulate : Bool)
    (w : World) (newCtx : Context) (w1 : World)
    (hnext : ∀ next, EthGasConsumeDecorator.AnteHandle env ctx tx simulate next w =
      next newCtx tx simulate w1) :
    ∃ msg gas, tx = .ethereum msg ∧
      IntrinsicGas msg.Data.Payload (msg.To == none) true = some gas ∧
      (simulate = false → ctx.blockHeight ≠ 0 →
        w1.meter newCtx.gasMeter = some (.basicGasMeter msg.GetGas gas) ∧
          gas ≤ msg.GetGas) ∧
      (simulate = true ∨ ctx.blockHeight = 0 →
        w1.meter newCtx.gasMeter = some (.infiniteGasMeter gas)) := by
  rcases EthGasConsume_meter_cases env ctx tx simulate w with ⟨r, hr⟩ |
    ⟨msg, gas, newCtx1, w2, htx, hi, hall, hinf, hfin⟩
  · have h1 := hnext Terminator
    have h2 := hnext (fun _ _ _ w0 => .panic .nilPointer w0)
    rw [hr] at h1 h2
    rw [h1] at h2
    simp [Terminator] at h2
  · have h1 := hnext Terminator
    rw [hall] at h1
    simp only [Terminator, Res.ret.injEq, Prod.mk.injEq, and_true] at h1
    obtain ⟨hc, hw⟩ := h1
    subst hc
    subst hw
    refine ⟨msg, gas, htx, hi, fun hs hh => hfin ?_, fun hor => hinf ?_⟩
    · simp [hs, hh]
    · rcases hor with hs | hh
      · simp [hs]
      · simp [hh]

/-- C24, witness: block execution at height 1 of the transfer with gas limit 30000 by a
sender who can pay: the next handler gets a meter limited to 30000 that has consumed
21000. -/
theorem C24_meter_handed_on_witness :
    (∀ next, EthGasConsumeDecorator.AnteHandle Scenario.env (Scenario.ctx false)
        (.ethereum (Scenario.msg 0 30000 1 10 (some Scenario.alice))) false next
        (Scenario.world 30000 0) =
      next ((Scenario.ctx false).WithGasMeter (some 2))
        (.ethereum (Scenario.msg 0 30000 1 10 (some Scenario.alice))) false
        { store := (Scenario.world 30000 0).store.sendToFeeCollector Scenario.alice 30000,
          meters := [.infiniteGasMeter 1240, .infiniteGasMeter 0,
            .basicGasMeter 30000 21000] }) ∧
      ∃ msg gas,
        Tx.ethereum (Scenario.msg 0 30000 1 10 (some Scenario.alice)) = .ethereum msg ∧
        IntrinsicGas msg.Data.Payload (msg.To == none) true = some gas ∧
        World.meter
            { store := (Scenario.world 30000 0).store.sendToFeeCollector Scenario.alice 30000,
              meters := [.infiniteGasMeter 1240, .infiniteGasMeter 0,
                .basicGasMeter 30000 21000] }
            ((Scenario.ctx false).WithGasMeter (some 2)).gasMeter =
          some (.basicGasMeter msg.GetGas gas) ∧
        gas ≤ msg.GetGas := by
  refine ⟨fun _ => rfl, ?_⟩
  obtain ⟨msg, gas, htx, hi, hfin, _⟩ :=
    C24_meter_handed_on Scenario.env (Scenario.ctx false)
      (.ethereum (Scenario.msg 0 30000 1 10 (some Scenario.alice))) false
      (Scenario.world 30000 0) ((Scenario.ctx false).WithGasMeter (some 2))
      { store := (Scenario.world 30000 0).store.sendToFeeCollector Scenario.alice 30000,
        meters := [.infiniteGasMeter 1240, .infiniteGasMeter 0, .basicGasMeter 30000 21000] }
      (fun _ => rfl)
  exact ⟨msg, gas, htx, hi, (hfin rfl (by decide)).1, (hfin rfl (by decide)).2⟩

/-! ## C25: the intrinsic gas -/

/-- The function `IntrinsicGas` with the homestead rules, by its base cost. -/
theorem IntrinsicGas_unfold (data : List Nat) (contractCreation : Bool) :
    IntrinsicGas data contractCreation true =
      if data.length > 0 then
        if (MaxUint64 - (if contractCreation then 53000 else 21000)) / 68 < nonZeroBytes data
        then none
        else if (MaxUint64 - ((if contractCreation then 53000 else 21000) +
            nonZeroBytes data * 68)) / 4 < zeroBytes data then none
        else some ((if contractCreation then 53000 else 21000) + nonZeroBytes data * 68 +
          zeroBytes data * 4)
      else some (if contractCreation then 53000 else 21000) := by
  cases contractCreation <;> rfl

/-- Whenever the intrinsic gas is computed, it is the base cost, 53000 for a contract
creation and 21000 otherwise, plus 68 for every non-zero byte and 4 for every zero byte
of the payload. -/
theorem IntrinsicGas_value {data : List Nat} {contractCreation : Bool} {gas : Nat}
    (h : IntrinsicGas data contractCreation true = some gas) :
    gas = (if contractCreation then 53000 else 21000) + 68 * nonZeroBytes data +
      4 * zeroBytes data := by
  rw [IntrinsicGas_unfold] at h
  by_cases hlen : data.length > 0
  · rw [if_pos hlen] at h
    by_cases h1 : (MaxUint64 - (if contractCreation then 53000 else 21000)) / 68 <
        nonZeroBytes data
    · rw [if_pos h1] at h
      cases h
    · rw [if_neg h1] at h
      by_cases h2 : (MaxUint64 - ((if contractCreation then 53000 else 21000) +
          nonZeroBytes data * 68)) / 4 < zeroBytes data
      · rw [if_pos h2] at h
        cases h
      · rw [if_neg h2] at h
        simp only [Option.some.injEq] at h
        rw [← h]
        ring
  · rw [if_neg hlen] at h
    simp only [Option.some.injEq] at h
    have h0 : data = [] := by
      cases data with
      | nil => rfl
      | cons x xs => simp at hlen
    subst h0
    rw [← h]
    simp [nonZeroBytes, zeroBytes]

/-- The intrinsic gas is computed for every payload whose gas fits in a `uint64`. -/
theorem IntrinsicGas_some (data : List Nat) (contractCreation : Bool)
    (hfit : 53000 + 68 * data.length ≤ MaxUint64) :
    IntrinsicGas data contractCreation true =
      some ((if contractCreation then 53000 else 21000) + 68 * nonZeroBytes data +
        4 * zeroBytes data) := by
  have hnz : nonZeroBytes data ≤ data.length := List.length_filter_le _ _
  have hz : zeroBytes data = data.length - nonZeroBytes data := rfl
  have hb : (if contractCreation then 53000 else 21000) ≤ 53000 := by
    cases contractCreation <;> simp
  cases hi : IntrinsicGas data contractCreation true with
  | some gas => rw [IntrinsicGas_value hi]
  | none =>
    exfalso
    rw [IntrinsicGas_unfold] at hi
    generalize (if contractCreation then 53000 else 21000) = b at hi hb
    generalize nonZeroBytes data = nz at hi hnz hz
    generalize zeroBytes data = z at hi hz
    by_cases hlen : data.length > 0
    · rw [if_pos hlen] at hi
      by_cases h1 : (MaxUint64 - b) / 68 < nz
      · rw [Nat.div_lt_iff_lt_mul (by decide)] at h1
        omega
      · rw [if_neg h1] at hi
        by_cases h2 : (MaxUint64 - (b + nz * 68)) / 4 < z
        · rw [Nat.div_lt_iff_lt_mul (by decide)] at h2
          omega
        · rw [if_neg h2] at hi
          cases hi
    · rw [if_neg hlen] at hi
      cases hi

/-- C25.  The intrinsic gas that `EthGasConsumeDecorator` computes for a message, when
it is computed, and it is for every payload whose gas fits in a `uint64`, is the base
cost 21000, plus the surcharge 32000 exactly when the recipient is absent, plus 68 for
every non-zero byte and 4 for every zero byte of the payload.  A plain transfer costs
21000, a contract creation with an empty payload 21000 + 32000, and a payload of `K`
non-zero bytes adds `K × 68`. -/
theorem C25_intrinsic_gas_formula :
    (∀ (msg : MsgEthereumTx) (gas : Nat),
        IntrinsicGas msg.Data.Payload (msg.To == none) true = some gas →
        gas = 21000 + (if msg.To = none then 32000 else 0) +
          68 * nonZeroBytes msg.Data.Payload + 4 * zeroBytes msg.Data.Payload) ∧
      (∀ msg : MsgEthereumTx, 53000 + 68 * msg.Data.Payload.length ≤ MaxUint64 →
        IntrinsicGas msg.Data.Payload (msg.To == none) true =
          some (21000 + (if msg.To = none then 32000 else 0) +
            68 * nonZeroBytes msg.Data.Payload + 4 * zeroBytes msg.Data.Payload)) ∧
      (∀ msg : MsgEthereumTx, msg.Data.Payload = [] → msg.To ≠ none →
        IntrinsicGas msg.Data.Payload (msg.To == none) true = some 21000) ∧
      (∀ msg : MsgEthereumTx, msg.Data.Payload = [] → msg.To = none →
        IntrinsicGas msg.Data.Payload (msg.To == none) true = some (21000 + 32000)) ∧
      (∀ (msg : MsgEthereumTx) (K : Nat), msg.Data.Payload.length = K →
        (∀ byt ∈ msg.Data.Payload, byt ≠ 0) → 53000 + 68 * K ≤ MaxUint64 →
        IntrinsicGas msg.Data.Payload (msg.To == none) true =
          some (21000 + (if msg.To = none then 32000 else 0) + K * 68)) ∧
      IntrinsicGas [1, 0, 2] false true = some (21000 + 2 * 68 + 1 * 4) := by
  have hbase : ∀ msg : MsgEthereumTx,
      (if (msg.To == none) = true then 53000 else 21000) =
        21000 + (if msg.To = none then 32000 else 0) := by
    intro msg
    cases msg.To <;> simp
  refine ⟨fun msg gas h => ?_, fun msg hfit => ?_, fun msg hp hto => ?_, fun msg hp hto => ?_,
    fun msg K hK hnz hfit => ?_, ?_⟩
  · rw [IntrinsicGas_value h, hbase]
  · rw [IntrinsicGas_some _ _ hfit, hbase]
  · rw [hp]
    cases hto1 : msg.To with
    | none => exact absurd hto1 hto
    | some a => rfl
  · rw [hp, hto]
    rfl
  · subst hK
    rw [IntrinsicGas_some _ _ hfit, hbase]
    have hall : (msg.Data.Payload.filter fun byt => byt != 0) = msg.Data.Payload := by
      rw [List.filter_eq_self]
      intro byt hb
      simpa using hnz byt hb
    have hn : nonZeroBytes msg.Data.Payload = msg.Data.Payload.length := by
      unfold nonZeroBytes
      rw [hall]
    have hz : zeroBytes msg.Data.Payload = 0 := by
      unfold zeroBytes
      rw [hn, Nat.sub_self]
    rw [hn, hz, Nat.mul_zero, Nat.add_zero, Nat.mul_comm]
  · rfl

/-! ## C26: what the sequence stage changes -/

/-- A decorator whose outcome is the same for every next handler does not hand over to
the next handler. -/
theorem not_constant_of_hands_over {d : AnteHandler → Res AnteResult} {r : Res AnteResult}
    {c : Context} {t : Tx} {s : Bool} {w1 : World}
    (hr : ∀ next, d next = r) (hnext : ∀ next : AnteHandler, d next = next c t s w1) :
    False := by
  have h1 := hnext Terminator
  have h2 := hnext (fun _ _ _ w0 => .panic .nilPointer w0)
  rw [hr] at h1 h2
  rw [h1] at h2
  simp [Terminator] at h2

/-- When the sequence stage, not skipped, hands over to the next handler, the context
it passes is its own, the transaction is a message with a cached sender who has an
account, and the store it leaves is the store before with the sequence of that account
incremented. -/
theorem IncrementSenderSequence_hands_over {env : Env} {ctx : Context} {tx : Tx}
    {sim : Bool} {w : World} {c1 : Context} {w1 : World}
    (hskip : ¬ (ctx.recheckTx = true ∧ sim = false))
    (hnext : ∀ next, IncrementSenderSequenceDecorator.AnteHandle env ctx tx sim next w =
      next c1 tx sim w1) :
    c1 = ctx ∧ ∃ msg a acc, tx = .ethereum msg ∧ msg.From = some a ∧
      w.store.accounts a = some acc ∧ w1.store = w.store.incrementSequence a acc := by
  rcases IncrementSenderSequence_cases env ctx tx sim w with ⟨h1, h2, _⟩ |
    ⟨_, ⟨r, _, _, hall⟩ | ⟨msg, a, acc, w2, htx, hs, hacc, hst, hall⟩⟩
  · exact absurd ⟨h1, h2⟩ hskip
  · exact (not_constant_of_hands_over
      (d := fun next => IncrementSenderSequenceDecorator.AnteHandle env ctx tx sim next w)
      hall hnext).elim
  · have h1 := hnext Terminator
    rw [hall] at h1
    simp only [Terminator, Res.ret.injEq, Prod.mk.injEq, and_true] at h1
    obtain ⟨hc, hw⟩ := h1
    subst hc
    subst hw
    exact ⟨rfl, msg, a, acc, htx, hs, hacc, hst⟩

/-- C26, as stated, fails: the sequence stage, not skipped, takes the sequence of
`alice` from the largest `uint64` to 0, not to that number plus 1. -/
theorem C26_increment_wraps_at_max :
    ¬ ((Scenario.ctx false).recheckTx = true ∧ false = false) ∧
      (Scenario.world 1000 18446744073709551615).sequence Scenario.alice =
        some 18446744073709551615 ∧
      (IncrementSenderSequenceDecorator.AnteHandle Scenario.env (Scenario.ctx false)
          (.ethereum (Scenario.msg 18446744073709551615 30000 1 10 (some Scenario.alice)))
          false Terminator (Scenario.world 1000 18446744073709551615)).verdict = .admitted ∧
      (IncrementSenderSequenceDecorator.AnteHandle Scenario.env (Scenario.ctx false)
          (.ethereum (Scenario.msg 18446744073709551615 30000 1 10 (some Scenario.alice)))
          false Terminator
          (Scenario.world 1000 18446744073709551615)).world.sequence Scenario.alice =
        some 0 := by
  refine ⟨by decide, ?_, ?_, ?_⟩
  · simp [World.sequence, Scenario.world]
  · rfl
  · simp [ethAnteHandler, ChainAnteDecorators, Terminator, EthSetupContextDecorator.AnteHandle,
    EthSetupContextDecorator.deferred, EthMempoolFeeDecorator.AnteHandle,
    EthSigVerificationDecorator.AnteHandle, AccountVerificationDecorator.AnteHandle,
    NonceVerificationDecorator.AnteHandle, EthGasConsumeDecorator.AnteHandle,
    EthGasConsumeDecorator.chargeSender, IncrementSenderSequenceDecorator.AnteHandle,
    IncrementSenderSequenceDecorator.incrementSequences, GetAccount, SetAccount, GetBalance,
    GetSignerAcc, DeductFees, SetGasMeter, ConsumeGas, Exec.andThen, GasMeter.ConsumeGas,
    addUint64Overflow, MaxUint64, NewInfiniteGasMeter, NewGasMeter, newMeter,
    Context.WithBlockGasMeter, Context.WithGasMeter, Tx.asGasTx, Tx.asMsgEthereumTx,
    MsgEthereumTx.From, MsgEthereumTx.To, MsgEthereumTx.GetGas, MsgEthereumTx.Fee,
    MsgEthereumTx.Cost, MsgEthereumTx.GetSigners, VerifySig, SetString10, parseDigits,
    digitValue, IntrinsicGas, bigInt64, allGTELoop, DecCoinsIsZero, Store.sendToFeeCollector,
    World.meter, GasMeter.GasConsumed, Res.verdict, Res.world, World.balance, World.sequence,
    KVGasConfig, Env.valueSize, TxGas, Context.zero, Scenario.env, Scenario.ctx, Scenario.tx,
    Scenario.msg, Scenario.world, Scenario.alice, Scenario.bob]

/-- C26, amended.  When `IncrementSenderSequenceDecorator.AnteHandle` is not skipped and
goes on to the next handler, the transaction is a MsgEthereumTx whose required signer
is its cached sender `a`, and the stored sequence number of `a` after the call is its
previous sequence number plus 1 modulo `2 ^ 64`, that is plus exactly 1 unless it was
the largest `uint64`.  Nothing else changes: the account number of `a`, every balance
and the balance of the fee collector, the account of every other address, and the
context passed to the next handler are as before. -/
theorem C26_increment_changes_sequence_only (env : Env) (ctx : Context) (tx : Tx)
    (simulate : Bool) (w : World) (c1 : Context) (w1 : World)
    (hskip : ¬ (ctx.recheckTx = true ∧ simulate = false))
    (hnext : ∀ next, IncrementSenderSequenceDecorator.AnteHandle env ctx tx simulate next w =
      next c1 tx simulate w1) :
    c1 = ctx ∧ ∃ msg a acc, tx = .ethereum msg ∧ msg.GetSigners = .ok [a] ∧
      w.store.accounts a = some acc ∧
      w1.store.accounts a =
        some { accountNumber := acc.accountNumber, sequence := (acc.sequence + 1) % 2 ^ 64 } ∧
      (acc.sequence + 1 < 2 ^ 64 → w1.sequence a = some (acc.sequence + 1)) ∧
      (∀ b, b ≠ a → w1.store.accounts b = w.store.accounts b) ∧
      w1.store.balances = w.store.balances ∧
      w1.store.feeCollector = w.store.feeCollector := by
  obtain ⟨hc, msg, a, acc, htx, hs, hacc, hst⟩ := IncrementSenderSequence_hands_over hskip hnext
  refine ⟨hc, msg, a, acc, htx, ?_, hacc, ?_, fun hlt => ?_, fun b hb => ?_, ?_, ?_⟩
  · simp only [MsgEthereumTx.GetSigners, hs]
  · simp [hst, Store.incrementSequence]
  · simp only [World.sequence, hst, Store.incrementSequence, if_true, Option.map_some',
      Nat.mod_eq_of_lt hlt]
  · simp [hst, Store.incrementSequence, hb]
  · simp [hst, Store.incrementSequence]
  · simp [hst, Store.incrementSequence]

/-- C26, witness: block execution; the sequence of `alice` goes from 3 to 4. -/
theorem C26_increment_changes_sequence_only_witness :
    ¬ ((Scenario.ctx false).recheckTx = true ∧ false = false) ∧
      (∀ next, IncrementSenderSequenceDecorator.AnteHandle Scenario.env (Scenario.ctx false)
          (.ethereum (Scenario.msg 3 30000 1 10 (some Scenario.alice))) false next
          (Scenario.world 1000 3) =
        next (Scenario.ctx false)
          (.ethereum (Scenario.msg 3 30000 1 10 (some Scenario.alice))) false
          { store := (Scenario.world 1000 3).store.incrementSequence Scenario.alice
              { accountNumber := 0, sequence := 3 },
            meters := [.infiniteGasMeter 5640, .infiniteGasMeter 0, .infiniteGasMeter 0] }) ∧
      ∃ msg a acc,
        Tx.ethereum (Scenario.msg 3 30000 1 10 (some Scenario.alice)) = .ethereum msg ∧
        msg.GetSigners = .ok [a] ∧
        (Scenario.world 1000 3).store.accounts a = some acc ∧
        ((Scenario.world 1000 3).store.incrementSequence Scenario.alice
            { accountNumber := 0, sequence := 3 }).accounts a =
          some { accountNumber := acc.accountNumber,
                 sequence := (acc.sequence + 1) % 2 ^ 64 } := by
  have hskip : ¬ ((Scenario.ctx false).recheckTx = true ∧ false = false) := by decide
  refine ⟨hskip, fun _ => rfl, ?_⟩
  obtain ⟨_, msg, a, acc, h1, h2, h3, h4, _⟩ :=
    C26_increment_changes_sequence_only Scenario.env (Scenario.ctx false)
      (.ethereum (Scenario.msg 3 30000 1 10 (some Scenario.alice))) false
      (Scenario.world 1000 3) (Scenario.ctx false)
      { store := (Scenario.world 1000 3).store.incrementSequence Scenario.alice
          { accountNumber := 0, sequence := 3 },
        meters := [.infiniteGasMeter 5640, .infiniteGasMeter 0, .infiniteGasMeter 0] }
      hskip (fun _ => rfl)
  exact ⟨msg, a, acc, h1, h2, h3, h4⟩

/-! ## C27: the sequence stage in ReCheckTx -/

/-- C27.  In a ReCheckTx context: with simulate false,
`IncrementSenderSequenceDecorator.AnteHandle` returns exactly `next(ctx, tx, simulate)`,
run in the world it was called in, so that no sequence number has changed; with simulate
true it ends with the verdict and in the world with which it ends in the same context
without the ReCheckTx flag (the next handler getting the context of the call); and
whenever it goes on to the next handler, the store it leaves is the store before with
the sequence of the sender incremented. -/
theorem C27_recheck_skips_increment (env : Env) (ctx : Context) (tx : Tx)
    (next : AnteHandler) (w : World) (hre : ctx.recheckTx = true) :
    IncrementSenderSequenceDecorator.AnteHandle env ctx tx false next w =
        next ctx tx false w ∧
      ((IncrementSenderSequenceDecorator.AnteHandle env ctx tx true next w).verdict =
          (IncrementSenderSequenceDecorator.AnteHandle env { ctx with recheckTx := false } tx
            true (fun _ t s => next ctx t s) w).verdict ∧
        (IncrementSenderSequenceDecorator.AnteHandle env ctx tx true next w).world =
          (IncrementSenderSequenceDecorator.AnteHandle env { ctx with recheckTx := false } tx
            true (fun _ t s => next ctx t s) w).world) ∧
      (∀ c1 w1,
        (∀ nx, IncrementSenderSequenceDecorator.AnteHandle env ctx tx true nx w =
          nx c1 tx true w1) →
        c1 = ctx ∧ ∃ msg a acc, tx = .ethereum msg ∧ msg.From = some a ∧
          w.store.accounts a = some acc ∧
          w1.sequence a = some ((acc.sequence + 1) % 2 ^ 64)) := by
  refine ⟨?_, ?_, fun c1 w1 hnx => ?_⟩
  · simp only [IncrementSenderSequenceDecorator.AnteHandle, hre, Bool.not_false, Bool.and_self,
      if_true]
  · simp only [IncrementSenderSequenceDecorator.AnteHandle, hre, Bool.not_true, Bool.and_false,
      Bool.false_eq_true, if_false]
    have h2 : ∀ signers, IncrementSenderSequenceDecorator.incrementSequences env
          (({ ctx with recheckTx := false } : Context).WithBlockGasMeter
            (NewInfiniteGasMeter w).1) signers =
        IncrementSenderSequenceDecorator.incrementSequences env
          (ctx.WithBlockGasMeter (NewInfiniteGasMeter w).1) signers :=
      fun signers => incrementSequences_congr env
        (show (({ ctx with recheckTx := false } : Context).WithBlockGasMeter
            (NewInfiniteGasMeter w).1).gasMeter =
          (ctx.WithBlockGasMeter (NewInfiniteGasMeter w).1).gasMeter from rfl) signers
    cases tx.asMsgEthereumTx with
    | none => exact ⟨rfl, rfl⟩
    | some msg =>
      simp only
      cases msg.GetSigners with
      | error p => exact ⟨rfl, rfl⟩
      | ok signers =>
        simp only
        rw [h2]
        exact ⟨rfl, rfl⟩
  · have hskip : ¬ (ctx.recheckTx = true ∧ true = false) := by simp
    obtain ⟨hc, msg, a, acc, htx, hs, hacc, hst⟩ := IncrementSenderSequence_hands_over hskip hnx
    refine ⟨hc, msg, a, acc, htx, hs, hacc, ?_⟩
    simp [World.sequence, hst, Store.incrementSequence]

/-- C27, witness: in ReCheckTx without simulation the stage is the next handler and the
sequence of `alice` stays 3; in ReCheckTx with simulation it becomes 4. -/
theorem C27_recheck_skips_increment_witness :
    ({ Scenario.ctx true with recheckTx := true } : Context).recheckTx = true ∧
      IncrementSenderSequenceDecorator.AnteHandle Scenario.env
          { Scenario.ctx true with recheckTx := true }
          (.ethereum (Scenario.msg 3 30000 1 10 (some Scenario.alice))) false Terminator
          (Scenario.world 1000 3) =
        .ret ({ Scenario.ctx true with recheckTx := true }, none) (Scenario.world 1000 3) ∧
      (IncrementSenderSequenceDecorator.AnteHandle Scenario.env
          { Scenario.ctx true with recheckTx := true }
          (.ethereum (Scenario.msg 3 30000 1 10 (some Scenario.alice))) true Terminator
          (Scenario.world 1000 3)).world.sequence Scenario.alice = some 4 :=
  ⟨rfl,
    (C27_recheck_skips_increment Scenario.env { Scenario.ctx true with recheckTx := true }
      (.ethereum (Scenario.msg 3 30000 1 10 (some Scenario.alice))) Terminator
      (Scenario.world 1000 3) rfl).1,
    by
      rw [(C27_recheck_skips_increment Scenario.env
        { Scenario.ctx true with recheckTx := true }
        (.ethereum (Scenario.msg 3 30000 1 10 (some Scenario.alice))) Terminator
        (Scenario.world 1000 3) rfl).2.1.2]
      rfl⟩

/-! ## C28: the gas meter under which the sequence stage reads and writes -/

/-- C28, as the code behaves.  Block execution: the sequence stage is called with a
context whose transaction gas meter is limited to 30000 and has consumed the intrinsic
gas 21000, as the gas stage leaves it.  The stage runs its account read and write under
`oldCtx := ctx.WithBlockGasMeter(...)`, whose transaction gas meter is still that of
`ctx`, so the read (1240) and the write (4400) are charged to it: after the stage the
meter has consumed 26640.  With a limit of 21000 the read exhausts the meter and the
stage panics out of gas.  In the whole chain the meter that the gas stage installed for
the transfer with gas limit 30000 ends at 26640 as well. -/
theorem C28_increment_charges_transaction_gas_meter :
    (Scenario.meteredWorld 30000 21000 100000 0).meter (Scenario.ctx false).gasMeter =
        some (.basicGasMeter 30000 21000) ∧
      (IncrementSenderSequenceDecorator.AnteHandle Scenario.env (Scenario.ctx false)
          (.ethereum (Scenario.msg 0 30000 1 10 (some Scenario.alice))) false Terminator
          (Scenario.meteredWorld 30000 21000 100000 0)).verdict = .admitted ∧
      (IncrementSenderSequenceDecorator.AnteHandle Scenario.env (Scenario.ctx false)
          (.ethereum (Scenario.msg 0 30000 1 10 (some Scenario.alice))) false Terminator
          (Scenario.meteredWorld 30000 21000 100000 0)).world.meter
            (Scenario.ctx false).gasMeter = some (.basicGasMeter 30000 26640) ∧
      (IncrementSenderSequenceDecorator.AnteHandle Scenario.env (Scenario.ctx false)
          (.ethereum (Scenario.msg 0 21000 1 10 (some Scenario.alice))) false Terminator
          (Scenario.meteredWorld 21000 21000 100000 0)).verdict =
        .panicked (.ErrorOutOfGas "ReadFlat") ∧
      (ethAnteHandler Scenario.env (Scenario.ctx false) (Scenario.tx 0 30000 1 10) false
          (Scenario.world 30000 0)).verdict = .admitted ∧
      (ethAnteHandler Scenario.env (Scenario.ctx false) (Scenario.tx 0 30000 1 10) false
          (Scenario.world 30000 0)).world.meters =
        [.infiniteGasMeter 2480, .infiniteGasMeter 0, .infiniteGasMeter 0,
          .basicGasMeter 30000 26640, .infiniteGasMeter 0] := by
  refine ⟨rfl, ?_, ?_, ?_, ?_, ?_⟩
  · simp [ethAnteHandler, ChainAnteDecorators, Terminator, EthSetupContextDecorator.AnteHandle,
    EthSetupContextDecorator.deferred, EthMempoolFeeDecorator.AnteHandle,
    EthSigVerificationDecorator.AnteHandle, AccountVerificationDecorator.AnteHandle,
    NonceVerificationDecorator.AnteHandle, EthGasConsumeDecorator.AnteHandle,
    EthGasConsumeDecorator.chargeSender, IncrementSenderSequenceDecorator.AnteHandle,
    IncrementSenderSequenceDecorator.incrementSequences, GetAccount, SetAccount, GetBalance,
    GetSignerAcc, DeductFees, SetGasMeter, ConsumeGas, Exec.andThen, GasMeter.ConsumeGas,
    addUint64Overflow, MaxUint64, NewInfiniteGasMeter, NewGasMeter, newMeter,
    Context.WithBlockGasMeter, Context.WithGasMeter, Tx.asGasTx, Tx.asMsgEthereumTx,
    MsgEthereumTx.From, MsgEthereumTx.To, MsgEthereumTx.GetGas, MsgEthereumTx.Fee,
    MsgEthereumTx.Cost, MsgEthereumTx.GetSigners, VerifySig, SetString10, parseDigits,
    digitValue, IntrinsicGas, bigInt64, allGTELoop, DecCoinsIsZero, Store.sendToFeeCollector,
    World.meter, GasMeter.GasConsumed, Res.verdict, Res.world, World.balance, World.sequence,
    KVGasConfig, Env.valueSize, TxGas, Context.zero, Scenario.env, Scenario.ctx, Scenario.tx,
    Scenario.msg, Scenario.world, Scenario.meteredWorld, Scenario.alice, Scenario.bob]
  · simp [ethAnteHandler, ChainAnteDecorators, Terminator, EthSetupContextDecorator.AnteHandle,
    EthSetupContextDecorator.deferred, EthMempoolFeeDecorator.AnteHandle,
    EthSigVerificationDecorator.AnteHandle, AccountVerificationDecorator.AnteHandle,
    NonceVerificationDecorator.AnteHandle, EthGasConsumeDecorator.AnteHandle,
    EthGasConsumeDecorator.chargeSender, IncrementSenderSequenceDecorator.AnteHandle,
    IncrementSenderSequenceDecorator.incrementSequences, GetAccount, SetAccount, GetBalance,
    GetSignerAcc, DeductFees, SetGasMeter, ConsumeGas, Exec.andThen, GasMeter.ConsumeGas,
    addUint64Overflow, MaxUint64, NewInfiniteGasMeter, NewGasMeter, newMeter,
    Context.WithBlockGasMeter, Context.WithGasMeter, Tx.asGasTx, Tx.asMsgEthereumTx,
    MsgEthereumTx.From, MsgEthereumTx.To, MsgEthereumTx.GetGas, MsgEthereumTx.Fee,
    MsgEthereumTx.Cost, MsgEthereumTx.GetSigners, VerifySig, SetString10, parseDigits,
    digitValue, IntrinsicGas, bigInt64, allGTELoop, DecCoinsIsZero, Store.sendToFeeCollector,
    World.meter, GasMeter.GasConsumed, Res.verdict, Res.world, World.balance, World.sequence,
    KVGasConfig, Env.valueSize, TxGas, Context.zero, Scenario.env, Scenario.ctx, Scenario.tx,
    Scenario.msg, Scenario.world, Scenario.meteredWorld, Scenario.alice, Scenario.bob]
  · simp [ethAnteHandler, ChainAnteDecorators, Terminator, EthSetupContextDecorator.AnteHandle,
    EthSetupContextDecorator.deferred, EthMempoolFeeDecorator.AnteHandle,
    EthSigVerificationDecorator.AnteHandle, AccountVerificationDecorator.AnteHandle,
    NonceVerificationDecorator.AnteHandle, EthGasConsumeDecorator.AnteHandle,
    EthGasConsumeDecorator.chargeSender, IncrementSenderSequenceDecorator.AnteHandle,
    IncrementSenderSequenceDecorator.incrementSequences, GetAccount, SetAccount, GetBalance,
    GetSignerAcc, DeductFees, SetGasMeter, ConsumeGas, Exec.andThen, GasMeter.ConsumeGas,
    addUint64Overflow, MaxUint64, NewInfiniteGasMeter, NewGasMeter, newMeter,
    Context.WithBlockGasMeter, Context.WithGasMeter, Tx.asGasTx, Tx.asMsgEthereumTx,
    MsgEthereumTx.From, MsgEthereumTx.To, MsgEthereumTx.GetGas, MsgEthereumTx.Fee,
    MsgEthereumTx.Cost, MsgEthereumTx.GetSigners, VerifySig, SetString10, parseDigits,
    digitValue, IntrinsicGas, bigInt64, allGTELoop, DecCoinsIsZero, Store.sendToFeeCollector,
    World.meter, GasMeter.GasConsumed, Res.verdict, Res.world, World.balance, World.sequence,
    KVGasConfig, Env.valueSize, TxGas, Context.zero, Scenario.env, Scenario.ctx, Scenario.tx,
    Scenario.msg, Scenario.world, Scenario.meteredWorld, Scenario.alice, Scenario.bob]
  · simp [ethAnteHandler, ChainAnteDecorators, Terminator, EthSetupContextDecorator.AnteHandle,
    EthSetupContextDecorator.deferred, EthMempoolFeeDecorator.AnteHandle,
    EthSigVerificationDecorator.AnteHandle, AccountVerificationDecorator.AnteHandle,
    NonceVerificationDecorator.AnteHandle, EthGasConsumeDecorator.AnteHandle,
    EthGasConsumeDecorator.chargeSender, IncrementSenderSequenceDecorator.AnteHandle,
    IncrementSenderSequenceDecorator.incrementSequences, GetAccount, SetAccount, GetBalance,
    GetSignerAcc, DeductFees, SetGasMeter, ConsumeGas, Exec.andThen, GasMeter.ConsumeGas,
    addUint64Overflow, MaxUint64, NewInfiniteGasMeter, NewGasMeter, newMeter,
    Context.WithBlockGasMeter, Context.WithGasMeter, Tx.asGasTx, Tx.asMsgEthereumTx,
    MsgEthereumTx.From, MsgEthereumTx.To, MsgEthereumTx.GetGas, MsgEthereumTx.Fee,
    MsgEthereumTx.Cost, MsgEthereumTx.GetSigners, VerifySig, SetString10, parseDigits,
    digitValue, IntrinsicGas, bigInt64, allGTELoop, DecCoinsIsZero, Store.sendToFeeCollector,
    World.meter, GasMeter.GasConsumed, Res.verdict, Res.world, World.balance, World.sequence,
    KVGasConfig, Env.valueSize, TxGas, Context.zero, Scenario.env, Scenario.ctx, Scenario.tx,
    Scenario.msg, Scenario.world, Scenario.meteredWorld, Scenario.alice, Scenario.bob]
  · simp [ethAnteHandler, ChainAnteDecorators, Terminator, EthSetupContextDecorator.AnteHandle,
    EthSetupContextDecorator.deferred, EthMempoolFeeDecorator.AnteHandle,
    EthSigVerificationDecorator.AnteHandle, AccountVerificationDecorator.AnteHandle,
    NonceVerificationDecorator.AnteHandle, EthGasConsumeDecorator.AnteHandle,
    EthGasConsumeDecorator.chargeSender, IncrementSenderSequenceDecorator.AnteHandle,
    IncrementSenderSequenceDecorator.incrementSequences, GetAccount, SetAccount, GetBalance,
    GetSignerAcc, DeductFees, SetGasMeter, ConsumeGas, Exec.andThen, GasMeter.ConsumeGas,
    addUint64Overflow, MaxUint64, NewInfiniteGasMeter, NewGasMeter, newMeter,
    Context.WithBlockGasMeter, Context.WithGasMeter, Tx.asGasTx, Tx.asMsgEthereumTx,
    MsgEthereumTx.From, MsgEthereumTx.To, MsgEthereumTx.GetGas, MsgEthereumTx.Fee,
    MsgEthereumTx.Cost, MsgEthereumTx.GetSigners, VerifySig, SetString10, parseDigits,
    digitValue, IntrinsicGas, bigInt64, allGTELoop, DecCoinsIsZero, Store.sendToFeeCollector,
    World.meter, GasMeter.GasConsumed, Res.verdict, Res.world, World.balance, World.sequence,
    KVGasConfig, Env.valueSize, TxGas, Context.zero, Scenario.env, Scenario.ctx, Scenario.tx,
    Scenario.msg, Scenario.world, Scenario.meteredWorld, Scenario.alice, Scenario.bob]

/-! ## C29: a message without a cached sender -/

/-- C29, as stated, fails: outside CheckTx `AccountVerificationDecorator.AnteHandle`
does not look at the sender; a message without a cached sender that reaches it in block
execution is handed to the next handler, and there is no panic (with the terminator next
the outcome is an admission). -/
theorem C29_account_stage_passes_nil_sender_in_deliverTx :
    (Scenario.msg 0 30000 1 10 none).From = none ∧
      (Scenario.ctx false).checkTx = false ∧
      (∀ next, AccountVerificationDecorator.AnteHandle Scenario.env (Scenario.ctx false)
          (Scenario.tx 0 30000 1 10) false next (Scenario.world 100000 0) =
        next (Scenario.ctx false) (Scenario.tx 0 30000 1 10) false (Scenario.world 100000 0)) ∧
      (AccountVerificationDecorator.AnteHandle Scenario.env (Scenario.ctx false)
          (Scenario.tx 0 30000 1 10) false Terminator (Scenario.world 100000 0)).verdict =
        .admitted :=
  ⟨rfl, rfl, fun _ => rfl, rfl⟩

/-- C29, amended.  When a MsgEthereumTx with no cached sender address reaches
`AccountVerificationDecorator` in CheckTx mode, `NonceVerificationDecorator` or
`EthGasConsumeDecorator` in any mode, the stage panics with "sender address is nil", in
the world it was called in: it neither returns an error nor invokes the next handler.
Outside CheckTx `AccountVerificationDecorator` hands the message to the next handler. -/
theorem C29_nil_sender_panics (env : Env) (ctx : Context) (msg : MsgEthereumTx)
    (simulate : Bool) (next : AnteHandler) (w : World) (hfrom : msg.From = none) :
    (ctx.checkTx = true →
        AccountVerificationDecorator.AnteHandle env ctx (.ethereum msg) simulate next w =
          .panic (.message "sender address is nil") w) ∧
      (ctx.checkTx = false →
        AccountVerificationDecorator.AnteHandle env ctx (.ethereum msg) simulate next w =
          next ctx (.ethereum msg) simulate w) ∧
      NonceVerificationDecorator.AnteHandle env ctx (.ethereum msg) simulate next w =
        .panic (.message "sender address is nil") w ∧
      EthGasConsumeDecorator.AnteHandle env ctx (.ethereum msg) simulate next w =
        .panic (.message "sender address is nil") w := by
  refine ⟨fun hc => ?_, fun hc => ?_, ?_, ?_⟩
  · simp only [AccountVerificationDecorator.AnteHandle, hc, Bool.not_true, Bool.false_eq_true,
      if_false, Tx.asMsgEthereumTx, hfrom]
  · simp only [AccountVerificationDecorator.AnteHandle, hc, Bool.not_false, if_true]
  · simp only [NonceVerificationDecorator.AnteHandle, Tx.asMsgEthereumTx, hfrom]
  · simp only [EthGasConsumeDecorator.AnteHandle, Tx.asMsgEthereumTx, hfrom]

/-- C29, witness: the transfer as it arrives, without a cached sender, at the nonce
stage. -/
theorem C29_nil_sender_panics_witness :
    (Scenario.msg 0 30000 1 10 none).From = none ∧
      NonceVerificationDecorator.AnteHandle Scenario.env (Scenario.ctx true)
          (.ethereum (Scenario.msg 0 30000 1 10 none)) false Terminator
          (Scenario.world 100000 0) =
        .panic (.message "sender address is nil") (Scenario.world 100000 0) :=
  ⟨rfl,
    (C29_nil_sender_panics Scenario.env (Scenario.ctx true) (Scenario.msg 0 30000 1 10 none)
      false Terminator (Scenario.world 100000 0) rfl).2.2.1⟩

/-! ## C30: `SubBalance` and a revert to the snapshot before it -/

/-- A revert to the snapshot taken at the journal `j`, in a state whose journal is `j`
with the entries `es` appended: it succeeds, the objects are those left by undoing `es`,
the last one first, and the journal has the entries of `j` again. -/
theorem RevertToSnapshot_recorded (db2 : CommitStateDB) (j : journal)
    (es : List journalEntry) (hj : db2.journal = appendAll j es)
    (hs : j.length ∈ db2.snapshots) :
    ∃ db3, db2.RevertToSnapshot j.length = some db3 ∧
      db3.stateObjects = (revertAll es db2).stateObjects ∧
      db3.journal.entries = j.entries := by
  have hent : db2.journal.entries = j.entries ++ es := by rw [hj, appendAll_entries]
  have hle : j.length ≤ db2.journal.length := by
    simp [journal.length, hent]
  have hr : db2.RevertToSnapshot j.length =
      some { (db2.journal.revert db2 j.length).1 with
        journal := (db2.journal.revert db2 j.length).2
        snapshots := db2.snapshots.dropWhile fun s => s != j.length } := by
    simp only [CommitStateDB.RevertToSnapshot, hs, if_true]
  refine ⟨_, hr, ?_, ?_⟩
  · show (db2.journal.revert db2 j.length).1.stateObjects = _
    rw [revert_fst _ _ _ hle, hent]
    simp [journal.length]
  · show (db2.journal.revert db2 j.length).2.entries = _
    rw [revert_entries, hent]
    simp [journal.length]

/-- C30.  For every state, every address and every amount `x` not exceeding the balance
of the address: after `Snapshot()`, `SubBalance(addr, x)` succeeds and leaves the
balance less `x`, and `RevertToSnapshot` with the revision just taken succeeds and
leaves the balance of the address at exactly its prior value, every state object as it
was, and the journal with its entries and its length at the snapshot. -/
theorem C30_subBalance_then_revert (db : CommitStateDB) (addr : Address) (x : Nat)
    (hx : x ≤ db.GetBalance addr) :
    db.Snapshot.1 = db.journal.length ∧
      ∃ db2 db3, db.Snapshot.2.SubBalance addr x = some db2 ∧
        db2.GetBalance addr = db.GetBalance addr - x ∧
        db2.RevertToSnapshot db.Snapshot.1 = some db3 ∧
        db3.GetBalance addr = db.GetBalance addr ∧
        db3.stateObjects = db.stateObjects ∧
        db3.journal.length = db.journal.length ∧
        db3.journal.entries = db.journal.entries := by
  refine ⟨rfl, ?_⟩
  have hbal : ∀ d3 : CommitStateDB, d3.stateObjects = db.stateObjects →
      d3.GetBalance addr = db.GetBalance addr := by
    intro d3 h
    simp only [CommitStateDB.GetBalance, h]
  have hlen : ∀ d3 : CommitStateDB, d3.journal.entries = db.journal.entries →
      d3.journal.length = db.journal.length := by
    intro d3 h
    simp only [journal.length, h]
  unfold CommitStateDB.GetBalance at hx
  cases hobj : db.stateObjects addr with
  | some obj =>
    rw [hobj] at hx
    simp only at hx
    have hlt : ¬ obj.balance < x := by omega
    obtain ⟨db3, h3, hobjs, hent⟩ := RevertToSnapshot_recorded
      ((db.Snapshot.2.record (.balanceChange addr obj.balance)).modifyObject addr fun o =>
        { o with balance := obj.balance - x })
      db.journal [.balanceChange addr obj.balance] rfl
      (by simp [CommitStateDB.modifyObject, CommitStateDB.record, CommitStateDB.Snapshot])
    have hsame : db3.stateObjects = db.stateObjects := by
      rw [hobjs]
      refine objects_ext addr ?_ (fun b hb => ?_)
      · simp [revertAll, journalEntry.revert, CommitStateDB.modifyObject, CommitStateDB.record,
          CommitStateDB.Snapshot, hobj]
      · simp [revertAll, journalEntry.revert, CommitStateDB.modifyObject, CommitStateDB.record,
          CommitStateDB.Snapshot, hb]
    refine ⟨_, db3, ?_, ?_, h3, hbal db3 hsame, hsame, hlen db3 hent, hent⟩
    · simp only [CommitStateDB.SubBalance, CommitStateDB.getOrNewStateObject,
        CommitStateDB.Snapshot, hobj, hlt, if_false]
    · simp [CommitStateDB.GetBalance, CommitStateDB.modifyObject, CommitStateDB.record,
        CommitStateDB.Snapshot, hobj]
  | none =>
    rw [hobj] at hx
    simp only [Nat.le_zero] at hx
    subst hx
    obtain ⟨db3, h3, hobjs, hent⟩ := RevertToSnapshot_recorded
      ((((db.Snapshot.2.record (.createObjectChange addr)).setObject addr
          (some (CommitStateDB.newObject addr))).record
          (.balanceChange addr (CommitStateDB.newObject addr).balance)).modifyObject addr fun o =>
        { o with balance := (CommitStateDB.newObject addr).balance - 0 })
      db.journal [.createObjectChange addr,
        .balanceChange addr (CommitStateDB.newObject addr).balance] rfl
      (by simp [CommitStateDB.modifyObject, CommitStateDB.record, CommitStateDB.setObject,
        CommitStateDB.Snapshot])
    have hsame : db3.stateObjects = db.stateObjects := by
      rw [hobjs]
      refine objects_ext addr ?_ (fun b hb => ?_)
      · simp [revertAll, journalEntry.revert, CommitStateDB.modifyObject, CommitStateDB.record,
          CommitStateDB.setObject, CommitStateDB.Snapshot, hobj]
      · simp [revertAll, journalEntry.revert, CommitStateDB.modifyObject, CommitStateDB.record,
          CommitStateDB.setObject, CommitStateDB.Snapshot, hb]
    refine ⟨_, db3, ?_, ?_, h3, hbal db3 hsame, hsame, hlen db3 hent, hent⟩
    · simp only [CommitStateDB.SubBalance, CommitStateDB.getOrNewStateObject,
        CommitStateDB.Snapshot, hobj]
      simp [CommitStateDB.newObject]
    · simp [CommitStateDB.GetBalance, CommitStateDB.modifyObject, CommitStateDB.record,
        CommitStateDB.setObject, CommitStateDB.Snapshot, CommitStateDB.newObject, hobj]

/-- C30, witness: in the state in which `alice` holds 100, after a snapshot, 30 are
subtracted and the snapshot is reverted to. -/
theorem C30_subBalance_then_revert_witness :
    30 ≤ Scenario.mutatedDB.GetBalance Scenario.alice ∧
      Scenario.mutatedDB.GetBalance Scenario.alice = 100 ∧
      ∃ db2 db3, Scenario.mutatedDB.Snapshot.2.SubBalance Scenario.alice 30 = some db2 ∧
        db2.GetBalance Scenario.alice = 70 ∧
        db2.RevertToSnapshot Scenario.mutatedDB.Snapshot.1 = some db3 ∧
        db3.GetBalance Scenario.alice = 100 ∧
        db3.journal.length = Scenario.mutatedDB.journal.length := by
  have h100 : Scenario.mutatedDB.GetBalance Scenario.alice = 100 := by
    simp [CommitStateDB.GetBalance, Scenario.mutatedDB, Scenario.emptyDB,
      CommitStateDB.SetBalance, CommitStateDB.SetNonce, CommitStateDB.AddRefund,
      CommitStateDB.getOrNewStateObject, CommitStateDB.modifyObject, CommitStateDB.record,
      CommitStateDB.setObject, CommitStateDB.newObject]
  have hle : 30 ≤ Scenario.mutatedDB.GetBalance Scenario.alice := by
    rw [h100]
    decide
  obtain ⟨_, db2, db3, h1, h2, h3, h4, _, h6, _⟩ :=
    C30_subBalance_then_revert Scenario.mutatedDB Scenario.alice 30 hle
  rw [h100] at h2 h4
  exact ⟨hle, h100, db2, db3, h1, h2, h3, h4, h6⟩

/-! ## C31: `Suicide` -/

/-- C31.  `Suicide` on an address without an object returns false and leaves the state,
and so the journal and its length, as they were.  `Suicide` on an address with an object
that is not yet destroyed returns true, sets the balance to 0 and the suicided flag, and
appends one `suicideChange` that holds the prior flag and the prior balance, 50 when
the balance was 50, to the entries of the journal; afterwards `Empty(addr)` is true
whenever the nonce of the object is 0 and it has no code.  In the state in which `alice`
holds 50 all of this is the case. -/
theorem C31_suicide_outcomes :
    (∀ (db : CommitStateDB) (addr : Address), db.stateObjects addr = none →
        (db.Suicide addr).2 = false ∧ (db.Suicide addr).1.journal = db.journal ∧
        (db.Suicide addr).1.journal.length = db.journal.length ∧
        (db.Suicide addr).1.stateObjects = db.stateObjects) ∧
      (∀ (db : CommitStateDB) (addr : Address) (obj : stateObject),
        db.stateObjects addr = some obj → obj.suicided = false →
        (db.Suicide addr).2 = true ∧
        (db.Suicide addr).1.GetBalance addr = 0 ∧
        (db.Suicide addr).1.stateObjects addr =
          some { obj with suicided := true, balance := 0 } ∧
        (db.Suicide addr).1.journal.entries =
          db.journal.entries ++ [.suicideChange addr false obj.balance] ∧
        (db.Suicide addr).1.journal.length = db.journal.length + 1 ∧
        (obj.balance = 50 →
          (db.Suicide addr).1.journal.entries.getLast? = some (.suicideChange addr false 50)) ∧
        (obj.nonce = 0 → obj.code = [] → (db.Suicide addr).1.Empty addr = true)) ∧
      (Scenario.fundedDB.GetBalance Scenario.alice = 50 ∧
        (Scenario.fundedDB.Suicide Scenario.alice).2 = true ∧
        (Scenario.fundedDB.Suicide Scenario.alice).1.GetBalance Scenario.alice = 0 ∧
        (Scenario.fundedDB.Suicide Scenario.alice).1.Empty Scenario.alice = true ∧
        (Scenario.fundedDB.Suicide Scenario.bob).2 = false ∧
        (Scenario.fundedDB.Suicide Scenario.bob).1.journal.length =
          Scenario.fundedDB.journal.length) := by
  refine ⟨fun db addr h => ?_, fun db addr obj h hs => ?_, ?_⟩
  · simp [CommitStateDB.Suicide, h]
  · refine ⟨?_, ?_, ?_, ?_, ?_, fun hb => ?_, fun hn hc => ?_⟩
    · simp [CommitStateDB.Suicide, h, hs]
    · simp [CommitStateDB.Suicide, h, hs, CommitStateDB.GetBalance, CommitStateDB.modifyObject,
        CommitStateDB.record]
    · simp [CommitStateDB.Suicide, h, hs, CommitStateDB.modifyObject, CommitStateDB.record]
    · simp [CommitStateDB.Suicide, h, hs, CommitStateDB.modifyObject, CommitStateDB.record,
        journal.append]
    · simp [CommitStateDB.Suicide, h, hs, CommitStateDB.modifyObject, CommitStateDB.record,
        journal.append, journal.length]
    · simp [CommitStateDB.Suicide, h, hs, CommitStateDB.modifyObject, CommitStateDB.record,
        journal.append, hb]
    · simp [CommitStateDB.Suicide, h, hs, CommitStateDB.modifyObject, CommitStateDB.record,
        CommitStateDB.Empty, hn, hc]
  · simp [Scenario.fundedDB, Scenario.emptyDB, CommitStateDB.Suicide, CommitStateDB.SetBalance,
      CommitStateDB.getOrNewStateObject, CommitStateDB.modifyObject, CommitStateDB.record,
      CommitStateDB.setObject, CommitStateDB.newObject, CommitStateDB.GetBalance,
      CommitStateDB.Empty, journal.append, journal.length, newJournal, Scenario.alice,
      Scenario.bob]

/-! ## C32: a transaction that is not a `GasTx` -/

/-- C32.  For every transaction that does not implement `GasTx`,
`EthSetupContextDecorator.AnteHandle` returns the error `ErrTxDecode` ("Tx must be
GasTx"), with the context that has the new block gas meter, whatever the next handler
is: the next handler is not invoked. -/
theorem C32_not_gasTx_is_rejected (ctx : Context) (tx : Tx) (simulate : Bool) (w : World)
    (hgas : tx.asGasTx = none) :
    (∀ next, EthSetupContextDecorator.AnteHandle ctx tx simulate next w =
        .ret (ctx.WithBlockGasMeter (NewInfiniteGasMeter w).1, some .txMustBeGasTx)
          (NewInfiniteGasMeter w).2) ∧
      Error.txMustBeGasTx.code = .ErrTxDecode ∧
      (NewInfiniteGasMeter w).2.store = w.store := by
  refine ⟨fun next => ?_, rfl, rfl⟩
  simp only [EthSetupContextDecorator.AnteHandle, hgas]

/-- C32, witness: a transaction of a type without `GetGas()`. -/
theorem C32_not_gasTx_is_rejected_witness :
    Tx.plain.asGasTx = none ∧
      (EthSetupContextDecorator.AnteHandle (Scenario.ctx true) .plain false Terminator
          (Scenario.world 1000 0)).verdict = .rejected .txMustBeGasTx :=
  ⟨rfl,
    by
      rw [(C32_not_gasTx_is_rejected (Scenario.ctx true) .plain false (Scenario.world 1000 0)
        rfl).1 Terminator]
      rfl⟩

/-! ## C33: the account number at height zero -/

/-- The balance check does not return an error that wraps `ErrInvalidSequence`. -/
theorem balanceCheck_not_invalid_sequence (env : Env) (ctx : Context) (msg : MsgEthereumTx)
    (address : Address) (simulate : Bool) (w1 : World) (e : Error)
    (h : (AccountVerificationDecorator.balanceCheck env ctx msg address simulate Terminator
      w1).verdict = .rejected e) : e.code ≠ .ErrInvalidSequence := by
  unfold AccountVerificationDecorator.balanceCheck at h
  cases hb : GetBalance env ctx address w1 with
  | panic p w2 => rw [hb] at h; simp [Res.verdict] at h
  | ret balance w2 =>
    rw [hb] at h
    simp only at h
    split at h
    · simp only [Res.verdict, Verdict.rejected.injEq] at h
      rw [← h]
      simp [Error.code]
    · simp [Res.verdict, Terminator] at h

/-- C33.  In CheckTx mode, for every MsgEthereumTx with a cached sender whose account
the keeper returns: at block height 0 `AccountVerificationDecorator.AnteHandle` rejects
with `ErrInvalidSequence` when the account number is not 0, in the world the account
read leaves, before any balance is read, and when the account number is 0 it goes on to
the balance check, which never rejects with `ErrInvalidSequence`; at any other height
the outcome is that of the balance check whatever the account number is. -/
theorem C33_account_number_checked_at_height_zero (env : Env) (ctx : Context)
    (msg : MsgEthereumTx) (simulate : Bool) (next : AnteHandler) (w w1 : World)
    (address : Address) (acc : Account)
    (hcheck : ctx.checkTx = true) (hfrom : msg.From = some address)
    (hacc : GetAccount env ctx address w = .ret (some acc) w1) :
    (ctx.blockHeight = 0 → acc.accountNumber ≠ 0 →
        AccountVerificationDecorator.AnteHandle env ctx (.ethereum msg) simulate next w =
            .ret (ctx, some (.invalidAccountNumber acc.accountNumber)) w1 ∧
          (Error.invalidAccountNumber acc.accountNumber).code = .ErrInvalidSequence ∧
          w1.store = w.store) ∧
      (ctx.blockHeight = 0 → acc.accountNumber = 0 →
        AccountVerificationDecorator.AnteHandle env ctx (.ethereum msg) simulate next w =
            AccountVerificationDecorator.balanceCheck env ctx msg address simulate next w1 ∧
          ∀ e, (AccountVerificationDecorator.AnteHandle env ctx (.ethereum msg) simulate
              Terminator w).verdict = .rejected e → e.code ≠ .ErrInvalidSequence) ∧
      (ctx.blockHeight ≠ 0 →
        AccountVerificationDecorator.AnteHandle env ctx (.ethereum msg) simulate next w =
            AccountVerificationDecorator.balanceCheck env ctx msg address simulate next w1 ∧
          ∀ e, (AccountVerificationDecorator.AnteHandle env ctx (.ethereum msg) simulate
              Terminator w).verdict = .rejected e → e.code ≠ .ErrInvalidSequence) := by
  have hgo : ∀ nx, (ctx.blockHeight == 0 && acc.accountNumber != 0) = false →
      AccountVerificationDecorator.AnteHandle env ctx (.ethereum msg) simulate nx w =
        AccountVerificationDecorator.balanceCheck env ctx msg address simulate nx w1 := by
    intro nx hcond
    simp only [AccountVerificationDecorator.AnteHandle, hcheck, Bool.not_true,
      Bool.false_eq_true, if_false, Tx.asMsgEthereumTx, hfrom, hacc, hcond,
      AccountVerificationDecorator.balanceCheck]
  refine ⟨fun hh hne => ⟨?_, rfl, (GetAccount_ret hacc).1⟩, fun hh hz => ?_, fun hh => ?_⟩
  · have hcond : (ctx.blockHeight == 0 && acc.accountNumber != 0) = true := by
      simp [hh, hne]
    simp only [AccountVerificationDecorator.AnteHandle, hcheck, Bool.not_true,
      Bool.false_eq_true, if_false, Tx.asMsgEthereumTx, hfrom, hacc, hcond, if_true]
  · have hcond : (ctx.blockHeight == 0 && acc.accountNumber != 0) = false := by
      simp [hz]
    refine ⟨hgo next hcond, fun e he => ?_⟩
    rw [hgo Terminator hcond] at he
    exact balanceCheck_not_invalid_sequence env ctx msg address simulate w1 e he
  · have hcond : (ctx.blockHeight == 0 && acc.accountNumber != 0) = false := by
      simp [hh]
    refine ⟨hgo next hcond, fun e he => ?_⟩
    rw [hgo Terminator hcond] at he
    exact balanceCheck_not_invalid_sequence env ctx msg address simulate w1 e he

/-- C33, witness: at height 0 the sender `bob` has the account number 1 and is
rejected in the world the account read leaves. -/
theorem C33_account_number_checked_at_height_zero_witness :
    ({ Scenario.ctx true with blockHeight := 0 } : Context).checkTx = true ∧
      (Scenario.msg 0 30000 1 10 (some Scenario.bob)).From = some Scenario.bob ∧
      ({ Scenario.ctx true with blockHeight := 0 } : Context).blockHeight = 0 ∧
      (∀ next, AccountVerificationDecorator.AnteHandle Scenario.env
          { Scenario.ctx true with blockHeight := 0 }
          (.ethereum (Scenario.msg 0 30000 1 10 (some Scenario.bob))) false next
          (Scenario.world 100000 0) =
        .ret ({ Scenario.ctx true with blockHeight := 0 }, some (.invalidAccountNumber 1))
          { store := (Scenario.world 100000 0).store,
            meters := [.infiniteGasMeter 1240, .infiniteGasMeter 0] }) :=
  ⟨rfl, rfl, rfl, fun next =>
    ((C33_account_number_checked_at_height_zero Scenario.env
      { Scenario.ctx true with blockHeight := 0 }
      (Scenario.msg 0 30000 1 10 (some Scenario.bob)) false next
      (Scenario.world 100000 0)
      { store := (Scenario.world 100000 0).store,
        meters := [.infiniteGasMeter 1240, .infiniteGasMeter 0] }
      Scenario.bob { accountNumber := 1, sequence := 0 } rfl rfl rfl).1 rfl (by decide)).1⟩

/-! ## C34: what the setup decorator reports after an out-of-gas panic -/

/-- C34, as the code behaves.  Block execution at height 1 of the transfer with gas
limit 100 by a sender who can pay: the gas stage creates a meter limited to 100, the
fourth meter object of the world, and runs out of gas on it when it consumes the
intrinsic gas 21000.  The setup decorator recovers the panic and reports as gas used
2480, the consumption of the transaction gas meter of the context it was called with
(the account reads), not the 21000 of the meter that ran out; and the context it
returns is the zero context, which has no gas meter at all. -/
theorem C34_recovery_reports_incoming_meter :
    (ethAnteHandler Scenario.env (Scenario.ctx false) (Scenario.tx 0 100 1 10) false
        (Scenario.world 1000 0)).verdict =
        .rejected (.outOfGas "eth intrinsic gas" 100 2480) ∧
      (ethAnteHandler Scenario.env (Scenario.ctx false) (Scenario.tx 0 100 1 10) false
        (Scenario.world 1000 0)).world.meters =
        [.infiniteGasMeter 2480, .infiniteGasMeter 0, .infiniteGasMeter 0,
          .basicGasMeter 100 21000] ∧
      (ethAnteHandler Scenario.env (Scenario.ctx false) (Scenario.tx 0 100 1 10) false
        (Scenario.world 1000 0)).world.meter (Scenario.ctx false).gasMeter =
        some (.infiniteGasMeter 2480) ∧
      (ethAnteHandler Scenario.env (Scenario.ctx false) (Scenario.tx 0 100 1 10) false
        (Scenario.world 1000 0)).returnedContext = some Context.zero ∧
      Context.zero.gasMeter = none ∧
      (GasMeter.basicGasMeter 100 21000).GasConsumed = 21000 := by
  refine ⟨?_, ?_, ?_, ?_, rfl, rfl⟩
  · simp [ethAnteHandler, ChainAnteDecorators, Terminator, EthSetupContextDecorator.AnteHandle,
    EthSetupContextDecorator.deferred, EthMempoolFeeDecorator.AnteHandle,
    EthSigVerificationDecorator.AnteHandle, AccountVerificationDecorator.AnteHandle,
    NonceVerificationDecorator.AnteHandle, EthGasConsumeDecorator.AnteHandle,
    EthGasConsumeDecorator.chargeSender, IncrementSenderSequenceDecorator.AnteHandle,
    IncrementSenderSequenceDecorator.incrementSequences, GetAccount, SetAccount, GetBalance,
    GetSignerAcc, DeductFees, SetGasMeter, ConsumeGas, Exec.andThen, GasMeter.ConsumeGas,
    addUint64Overflow, MaxUint64, NewInfiniteGasMeter, NewGasMeter, newMeter,
    Context.WithBlockGasMeter, Context.WithGasMeter, Tx.asGasTx, Tx.asMsgEthereumTx,
    MsgEthereumTx.From, MsgEthereumTx.To, MsgEthereumTx.GetGas, MsgEthereumTx.Fee,
    MsgEthereumTx.Cost, MsgEthereumTx.GetSigners, VerifySig, SetString10, parseDigits,
    digitValue, IntrinsicGas, bigInt64, allGTELoop, DecCoinsIsZero, Store.sendToFeeCollector,
    World.meter, GasMeter.GasConsumed, Res.verdict, Res.world, Res.returnedContext, World.balance, World.sequence,
    KVGasConfig, Env.valueSize, TxGas, Context.zero, Scenario.env, Scenario.ctx, Scenario.tx,
    Scenario.msg, Scenario.world, Scenario.alice, Scenario.bob]
  · simp [ethAnteHandler, ChainAnteDecorators, Terminator, EthSetupContextDecorator.AnteHandle,
    EthSetupContextDecorator.deferred, EthMempoolFeeDecorator.AnteHandle,
    EthSigVerificationDecorator.AnteHandle, AccountVerificationDecorator.AnteHandle,
    NonceVerificationDecorator.AnteHandle, EthGasConsumeDecorator.AnteHandle,
    EthGasConsumeDecorator.chargeSender, IncrementSenderSequenceDecorator.AnteHandle,
    IncrementSenderSequenceDecorator.incrementSequences, GetAccount, SetAccount, GetBalance,
    GetSignerAcc, DeductFees, SetGasMeter, ConsumeGas, Exec.andThen, GasMeter.ConsumeGas,
    addUint64Overflow, MaxUint64, NewInfiniteGasMeter, NewGasMeter, newMeter,
    Context.WithBlockGasMeter, Context.WithGasMeter, Tx.asGasTx, Tx.asMsgEthereumTx,
    MsgEthereumTx.From, MsgEthereumTx.To, MsgEthereumTx.GetGas, MsgEthereumTx.Fee,
    MsgEthereumTx.Cost, MsgEthereumTx.GetSigners, VerifySig, SetString10, parseDigits,
    digitValue, IntrinsicGas, bigInt64, allGTELoop, DecCoinsIsZero, Store.sendToFeeCollector,
    World.meter, GasMeter.GasConsumed, Res.verdict, Res.world, Res.returnedContext, World.balance, World.sequence,
    KVGasConfig, Env.valueSize, TxGas, Context.zero, Scenario.env, Scenario.ctx, Scenario.tx,
    Scenario.msg, Scenario.world, Scenario.alice, Scenario.bob]
  · simp [ethAnteHandler, ChainAnteDecorators, Terminator, EthSetupContextDecorator.AnteHandle,
    EthSetupContextDecorator.deferred, EthMempoolFeeDecorator.AnteHandle,
    EthSigVerificationDecorator.AnteHandle, AccountVerificationDecorator.AnteHandle,
    NonceVerificationDecorator.AnteHandle, EthGasConsumeDecorator.AnteHandle,
    EthGasConsumeDecorator.chargeSender, IncrementSenderSequenceDecorator.AnteHandle,
    IncrementSenderSequenceDecorator.incrementSequences, GetAccount, SetAccount, GetBalance,
    GetSignerAcc, DeductFees, SetGasMeter, ConsumeGas, Exec.andThen, GasMeter.ConsumeGas,
    addUint64Overflow, MaxUint64, NewInfiniteGasMeter, NewGasMeter, newMeter,
    Context.WithBlockGasMeter, Context.WithGasMeter, Tx.asGasTx, Tx.asMsgEthereumTx,
    MsgEthereumTx.From, MsgEthereumTx.To, MsgEthereumTx.GetGas, MsgEthereumTx.Fee,
    MsgEthereumTx.Cost, MsgEthereumTx.GetSigners, VerifySig, SetString10, parseDigits,
    digitValue, IntrinsicGas, bigInt64, allGTELoop, DecCoinsIsZero, Store.sendToFeeCollector,
    World.meter, GasMeter.GasConsumed, Res.verdict, Res.world, Res.returnedContext, World.balance, World.sequence,
    KVGasConfig, Env.valueSize, TxGas, Context.zero, Scenario.env, Scenario.ctx, Scenario.tx,
    Scenario.msg, Scenario.world, Scenario.alice, Scenario.bob]
  · simp [ethAnteHandler, ChainAnteDecorators, Terminator, EthSetupContextDecorator.AnteHandle,
    EthSetupContextDecorator.deferred, EthMempoolFeeDecorator.AnteHandle,
    EthSigVerificationDecorator.AnteHandle, AccountVerificationDecorator.AnteHandle,
    NonceVerificationDecorator.AnteHandle, EthGasConsumeDecorator.AnteHandle,
    EthGasConsumeDecorator.chargeSender, IncrementSenderSequenceDecorator.AnteHandle,
    IncrementSenderSequenceDecorator.incrementSequences, GetAccount, SetAccount, GetBalance,
    GetSignerAcc, DeductFees, SetGasMeter, ConsumeGas, Exec.andThen, GasMeter.ConsumeGas,
    addUint64Overflow, MaxUint64, NewInfiniteGasMeter, NewGasMeter, newMeter,
    Context.WithBlockGasMeter, Context.WithGasMeter, Tx.asGasTx, Tx.asMsgEthereumTx,
    MsgEthereumTx.From, MsgEthereumTx.To, MsgEthereumTx.GetGas, MsgEthereumTx.Fee,
    MsgEthereumTx.Cost, MsgEthereumTx.GetSigners, VerifySig, SetString10, parseDigits,
    digitValue, IntrinsicGas, bigInt64, allGTELoop, DecCoinsIsZero, Store.sendToFeeCollector,
    World.meter, GasMeter.GasConsumed, Res.verdict, Res.world, Res.returnedContext, World.balance, World.sequence,
    KVGasConfig, Env.valueSize, TxGas, Context.zero, Scenario.env, Scenario.ctx, Scenario.tx,
    Scenario.msg, Scenario.world, Scenario.alice, Scenario.bob]

/-! ## C35: out of gas after the fee was deducted -/

/-- Gas consumed through a reference to an unbounded meter with room for it. -/
theorem ConsumeGas_infinite {i c amount : Nat} {d : String} {w : World}
    (hm : w.meters[i]? = some (.infiniteGasMeter c)) (hfit : c + amount ≤ MaxUint64) :
    ∃ w1, ConsumeGas (some i) amount d w = .ret () w1 ∧ w1.store = w.store ∧
      w1.meters[i]? = some (.infiniteGasMeter (c + amount)) ∧
      w1.meters.length = w.meters.length := by
  have hlt : ¬ (MaxUint64 - c < amount) := by omega
  have hi : i < w.meters.length := by
    by_contra hcon
    rw [List.getElem?_eq_none (Nat.le_of_not_lt hcon)] at hm
    exact Option.noConfusion hm
  refine ⟨{ w with meters := w.meters.set i (.infiniteGasMeter (c + amount)) }, ?_, rfl, ?_, ?_⟩
  · simp [ConsumeGas, hm, GasMeter.ConsumeGas, addUint64Overflow, hlt]
  · simp [hi]
  · simp

/-- An account read under an unbounded meter with room for its cost. -/
theorem GetAccount_infinite {env : Env} {ctx : Context} {a : Address} {i c : Nat}
    {w : World} (hctx : ctx.gasMeter = some i)
    (hm : w.meters[i]? = some (.infiniteGasMeter c))
    (hfit : c + (env.gasConfig.ReadCostFlat +
      env.gasConfig.ReadCostPerByte * env.valueSize (w.store.accounts a)) ≤ MaxUint64) :
    ∃ w1, GetAccount env ctx a w = .ret (w.store.accounts a) w1 ∧ w1.store = w.store ∧
      w1.meters[i]? = some (.infiniteGasMeter (c + (env.gasConfig.ReadCostFlat +
        env.gasConfig.ReadCostPerByte * env.valueSize (w.store.accounts a)))) ∧
      w1.meters.length = w.meters.length := by
  obtain ⟨w1, h1, s1, m1, l1⟩ := ConsumeGas_infinite (d := "ReadFlat") hm
    (show c + env.gasConfig.ReadCostFlat ≤ MaxUint64 by omega)
  obtain ⟨w2, h2, s2, m2, l2⟩ := ConsumeGas_infinite (d := "ReadPerByte") m1
    (show c + env.gasConfig.ReadCostFlat +
      env.gasConfig.ReadCostPerByte * env.valueSize (w.store.accounts a) ≤ MaxUint64 by omega)
  refine ⟨w2, ?_, s2.trans s1, ?_, l2.trans l1⟩
  · simp only [GetAccount, Exec.andThen, hctx, h1, s1, h2]
  · rw [m2, Nat.add_assoc]

/-- The fee deducted under an unbounded meter with room for the cost of the transfer. -/
theorem DeductFees_infinite {env : Env} {ctx : Context} {a : Address} {fee i c : Nat}
    {w : World} (hctx : ctx.gasMeter = some i)
    (hm : w.meters[i]? = some (.infiniteGasMeter c))
    (hfit : c + env.sendCoinsGas w.store a fee ≤ MaxUint64)
    (hpay : fee ≤ w.store.balances a) :
    ∃ w1, DeductFees env ctx a fee w = .ret none w1 ∧
      w1.store = w.store.sendToFeeCollector a fee ∧
      w1.meters[i]? = some (.infiniteGasMeter (c + env.sendCoinsGas w.store a fee)) ∧
      w1.meters.length = w.meters.length := by
  obtain ⟨w1, h1, s1, m1, l1⟩ := ConsumeGas_infinite (d := "SendCoins") hm hfit
  have hnot : ¬ (w1.store.balances a < fee) := by rw [s1]; omega
  refine ⟨{ w1 with store := w1.store.sendToFeeCollector a fee }, ?_, ?_, m1, l1⟩
  · simp only [DeductFees, Exec.andThen, hctx, h1, hnot, if_false]
  · simp only [s1]

/-- The intrinsic gas fits in a `uint64`. -/
theorem IntrinsicGas_le {data : List Nat} {contractCreation : Bool} {gas : Nat}
    (h : IntrinsicGas data contractCreation true = some gas) : gas ≤ MaxUint64 := by
  rw [IntrinsicGas_unfold] at h
  have hb : (if contractCreation then 53000 else 21000) ≤ 53000 := by
    cases contractCreation <;> simp
  have hM : 53000 ≤ MaxUint64 := by decide
  generalize (if contractCreation then 53000 else 21000) = b at h hb
  generalize nonZeroBytes data = nz at h
  generalize zeroBytes data = z at h
  by_cases hlen : data.length > 0
  · rw [if_pos hlen] at h
    by_cases h1 : (MaxUint64 - b) / 68 < nz
    · rw [if_pos h1] at h
      cases h
    · rw [if_neg h1] at h
      by_cases h2 : (MaxUint64 - (b + nz * 68)) / 4 < z
      · rw [if_pos h2] at h
        cases h
      · rw [if_neg h2] at h
        simp only [Option.some.injEq] at h
        rw [Nat.not_lt, Nat.le_div_iff_mul_le (by decide)] at h1 h2
        omega
  · rw [if_neg hlen] at h
    simp only [Option.some.injEq] at h
    omega

/-- The gas stage in block execution above height 0, for a gas limit above 0 and below
the intrinsic gas and a sender who can pay, under an unbounded meter with room for the
account read and the transfer: the fee is deducted, and the stage then runs out of gas
on the meter it creates, whatever the next handler is. -/
theorem gasConsume_runs_out {env : Env} {ctx : Context} {msg : MsgEthereumTx}
    {a : Address} {acc : Account} {gas i c : Nat} {w : World}
    (hmode : ctx.checkTx = false) (hheight : ctx.blockHeight ≠ 0)
    (hfrom : msg.From = some a) (hacc : w.store.accounts a = some acc)
    (hgas : IntrinsicGas msg.Data.Payload (msg.To == none) true = some gas)
    (hpos : 0 < msg.Data.GasLimit) (hlow : msg.Data.GasLimit < gas)
    (hpay : msg.Data.Price * msg.Data.GasLimit ≤ w.store.balances a)
    (hbal : w.store.balances a < 2 ^ 255)
    (hctx : ctx.gasMeter = some i) (hm : w.meters[i]? = some (.infiniteGasMeter c))
    (hroom : c + (env.gasConfig.ReadCostFlat +
        env.gasConfig.ReadCostPerByte * env.accountSize acc) +
      env.sendCoinsGas w.store a (msg.Data.Price * msg.Data.GasLimit) ≤ MaxUint64) :
    ∃ w4, (∀ next, EthGasConsumeDecorator.AnteHandle env ctx (.ethereum msg) false next w =
        .panic (.ErrorOutOfGas "eth intrinsic gas") w4) ∧
      w4.store = w.store.sendToFeeCollector a (msg.Data.Price * msg.Data.GasLimit) ∧
      w4.meters[i]? = some (.infiniteGasMeter (c + (env.gasConfig.ReadCostFlat +
          env.gasConfig.ReadCostPerByte * env.accountSize acc) +
        env.sendCoinsGas w.store a (msg.Data.Price * msg.Data.GasLimit))) := by
  have hsize : env.valueSize (w.store.accounts a) = env.accountSize acc := by
    rw [hacc]
    rfl
  obtain ⟨w1, h1, s1, m1, l1⟩ := @GetAccount_infinite env ctx a _ _ _ hctx hm
    (by rw [hsize]; omega)
  rw [hsize] at m1
  rw [hacc] at h1
  have hsigner : GetSignerAcc env ctx a w = .ret (.ok acc) w1 := by
    simp only [GetSignerAcc, Exec.andThen, h1]
  obtain ⟨w2, h2, s2, m2, l2⟩ := @DeductFees_infinite env ctx a
    (msg.Data.Price * msg.Data.GasLimit) _ _ _ hctx m1 (by rw [s1]; omega)
    (by rw [s1]; exact hpay)
  rw [s1] at s2 m2
  have hne : (msg.Data.GasLimit != 0) = true := by
    simp only [bne_iff_ne, ne_eq]
    omega
  have hbig : ¬ (msg.Data.Price * msg.Data.GasLimit ≥ 2 ^ 255) := by omega
  have hcharge : EthGasConsumeDecorator.chargeSender env ctx a msg msg.Data.GasLimit w1 =
      .ret none w2 := by
    simp only [EthGasConsumeDecorator.chargeSender, hne, if_true, hbig, if_false, h2]
  have hh0 : (ctx.blockHeight == 0) = false := by simpa using hheight
  have hi : i < w2.meters.length := by
    by_contra hcon
    rw [List.getElem?_eq_none (Nat.le_of_not_lt hcon)] at m2
    exact Option.noConfusion m2
  have hgle := IntrinsicGas_le hgas
  have hov : ¬ (MaxUint64 - 0 < gas) := by omega
  have hgt : gas > msg.Data.GasLimit := hlow
  refine ⟨{ store := w2.store
            meters := List.set (w2.meters ++ [.basicGasMeter msg.Data.GasLimit 0])
              w2.meters.length (.basicGasMeter msg.Data.GasLimit gas) },
    fun next => ?_, s2, ?_⟩
  · simp only [EthGasConsumeDecorator.AnteHandle, Tx.asMsgEthereumTx, hfrom, hsigner, hgas,
      hmode, Bool.false_and, Bool.false_eq_true, if_false, hcharge, SetGasMeter, hh0,
      Bool.or_self, NewGasMeter, newMeter, Context.WithGasMeter, MsgEthereumTx.GetGas,
      ConsumeGas, List.getElem?_concat_length, GasMeter.ConsumeGas, addUint64Overflow, hov,
      Nat.zero_add, hgt, if_true]
  · simp only
    rw [List.getElem?_set_ne (by omega), List.getElem?_append_left hi, m2]

/-- The nonce stage under an unbounded meter with room for the account read, for a
cached sender whose sequence is the nonce of the message: it hands over to the next
handler, with the store as it was. -/
theorem nonce_stage_passes {env : Env} {ctx : Context} {msg : MsgEthereumTx}
    {a : Address} {acc : Account} {i c : Nat} {w : World} (sim : Bool)
    (hfrom : msg.From = some a) (hacc : w.store.accounts a = some acc)
    (hnonce : msg.Data.AccountNonce = acc.sequence)
    (hctx : ctx.gasMeter = some i) (hm : w.meters[i]? = some (.infiniteGasMeter c))
    (hroom : c + (env.gasConfig.ReadCostFlat +
      env.gasConfig.ReadCostPerByte * env.accountSize acc) ≤ MaxUint64) :
    ∃ w1, (∀ next, NonceVerificationDecorator.AnteHandle env ctx (.ethereum msg) sim next w =
        next ctx (.ethereum msg) sim w1) ∧
      w1.store = w.store ∧
      w1.meters[i]? = some (.infiniteGasMeter (c + (env.gasConfig.ReadCostFlat +
        env.gasConfig.ReadCostPerByte * env.accountSize acc))) := by
  have hsize : env.valueSize (w.store.accounts a) = env.accountSize acc := by
    rw [hacc]
    rfl
  obtain ⟨w1, h1, s1, m1, _⟩ := @GetAccount_infinite env ctx a _ _ _ hctx hm
    (by rw [hsize]; omega)
  rw [hsize] at m1
  rw [hacc] at h1
  refine ⟨w1, fun next => ?_, s1, m1⟩
  simp only [NonceVerificationDecorator.AnteHandle, Tx.asMsgEthereumTx, hfrom, h1, hnonce,
    bne_self_eq_false, Bool.false_eq_true, if_false]

/-- The whole chain in block execution above height 0, for a validly signed message with
the matching nonce, a gas limit above 0 and below the intrinsic gas, and a sender who can
pay: the outcome is the out-of-gas error, returned in a world in which the fee has been
moved to the fee collector. -/
theorem ethAnteHandler_runs_out {env : Env} {ctx : Context} {msg : MsgEthereumTx}
    {chainID : Int} {a : Address} {acc : Account} {gas i c : Nat} {w : World}
    (hmode : ctx.checkTx = false) (hheight : ctx.blockHeight ≠ 0)
    (hchain : SetString10 ctx.chainID = some chainID)
    (hsig : env.recoverSender msg.Data chainID = some a)
    (hacc : w.store.accounts a = some acc)
    (hnonce : msg.Data.AccountNonce = acc.sequence)
    (hgas : IntrinsicGas msg.Data.Payload (msg.To == none) true = some gas)
    (hpos : 0 < msg.Data.GasLimit) (hlow : msg.Data.GasLimit < gas)
    (hpay : msg.Data.Price * msg.Data.GasLimit ≤ w.store.balances a)
    (hbal : w.store.balances a < 2 ^ 255)
    (hctx : ctx.gasMeter = some i) (hm : w.meters[i]? = some (.infiniteGasMeter c))
    (hroom : c + 2 * (env.gasConfig.ReadCostFlat +
        env.gasConfig.ReadCostPerByte * env.accountSize acc) +
      env.sendCoinsGas w.store a (msg.Data.Price * msg.Data.GasLimit) ≤ MaxUint64) :
    ∃ w4, ethAnteHandler env ctx (.ethereum msg) false w =
        .ret (Context.zero, some (.outOfGas "eth intrinsic gas" msg.Data.GasLimit
          (c + 2 * (env.gasConfig.ReadCostFlat +
              env.gasConfig.ReadCostPerByte * env.accountSize acc) +
            env.sendCoinsGas w.store a (msg.Data.Price * msg.Data.GasLimit)))) w4 ∧
      w4.store = w.store.sendToFeeCollector a (msg.Data.Price * msg.Data.GasLimit) := by
  have hi : i < w.meters.length := by
    by_contra hcon
    rw [List.getElem?_eq_none (Nat.le_of_not_lt hcon)] at hm
    exact Option.noConfusion hm
  have hm0 : (NewInfiniteGasMeter w).2.meters[i]? = some (.infiniteGasMeter c) := by
    simp only [NewInfiniteGasMeter, newMeter]
    rw [List.getElem?_append_left hi, hm]
  have hctx1 : (ctx.WithBlockGasMeter (NewInfiniteGasMeter w).1).gasMeter = some i := hctx
  have hmode1 : (ctx.WithBlockGasMeter (NewInfiniteGasMeter w).1).checkTx = false := hmode
  have hheight1 : (ctx.WithBlockGasMeter (NewInfiniteGasMeter w).1).blockHeight ≠ 0 := hheight
  have hchain1 : SetString10 (ctx.WithBlockGasMeter (NewInfiniteGasMeter w).1).chainID =
      some chainID := hchain
  have hacc0 : (NewInfiniteGasMeter w).2.store.accounts a = some acc := hacc
  obtain ⟨w1, hn, s1, m1⟩ := @nonce_stage_passes env
    (ctx.WithBlockGasMeter (NewInfiniteGasMeter w).1)
    { msg with sender := some a } _ _ _ _ _ false rfl hacc0 hnonce hctx1 hm0 (by omega)
  have s1w : w1.store = w.store := s1
  obtain ⟨w4, hg, s4, m4⟩ := @gasConsume_runs_out env
    (ctx.WithBlockGasMeter (NewInfiniteGasMeter w).1)
    { msg with sender := some a } a acc gas _ _ _
    hmode1 hheight1 rfl (by rw [s1w]; exact hacc) hgas hpos hlow (by rw [s1w]; exact hpay)
    (by rw [s1w]; exact hbal) hctx1 m1
    (by
      rw [s1w]
      show c + (env.gasConfig.ReadCostFlat +
          env.gasConfig.ReadCostPerByte * env.accountSize acc) +
          (env.gasConfig.ReadCostFlat +
            env.gasConfig.ReadCostPerByte * env.accountSize acc) +
          env.sendCoinsGas w.store a (msg.Data.Price * msg.Data.GasLimit) ≤ MaxUint64
      omega)
  rw [s1w] at s4 m4
  have m4w : w4.meters[i]? = some (.infiniteGasMeter
      (c + (env.gasConfig.ReadCostFlat +
          env.gasConfig.ReadCostPerByte * env.accountSize acc) +
        (env.gasConfig.ReadCostFlat +
          env.gasConfig.ReadCostPerByte * env.accountSize acc) +
        env.sendCoinsGas w.store a (msg.Data.Price * msg.Data.GasLimit))) := m4
  refine ⟨w4, ?_, s4⟩
  have hmeter : w4.meter (ctx.WithBlockGasMeter (NewInfiniteGasMeter w).1).gasMeter =
      some (.infiniteGasMeter (c + 2 * (env.gasConfig.ReadCostFlat +
          env.gasConfig.ReadCostPerByte * env.accountSize acc) +
        env.sendCoinsGas w.store a (msg.Data.Price * msg.Data.GasLimit))) := by
    rw [hctx1]
    show w4.meters[i]? = _
    rw [m4w]
    congr 2
    omega
  simp only [ethAnteHandler, ChainAnteDecorators, EthSetupContextDecorator.AnteHandle,
    Tx.asGasTx, EthMempoolFeeDecorator.AnteHandle, hmode1, Bool.not_false, if_true,
    EthSigVerificationDecorator.AnteHandle, Tx.asMsgEthereumTx, hchain1, VerifySig, hsig,
    AccountVerificationDecorator.AnteHandle, hn, hg, EthSetupContextDecorator.deferred,
    hmeter, MsgEthereumTx.GetGas, GasMeter.GasConsumed]

/-- C35.  In DeliverTx mode at a block height above 0 with simulate false, for every
MsgEthereumTx whose signature is valid for the chain ID of the context, whose nonce is
the sequence of the sender, whose gas limit is above 0 and below its intrinsic gas, and
whose sender can pay gasPrice × gasLimit (a balance is an `sdk.Int`, below `2 ^ 255`),
when the context arrives with an unbounded transaction gas meter that has room for the
account reads and the transfer: the ante chain does not panic, it returns the error
`ErrOutOfGas` for the location "eth intrinsic gas"; in the world it returns in, the
balance of the sender is its balance before less gasPrice × gasLimit, the fee collector
holds that amount more, and the sequence number of the sender is what it was. -/
theorem C35_out_of_gas_after_fee_deduction (env : Env) (ctx : Context)
    (msg : MsgEthereumTx) (chainID : Int) (a : Address) (acc : Account) (gas i c : Nat)
    (w : World)
    (hmode : ctx.checkTx = false) (hheight : 0 < ctx.blockHeight)
    (hchain : SetString10 ctx.chainID = some chainID)
    (hsig : env.recoverSender msg.Data chainID = some a)
    (hacc : w.store.accounts a = some acc)
    (hnonce : msg.Data.AccountNonce = acc.sequence)
    (hgas : IntrinsicGas msg.Data.Payload (msg.To == none) true = some gas)
    (hpos : 0 < msg.Data.GasLimit) (hlow : msg.Data.GasLimit < gas)
    (hpay : msg.Data.Price * msg.Data.GasLimit ≤ w.balance a)
    (hbal : w.balance a < 2 ^ 255)
    (hctx : ctx.gasMeter = some i) (hm : w.meter ctx.gasMeter = some (.infiniteGasMeter c))
    (hroom : c + 2 * (env.gasConfig.ReadCostFlat +
        env.gasConfig.ReadCostPerByte * env.accountSize acc) +
      env.sendCoinsGas w.store a (msg.Data.Price * msg.Data.GasLimit) ≤ MaxUint64) :
    (ethAnteHandler env ctx (.ethereum msg) false w).verdict =
        .rejected (.outOfGas "eth intrinsic gas" msg.Data.GasLimit
          (c + 2 * (env.gasConfig.ReadCostFlat +
              env.gasConfig.ReadCostPerByte * env.accountSize acc) +
            env.sendCoinsGas w.store a (msg.Data.Price * msg.Data.GasLimit))) ∧
      (Error.outOfGas "eth intrinsic gas" msg.Data.GasLimit
          (c + 2 * (env.gasConfig.ReadCostFlat +
              env.gasConfig.ReadCostPerByte * env.accountSize acc) +
            env.sendCoinsGas w.store a (msg.Data.Price * msg.Data.GasLimit))).code =
        .ErrOutOfGas ∧
      (ethAnteHandler env ctx (.ethereum msg) false w).world.balance a =
        w.balance a - msg.Data.Price * msg.Data.GasLimit ∧
      (ethAnteHandler env ctx (.ethereum msg) false w).world.store.feeCollector =
        w.store.feeCollector + msg.Data.Price * msg.Data.GasLimit ∧
      (ethAnteHandler env ctx (.ethereum msg) false w).world.sequence a = w.sequence a ∧
      w.sequence a = some msg.Data.AccountNonce := by
  have hm1 : w.meters[i]? = some (.infiniteGasMeter c) := by
    rw [hctx] at hm
    exact hm
  have hh : ctx.blockHeight ≠ 0 := by omega
  obtain ⟨w4, hr, hs⟩ := ethAnteHandler_runs_out hmode hh hchain hsig hacc hnonce hgas hpos hlow
    hpay hbal hctx hm1 hroom
  rw [hr]
  refine ⟨rfl, rfl, ?_, ?_, ?_, ?_⟩
  · simp [Res.world, World.balance, hs, Store.sendToFeeCollector]
  · simp [Res.world, hs, Store.sendToFeeCollector]
  · simp [Res.world, World.sequence, hs, Store.sendToFeeCollector]
  · simp [World.sequence, hacc, hnonce]

/-- C35, witness: block execution at height 1 of the transfer with gas limit 100 and gas
price 1 by `alice`, who holds 1000: the out-of-gas error, `alice` is left with 900 and
her sequence is still 0. -/
theorem C35_out_of_gas_after_fee_deduction_witness :
    (ethAnteHandler Scenario.env (Scenario.ctx false) (Scenario.tx 0 100 1 10) false
        (Scenario.world 1000 0)).verdict =
        .rejected (.outOfGas "eth intrinsic gas" 100 2480) ∧
      (ethAnteHandler Scenario.env (Scenario.ctx false) (Scenario.tx 0 100 1 10) false
        (Scenario.world 1000 0)).world.balance Scenario.alice = 900 ∧
      (ethAnteHandler Scenario.env (Scenario.ctx false) (Scenario.tx 0 100 1 10) false
        (Scenario.world 1000 0)).world.sequence Scenario.alice = some 0 := by
  have h := C35_out_of_gas_after_fee_deduction Scenario.env (Scenario.ctx false)
    (Scenario.msg 0 100 1 10 none) 8 Scenario.alice { accountNumber := 0, sequence := 0 }
    21000 0 0 (Scenario.world 1000 0) rfl (by decide) Scenario.chainID_parses.1
    (by simp [Scenario.env, Scenario.msg])
    (by simp [Scenario.world]) rfl rfl (by decide) (by decide)
    (by simp [World.balance, Scenario.world, Scenario.msg])
    (by simp [World.balance, Scenario.world]) rfl rfl
    (by simp [Scenario.env, KVGasConfig, MaxUint64])
  refine ⟨h.1, h.2.2.1.trans ?_, h.2.2.2.2.1.trans ?_⟩
  · simp [World.balance, Scenario.world, Scenario.msg]
  · simp [World.sequence, Scenario.world]

/-! ## C36: the storage that `InitGenesis` writes -/

/-- C36, as the code behaves.  After `InitGenesis` of a genesis state with one account,
whose storage has the one entry `(1, 2)`, the state holds the balance and the code of
the account, but the slot at key 1 holds 0, not 2: the loop
`for _, key := range account.Storage` binds `key` to the value of the entry, so the slot
written is the one at 2, with `account.Storage[2]`, which is the zero hash.  With the
entries `(1, 2)` and `(2, 3)` the slot at 1 is 0 again.  The same holds for every entry
`(key, value)` with `value` different from `key` and `value` not 0. -/
theorem C36_initGenesis_indexes_by_value :
    (InitGenesis Scenario.codeHash Scenario.emptyDB Scenario.genesis).GetBalance
        Scenario.alice = 100 ∧
      (InitGenesis Scenario.codeHash Scenario.emptyDB Scenario.genesis).GetCode
        Scenario.alice = [96, 0] ∧
      Storage.get [(1, 2)] 1 = 2 ∧
      (InitGenesis Scenario.codeHash Scenario.emptyDB Scenario.genesis).GetState
        Scenario.alice 1 = 0 ∧
      (InitGenesis Scenario.codeHash Scenario.emptyDB Scenario.genesis).GetState
        Scenario.alice 2 = 0 ∧
      (InitGenesis Scenario.codeHash Scenario.emptyDB Scenario.genesisTwo).GetState
        Scenario.alice 1 = 0 ∧
      (∀ (codeHash : List Nat → List Nat) (addr : Address) (balance : Nat) (code : List Nat)
          (key value : Hash), value ≠ key → value ≠ 0 →
        (InitGenesis codeHash Scenario.emptyDB
            { Accounts := [{ Address := addr, Balance := balance, Code := code,
                             Storage := [(key, value)] }] }).GetState addr key ≠ value) := by
  refine ⟨?_, ?_, ?_, ?_, ?_, ?_, fun codeHash addr balance code key value hne h0 => ?_⟩
  · simp [InitGenesis, InitGenesis.setStorage, Scenario.genesis, Scenario.emptyDB,
      Scenario.codeHash, Storage.get, CommitStateDB.SetBalance, CommitStateDB.SetCode,
      CommitStateDB.SetState, CommitStateDB.getOrNewStateObject, CommitStateDB.modifyObject,
      CommitStateDB.record, CommitStateDB.setObject, CommitStateDB.newObject,
      CommitStateDB.GetBalance]
  · simp [InitGenesis, InitGenesis.setStorage, Scenario.genesis, Scenario.emptyDB,
      Scenario.codeHash, Storage.get, CommitStateDB.SetBalance, CommitStateDB.SetCode,
      CommitStateDB.SetState, CommitStateDB.getOrNewStateObject, CommitStateDB.modifyObject,
      CommitStateDB.record, CommitStateDB.setObject, CommitStateDB.newObject,
      CommitStateDB.GetCode]
  · simp [Storage.get]
  · simp [InitGenesis, InitGenesis.setStorage, Scenario.genesis, Scenario.emptyDB,
      Scenario.codeHash, Storage.get, CommitStateDB.SetBalance, CommitStateDB.SetCode,
      CommitStateDB.SetState, CommitStateDB.getOrNewStateObject, CommitStateDB.modifyObject,
      CommitStateDB.record, CommitStateDB.setObject, CommitStateDB.newObject,
      CommitStateDB.GetState]
  · simp [InitGenesis, InitGenesis.setStorage, Scenario.genesis, Scenario.emptyDB,
      Scenario.codeHash, Storage.get, CommitStateDB.SetBalance, CommitStateDB.SetCode,
      CommitStateDB.SetState, CommitStateDB.getOrNewStateObject, CommitStateDB.modifyObject,
      CommitStateDB.record, CommitStateDB.setObject, CommitStateDB.newObject,
      CommitStateDB.GetState]
  · simp [InitGenesis, InitGenesis.setStorage, Scenario.genesisTwo, Scenario.emptyDB,
      Scenario.codeHash, Storage.get, CommitStateDB.SetBalance, CommitStateDB.SetCode,
      CommitStateDB.SetState, CommitStateDB.getOrNewStateObject, CommitStateDB.modifyObject,
      CommitStateDB.record, CommitStateDB.setObject, CommitStateDB.newObject,
      CommitStateDB.GetState]
  · have hkv : key ≠ value := fun h => hne h.symm
    simp [InitGenesis, InitGenesis.setStorage, Scenario.emptyDB,
      Storage.get, CommitStateDB.SetBalance, CommitStateDB.SetCode,
      CommitStateDB.SetState, CommitStateDB.getOrNewStateObject, CommitStateDB.modifyObject,
      CommitStateDB.record, CommitStateDB.setObject, CommitStateDB.newObject,
      CommitStateDB.GetState, hkv, hne, Ne.symm h0]

/-! ## C37: `ExportGenesis` and the storage map it never allocates -/

/-- The callback of `ExportGenesis` panics at the first entry it is called for. -/
theorem collect_nil_panics (entry : Hash × Hash) (rest : List (Hash × Hash)) :
    ExportGenesis.collect none (entry :: rest) =
      .error (.message "assignment to entry in nil map") := rfl

/-- The loop of `ExportGenesis` when `ForEachStorage` visits no entry and returns no
error for any address: one genesis account for each Ethereum account, in order. -/
theorem exportLoop_without_storage
    (forEachStorage : Address → List (Hash × Hash) × Option String) (csdb : CommitStateDB)
    (hnone : ∀ addr, forEachStorage addr = ([], none)) :
    ∀ (accounts : List ExportedAccount) (done : List GenesisAccount),
      ExportGenesis.loop forEachStorage csdb accounts done =
        .ok (done ++ accounts.filterMap (exportedWithoutStorage csdb)) := by
  intro accounts
  induction accounts with
  | nil => intro done; simp [ExportGenesis.loop]
  | cons account rest ih =>
    intro done
    cases account with
    | other addr =>
      simp [ExportGenesis.loop, ih, exportedWithoutStorage]
    | ethAccount addr =>
      simp [ExportGenesis.loop, hnone, ExportGenesis.collect, ih, exportedWithoutStorage]

/-- The loop of `ExportGenesis` panics when `ForEachStorage` visits an entry for one of
the Ethereum accounts. -/
theorem exportLoop_with_storage_panics
    (forEachStorage : Address → List (Hash × Hash) × Option String) (csdb : CommitStateDB)
    (accounts : List ExportedAccount) (addr : Address)
    (hmem : ExportedAccount.ethAccount addr ∈ accounts)
    (hvisit : (forEachStorage addr).1 ≠ []) :
    ∀ done, ∃ p, ExportGenesis.loop forEachStorage csdb accounts done = .error p := by
  induction accounts with
  | nil => simp at hmem
  | cons account rest ih =>
    intro done
    cases account with
    | other b =>
      have hrest : ExportedAccount.ethAccount addr ∈ rest := by simpa using hmem
      simpa [ExportGenesis.loop] using ih hrest done
    | ethAccount b =>
      by_cases hb : (forEachStorage b).1 = []
      · have hne : b ≠ addr := fun h => hvisit (h ▸ hb)
        have hrest : ExportedAccount.ethAccount addr ∈ rest := by
          simp only [List.mem_cons, ExportedAccount.ethAccount.injEq] at hmem
          rcases hmem with h | h
          · exact absurd h.symm hne
          · exact h
        simp only [ExportGenesis.loop, hb, ExportGenesis.collect]
        cases (forEachStorage b).2 with
        | some err => exact ⟨_, rfl⟩
        | none => exact ih hrest _
      · cases hv : (forEachStorage b).1 with
        | nil => exact absurd hv hb
        | cons entry more =>
          refine ⟨.message "assignment to entry in nil map", ?_⟩
          simp only [ExportGenesis.loop, hv, collect_nil_panics]

/-- C37, as the code behaves.  In a state with one Ethereum account for which
`ForEachStorage` visits the one entry `(1, 2)`, `ExportGenesis` panics: the callback
assigns to `storage`, which `var storage emint.Storage` declared as a nil map.  So it
does for every state in which `ForEachStorage` visits an entry for some Ethereum
account.  When no entry is visited for any account (and no error is returned), it
returns one genesis account with the address, balance and code of each Ethereum account
and skips the accounts of other types. -/
theorem C37_exportGenesis_panics_on_storage :
    ExportGenesis (fun _ => ([(1, 2)], none)) Scenario.fundedDB [.ethAccount Scenario.alice] =
        .error (.message "assignment to entry in nil map") ∧
      (∀ (forEachStorage : Address → List (Hash × Hash) × Option String)
          (csdb : CommitStateDB) (accounts : List ExportedAccount) (addr : Address),
        ExportedAccount.ethAccount addr ∈ accounts → (forEachStorage addr).1 ≠ [] →
        ∃ p, ExportGenesis forEachStorage csdb accounts = .error p) ∧
      (∀ (forEachStorage : Address → List (Hash × Hash) × Option String)
          (csdb : CommitStateDB) (accounts : List ExportedAccount),
        (∀ addr, forEachStorage addr = ([], none)) →
        ExportGenesis forEachStorage csdb accounts =
          .ok { Accounts := accounts.filterMap (exportedWithoutStorage csdb) }) ∧
      ExportGenesis (fun _ => ([], none)) Scenario.fundedDB
          [.other Scenario.bob, .ethAccount Scenario.alice] =
        .ok { Accounts := [{ Address := Scenario.alice, Balance := 50, Code := [],
                             Storage := [] }] } := by
  refine ⟨rfl, fun forEachStorage csdb accounts addr hmem hvisit => ?_,
    fun forEachStorage csdb accounts hnone => ?_, ?_⟩
  · obtain ⟨p, hp⟩ := exportLoop_with_storage_panics forEachStorage csdb accounts addr hmem
      hvisit []
    exact ⟨p, by simp only [ExportGenesis, hp]⟩
  · simp only [ExportGenesis, exportLoop_without_storage forEachStorage csdb hnone,
      List.nil_append]
  · simp [ExportGenesis, ExportGenesis.loop, ExportGenesis.collect, Scenario.fundedDB,
      Scenario.emptyDB, CommitStateDB.SetBalance, CommitStateDB.getOrNewStateObject,
      CommitStateDB.modifyObject, CommitStateDB.record, CommitStateDB.setObject,
      CommitStateDB.newObject, CommitStateDB.GetBalance, CommitStateDB.GetCode,
      Scenario.alice, Scenario.bob]

/-! ## C38: `MsgRegisterSpotMarket.ValidateBasic` -/

/-- What the format AAA/BBB is: exactly two parts between slashes, each non-empty after
trimming. -/
theorem pairFormat_iff (name : String) :
    pairFormat name = true ↔
      ∃ part0 part1, SplitSlash name.toList = [part0, part1] ∧ TrimSpace part0 ≠ [] ∧
        TrimSpace part1 ≠ [] := by
  unfold pairFormat
  cases hs : SplitSlash name.toList with
  | nil => simp
  | cons p0 rest =>
    cases rest with
    | nil => simp
    | cons p1 rest2 =>
      cases rest2 with
      | nil =>
        simp only [Bool.and_eq_true, Bool.not_eq_true', beq_eq_false_iff_ne, ne_eq,
          List.length_eq_zero, List.cons.injEq, and_true]
        constructor
        · rintro ⟨h0, h1⟩
          exact ⟨p0, p1, ⟨rfl, rfl⟩, h0, h1⟩
        · rintro ⟨q0, q1, ⟨e0, e1⟩, h0, h1⟩
          subst e0
          subst e1
          exact ⟨h0, h1⟩
      | cons p2 rest3 => simp

/-- The format test of `ValidateBasic` is the negation of `pairFormat`. -/
theorem badFormat_eq (name : String) :
    (match SplitSlash name.toList with
      | [part0, part1] => (TrimSpace part0).length == 0 || (TrimSpace part1).length == 0
      | _ => true) = !pairFormat name := by
  unfold pairFormat
  cases SplitSlash name.toList with
  | nil => rfl
  | cons p0 rest =>
    cases rest with
    | nil => rfl
    | cons p1 rest2 =>
      cases rest2 with
      | nil => simp only [Bool.not_and, Bool.not_not]
      | cons p2 rest3 => rfl

/-- A name of the format AAA/BBB is not empty. -/
theorem pairFormat_ne_empty {name : String} (h : pairFormat name = true) : name ≠ "" := by
  intro hn
  rw [hn] at h
  cases h

/-- A byte string has length 0 exactly when it is empty. -/
theorem length_beq_zero (l : List Nat) : (l.length == 0) = true ↔ l = [] := by
  cases l <;> simp

/-- The outcome of `MsgRegisterSpotMarket.ValidateBasic`, check by check. -/
theorem registerSpotMarket_outcome (msg : MsgRegisterSpotMarket) :
    msg.ValidateBasic =
      if msg.Sender = [] then some .ErrInvalidAddress
      else if msg.Name = "" then some (.ErrBadField "no trade pair name specified")
      else if pairFormat msg.Name = false then
        some (.ErrBadField "pair name must be in format AAA/BBB")
      else if msg.MakerAssetData = [] then
        some (.ErrBadField "no maker asset data specified")
      else if msg.TakerAssetData = [] then
        some (.ErrBadField "no taker asset data specified")
      else none := by
  have hname : (msg.Name.toList.length == 0) = true ↔ msg.Name = "" := by
    constructor
    · intro h
      have h0 : msg.Name.toList = [] := by
        cases hl : msg.Name.toList with
        | nil => rfl
        | cons c cs => rw [hl] at h; cases h
      exact String.ext h0
    · intro h
      rw [h]
      rfl
  unfold MsgRegisterSpotMarket.ValidateBasic
  simp only [badFormat_eq]
  by_cases hs : msg.Sender = []
  · rw [if_pos hs, if_pos ((length_beq_zero _).2 hs)]
  · rw [if_neg hs, if_neg (fun h => hs ((length_beq_zero _).1 h))]
    by_cases hn : msg.Name = ""
    · rw [if_pos hn, if_pos (hname.2 hn)]
    · rw [if_neg hn, if_neg (fun h => hn (hname.1 h))]
      cases hf : pairFormat msg.Name with
      | false => simp only [Bool.not_false, if_true]
      | true =>
        simp only [Bool.not_true, Bool.false_eq_true, if_false, Bool.true_eq_false]
        by_cases hm : msg.MakerAssetData = []
        · rw [if_pos hm, if_pos ((length_beq_zero _).2 hm)]
        · rw [if_neg hm, if_neg (fun h => hm ((length_beq_zero _).1 h))]
          by_cases ht : msg.TakerAssetData = []
          · rw [if_pos ht, if_pos ((length_beq_zero _).2 ht)]
          · rw [if_neg ht, if_neg (fun h => ht ((length_beq_zero _).1 h))]

/-- C38.  `MsgRegisterSpotMarket.ValidateBasic` returns nil exactly when the sender is
non-empty, the name has the format AAA/BBB (it splits on "/" into exactly two parts,
each non-empty after trimming white space), and the maker and the taker asset data are
non-empty.  The checks are made in this order, and the first one that fails determines
the error: `ErrInvalidAddress` for an empty sender; then `ErrBadField` for the name,
with the description "no trade pair name specified" when it is empty and "pair name
must be in format AAA/BBB" otherwise; then `ErrBadField` for the maker asset data; then
`ErrBadField` for the taker asset data. -/
theorem C38_registerSpotMarket_validateBasic (msg : MsgRegisterSpotMarket) :
    (msg.ValidateBasic = none ↔
        msg.Sender ≠ [] ∧
          (∃ part0 part1, SplitSlash msg.Name.toList = [part0, part1] ∧
            TrimSpace part0 ≠ [] ∧ TrimSpace part1 ≠ []) ∧
          msg.MakerAssetData ≠ [] ∧ msg.TakerAssetData ≠ []) ∧
      (msg.Sender = [] → msg.ValidateBasic = some .ErrInvalidAddress) ∧
      (msg.Sender ≠ [] → msg.Name = "" →
        msg.ValidateBasic = some (.ErrBadField "no trade pair name specified")) ∧
      (msg.Sender ≠ [] → msg.Name ≠ "" → pairFormat msg.Name = false →
        msg.ValidateBasic = some (.ErrBadField "pair name must be in format AAA/BBB")) ∧
      (msg.Sender ≠ [] → pairFormat msg.Name = true → msg.MakerAssetData = [] →
        msg.ValidateBasic = some (.ErrBadField "no maker asset data specified")) ∧
      (msg.Sender ≠ [] → pairFormat msg.Name = true → msg.MakerAssetData ≠ [] →
        msg.TakerAssetData = [] →
        msg.ValidateBasic = some (.ErrBadField "no taker asset data specified")) ∧
      (pairFormat msg.Name = true ↔
        ∃ part0 part1, SplitSlash msg.Name.toList = [part0, part1] ∧
          TrimSpace part0 ≠ [] ∧ TrimSpace part1 ≠ []) ∧
      MsgRegisterSpotMarket.ValidateBasic
          { Sender := [1], Name := "AAA/BBB", MakerAssetData := [1], TakerAssetData := [2],
            Enabled := true } = none ∧
      MsgRegisterSpotMarket.ValidateBasic
          { Sender := [1], Name := "AAA/ ", MakerAssetData := [1], TakerAssetData := [2],
            Enabled := true } = some (.ErrBadField "pair name must be in format AAA/BBB") ∧
      MsgRegisterSpotMarket.ValidateBasic
          { Sender := [1], Name := "A/B/C", MakerAssetData := [1], TakerAssetData := [2],
            Enabled := true } = some (.ErrBadField "pair name must be in format AAA/BBB") := by
  have hout := registerSpotMarket_outcome msg
  have hnf : ∀ {b : Bool}, b = true → ¬ (b = false) := by
    intro b h1 h2
    rw [h1] at h2
    cases h2
  refine ⟨?_, fun hs => ?_, fun hs hn => ?_, fun hs hn hf => ?_, fun hs hf hm => ?_,
    fun hs hf hm ht => ?_, pairFormat_iff msg.Name, ?_, ?_, ?_⟩
  · rw [hout, ← pairFormat_iff]
    constructor
    · intro h
      by_cases hs : msg.Sender = []
      · rw [if_pos hs] at h; cases h
      · rw [if_neg hs] at h
        by_cases hn : msg.Name = ""
        · rw [if_pos hn] at h; cases h
        · rw [if_neg hn] at h
          cases hf : pairFormat msg.Name with
          | false => rw [if_pos hf] at h; cases h
          | true =>
            rw [if_neg (hnf hf)] at h
            by_cases hm : msg.MakerAssetData = []
            · rw [if_pos hm] at h; cases h
            · rw [if_neg hm] at h
              by_cases ht : msg.TakerAssetData = []
              · rw [if_pos ht] at h; cases h
              · exact ⟨hs, rfl, hm, ht⟩
    · rintro ⟨hs, hf, hm, ht⟩
      rw [if_neg hs, if_neg (pairFormat_ne_empty hf), if_neg (hnf hf), if_neg hm, if_neg ht]
  · rw [hout, if_pos hs]
  · rw [hout, if_neg hs, if_pos hn]
  · rw [hout, if_neg hs, if_neg hn, if_pos hf]
  · rw [hout, if_neg hs, if_neg (pairFormat_ne_empty hf), if_neg (hnf hf), if_pos hm]
  · rw [hout, if_neg hs, if_neg (pairFormat_ne_empty hf), if_neg (hnf hf), if_neg hm,
      if_pos ht]
  · decide
  · decide
  · decide

/-! ## C39: a signed order survives the passage through `SafeSignedOrder` -/

/-- A decimal digit is read back from its character. -/
theorem digitValue_digitChar {d : Nat} (h : d < 10) : digitValue (digitChar d) = some d := by
  interval_cases d <;> rfl

/-- The characters of digits are none of the sign and prefix characters. -/
theorem digitChar_plain {d : Nat} (h : d < 10) :
    digitChar d ≠ '+' ∧ digitChar d ≠ '-' ∧ digitChar d ≠ 'x' ∧ digitChar d ≠ 'X' := by
  interval_cases d <;> decide

/-- Reading the characters of a list of decimal digits folds the digits into the
accumulator. -/
theorem parseDigits_map (digits : List Nat) (h : ∀ d ∈ digits, d < 10) (acc : Nat) :
    parseDigits (digits.map digitChar) acc =
      some (digits.foldl (fun a d => a * 10 + d) acc) := by
  induction digits generalizing acc with
  | nil => rfl
  | cons d rest ih =>
    have hd : d < 10 := h d (List.mem_cons_self _ _)
    simp only [List.map_cons, parseDigits, digitValue_digitChar hd, List.foldl_cons]
    exact ih (fun x hx => h x (List.mem_cons_of_mem _ hx)) _

/-- Folding the digits from the most significant one gives the number they denote. -/
theorem foldl_reverse_ofDigits (digits : List Nat) :
    digits.reverse.foldl (fun a d => a * 10 + d) 0 = Nat.ofDigits 10 digits := by
  induction digits with
  | nil => rfl
  | cons d rest ih =>
    rw [List.reverse_cons, List.foldl_append, ih, Nat.ofDigits_cons]
    simp only [List.foldl_cons, List.foldl_nil]
    omega

/-- The characters of a decimal representation are those of digits. -/
theorem decimal_chars (n : Nat) : ∀ c ∈ decimal n, ∃ d, d < 10 ∧ c = digitChar d := by
  intro c hc
  unfold decimal at hc
  by_cases hn : n = 0
  · rw [if_pos hn] at hc
    rw [List.mem_singleton] at hc
    exact ⟨0, by decide, by rw [hc]; rfl⟩
  · rw [if_neg hn] at hc
    obtain ⟨d, hd, rfl⟩ := List.mem_map.1 hc
    exact ⟨d, Nat.digits_lt_base (by decide) (List.mem_reverse.1 hd), rfl⟩

/-- A decimal representation has at least one digit. -/
theorem decimal_ne_nil (n : Nat) : decimal n ≠ [] := by
  unfold decimal
  by_cases hn : n = 0
  · rw [if_pos hn]
    exact List.cons_ne_nil _ _
  · rw [if_neg hn]
    intro h
    rw [List.map_eq_nil_iff, List.reverse_eq_nil_iff] at h
    exact hn (Nat.digits_eq_nil_iff_eq_zero.1 h)

/-- The decimal representation of a number reads back as the number. -/
theorem parseDigits_decimal (n : Nat) : parseDigits (decimal n) 0 = some n := by
  unfold decimal
  by_cases hn : n = 0
  · rw [if_pos hn, hn]
    rfl
  · rw [if_neg hn, parseDigits_map _ (fun d hd =>
      Nat.digits_lt_base (by decide) (List.mem_reverse.1 hd)), foldl_reverse_ofDigits,
      Nat.ofDigits_digits]

/-- A string that starts with neither sign is read as its digits. -/
theorem SetString10_unsigned (c : Char) (rest : List Char) (hminus : c ≠ '-')
    (hplus : c ≠ '+') :
    SetString10 (String.mk (c :: rest)) =
      (parseDigits (c :: rest) 0).map fun n => (n : Int) := by
  unfold SetString10
  split <;> simp_all

/-- A string that starts with the minus sign and goes on is read as the opposite of its
digits. -/
theorem SetString10_minus (c : Char) (rest : List Char) :
    SetString10 (String.mk ('-' :: c :: rest)) =
      (parseDigits (c :: rest) 0).map fun n => -(n : Int) := by
  unfold SetString10
  split <;> simp_all

/-- A string with the prefix "0x" or "0X" contains the letter. -/
theorem hasHexPrefix_mem {s : List Char} (h : hasHexPrefix s = true) :
    ∃ c ∈ s, c = 'x' ∨ c = 'X' := by
  match s, h with
  | c0 :: c1 :: rest, h =>
    simp only [hasHexPrefix, Bool.and_eq_true, Bool.or_eq_true, beq_iff_eq] at h
    exact ⟨c1, List.mem_cons_of_mem _ (List.mem_cons_self _ _), h.2⟩

/-- The string that `String` prints for an integer has no hexadecimal prefix. -/
theorem printed_no_hexPrefix (v : Int) :
    hasHexPrefix (bigString (some v)).toList = false := by
  cases hpre : hasHexPrefix (bigString (some v)).toList with
  | false => rfl
  | true =>
    exfalso
    obtain ⟨c, hc, hx⟩ := hasHexPrefix_mem hpre
    have hplain : ∀ c ∈ decimal v.natAbs, ¬ (c = 'x' ∨ c = 'X') := by
      intro c hc hx
      obtain ⟨d, hd, rfl⟩ := decimal_chars _ c hc
      cases hx with
      | inl h => exact (digitChar_plain hd).2.2.1 h
      | inr h => exact (digitChar_plain hd).2.2.2 h
    have hs : (bigString (some v)).toList =
        if v < 0 then '-' :: decimal v.natAbs else decimal v.natAbs := rfl
    rw [hs] at hc
    by_cases hv : v < 0
    · rw [if_pos hv] at hc
      cases List.mem_cons.1 hc with
      | inl h =>
        subst h
        cases hx with
        | inl h => exact absurd h (by decide)
        | inr h => exact absurd h (by decide)
      | inr h => exact hplain c h hx
    · rw [if_neg hv] at hc
      exact hplain c hc hx

/-- The string that `String` prints for an integer reads back in base 10 as the
integer. -/
theorem SetString10_bigString (v : Int) : SetString10 (bigString (some v)) = some v := by
  have hs : bigString (some v) =
      String.mk (if v < 0 then '-' :: decimal v.natAbs else decimal v.natAbs) := rfl
  rw [hs]
  cases hd : decimal v.natAbs with
  | nil => exact absurd hd (decimal_ne_nil _)
  | cons c rest =>
    obtain ⟨d, hlt, hc⟩ := decimal_chars v.natAbs c (by rw [hd]; exact List.mem_cons_self _ _)
    have hp : parseDigits (c :: rest) 0 = some v.natAbs := by
      rw [← hd]
      exact parseDigits_decimal _
    by_cases hv : v < 0
    · rw [if_pos hv, SetString10_minus, hp]
      simp only [Option.pure_def, Option.bind_eq_bind, Option.some_bind, Option.map_some',
        Option.some.injEq]
      omega
    · rw [if_neg hv, SetString10_unsigned c rest (by rw [hc]; exact (digitChar_plain hlt).2.1)
        (by rw [hc]; exact (digitChar_plain hlt).1), hp]
      simp only [Option.pure_def, Option.bind_eq_bind, Option.some_bind, Option.map_some',
        Option.some.injEq]
      omega

/-- The string that `String` prints is not empty. -/
theorem bigString_ne_empty (v : Int) : bigString (some v) ≠ "" := by
  intro h
  have hl : (bigString (some v)).toList = [] := by rw [h]; rfl
  have hs : (bigString (some v)).toList =
      if v < 0 then '-' :: decimal v.natAbs else decimal v.natAbs := rfl
  rw [hs] at hl
  by_cases hv : v < 0
  · rw [if_pos hv] at hl
    cases hl
  · rw [if_neg hv] at hl
    exact decimal_ne_nil _ hl

/-- An integer of at most 256 bits survives `String` followed by `ParseBig256`. -/
theorem ParseBig256_bigString {v : Int} (h : bigBitLen v ≤ 256) :
    ParseBig256 (bigString (some v)) = some v := by
  unfold ParseBig256
  rw [if_neg (bigString_ne_empty v)]
  simp only [printed_no_hexPrefix, Bool.false_eq_true, if_false, SetString10_bigString]
  rw [if_neg (by omega)]

/-- An integer that fits in 64 bits is the value of its `Int64`. -/
theorem signedInt64_of_fits {v : Int} (hlo : -2 ^ 63 ≤ v) (hhi : v < 2 ^ 63) :
    signedInt64 v = v := by
  unfold signedInt64 wrapInt64 bigInt64
  simp only
  split_ifs <;> omega

/-- C39.  For every `zeroex.SignedOrder` `o` whose `ChainID` is non-nil and fits in a
signed 64-bit integer and whose six amount fields (`MakerAssetAmount`,
`TakerAssetAmount`, `MakerFee`, `TakerFee`, `ExpirationTimeSeconds`, `Salt`) are non-nil
integers of at most 256 bits, `NewSafeSignedOrder(o)` returns a safe order `m` without
a panic, and `m.ToSignedOrder()` returns, again without a panic, an order equal to `o`
field for field. -/
theorem C39_safe_order_round_trip (o : zeroex.SignedOrder)
    (hchain : ∃ c, o.Order.ChainID = some c ∧ -2 ^ 63 ≤ c ∧ c < 2 ^ 63)
    (hamounts : ∀ amount ∈ [o.Order.MakerAssetAmount, o.Order.TakerAssetAmount,
        o.Order.MakerFee, o.Order.TakerFee, o.Order.ExpirationTimeSeconds, o.Order.Salt],
      ∃ v, amount = some v ∧ bigBitLen v ≤ 256) :
    ∃ m, NewSafeSignedOrder (some o) = .ok (some m) ∧ ToSignedOrder (some m) = .ok (some o) := by
  obtain ⟨c, hc, hlo, hhi⟩ := hchain
  obtain ⟨v1, e1, b1⟩ := hamounts o.Order.MakerAssetAmount (by simp)
  obtain ⟨v2, e2, b2⟩ := hamounts o.Order.TakerAssetAmount (by simp)
  obtain ⟨v3, e3, b3⟩ := hamounts o.Order.MakerFee (by simp)
  obtain ⟨v4, e4, b4⟩ := hamounts o.Order.TakerFee (by simp)
  obtain ⟨v5, e5, b5⟩ := hamounts o.Order.ExpirationTimeSeconds (by simp)
  obtain ⟨v6, e6, b6⟩ := hamounts o.Order.Salt (by simp)
  obtain ⟨⟨cid, a1, a2, d1, d2, x1, x2, a3, d3, d4, x3, x4, a4, a5, x5, x6⟩, sig⟩ := o
  simp only at hc e1 e2 e3 e4 e5 e6
  subst hc e1 e2 e3 e4 e5 e6
  refine ⟨_, rfl, ?_⟩
  simp only [ToSignedOrder, so2zo, ParseBig256_bigString b1, ParseBig256_bigString b2,
    ParseBig256_bigString b3, ParseBig256_bigString b4, ParseBig256_bigString b5,
    ParseBig256_bigString b6, signedInt64_of_fits hlo hhi]

/-- C39 at `Scenario.order`: the hypotheses hold there, and so does the conclusion. -/
theorem C39_safe_order_round_trip_witness :
    (∃ c, Scenario.order.Order.ChainID = some c ∧ -2 ^ 63 ≤ c ∧ c < 2 ^ 63) ∧
      (∃ m, NewSafeSignedOrder (some Scenario.order) = .ok (some m) ∧
        ToSignedOrder (some m) = .ok (some Scenario.order)) :=
  ⟨⟨1, rfl, by decide, by decide⟩,
    C39_safe_order_round_trip Scenario.order ⟨1, rfl, by decide, by decide⟩ (by
      intro amount h
      simp only [Scenario.order, List.mem_cons, List.mem_singleton, List.not_mem_nil,
        or_false] at h
      have hb : ∀ n : Nat, n < 2 ^ 256 → Nat.size n ≤ 256 := fun n hn => Nat.size_le.2 hn
      rcases h with h | h | h | h | h | h <;> subst h
      · exact ⟨100, rfl, hb _ (by norm_num)⟩
      · exact ⟨250, rfl, hb _ (by norm_num)⟩
      · exact ⟨0, rfl, hb _ (by norm_num)⟩
      · exact ⟨-7, rfl, hb _ (by norm_num)⟩
      · exact ⟨1600000000, rfl, hb _ (by norm_num)⟩
      · exact ⟨42, rfl, hb _ (by norm_num)⟩)⟩

/-! ## C40: `ValidateBasic` of the order messages can panic -/

/-- The amount "1" is read as the integer 1. -/
theorem ParseBig256_one : ParseBig256 "1" = some 1 := by
  have h : ParseBig256 (bigString (some 1)) = some 1 :=
    ParseBig256_bigString (Nat.size_le.2 (by norm_num))
  have hs : bigString (some 1) = "1" := by
    simp [bigString, decimal, digitChar]
  rw [hs] at h
  exact h

/-- The safe order with the amounts 1 is turned into the signed order with the amounts
1. -/
theorem ToSignedOrder_safeOrder (signature : List Nat) :
    ToSignedOrder (some (Scenario.safeOrder "1" signature)) =
      .ok (some (Scenario.signedOrder signature)) := by
  simp only [ToSignedOrder, so2zo, Scenario.safeOrder, ParseBig256_one]
  rfl

/-- The validation of a signature indexes an empty signature out of range. -/
theorem isValidSignature_empty (types : SignatureTypes) :
    isValidSignature types [] = .error (.message "runtime error: index out of range [-1]") :=
  rfl

/-- C40.  `ValidateBasic` of the order messages is not total: with a non-empty sender,
(1) `MsgCreateSpotOrder` and `MsgCreateDerivativeOrder` panic in `ToSignedOrder` when an
amount of the order does not parse as a 256-bit integer, whatever the environment;
(2) they panic with an index out of range when the order has an empty signature and its
hash is computed; (3) `MsgRequestFillSpotOrder` and `MsgRequestSoftCancelSpotOrder`
panic with a nil dereference when `TxOrigin` is not empty and `SignedTransaction` is
nil; (4) they panic with an index out of range when the signed transaction passes the
checks before the one of its signature and that signature is empty. -/
theorem C40_validateBasic_of_order_messages_panics (env : OrdersEnv) :
    MsgCreateSpotOrder.ValidateBasic env
        { Sender := [1], Order := some (Scenario.safeOrder "abc" [2]) } =
        .error (.message "makerAssetAmmount parse failed") ∧
      MsgCreateDerivativeOrder.ValidateBasic env
        { Sender := [1], Order := some (Scenario.safeOrder "abc" [2]),
          InitialQuantityMatched := "1" } =
        .error (.message "makerAssetAmmount parse failed") ∧
      ((∃ hash, env.ComputeOrderHash (Scenario.signedOrder []) = .ok hash) →
        MsgCreateSpotOrder.ValidateBasic env
            { Sender := [1], Order := some (Scenario.safeOrder "1" []) } =
            .error (.message "runtime error: index out of range [-1]") ∧
          MsgCreateDerivativeOrder.ValidateBasic env
            { Sender := [1], Order := some (Scenario.safeOrder "1" []),
              InitialQuantityMatched := "1" } =
            .error (.message "runtime error: index out of range [-1]")) ∧
      (∀ (sender approval : List Nat) (txOrigin : OrdersAddress),
        sender ≠ [] → env.IsEmpty txOrigin = false →
        MsgRequestFillSpotOrder.ValidateBasic env
            { Sender := sender, SignedTransaction := none, TxOrigin := txOrigin,
              ApprovalSignature := approval } = .error .nilPointer ∧
          MsgRequestSoftCancelSpotOrder.ValidateBasic env
            { Sender := sender, SignedTransaction := none, TxOrigin := txOrigin,
              ApprovalSignature := approval } = .error .nilPointer) ∧
      (∀ (txOrigin signer contract : OrdersAddress),
        env.IsEmpty txOrigin = false → env.IsEmpty signer = false →
        env.IsEmpty contract = false →
        MsgRequestFillSpotOrder.ValidateBasic env
            { Sender := [1],
              SignedTransaction := some
                { Salt := "1", SignerAddress := signer,
                  Domain := { VerifyingContract := contract, ChainID := "1" },
                  GasPrice := "1", ExpirationTimeSeconds := "1", Signature := [] },
              TxOrigin := txOrigin, ApprovalSignature := [2] } =
            .error (.message "runtime error: index out of range [-1]") ∧
          MsgRequestSoftCancelSpotOrder.ValidateBasic env
            { Sender := [1],
              SignedTransaction := some
                { Salt := "1", SignerAddress := signer,
                  Domain := { VerifyingContract := contract, ChainID := "1" },
                  GasPrice := "1", ExpirationTimeSeconds := "1", Signature := [] },
              TxOrigin := txOrigin, ApprovalSignature := [2] } =
            .error (.message "runtime error: index out of range [-1]")) ∧
      (∃ hash, Scenario.ordersEnv.ComputeOrderHash (Scenario.signedOrder []) = .ok hash) ∧
      Scenario.ordersEnv.IsEmpty ⟨16⟩ = false ∧
      MsgRequestFillSpotOrder.ValidateBasic Scenario.ordersEnv
          { Sender := [1], SignedTransaction := none, TxOrigin := ⟨16⟩,
            ApprovalSignature := [2] } = .error .nilPointer := by
  have hbad : ∀ order : Option SafeSignedOrder,
      order = some (Scenario.safeOrder "abc" [2]) →
      validateOrder env order = .error (.message "makerAssetAmmount parse failed") := by
    intro order ho
    subst ho
    rfl
  have hempty : (∃ hash, env.ComputeOrderHash (Scenario.signedOrder []) = .ok hash) →
      validateOrder env (some (Scenario.safeOrder "1" [])) =
        .error (.message "runtime error: index out of range [-1]") := by
    rintro ⟨hash, hh⟩
    simp only [validateOrder, ToSignedOrder_safeOrder, hh]
    rfl
  refine ⟨hbad _ rfl, hbad _ rfl, fun hh => ⟨hempty hh, hempty hh⟩, ?_, ?_, ⟨0, rfl⟩, rfl, rfl⟩
  · intro sender approval txOrigin hs ht
    have hlen : (sender.length == 0) = false := by
      cases sender with
      | nil => exact absurd rfl hs
      | cons b bs => rfl
    constructor
    · simp only [MsgRequestFillSpotOrder.ValidateBasic, hlen, ht, Bool.false_eq_true,
        if_false]
    · simp only [MsgRequestSoftCancelSpotOrder.ValidateBasic, hlen, ht, Bool.false_eq_true,
        if_false]
  · intro txOrigin signer contract ht hsg hc
    constructor
    · simp only [MsgRequestFillSpotOrder.ValidateBasic, ht, hsg, hc, Bool.false_eq_true,
        if_false, isValidSignature_empty]
      rfl
    · simp only [MsgRequestSoftCancelSpotOrder.ValidateBasic, ht, hsg, hc,
        Bool.false_eq_true, if_false, isValidSignature_empty]
      rfl

end Ethermint
